import Mathlib

/-!
# Kitler: lexer, parser and tree-walking evaluator

A shallow embedding of `lexer.c`, `parser.c`, `interpreter.c`, `types.c` and `main.c`.

* C strings are `List Char`: the characters before the terminating NUL.
* Heap objects (`Value`, `Scope`) live in lists indexed by their address; a freed scope is
  kept as an empty slot, so a read through a dangling pointer is visible as an outcome.
* Loops and recursion that the C code does not bound are driven by a fuel argument; running
  out of fuel is the outcome `none` / `Fault.out_of_fuel`, never a made-up result.
* `double` is IEEE-754 binary64 with round-to-nearest-even (section `Double`), the
  arithmetic that `atof`, `fmod`, `printf("%g")` and the C operators perform. What the
  standard asks of an operation is stated apart from these functions, on the rational
  numbers (`Double.real`, `Double.rounds`, `arithmetic_754`).
-/

namespace Kitler

/-! ## `double` and the C library functions used on it -/

/-- An IEEE-754 binary64 datum: sign bit, 11-bit biased exponent field, 52-bit fraction field. -/
structure Double where
  sign : Bool
  expo : Nat
  frac : Nat
deriving DecidableEq, Repr

namespace Double

/-- Positive zero, the all-zero bit pattern. -/
def zero : Double := ⟨false, 0, 0⟩

/-- The infinity of the given sign. -/
def inf (s : Bool) : Double := ⟨s, 2047, 0⟩

/-- The quiet NaN produced by an invalid operation (sign bit set, as on x86-64). -/
def nan : Double := ⟨true, 2047, 2 ^ 51⟩

def isNaN (d : Double) : Bool := d.expo == 2047 && d.frac != 0

def isInf (d : Double) : Bool := d.expo == 2047 && d.frac == 0

/-- Magnitude in units of `2^-1074` (every finite double is a whole number of them). -/
def mag (d : Double) : Nat :=
  if d.expo = 0 then d.frac else (2 ^ 52 + d.frac) * 2 ^ (d.expo - 1)

/-- Signed magnitude, used to order non-NaN doubles (both zeros map to 0). -/
def toInt (d : Double) : Int := if d.sign then - (d.mag : Int) else (d.mag : Int)

/-- Number of binary digits of `n`; the fuel bounds the loop. -/
def bitlen : Nat → Nat → Nat
  | 0, _ => 0
  | f + 1, n => if n = 0 then 0 else bitlen f (n / 2) + 1

/-- The quotient `a / b` rounded to the nearest integer, ties to even. -/
def roundHalfEven (a b : Nat) : Nat :=
  let q := a / b
  let r := a % b
  if 2 * r > b ∨ (2 * r = b ∧ q % 2 = 1) then q + 1 else q

/-- The double nearest to `a / b` units of `2^-1074` (ties to even, overflow to infinity). -/
def ofUnits (s : Bool) (a b : Nat) : Double :=
  let q := a / b
  let shift := bitlen (q + 1) q - 53
  let m := roundHalfEven a (b * 2 ^ shift)
  if m < 2 ^ 52 then ⟨s, 0, m⟩
  else
    let m1 := if m ≥ 2 ^ 53 then m / 2 else m
    let e := if m ≥ 2 ^ 53 then shift + 2 else shift + 1
    if e ≥ 2047 then inf s else ⟨s, e, m1 - 2 ^ 52⟩

def neg (d : Double) : Double := { d with sign := !d.sign }

/-- C `a + b`. -/
def add (a b : Double) : Double :=
  if a.isNaN then a else if b.isNaN then b
  else if a.isInf then (if b.isInf && a.sign != b.sign then nan else a)
  else if b.isInf then b
  else if a.sign = b.sign then ofUnits a.sign (a.mag + b.mag) 1
  else if a.mag > b.mag then ofUnits a.sign (a.mag - b.mag) 1
  else if a.mag < b.mag then ofUnits b.sign (b.mag - a.mag) 1
  else zero

/-- C `a - b`. -/
def sub (a b : Double) : Double :=
  if b.isNaN then (if a.isNaN then a else b) else add a (neg b)

/-- C `a * b`. -/
def mul (a b : Double) : Double :=
  if a.isNaN then a else if b.isNaN then b
  else if a.isInf || b.isInf then
    (if a.mag = 0 || b.mag = 0 then nan else inf (a.sign != b.sign))
  else ofUnits (a.sign != b.sign) (a.mag * b.mag) (2 ^ 1074)

/-- C `a / b`. -/
def div (a b : Double) : Double :=
  if a.isNaN then a else if b.isNaN then b
  else if a.isInf then (if b.isInf then nan else inf (a.sign != b.sign))
  else if b.isInf then ⟨a.sign != b.sign, 0, 0⟩
  else if b.mag = 0 then (if a.mag = 0 then nan else inf (a.sign != b.sign))
  else ofUnits (a.sign != b.sign) (a.mag * 2 ^ 1074) b.mag

/-- C library `fmod(a, b)`: the exact remainder, with the sign of `a`. -/
def fmod (a b : Double) : Double :=
  if a.isNaN then a else if b.isNaN then b
  else if a.isInf || b.mag = 0 then nan
  else if b.isInf then a
  else ofUnits a.sign (a.mag % b.mag) 1

/-- C `a == b`. -/
def eq (a b : Double) : Bool := !a.isNaN && !b.isNaN && decide (a.toInt = b.toInt)

/-- C `a != b`. -/
def ne (a b : Double) : Bool := !(eq a b)

/-- C `a < b`. -/
def lt (a b : Double) : Bool := !a.isNaN && !b.isNaN && decide (a.toInt < b.toInt)

/-- C `a <= b`. -/
def le (a b : Double) : Bool := !a.isNaN && !b.isNaN && decide (a.toInt ≤ b.toInt)

/-- C `a > b`. -/
def gt (a b : Double) : Bool := lt b a

/-- C `a >= b`. -/
def ge (a b : Double) : Bool := le b a

/-- Value of a run of decimal digits, continuing from `acc`. -/
def digitsValue : List Char → Nat → Nat
  | [], acc => acc
  | c :: cs, acc => digitsValue cs (acc * 10 + (c.toNat - 48))

/-- C library `atof` on the strings the lexer hands it: decimal digits, optionally followed
by a point and more digits. The result is the double nearest to the decimal value. -/
def atof (s : List Char) : Double :=
  let ip := s.takeWhile Char.isDigit
  let rest := s.dropWhile Char.isDigit
  let fp := match rest with
    | '.' :: r => r.takeWhile Char.isDigit
    | _ => []
  ofUnits false (digitsValue (ip ++ fp) 0 * 2 ^ 1074) (10 ^ fp.length)

/-- Number of decimal digits of `n`; the fuel bounds the loop. -/
def declen : Nat → Nat → Nat
  | 0, _ => 0
  | f + 1, n => if n = 0 then 0 else declen f (n / 10) + 1

/-- Least `k ≥ 1` with `u * 10^k ≥ 2^1074`, searched upward from `k`; the fuel bounds it. -/
def negExp10 : Nat → Nat → Nat → Nat
  | 0, _, k => k
  | f + 1, u, k => if u * 10 ^ k ≥ 2 ^ 1074 then k else negExp10 f u (k + 1)

/-- The decimal digits of `n`, most significant first, padded to `w` digits. -/
def decDigits : Nat → Nat → List Char
  | 0, _ => []
  | w + 1, n => decDigits w (n / 10) ++ [Char.ofNat (48 + n % 10)]

/-- Text with the trailing `'0'` characters removed. -/
def stripZeros (ds : List Char) : List Char :=
  (ds.reverse.dropWhile (· == '0')).reverse

/-- A fractional part as printed by `%g`: nothing when it is all zeros. -/
def fracText (ds : List Char) : List Char :=
  match stripZeros ds with
  | [] => []
  | r => '.' :: r

/-- C library `printf("%g", d)`: six significant digits, trailing zeros removed, exponent
notation when the decimal exponent is below -4 or at least 6. -/
def fmt_g (d : Double) : List Char :=
  let sg : List Char := if d.sign then ['-'] else []
  if d.isNaN then sg ++ ['n', 'a', 'n']
  else if d.isInf then sg ++ ['i', 'n', 'f']
  else if d.mag = 0 then sg ++ ['0']
  else
    let u := d.mag
    let one := 2 ^ 1074
    -- decimal exponent of the exact value
    let big := decide (u ≥ one)
    let xa : Nat := if big then declen 400 (u / one) - 1 else negExp10 400 u 1
    -- six significant digits, rounded from the exact value
    let d0 : Nat :=
      if big then (if xa ≤ 5 then roundHalfEven (u * 10 ^ (5 - xa)) one
                   else roundHalfEven u (one * 10 ^ (xa - 5)))
      else roundHalfEven (u * 10 ^ (5 + xa)) one
    let carry := decide (d0 ≥ 10 ^ 6)
    let dg := decDigits 6 (if carry then d0 / 10 else d0)
    -- exponent after rounding: `xp` when `pos`, `-xn` otherwise
    let pos := big || (carry && xa == 1)
    let xp : Nat := if big then (if carry then xa + 1 else xa) else 0
    let xn : Nat := if carry then xa - 1 else xa
    if pos then
      if xp < 6 then sg ++ dg.take (xp + 1) ++ fracText (dg.drop (xp + 1))
      else sg ++ dg.take 1 ++ fracText (dg.drop 1) ++ ['e', '+'] ++ decDigits (max 2 (declen 4 xp)) xp
    else
      if xn ≤ 4 then sg ++ ['0', '.'] ++ List.replicate (xn - 1) '0' ++ stripZeros dg
      else sg ++ dg.take 1 ++ fracText (dg.drop 1) ++ ['e', '-'] ++ decDigits (max 2 (declen 4 xn)) xn

end Double

/-! ## Tokens (`types.h`) -/

/-- The `TokenType` enumeration of `types.h`. -/
inductive TokenType where
  | NUMBER | STRING | IDENTIFIER | TRUE | FALSE
  | INCLUDING | PROJECTSPACE | NEWVAR | NEWFUNC | NEWCLASS | NEWEVENT | NEWASYNC
  | IF | ELSE | WHILE | FOR | FOREACH | IN | SWITCH | CASE | DEFAULT | BREAK | RETURN
  | RUN | END | WHEN | THIS | NEW | AWAIT
  | PLUS | MINUS | STAR | SLASH | PERCENT | ASSIGN | EQUAL | NOT_EQUAL
  | LESS | LESS_EQUAL | GREATER | GREATER_EQUAL | AND | OR | NOT
  | LPAREN | RPAREN | LBRACKET | RBRACKET | LBRACE | RBRACE | COMMA | DOT | COLON | HASH
  | NEWLINE | EOF | ERROR
deriving DecidableEq, Repr

/-- The `value` union of a token: `create_token` stores `number = 0`; the lexer overwrites
it with the numeric payload (NUMBER) or with the string payload (STRING). -/
inductive TokenValue where
  | number (d : Double)
  | string (s : List Char)
deriving DecidableEq, Repr

/-- The `Token` struct of `types.h`. -/
structure Token where
  type : TokenType
  lexeme : List Char
  line : Nat
  column : Nat
  value : TokenValue
deriving DecidableEq, Repr

/-- `create_token` of `types.c`. -/
def create_token (type : TokenType) (lexeme : List Char) (line column : Nat) : Token :=
  { type := type, lexeme := lexeme, line := line, column := column, value := .number Double.zero }

/-! ## Lexer (`lexer.c`) -/

/-- The `Lexer` struct: `current` is the text from the cursor to the terminating NUL
(excluded). `overrun` records that the cursor was moved past the terminator; what the C
code reads there is not part of the source, the model reads NUL. -/
structure Lexer where
  current : List Char
  line : Nat
  column : Nat
  start_column : Nat
  overrun : Bool
deriving DecidableEq, Repr

def lexer_init (source : List Char) : Lexer :=
  { current := source, line := 1, column := 1, start_column := 1, overrun := false }

namespace Lexer

def is_at_end (lx : Lexer) : Bool := lx.current.isEmpty

def peek (lx : Lexer) : Char := lx.current.headD '\x00'

def peek_next (lx : Lexer) : Char :=
  match lx.current with
  | _ :: c :: _ => c
  | _ => '\x00'

def advance (lx : Lexer) : Lexer :=
  match lx.current with
  | [] => { lx with column := lx.column + 1, overrun := true }
  | _ :: cs => { lx with current := cs, column := lx.column + 1 }

/-- `match`. -/
def matchChar (lx : Lexer) (expected : Char) : Bool × Lexer :=
  if is_at_end lx then (false, lx)
  else if peek lx != expected then (false, lx)
  else (true, advance lx)

end Lexer

/-- The loop of `skip_whitespace` over the text at the cursor: rest and column reached. -/
def skip_whitespace_loop : List Char → Nat → List Char × Nat
  | [], col => ([], col)
  | c :: cs, col =>
    if c == ' ' || c == '\t' || c == '\r' then skip_whitespace_loop cs (col + 1)
    else (c :: cs, col)

def skip_whitespace (lx : Lexer) : Lexer :=
  let r := skip_whitespace_loop lx.current lx.column
  { lx with current := r.1, column := r.2 }

/-- The `while (!is_at_end(lexer))` loop of `skip_comment`, entered after `<--`. It returns
whether the closing `-->` was met, and the lexer reached. -/
def skip_comment_loop : List Char → Lexer → Bool × Lexer
  | [], lx => (false, lx)
  | '-' :: '-' :: rest, lx =>
    -- both dashes are consumed before the `>` test
    let lx2 := { lx with current := rest, column := lx.column + 2 }
    match rest with
    | '>' :: rest1 => (true, { lx2 with current := rest1, column := lx2.column + 1 })
    | [] => (false, Lexer.advance lx2)
    | c :: rest1 =>
      let lx3 := if c == '\n' then { lx2 with line := lx2.line + 1, column := 0 } else lx2
      skip_comment_loop rest1 { lx3 with current := rest1, column := lx3.column + 1 }
  | c :: rest, lx =>
    let lx1 := if c == '\n' then { lx with line := lx.line + 1, column := 0 } else lx
    skip_comment_loop rest { lx1 with current := rest, column := lx1.column + 1 }

/-- `skip_comment`: true when a whole comment `<-- ... -->` was skipped. When it answers
false the cursor may still have moved: `<-` is consumed before the third character is
tested, and an unclosed comment is consumed to the end. -/
def skip_comment (lx : Lexer) : Bool × Lexer :=
  if Lexer.peek lx == '<' && Lexer.peek_next lx == '-' then
    let lx2 := Lexer.advance (Lexer.advance lx)
    if Lexer.peek lx2 == '-' then
      let lx3 := Lexer.advance lx2
      skip_comment_loop lx3.current lx3
    else (false, lx2)
  else (false, lx)

/-- The scanning loop of `parse_string`, entered after the opening quote: the characters
passed over, then the lexer stopped at the closing quote or at the end. -/
def parse_string_loop : List Char → Lexer → List Char × Lexer
  | [], lx => ([], lx)
  | c :: rest, lx =>
    if c == '"' then ([], lx)
    else
      let lx1 := if c == '\n' then { lx with line := lx.line + 1, column := 0 } else lx
      let r := parse_string_loop rest { lx1 with current := rest, column := lx1.column + 1 }
      (c :: r.1, r.2)

def parse_string (lx : Lexer) : Token × Lexer :=
  let lx1 := Lexer.advance lx
  let r := parse_string_loop lx1.current lx1
  let lx2 := r.2
  if Lexer.is_at_end lx2 then
    (create_token .ERROR "Unterminated string".toList lx2.line lx2.start_column, lx2)
  else
    let string_value := r.1
    let lx3 := Lexer.advance lx2
    ({ create_token .STRING string_value lx3.line lx3.start_column with
        value := .string string_value }, lx3)

/-- The `while (isdigit(peek(lexer))) advance(lexer);` loop: digits passed, rest. -/
def digits_loop : List Char → List Char × List Char
  | [] => ([], [])
  | c :: cs =>
    if c.isDigit then ((digits_loop cs).1.cons c, (digits_loop cs).2) else ([], c :: cs)

def parse_number (lx : Lexer) : Token × Lexer :=
  let r := digits_loop lx.current
  let lx1 := { lx with current := r.2, column := lx.column + r.1.length }
  let r2 : List Char × Lexer :=
    if Lexer.peek lx1 == '.' && (Lexer.peek_next lx1).isDigit then
      let lx2 := Lexer.advance lx1
      let f := digits_loop lx2.current
      ('.' :: f.1, { lx2 with current := f.2, column := lx2.column + f.1.length })
    else ([], lx1)
  let number_str := r.1 ++ r2.1
  ({ create_token .NUMBER number_str r2.2.line r2.2.start_column with
      value := .number (Double.atof number_str) }, r2.2)

/-- The scanning loop of `parse_identifier`: characters passed, rest. -/
def identifier_loop : List Char → List Char × List Char
  | [] => ([], [])
  | c :: cs =>
    if c.isAlphanum || c == '_' || c == '.' then
      ((identifier_loop cs).1.cons c, (identifier_loop cs).2)
    else ([], c :: cs)

/-- The keyword chain of `parse_identifier`, in source order. -/
def keywords : List (List Char × TokenType) :=
  [("including".toList, .INCLUDING), ("projectSpace".toList, .PROJECTSPACE),
   ("NewVar".toList, .NEWVAR), ("NewFunc".toList, .NEWFUNC), ("NewClass".toList, .NEWCLASS),
   ("NewEvent".toList, .NEWEVENT), ("NewAsync".toList, .NEWASYNC), ("if".toList, .IF),
   ("else".toList, .ELSE), ("while".toList, .WHILE), ("for".toList, .FOR),
   ("foreach".toList, .FOREACH), ("in".toList, .IN), ("switch".toList, .SWITCH),
   ("case".toList, .CASE), ("default".toList, .DEFAULT), ("break".toList, .BREAK),
   ("return".toList, .RETURN), ("run".toList, .RUN), ("end".toList, .END),
   ("when".toList, .WHEN), ("this".toList, .THIS), ("New".toList, .NEW),
   ("await".toList, .AWAIT), ("true".toList, .TRUE), ("false".toList, .FALSE),
   ("and".toList, .AND), ("or".toList, .OR)]

def parse_identifier (lx : Lexer) : Token × Lexer :=
  let r := identifier_loop lx.current
  let lx1 := { lx with current := r.2, column := lx.column + r.1.length }
  let identifier := r.1
  let type := (keywords.lookup identifier).getD .IDENTIFIER
  (create_token type identifier lx1.line lx1.start_column, lx1)

/-- The `while (true) { skip_whitespace; if (!skip_comment) break; }` loop that opens
`lexer_next_token`. -/
def skip_trivia : Nat → Lexer → Option Lexer
  | 0, _ => none
  | fuel + 1, lx =>
    let r := skip_comment (skip_whitespace lx)
    if r.1 then skip_trivia fuel r.2 else some r.2

/-- A `return create_token(type, text, lexer->line, lexer->start_column)` of the final
`switch` of `lexer_next_token`. -/
def single_token (type : TokenType) (text : String) (lx : Lexer) : Token × Lexer :=
  (create_token type text.toList lx.line lx.start_column, lx)

/-- A `case` of that `switch` with one character of lookahead: `match(lexer, '=')` chooses
between the two-character token and the one-character token. -/
def lookahead_token (type2 : TokenType) (text2 : String) (type1 : TokenType) (text1 : String)
    (lx : Lexer) : Token × Lexer :=
  let m := Lexer.matchChar lx '='
  if m.1 then single_token type2 text2 m.2 else single_token type1 text1 m.2

/-- The token for the character `c` that `lexer_next_token` has just consumed (its final
`switch`, and the error token after it). -/
def punctuation (c : Char) (lx : Lexer) : Token × Lexer :=
  if c == '(' then single_token .LPAREN "(" lx
  else if c == ')' then single_token .RPAREN ")" lx
  else if c == '[' then single_token .LBRACKET "[" lx
  else if c == ']' then single_token .RBRACKET "]" lx
  else if c == '\x7b' then single_token .LBRACE "\x7b" lx
  else if c == '\x7d' then single_token .RBRACE "\x7d" lx
  else if c == ',' then single_token .COMMA "," lx
  else if c == '.' then single_token .DOT "." lx
  else if c == ':' then single_token .COLON ":" lx
  else if c == '#' then single_token .HASH "#" lx
  else if c == '+' then single_token .PLUS "+" lx
  else if c == '-' then single_token .MINUS "-" lx
  else if c == '*' then single_token .STAR "*" lx
  else if c == '/' then single_token .SLASH "/" lx
  else if c == '%' then single_token .PERCENT "%" lx
  else if c == '=' then lookahead_token .EQUAL "==" .ASSIGN "=" lx
  else if c == '!' then lookahead_token .NOT_EQUAL "!=" .NOT "!" lx
  else if c == '<' then lookahead_token .LESS_EQUAL "<=" .LESS "<" lx
  else if c == '>' then lookahead_token .GREATER_EQUAL ">=" .GREATER ">" lx
  else (create_token .ERROR ("Unexpected character: ".toList ++ [c]) lx.line lx.start_column, lx)

def lexer_next_token (fuel : Nat) (lx0 : Lexer) : Option (Token × Lexer) :=
  match skip_trivia fuel lx0 with
  | none => none
  | some lx1 =>
    let lx := { lx1 with start_column := lx1.column }
    if Lexer.is_at_end lx then some (create_token .EOF [] lx.line lx.column, lx)
    else
      let c := Lexer.peek lx
      if c == '\n' then
        let lx2 := Lexer.advance lx
        some (create_token .NEWLINE ['\\', 'n'] lx2.line lx2.start_column,
              { lx2 with line := lx2.line + 1, column := 1 })
      else if c == '"' then some (parse_string lx)
      else if c.isDigit then some (parse_number lx)
      else if c.isAlpha || c == '_' then some (parse_identifier lx)
      else some (punctuation c (Lexer.advance lx))

/-- The loop of `lexer_tokenize`: NEWLINE tokens are dropped, the first EOF or ERROR token
ends the sequence. -/
def lexer_tokenize_loop : Nat → Lexer → Option (List Token)
  | 0, _ => none
  | fuel + 1, lx =>
    match lexer_next_token fuel lx with
    | none => none
    | some (token, lx1) =>
      if token.type = .NEWLINE then lexer_tokenize_loop fuel lx1
      else if token.type = .EOF ∨ token.type = .ERROR then some [token]
      else (lexer_tokenize_loop fuel lx1).map (fun ts => token :: ts)

/-- `lexer_tokenize`: the tokens of `source` (their number is the C `*token_count`). -/
def lexer_tokenize (fuel : Nat) (source : List Char) : Option (List Token) :=
  lexer_tokenize_loop fuel (lexer_init source)

/-! ## Outcomes that are not a result -/

/-- Why a run of the model delivers no result: the fuel ran out (the C code would still be
running), or the C code performed a read whose result the language does not define. -/
inductive Fault where
  /-- The fuel ran out. -/
  | out_of_fuel
  /-- A token was read outside the parser's token array. -/
  | token_bounds
  /-- A union member was read that holds a pointer, or that was never written. -/
  | punned
  /-- A NULL pointer was dereferenced. -/
  | null_deref
  /-- A scope was read or written after `free_scope`, or through a pointer that is no scope. -/
  | scope_freed
  /-- A value was read after `free_value`, or through a pointer that is no value. -/
  | value_freed
deriving DecidableEq, Repr

/-! ## Syntax trees (`types.h`) -/

/-- The `literal` member of a node: `literal_type` with the matching `literal_value`. -/
inductive Literal where
  | number (d : Double)
  | string (s : List Char)
  | boolean (b : Bool)
  | null
deriving DecidableEq, Repr

/-- The `ASTNode` struct, one constructor per node type the parser builds (plus `program`);
`line` and `column` come first, a child pointer that may be NULL is an `Option`. -/
inductive ASTNode where
  | program (line column : Nat) (statements : List ASTNode)
  | block (line column : Nat) (statements : List ASTNode)
  | var_decl (line column : Nat) (name : List Char) (initializer : Option ASTNode)
  | func_decl (line column : Nat) (name : List Char) (params : List (List Char))
      (body : Option ASTNode) (is_async : Bool)
  | if_stmt (line column : Nat) (condition then_branch else_branch : Option ASTNode)
  | while_loop (line column : Nat) (condition body : Option ASTNode)
  | for_loop (line column : Nat) (iterator : List Char) (iterable body : Option ASTNode)
  | return_stmt (line column : Nat) (value : Option ASTNode)
  | break_stmt (line column : Nat)
  | assignment (line column : Nat) (target value : Option ASTNode)
  | binary_op (line column : Nat) (operator : TokenType) (left right : Option ASTNode)
  | call (line column : Nat) (callee : Option ASTNode) (args : List (Option ASTNode))
  | member_access (line column : Nat) (object : Option ASTNode) (member : List Char)
  | literal (line column : Nat) (value : Literal)
  | identifier (line column : Nat) (name : List Char)
deriving Repr

/-! ## Parser (`parser.c`) -/

/-- The `Parser` struct. `tokens` is the array of `Token` that `parser->tokens` points to,
`token_count` the count the parser was told. `stderr` collects what the parser prints. -/
structure Parser where
  tokens : List Token
  token_count : Nat
  current : Nat
  had_error : Bool
  panic_mode : Bool
  stderr : List Char
deriving DecidableEq, Repr

namespace Parser

/-- `peek`, dereferenced: the token at the cursor. -/
def peek (p : Parser) : Except Fault Token :=
  match p.tokens.get? p.current with
  | some t => .ok t
  | none => .error .token_bounds

def check (p : Parser) (type : TokenType) : Except Fault Bool :=
  if p.current ≥ p.token_count then .ok false
  else do
    let t ← peek p
    pure (decide (t.type = type))

/-- `advance`, the cursor move. -/
def advance (p : Parser) : Parser :=
  if p.current < p.token_count then { p with current := p.current + 1 } else p

/-- The token `advance` returns a pointer to (`&tokens[current - 1]`), dereferenced. -/
def previous (p : Parser) : Except Fault Token :=
  if p.current = 0 then .error .token_bounds
  else match p.tokens.get? (p.current - 1) with
    | some t => .ok t
    | none => .error .token_bounds

/-- The `parser->current--` of `parse_statement`. -/
def back (p : Parser) : Parser := { p with current := p.current - 1 }

/-- `match`. -/
def matchTok (p : Parser) (type : TokenType) : Except Fault (Bool × Parser) := do
  let found ← check p type
  if found then pure (true, advance p) else pure (false, p)

/-- `expect`: the consumed token, or NULL with a diagnostic and the error flag set. -/
def expect (p : Parser) (type : TokenType) (message : String) :
    Except Fault (Option Token × Parser) := do
  let found ← check p type
  if found then do
    let token ← previous (advance p)
    pure (some token, advance p)
  else do
    let current ← peek p
    pure (none, { p with
      had_error := true
      stderr := p.stderr ++ "Parse error at line ".toList ++ Nat.toDigits 10 current.line ++
        ", column ".toList ++ Nat.toDigits 10 current.column ++ ": ".toList ++
        message.toList ++ ['\n'] })

end Parser

/-- `token->value.number`. -/
def Token.number (t : Token) : Except Fault Double :=
  match t.value with
  | .number d => .ok d
  | .string _ => .error .punned

/-- `token->value.string`, as `strdup` reads it. -/
def Token.string (t : Token) : Except Fault (List Char) :=
  match t.value with
  | .string s => .ok s
  | .number _ => .error .punned

/-- The precedence `switch` of `parse_binary`; 0 stands for its `default` (no operator). -/
def precedence : TokenType → Nat
  | .OR => 1
  | .AND => 2
  | .EQUAL | .NOT_EQUAL => 3
  | .LESS | .LESS_EQUAL | .GREATER | .GREATER_EQUAL => 4
  | .PLUS | .MINUS => 5
  | .STAR | .SLASH | .PERCENT => 6
  | _ => 0

/-- The `do ... while (match(parser, TOKEN_COMMA))` loop of `parse_params`. -/
def parse_params_loop : Nat → Parser → List (List Char) →
    Except Fault (List (List Char) × Parser)
  | 0, _, _ => .error .out_of_fuel
  | fuel + 1, p, params => do
    let (param, p1) ← Parser.expect p .IDENTIFIER "Expected parameter name"
    let params1 := match param with
      | some t => params ++ [t.lexeme]
      | none => params
    let (more, p2) ← Parser.matchTok p1 .COMMA
    if more then parse_params_loop fuel p2 params1 else pure (params1, p2)

def parse_params (fuel : Nat) (p : Parser) : Except Fault (List (List Char) × Parser) := do
  let (_, p1) ← Parser.expect p .LPAREN "Expected '(' after function name"
  let atEnd ← Parser.check p1 .RPAREN
  let (params, p2) ← if atEnd then pure ([], p1) else parse_params_loop fuel p1 []
  let (_, p3) ← Parser.expect p2 .RPAREN "Expected ')' after parameters"
  pure (params, p3)

mutual

/-- `parse_primary`. -/
def parse_primary : Nat → Parser → Except Fault (Option ASTNode × Parser)
  | 0, _ => .error .out_of_fuel
  | fuel + 1, p => do
    let (isNumber, p1) ← Parser.matchTok p .NUMBER
    if isNumber then do
      let token ← Parser.peek p
      let d ← token.number
      pure (some (.literal token.line token.column (.number d)), p1)
    else do
      let (isString, p1) ← Parser.matchTok p .STRING
      if isString then do
        let token ← Parser.peek p
        let s ← token.string
        pure (some (.literal token.line token.column (.string s)), p1)
      else do
        let (isTrueTok, p1) ← Parser.matchTok p .TRUE
        if isTrueTok then do
          let token ← Parser.peek p
          pure (some (.literal token.line token.column (.boolean true)), p1)
        else do
          let (isFalseTok, p1) ← Parser.matchTok p .FALSE
          if isFalseTok then do
            let token ← Parser.peek p
            pure (some (.literal token.line token.column (.boolean false)), p1)
          else do
            let (isIdentifier, p1) ← Parser.matchTok p .IDENTIFIER
            if isIdentifier then do
              let token ← Parser.peek p
              let node := ASTNode.identifier token.line token.column token.lexeme
              let (isCall, p2) ← Parser.matchTok p1 .LPAREN
              if isCall then do
                let atEnd ← Parser.check p2 .RPAREN
                let (args, p3) ← if atEnd then pure ([], p2) else parse_args_loop fuel p2 []
                let (_, p4) ← Parser.expect p3 .RPAREN "Expected ')' after arguments"
                pure (some (.call token.line token.column (some node) args), p4)
              else do
                let (isMember, p2) ← Parser.matchTok p1 .DOT
                if isMember then do
                  let (member, p3) ← Parser.expect p2 .IDENTIFIER "Expected member name"
                  match member with
                  | none => .error .null_deref
                  | some m =>
                    pure (some (.member_access token.line token.column (some node) m.lexeme), p3)
                else pure (some node, p2)
            else do
              let (isParen, p1) ← Parser.matchTok p .LPAREN
              if isParen then do
                let (expr, p2) ← parse_expression fuel p1
                let (_, p3) ← Parser.expect p2 .RPAREN "Expected ')' after expression"
                pure (expr, p3)
              else do
                let token ← Parser.peek p
                pure (none, { p with
                  had_error := true
                  stderr := p.stderr ++ "Unexpected token at line ".toList ++
                    Nat.toDigits 10 token.line ++ ": ".toList ++ token.lexeme ++ ['\n'] })

/-- The argument loop of `parse_primary`:
`do ... parse_expression ... while (match(parser, TOKEN_COMMA))`. -/
def parse_args_loop : Nat → Parser → List (Option ASTNode) →
    Except Fault (List (Option ASTNode) × Parser)
  | 0, _, _ => .error .out_of_fuel
  | fuel + 1, p, args => do
    let (arg, p1) ← parse_expression fuel p
    let (more, p2) ← Parser.matchTok p1 .COMMA
    if more then parse_args_loop fuel p2 (args ++ [arg]) else pure (args ++ [arg], p2)

/-- `parse_binary`. -/
def parse_binary : Nat → Parser → Nat → Except Fault (Option ASTNode × Parser)
  | 0, _, _ => .error .out_of_fuel
  | fuel + 1, p, min_precedence => do
    let (left, p1) ← parse_primary fuel p
    parse_binary_loop fuel p1 left min_precedence

/-- The `while (true)` loop of `parse_binary`. -/
def parse_binary_loop : Nat → Parser → Option ASTNode → Nat →
    Except Fault (Option ASTNode × Parser)
  | 0, _, _, _ => .error .out_of_fuel
  | fuel + 1, p, left, min_precedence => do
    let op_token ← Parser.peek p
    if precedence op_token.type = 0 then pure (left, p)
    else if precedence op_token.type < min_precedence then pure (left, p)
    else do
      let (right, p2) ← parse_binary fuel (Parser.advance p) (precedence op_token.type + 1)
      parse_binary_loop fuel p2
        (some (.binary_op op_token.line op_token.column op_token.type left right)) min_precedence

/-- `parse_expression`. -/
def parse_expression : Nat → Parser → Except Fault (Option ASTNode × Parser)
  | 0, _ => .error .out_of_fuel
  | fuel + 1, p => parse_binary fuel p 0

/-- The `while` loop of `parse_block`. -/
def parse_block_loop : Nat → Parser → List ASTNode → Except Fault (List ASTNode × Parser)
  | 0, _, _ => .error .out_of_fuel
  | fuel + 1, p, statements => do
    let atEnd ← Parser.check p .END
    if atEnd then pure (statements, p)
    else do
      let atEof ← Parser.check p .EOF
      if atEof then pure (statements, p)
      else do
        let (stmt, p1) ← parse_statement fuel p
        match stmt with
        | some s => parse_block_loop fuel p1 (statements ++ [s])
        | none => parse_block_loop fuel p1 statements

/-- `parse_block`. -/
def parse_block : Nat → Parser → Except Fault (Option ASTNode × Parser)
  | 0, _ => .error .out_of_fuel
  | fuel + 1, p => do
    let first ← Parser.peek p
    let (statements, p1) ← parse_block_loop fuel p []
    pure (some (.block first.line first.column statements), p1)

/-- `parse_var_decl`. -/
def parse_var_decl : Nat → Parser → Except Fault (Option ASTNode × Parser)
  | 0, _ => .error .out_of_fuel
  | fuel + 1, p => do
    let p1 := Parser.advance p
    let (name, p2) ← Parser.expect p1 .IDENTIFIER "Expected variable name"
    match name with
    | none => pure (none, p2)
    | some name => do
      let newvar_token ← Parser.previous p1
      let (hasInit, p3) ← Parser.matchTok p2 .ASSIGN
      if hasInit then do
        let (initializer, p4) ← parse_expression fuel p3
        pure (some (.var_decl newvar_token.line newvar_token.column name.lexeme initializer), p4)
      else
        pure (some (.var_decl newvar_token.line newvar_token.column name.lexeme none), p3)

/-- `parse_func_decl`. -/
def parse_func_decl : Nat → Parser → Except Fault (Option ASTNode × Parser)
  | 0, _ => .error .out_of_fuel
  | fuel + 1, p => do
    let p1 := Parser.advance p
    let func_token ← Parser.previous p1
    let (name, p2) ← Parser.expect p1 .IDENTIFIER "Expected function name"
    match name with
    | none => pure (none, p2)
    | some name => do
      let (params, p3) ← parse_params fuel p2
      let (_, p4) ← Parser.expect p3 .LPAREN "Expected '(' before function body"
      let (body, p5) ← parse_block fuel p4
      let (_, p6) ← Parser.expect p5 .RPAREN "Expected ')' after function body"
      pure (some (.func_decl func_token.line func_token.column name.lexeme params body
        (decide (func_token.type = .NEWASYNC))), p6)

/-- `parse_if`. -/
def parse_if : Nat → Parser → Except Fault (Option ASTNode × Parser)
  | 0, _ => .error .out_of_fuel
  | fuel + 1, p => do
    let p1 := Parser.advance p
    let if_token ← Parser.previous p1
    let (condition, p2) ← parse_expression fuel p1
    let (_, p3) ← Parser.expect p2 .RUN "Expected 'run:' after if condition"
    let (_, p4) ← Parser.expect p3 .COLON "Expected ':' after 'run'"
    let (then_branch, p5) ← parse_block fuel p4
    let (isEnd, p6) ← Parser.matchTok p5 .END
    if isEnd then
      pure (some (.if_stmt if_token.line if_token.column condition then_branch none), p6)
    else do
      let (isElse, p7) ← Parser.matchTok p6 .ELSE
      if isElse then do
        let (_, p8) ← Parser.expect p7 .COLON "Expected ':' after 'else'"
        let (else_branch, p9) ← parse_block fuel p8
        let (_, p10) ← Parser.expect p9 .END "Expected 'end' after else block"
        pure (some (.if_stmt if_token.line if_token.column condition then_branch else_branch),
          p10)
      else
        pure (some (.if_stmt if_token.line if_token.column condition then_branch none), p7)

/-- `parse_while`. -/
def parse_while : Nat → Parser → Except Fault (Option ASTNode × Parser)
  | 0, _ => .error .out_of_fuel
  | fuel + 1, p => do
    let p1 := Parser.advance p
    let while_token ← Parser.previous p1
    let (condition, p2) ← parse_expression fuel p1
    let (_, p3) ← Parser.expect p2 .RUN "Expected 'run:' after while condition"
    let (_, p4) ← Parser.expect p3 .COLON "Expected ':' after 'run'"
    let (body, p5) ← parse_block fuel p4
    let (_, p6) ← Parser.expect p5 .END "Expected 'end' after while block"
    pure (some (.while_loop while_token.line while_token.column condition body), p6)

/-- `parse_for`. -/
def parse_for : Nat → Parser → Except Fault (Option ASTNode × Parser)
  | 0, _ => .error .out_of_fuel
  | fuel + 1, p => do
    let p1 := Parser.advance p
    let (iterator, p2) ← Parser.expect p1 .IDENTIFIER "Expected iterator variable"
    match iterator with
    | none => pure (none, p2)
    | some iterator => do
      let (_, p3) ← Parser.expect p2 .IN "Expected 'in' after iterator"
      let for_token ← Parser.previous p1
      let (iterable, p4) ← parse_expression fuel p3
      let (_, p5) ← Parser.expect p4 .RUN "Expected 'run:' after for condition"
      let (_, p6) ← Parser.expect p5 .COLON "Expected ':' after 'run'"
      let (body, p7) ← parse_block fuel p6
      let (_, p8) ← Parser.expect p7 .END "Expected 'end' after for block"
      pure (some (.for_loop for_token.line for_token.column iterator.lexeme iterable body), p8)

/-- `parse_return`. -/
def parse_return : Nat → Parser → Except Fault (Option ASTNode × Parser)
  | 0, _ => .error .out_of_fuel
  | fuel + 1, p => do
    let p1 := Parser.advance p
    let return_token ← Parser.previous p1
    let atEnd ← Parser.check p1 .END
    let stop ← if atEnd then pure true else Parser.check p1 .EOF
    if stop then
      pure (some (.return_stmt return_token.line return_token.column none), p1)
    else do
      let (value, p2) ← parse_expression fuel p1
      pure (some (.return_stmt return_token.line return_token.column value), p2)

/-- `parse_assignment_or_expr`. -/
def parse_assignment_or_expr : Nat → Parser → Except Fault (Option ASTNode × Parser)
  | 0, _ => .error .out_of_fuel
  | fuel + 1, p => do
    let (expr, p1) ← parse_expression fuel p
    let (isAssign, p2) ← Parser.matchTok p1 .ASSIGN
    if isAssign then do
      let next ← Parser.peek p2
      let (value, p3) ← parse_expression fuel p2
      pure (some (.assignment next.line next.column expr value), p3)
    else pure (expr, p2)

/-- `parse_statement`; `Parser.back` is its `parser->current--`. -/
def parse_statement : Nat → Parser → Except Fault (Option ASTNode × Parser)
  | 0, _ => .error .out_of_fuel
  | fuel + 1, p => do
    let (m, p1) ← Parser.matchTok p .NEWVAR
    if m then parse_var_decl fuel (Parser.back p1)
    else do
      let (m, p1) ← Parser.matchTok p1 .NEWFUNC
      let (m, p1) ← if m then pure (m, p1) else Parser.matchTok p1 .NEWASYNC
      if m then parse_func_decl fuel (Parser.back p1)
      else do
        let (m, p1) ← Parser.matchTok p1 .IF
        if m then parse_if fuel (Parser.back p1)
        else do
          let (m, p1) ← Parser.matchTok p1 .WHILE
          if m then parse_while fuel (Parser.back p1)
          else do
            let (m, p1) ← Parser.matchTok p1 .FOR
            let (m, p1) ← if m then pure (m, p1) else Parser.matchTok p1 .FOREACH
            if m then parse_for fuel (Parser.back p1)
            else do
              let (m, p1) ← Parser.matchTok p1 .RETURN
              if m then parse_return fuel (Parser.back p1)
              else do
                let (m, p1) ← Parser.matchTok p1 .BREAK
                if m then do
                  let next ← Parser.peek p1
                  pure (some (.break_stmt next.line next.column), p1)
                else parse_assignment_or_expr fuel p1

end

/-- The `while (!check(parser, TOKEN_EOF))` loop of `parser_parse`. -/
def parser_parse_loop : Nat → Parser → List ASTNode → Except Fault (List ASTNode × Parser)
  | 0, _, _ => .error .out_of_fuel
  | fuel + 1, p, statements => do
    let atEof ← Parser.check p .EOF
    if atEof then pure (statements, p)
    else do
      let (stmt, p1) ← parse_statement fuel p
      let statements1 := match stmt with
        | some s => statements ++ [s]
        | none => statements
      if p1.had_error then pure (statements1, p1)
      else parser_parse_loop fuel p1 statements1

/-- `parser_parse`: the program node and the parser as it is left. -/
def parser_parse (fuel : Nat) (p : Parser) : Except Fault (ASTNode × Parser) := do
  let (statements, p1) ← parser_parse_loop fuel p []
  pure (.program 1 1 statements, p1)

/-! ## Runtime values and scopes (`types.h`, `types.c`) -/

/-- The `ValueType` enumeration. -/
inductive ValueType where
  | NUMBER | STRING | BOOL | NULL | LIST | MAP | FUNCTION | CLASS | INSTANCE
  | NATIVE_FUNCTION | SPRITE | COMPONENT
deriving DecidableEq, Repr

/-- The host functions a `native_fn` pointer can point to. -/
inductive NativeFn where
  | builtin_print | builtin_max | builtin_min
deriving DecidableEq, Repr

/-- The `data` union of a `Value`: which member was written, with its content. `zeroed` is
the union as `create_value` leaves it (all bytes 0). Pointers to values and scopes are
addresses, `none` is NULL. -/
inductive ValueData where
  | zeroed
  | number (d : Double)
  | string (s : List Char)
  | boolean (b : Bool)
  | list (elements : List Nat)
  | map (keys : List (List Char)) (values : List Nat)
  | function (name : List Char) (params : List (List Char)) (body : Option ASTNode)
      (closure : Option Nat)
  | instance_ (class_ref fields : Option Nat)
  | native_function (name : List Char) (native_fn : NativeFn)
deriving Repr

/-- The `Value` struct. -/
structure Value where
  type : ValueType
  is_marked : Bool
  data : ValueData
deriving Repr

/-- `value->data.number`: defined when the member written is `number`, or when the union is
still all zero (the double 0.0). -/
def Value.number (v : Value) : Except Fault Double :=
  match v.data with
  | .number d => .ok d
  | .zeroed => .ok Double.zero
  | _ => .error .punned

/-- `value->data.boolean`: defined when the member written is `boolean`, or when the union
is still all zero (false). -/
def Value.boolean (v : Value) : Except Fault Bool :=
  match v.data with
  | .boolean b => .ok b
  | .zeroed => .ok false
  | _ => .error .punned

/-- `value->data.string`, as `printf("%s")` and `snprintf` read it. -/
def Value.string (v : Value) : Except Fault (List Char) :=
  match v.data with
  | .string s => .ok s
  | .zeroed => .error .null_deref
  | _ => .error .punned

/-- The `Scope` struct: `bindings` pairs `names[i]` with `values[i]`, in array order
(`count` is its length; `capacity` only drives `realloc`). -/
structure Scope where
  bindings : List (List Char × Nat)
  parent : Option Nat
deriving DecidableEq, Repr

/-- The `Interpreter` struct (`gc_count` is the length of `gc_objects`), together with the
memory it works on: `values` and `scopes` are the heap cells by address, an emptied cell is
a freed object; `stdout` and `stderr` are the text written so far. -/
structure Interpreter where
  ast : Option ASTNode
  global_scope : Nat
  current_scope : Nat
  gc_objects : List Nat
  should_exit : Bool
  return_value : Option Nat
  values : List (Option Value)
  scopes : List (Option Scope)
  stdout : List Char
  stderr : List Char
deriving Repr

namespace Interpreter

/-- `create_value`: a fresh zero-filled value of the given type, and its address. -/
def create_value (st : Interpreter) (type : ValueType) : Nat × Interpreter :=
  (st.values.length,
   { st with values := st.values ++ [some { type := type, is_marked := false, data := .zeroed }] })

/-- A write to the fields of the value at `ptr`. -/
def store (st : Interpreter) (ptr : Nat) (v : Value) : Interpreter :=
  { st with values := st.values.set ptr (some v) }

/-- A read of the value at `ptr`. -/
def load (st : Interpreter) (ptr : Nat) : Except Fault Value :=
  match st.values.get? ptr with
  | some (some v) => .ok v
  | _ => .error .value_freed

/-- `create_scope`. -/
def create_scope (st : Interpreter) (parent : Option Nat) : Nat × Interpreter :=
  (st.scopes.length, { st with scopes := st.scopes ++ [some { bindings := [], parent := parent }] })

/-- `free_scope`. -/
def free_scope (st : Interpreter) (scope : Nat) : Interpreter :=
  { st with scopes := st.scopes.set scope none }

/-- A read of the scope at `scope`. -/
def scope_at (st : Interpreter) (scope : Nat) : Except Fault Scope :=
  match st.scopes.get? scope with
  | some (some sc) => .ok sc
  | _ => .error .scope_freed

/-- A write to the fields of the scope at `scope`. -/
def put_scope (st : Interpreter) (scope : Nat) (sc : Scope) : Interpreter :=
  { st with scopes := st.scopes.set scope (some sc) }

/-- `gc_register`. -/
def gc_register (st : Interpreter) (value : Nat) : Interpreter :=
  { st with gc_objects := st.gc_objects ++ [value] }

end Interpreter

/-- The search-and-store of `scope_define` and `scope_set` on the arrays of one scope: the
first slot named `name` gets `value`; `none` when no slot has that name. -/
def bindings_set : List (List Char × Nat) → List Char → Nat → Option (List (List Char × Nat))
  | [], _, _ => none
  | (n, v) :: rest, name, value =>
    if n = name then some ((n, value) :: rest)
    else (bindings_set rest name value).map (fun r => (n, v) :: r)

/-- The arrays of a scope after `scope_define`: the slot of `name` overwritten in place, or
a new slot appended when there is none. -/
def bindings_define (bs : List (List Char × Nat)) (name : List Char) (value : Nat) :
    List (List Char × Nat) :=
  match bindings_set bs name value with
  | some r => r
  | none => bs ++ [(name, value)]

/-- `scope_define`. -/
def scope_define (st : Interpreter) (scope : Nat) (name : List Char) (value : Nat) :
    Except Fault Interpreter := do
  let sc ← st.scope_at scope
  pure (st.put_scope scope { sc with bindings := bindings_define sc.bindings name value })

/-- `scope_get`, the recursion along `parent`; `none` is the NULL it returns for a name
bound nowhere. The fuel bounds the walk: a chain longer than the number of scopes is a
cycle, on which the C function does not return. -/
def scope_get_walk (st : Interpreter) : Nat → Nat → List Char → Except Fault (Option Nat)
  | 0, _, _ => .error .out_of_fuel
  | fuel + 1, scope, name => do
    let sc ← st.scope_at scope
    match sc.bindings.lookup name with
    | some v => pure (some v)
    | none =>
      match sc.parent with
      | some parent => scope_get_walk st fuel parent name
      | none => pure none

/-- `scope_get`. -/
def scope_get (st : Interpreter) (scope : Nat) (name : List Char) : Except Fault (Option Nat) :=
  scope_get_walk st st.scopes.length scope name

/-- `scope_set`, the recursion along `parent` (fuel as in `scope_get_walk`). -/
def scope_set_walk : Nat → Interpreter → Nat → List Char → Nat → Except Fault Interpreter
  | 0, _, _, _, _ => .error .out_of_fuel
  | fuel + 1, st, scope, name, value => do
    let sc ← st.scope_at scope
    match bindings_set sc.bindings name value with
    | some bs => pure (st.put_scope scope { sc with bindings := bs })
    | none =>
      match sc.parent with
      | some parent => scope_set_walk fuel st parent name value
      | none => pure st

/-- `scope_set`. -/
def scope_set (st : Interpreter) (scope : Nat) (name : List Char) (value : Nat) :
    Except Fault Interpreter :=
  scope_set_walk st.scopes.length st scope name value

/-! ## Evaluator (`interpreter.c`) -/

/-- `interpreter_init`. -/
def interpreter_init : Interpreter :=
  { ast := none, global_scope := 0, current_scope := 0, gc_objects := [], should_exit := false,
    return_value := none, values := [], scopes := [some { bindings := [], parent := none }],
    stdout := [], stderr := [] }

/-- The text `builtin_print` writes for one argument. -/
def print_arg (arg : Value) : Except Fault (List Char) :=
  match arg.type with
  | .NUMBER => do return Double.fmt_g (← arg.number)
  | .STRING => arg.string
  | .BOOL => do return (if (← arg.boolean) then "true".toList else "false".toList)
  | .NULL => .ok "null".toList
  | _ => .ok "<object>".toList

/-- The argument loop of `builtin_print`: the text written for `args`. -/
def print_args (st : Interpreter) : List Nat → Except Fault (List Char)
  | [] => .ok []
  | [a] => do print_arg (← st.load a)
  | a :: rest => do
    let t ← print_arg (← st.load a)
    let r ← print_args st rest
    return t ++ [' '] ++ r

/-- `builtin_print`. -/
def builtin_print (st : Interpreter) (args : List Nat) : Except Fault (Nat × Interpreter) := do
  let text ← print_args st args
  return ({ st with stdout := st.stdout ++ text ++ ['\n'] }).create_value .NULL

/-- The loop of `builtin_max` (`gt`) and `builtin_min` (`lt`) from index 1 on. -/
def extremum_loop (st : Interpreter) (better : Double → Double → Bool) :
    List Nat → Double → Except Fault Double
  | [], best => .ok best
  | a :: rest, best => do
    let x ← (← st.load a).number
    extremum_loop st better rest (if better x best then x else best)

/-- `builtin_max` and `builtin_min`, which differ in the comparison only. -/
def builtin_extremum (st : Interpreter) (better : Double → Double → Bool) (args : List Nat) :
    Except Fault (Nat × Interpreter) :=
  match args with
  | [] => .ok (st.create_value .NULL)
  | a :: rest => do
    let first ← (← st.load a).number
    let best ← extremum_loop st better rest first
    let (result, st1) := st.create_value .NUMBER
    return (result, st1.store result { type := .NUMBER, is_marked := false, data := .number best })

/-- A call through a `native_fn` pointer. -/
def call_native (st : Interpreter) (fn : NativeFn) (args : List Nat) :
    Except Fault (Nat × Interpreter) :=
  match fn with
  | .builtin_print => builtin_print st args
  | .builtin_max => builtin_extremum st Double.gt args
  | .builtin_min => builtin_extremum st Double.lt args

/-- One registration of `register_builtins`. -/
def register_builtin (st : Interpreter) (name : String) (fn : NativeFn) :
    Except Fault Interpreter := do
  let (v, st1) := st.create_value .NATIVE_FUNCTION
  let st2 := st1.store v
    { type := .NATIVE_FUNCTION, is_marked := false, data := .native_function name.toList fn }
  let st3 ← scope_define st2 st2.global_scope name.toList v
  return st3.gc_register v

/-- `register_builtins`. -/
def register_builtins (st : Interpreter) : Except Fault Interpreter := do
  let st1 ← register_builtin st "Console.Write" .builtin_print
  let st2 ← register_builtin st1 "Max" .builtin_max
  register_builtin st2 "Min" .builtin_min

/-- The fields `eval_literal` writes for a literal (the value was created as NULL, which a
null literal leaves as it is). -/
def literal_value : Literal → Value
  | .number d => { type := .NUMBER, is_marked := false, data := .number d }
  | .string s => { type := .STRING, is_marked := false, data := .string s }
  | .boolean b => { type := .BOOL, is_marked := false, data := .boolean b }
  | .null => { type := .NULL, is_marked := false, data := .zeroed }

/-- `eval_literal`. -/
def eval_literal (st : Interpreter) (lit : Literal) : Nat × Interpreter :=
  let (value, st1) := st.create_value .NULL
  (value, (st1.store value (literal_value lit)).gc_register value)

/-- `eval_identifier`. -/
def eval_identifier (st : Interpreter) (name : List Char) : Except Fault (Nat × Interpreter) := do
  let found ← scope_get st st.current_scope name
  match found with
  | some value => pure (value, st)
  | none =>
    pure (({ st with stderr := st.stderr ++ "Undefined variable: ".toList ++ name ++ ['\n'] }
      ).create_value .NULL)

/-- The `switch` of `eval_binary_op`: the fields of the result value, which was created as
a zero-filled NUMBER. -/
def binary_result (operator : TokenType) (left right : Value) : Except Fault Value := do
  let num := fun (d : Double) => (⟨.NUMBER, false, .number d⟩ : Value)
  let bool := fun (b : Bool) => (⟨.BOOL, false, .boolean b⟩ : Value)
  match operator with
  | .PLUS =>
    if left.type = .STRING ∨ right.type = .STRING then
      let l ← if left.type = .STRING then left.string else pure []
      let r ← if right.type = .STRING then right.string else pure []
      -- snprintf(buffer, 1024, ...) keeps at most 1023 characters
      return ⟨.STRING, false, .string ((l ++ r).take 1023)⟩
    else return num (Double.add (← left.number) (← right.number))
  | .MINUS => return num (Double.sub (← left.number) (← right.number))
  | .STAR => return num (Double.mul (← left.number) (← right.number))
  | .SLASH => return num (Double.div (← left.number) (← right.number))
  | .PERCENT => return num (Double.fmod (← left.number) (← right.number))
  | .EQUAL => return bool (Double.eq (← left.number) (← right.number))
  | .NOT_EQUAL => return bool (Double.ne (← left.number) (← right.number))
  | .LESS => return bool (Double.lt (← left.number) (← right.number))
  | .LESS_EQUAL => return bool (Double.le (← left.number) (← right.number))
  | .GREATER => return bool (Double.gt (← left.number) (← right.number))
  | .GREATER_EQUAL => return bool (Double.ge (← left.number) (← right.number))
  | .AND =>
    if (← left.boolean) then return bool (← right.boolean) else return bool false
  | .OR =>
    if (← left.boolean) then return bool true else return bool (← right.boolean)
  | _ => return ⟨.NUMBER, false, .zeroed⟩

/-- `eval_func_decl`. -/
def eval_func_decl (st : Interpreter) (name : List Char) (params : List (List Char))
    (body : Option ASTNode) : Except Fault (Nat × Interpreter) := do
  let (func, st1) := st.create_value .FUNCTION
  let st2 := st1.store func
    { type := .FUNCTION, is_marked := false,
      data := .function name params body (some st1.current_scope) }
  let st3 ← scope_define st2 st2.current_scope name func
  pure (func, st3.gc_register func)

/-- The end of a user-function call in `eval_call`, from the state `st` in which the body
left the interpreter: the result is the return value, or a fresh null value when there is
none; the return signal is cleared, `prev_scope` is made current again and the call scope
`func_scope` is freed. -/
def finish_call (st : Interpreter) (prev_scope func_scope : Nat) : Nat × Interpreter :=
  let r : Nat × Interpreter := match st.return_value with
    | some v => (v, st)
    | none => st.create_value .NULL
  (r.1, ({ r.2 with return_value := none, current_scope := prev_scope }).free_scope func_scope)

/-- The parameter loop of `eval_call`:
`for (i = 0; i < param_count && i < arg_count; i++) scope_define(...)`. -/
def bind_params (st : Interpreter) (scope : Nat) :
    List (List Char) → List Nat → Except Fault Interpreter
  | param :: params, arg :: args => do
    let st1 ← scope_define st scope param arg
    bind_params st1 scope params args
  | _, _ => .ok st

mutual

/-- `eval_expression`. -/
def eval_expression : Nat → Interpreter → Option ASTNode → Except Fault (Nat × Interpreter)
  | 0, _, _ => .error .out_of_fuel
  | _ + 1, _, none => .error .null_deref
  | fuel + 1, st, some node =>
    match node with
    | .literal _ _ value => .ok (eval_literal st value)
    | .identifier _ _ name => eval_identifier st name
    | .binary_op _ _ operator left right => eval_binary_op fuel st operator left right
    | .call _ _ callee args => eval_call fuel st callee args
    | _ => .ok (st.create_value .NULL)

/-- `eval_binary_op`. -/
def eval_binary_op : Nat → Interpreter → TokenType → Option ASTNode → Option ASTNode →
    Except Fault (Nat × Interpreter)
  | 0, _, _, _, _ => .error .out_of_fuel
  | fuel + 1, st, operator, l, r => do
    let (left, st1) ← eval_expression fuel st l
    let (right, st2) ← eval_expression fuel st1 r
    let st3 := (st2.create_value .NUMBER).2.gc_register st2.values.length
    let lv ← st3.load left
    let rv ← st3.load right
    let v ← binary_result operator lv rv
    pure (st2.values.length, st3.store st2.values.length v)

/-- The argument loop of `eval_call`. -/
def eval_args : Nat → Interpreter → List (Option ASTNode) → Except Fault (List Nat × Interpreter)
  | 0, _, _ => .error .out_of_fuel
  | _ + 1, st, [] => .ok ([], st)
  | fuel + 1, st, arg :: rest => do
    let (v, st1) ← eval_expression fuel st arg
    let (vs, st2) ← eval_args fuel st1 rest
    pure (v :: vs, st2)

/-- `eval_call`. -/
def eval_call : Nat → Interpreter → Option ASTNode → List (Option ASTNode) →
    Except Fault (Nat × Interpreter)
  | 0, _, _, _ => .error .out_of_fuel
  | fuel + 1, st, calleeNode, argNodes => do
    let (callee, st1) ← eval_expression fuel st calleeNode
    let (args, st2) ← eval_args fuel st1 argNodes
    let cv ← st2.load callee
    if cv.type = .NATIVE_FUNCTION then
      match cv.data with
      | .native_function _ native_fn => call_native st2 native_fn args
      | _ => .error .punned
    else if cv.type = .FUNCTION then
      match cv.data with
      | .function _ params body closure => do
        let func_scope := st2.scopes.length
        let st3 ← bind_params (st2.create_scope closure).2 func_scope params args
        let (_, st4) ← eval_node fuel { st3 with current_scope := func_scope } body
        pure (finish_call st4 st3.current_scope func_scope)
      | _ => .error .punned
    else pure (st2.create_value .NULL)

/-- `eval_var_decl`. -/
def eval_var_decl : Nat → Interpreter → List Char → Option ASTNode →
    Except Fault (Nat × Interpreter)
  | 0, _, _, _ => .error .out_of_fuel
  | fuel + 1, st, name, initializer => do
    let (value, st1) ← match initializer with
      | some init => eval_expression fuel st (some init)
      | none => pure (st.create_value .NULL)
    let st2 ← scope_define st1 st1.current_scope name value
    pure (value, st2)

/-- `eval_if`. -/
def eval_if : Nat → Interpreter → Option ASTNode → Option ASTNode → Option ASTNode →
    Except Fault (Nat × Interpreter)
  | 0, _, _, _, _ => .error .out_of_fuel
  | fuel + 1, st, cond, then_branch, else_branch => do
    let (condition, st1) ← eval_expression fuel st cond
    let cv ← st1.load condition
    let truth ← cv.boolean
    if truth then eval_node fuel st1 then_branch
    else match else_branch with
      | some e => eval_node fuel st1 (some e)
      | none => pure (st1.create_value .NULL)

/-- `eval_while`. -/
def eval_while : Nat → Interpreter → Option ASTNode → Option ASTNode →
    Except Fault (Nat × Interpreter)
  | 0, _, _, _ => .error .out_of_fuel
  | fuel + 1, st, cond, body => do
    let (condition, st1) ← eval_expression fuel st cond
    let cv ← st1.load condition
    let truth ← cv.boolean
    if truth then do
      let (_, st2) ← eval_node fuel st1 body
      eval_while fuel st2 cond body
    else pure (st1.create_value .NULL)

/-- `eval_assignment`. -/
def eval_assignment : Nat → Interpreter → Option ASTNode → Option ASTNode →
    Except Fault (Nat × Interpreter)
  | 0, _, _, _ => .error .out_of_fuel
  | fuel + 1, st, target, valueNode => do
    let (value, st1) ← eval_expression fuel st valueNode
    match target with
    | none => .error .null_deref
    | some (.identifier _ _ name) => do
      let st2 ← scope_set st1 st1.current_scope name value
      pure (value, st2)
    | some _ => pure (value, st1)

/-- The statement loop of `eval_block`; `result` is the value of the last statement. -/
def eval_block_loop : Nat → Interpreter → List ASTNode → Nat → Except Fault (Nat × Interpreter)
  | 0, _, _, _ => .error .out_of_fuel
  | _ + 1, st, [], result => .ok (result, st)
  | fuel + 1, st, stmt :: rest, _ => do
    let (result, st1) ← eval_node fuel st (some stmt)
    if st1.return_value.isSome then pure (result, st1)
    else eval_block_loop fuel st1 rest result

/-- `eval_block`. -/
def eval_block : Nat → Interpreter → List ASTNode → Except Fault (Nat × Interpreter)
  | 0, _, _ => .error .out_of_fuel
  | fuel + 1, st, statements =>
    eval_block_loop fuel (st.create_value .NULL).2 statements st.values.length

/-- `eval_node`. -/
def eval_node : Nat → Interpreter → Option ASTNode → Except Fault (Nat × Interpreter)
  | 0, _, _ => .error .out_of_fuel
  | _ + 1, st, none => .ok (st.create_value .NULL)
  | fuel + 1, st, some node =>
    match node with
    | .program _ _ statements => eval_block fuel st statements
    | .block _ _ statements => eval_block fuel st statements
    | .var_decl _ _ name initializer => eval_var_decl fuel st name initializer
    | .func_decl _ _ name params body _ => eval_func_decl st name params body
    | .if_stmt _ _ cond then_branch else_branch => eval_if fuel st cond then_branch else_branch
    | .while_loop _ _ cond body => eval_while fuel st cond body
    | .assignment _ _ target value => eval_assignment fuel st target value
    | .return_stmt _ _ value => do
      let (v, st1) ← match value with
        | some e => eval_expression fuel st (some e)
        | none => pure (st.create_value .NULL)
      pure (v, { st1 with return_value := some v })
    -- `default:` every other node type goes to `eval_expression`
    | .for_loop l c i it b => eval_expression fuel st (some (.for_loop l c i it b))
    | .break_stmt l c => eval_expression fuel st (some (.break_stmt l c))
    | .binary_op l c o x y => eval_expression fuel st (some (.binary_op l c o x y))
    | .call l c f args => eval_expression fuel st (some (.call l c f args))
    | .member_access l c o m => eval_expression fuel st (some (.member_access l c o m))
    | .literal l c v => eval_expression fuel st (some (.literal l c v))
    | .identifier l c n => eval_expression fuel st (some (.identifier l c n))

end

/-- `interpreter_run`. -/
def interpreter_run (fuel : Nat) (st : Interpreter) (ast : ASTNode) : Except Fault Interpreter := do
  let st1 ← register_builtins { st with ast := some ast }
  let (_, st2) ← eval_node fuel st1 (some ast)
  return st2

/-- `parser_init`. Its argument is the array of token pointers that `lexer_tokenize`
returns, and `parser->tokens = *tokens` stores the first of these pointers: the `Token`
array of the parser is the one `Token` object that pointer addresses, while `token_count`
is the count of the whole sequence. -/
def parser_init (tokens : List Token) (token_count : Nat) : Except Fault Parser :=
  match tokens with
  | [] => .error .token_bounds
  | first :: _ =>
    .ok { tokens := [first], token_count := token_count, current := 0, had_error := false,
          panic_mode := false, stderr := [] }

/-- A parser at the start of a `Token` array that holds the whole sequence `tokens`. -/
def parser_on (tokens : List Token) : Parser :=
  { tokens := tokens, token_count := tokens.length, current := 0, had_error := false,
    panic_mode := false, stderr := [] }

/-- What a run of the three stages leaves behind. -/
structure Run where
  had_error : Bool
  stdout : List Char
deriving DecidableEq, Repr

/-- `run_source`: `lexer_tokenize`, `parser_init`, `parser_parse` and, when the error flag
is clear, `interpreter_run` on a fresh interpreter. `stdout` is the text written by the
program (the banners of `run_source` are left out). -/
def run_source (fuel : Nat) (source : List Char) : Except Fault Run := do
  match lexer_tokenize fuel source with
  | none => .error .out_of_fuel
  | some tokens =>
    let parser0 ← parser_init tokens tokens.length
    let (ast, parser) ← parser_parse fuel parser0
    if parser.had_error then return { had_error := true, stdout := [] }
    let st ← interpreter_run fuel interpreter_init ast
    return { had_error := false, stdout := st.stdout }

/-- The three stages of `run_source` composed on the token sequence itself: as
`run_source`, but with `parser_parse` started from `parser_on` the tokens. -/
def pipeline (fuel : Nat) (source : List Char) : Except Fault Run := do
  match lexer_tokenize fuel source with
  | none => .error .out_of_fuel
  | some tokens =>
    let (ast, parser) ← parser_parse fuel (parser_on tokens)
    if parser.had_error then return { had_error := true, stdout := [] }
    let st ← interpreter_run fuel interpreter_init ast
    return { had_error := false, stdout := st.stdout }

/-! ## Collector (`memory.c`) -/

/-- The `free(value)` that ends `free_value`: the cell of the value is emptied. -/
def Interpreter.release (st : Interpreter) (value : Nat) : Interpreter :=
  { st with values := st.values.set value none }

mutual

/-- `gc_mark`. The recursion ends on a value that is marked already, so its depth is bounded
by the number of values; the fuel bounds it. -/
def gc_mark : Nat → Interpreter → Option Nat → Except Fault Interpreter
  | 0, _, _ => .error .out_of_fuel
  | _ + 1, st, none => .ok st
  | fuel + 1, st, some value => do
    let v ← st.load value
    if v.is_marked then pure st
    else
      let st1 := st.store value { v with is_marked := true }
      match v.type with
      | .LIST =>
        match v.data with
        | .list elements => gc_mark_all fuel st1 elements
        | .zeroed => pure st1
        | _ => .error .punned
      | .MAP =>
        match v.data with
        | .map _ values => gc_mark_all fuel st1 values
        | .zeroed => pure st1
        | _ => .error .punned
      | .INSTANCE =>
        match v.data with
        | .instance_ _ fields => gc_mark fuel st1 fields
        | .zeroed => pure st1
        | _ => .error .punned
      | _ => pure st1

/-- The loops `for (i = 0; i < count; i++) gc_mark(...[i])` of `gc_mark` and of
`gc_mark_roots`. -/
def gc_mark_all : Nat → Interpreter → List Nat → Except Fault Interpreter
  | 0, _, _ => .error .out_of_fuel
  | _ + 1, st, [] => .ok st
  | fuel + 1, st, value :: rest => do
    let st1 ← gc_mark fuel st (some value)
    gc_mark_all fuel st1 rest

end

/-- The `while (scope)` loop of `gc_mark_roots`. -/
def gc_mark_chain : Nat → Interpreter → Option Nat → Except Fault Interpreter
  | 0, _, _ => .error .out_of_fuel
  | _ + 1, st, none => .ok st
  | fuel + 1, st, some scope => do
    let sc ← st.scope_at scope
    let st1 ← gc_mark_all fuel st (sc.bindings.map Prod.snd)
    gc_mark_chain fuel st1 sc.parent

/-- `gc_mark_roots`. -/
def gc_mark_roots (fuel : Nat) (st : Interpreter) : Except Fault Interpreter :=
  gc_mark_chain fuel st (some st.current_scope)

mutual

/-- `free_value` (`memory.c`). The strings a value owns are not cells of the model; a
`switch` case that reads a union member other than the one written is a fault. -/
def free_value : Nat → Interpreter → Option Nat → Except Fault Interpreter
  | 0, _, _ => .error .out_of_fuel
  | _ + 1, st, none => .ok st
  | fuel + 1, st, some value => do
    let v ← st.load value
    let st1 ← match v.type with
      | .LIST =>
        match v.data with
        | .list elements => free_value_all fuel st elements
        | .zeroed => pure st
        | _ => .error .punned
      | .MAP =>
        match v.data with
        | .map _ values => free_value_all fuel st values
        | .zeroed => pure st
        | _ => .error .punned
      | .INSTANCE =>
        match v.data with
        | .instance_ _ fields => free_value fuel st fields
        | .zeroed => pure st
        | _ => .error .punned
      | .STRING =>
        match v.data with
        | .string _ => pure st
        | .zeroed => pure st
        | _ => .error .punned
      | .FUNCTION =>
        match v.data with
        | .function _ _ _ _ => pure st
        | .zeroed => pure st
        | _ => .error .punned
      | .NATIVE_FUNCTION =>
        match v.data with
        | .native_function _ _ => pure st
        | .zeroed => pure st
        | _ => .error .punned
      | .CLASS | .SPRITE | .COMPONENT =>
        match v.data with
        | .zeroed => pure st
        | _ => .error .punned
      | _ => pure st
    -- `free(value)` of a block that is still allocated
    let _ ← st1.load value
    pure (st1.release value)

/-- The loops `for (i = 0; i < count; i++) free_value(...[i])` of `free_value`. -/
def free_value_all : Nat → Interpreter → List Nat → Except Fault Interpreter
  | 0, _, _ => .error .out_of_fuel
  | _ + 1, st, [] => .ok st
  | fuel + 1, st, value :: rest => do
    let st1 ← free_value fuel st (some value)
    free_value_all fuel st1 rest

end

/-- The loop of `gc_sweep` over `gc_objects[i]`, `i < gc_count`; `alive` is the part of the
registry written so far (`gc_objects[0 .. alive)`). -/
def gc_sweep_loop (fuel : Nat) : Interpreter → List Nat → List Nat →
    Except Fault (List Nat × Interpreter)
  | st, [], alive => .ok (alive, st)
  | st, value :: rest, alive => do
    let v ← st.load value
    if v.is_marked then
      gc_sweep_loop fuel (st.store value { v with is_marked := false }) rest (alive ++ [value])
    else do
      let st1 ← free_value fuel st (some value)
      gc_sweep_loop fuel st1 rest alive

/-- `gc_sweep`. -/
def gc_sweep (fuel : Nat) (st : Interpreter) : Except Fault Interpreter := do
  let (alive, st1) ← gc_sweep_loop fuel st st.gc_objects []
  pure { st1 with gc_objects := alive }

/-- `gc_collect`. -/
def gc_collect (fuel : Nat) (st : Interpreter) : Except Fault Interpreter := do
  let st1 ← gc_mark_roots fuel st
  gc_sweep fuel st1

/-! ## Reference definitions and data used by the theorems -/

deriving instance DecidableEq for Except

/-- Where a scan of the source stands: in code, inside a comment, inside a string literal. -/
inductive ScanMode where
  | code | comment | string
deriving DecidableEq, Repr

/-- Reference for the round trip of the specification (section 8): the source text with its
comments `<-- ... -->` and the blanks between tokens removed; a string literal is kept
whole, quotes included. It is defined (`some`) on the sources in which every `<-` outside
a string literal opens a comment `<--`, every comment is closed, the only `--` in a comment
is the one of its closing `-->`, and every string literal is closed. -/
def significant_text : ScanMode → List Char → Option (List Char)
  | .code, [] => some []
  | .code, '<' :: '-' :: '-' :: rest => significant_text .comment rest
  | .code, '<' :: '-' :: _ => none
  | .code, '"' :: rest => (significant_text .string rest).map (fun t => '"' :: t)
  | .code, c :: rest =>
    if c = ' ' ∨ c = '\t' ∨ c = '\r' ∨ c = '\n' then significant_text .code rest
    else (significant_text .code rest).map (fun t => c :: t)
  | .comment, [] => none
  | .comment, '-' :: '-' :: '>' :: rest => significant_text .code rest
  | .comment, '-' :: '-' :: _ => none
  | .comment, _ :: rest => significant_text .comment rest
  | .string, [] => none
  | .string, '"' :: rest => (significant_text .code rest).map (fun t => '"' :: t)
  | .string, c :: rest => (significant_text .string rest).map (fun t => c :: t)

/-- The source text a token stands for: its lexeme, put back between double quotes for a
STRING token (whose lexeme is the text between the quotes). -/
def token_text (t : Token) : List Char :=
  if t.type = .STRING then '"' :: t.lexeme ++ ['"'] else t.lexeme

/-- A character that is neither a blank nor the start of a string or of a comment. -/
def plain (c : Char) : Prop :=
  c ≠ ' ' ∧ c ≠ '\t' ∧ c ≠ '\r' ∧ c ≠ '\n' ∧ c ≠ '"' ∧ c ≠ '<'

/-- The binding levels of the binary operators as the specification orders them, lowest
first: `or`, `and`, equality, relational, additive, multiplicative; `none` for a token that
is no binary operator. -/
def binary_level : TokenType → Option Nat
  | .OR => some 1
  | .AND => some 2
  | .EQUAL | .NOT_EQUAL => some 3
  | .LESS | .LESS_EQUAL | .GREATER | .GREATER_EQUAL => some 4
  | .PLUS | .MINUS => some 5
  | .STAR | .SLASH | .PERCENT => some 6
  | _ => none

/-- Order of outcomes by fuel: `x` is out of fuel, or it already is the outcome `y`. -/
def FuelLe {α : Type} (x y : Except Fault α) : Prop := x = .error .out_of_fuel ∨ x = y

/-- The first end-to-end scenario of the specification. -/
def sum_source : List Char :=
  "NewVar x = 10\nNewVar y = 20\nNewVar result = x + y\nConsole.Write(result)".toList

/-- The third end-to-end scenario of the specification, with `10 > 5` and with `10 < 5`. -/
def if_source (greater : Bool) : List Char :=
  if greater then "if 10 > 5 run:\n Console.Write(\"yes\")\nend".toList
  else "if 10 < 5 run:\n Console.Write(\"yes\")\nend".toList

/-- The second end-to-end scenario of the specification. -/
def greet_source : List Char :=
  "NewFunc greet(name) (\n Console.Write(\"Hello\", name)\n)\ngreet(\"World\")".toList

/-- The tokens of `greet_source`. -/
def greet_tokens : List Token :=
  [create_token .NEWFUNC "NewFunc".toList 1 1,
   create_token .IDENTIFIER "greet".toList 1 9,
   create_token .LPAREN "(".toList 1 14,
   create_token .IDENTIFIER "name".toList 1 15,
   create_token .RPAREN ")".toList 1 19,
   create_token .LPAREN "(".toList 1 21,
   create_token .IDENTIFIER "Console.Write".toList 2 2,
   create_token .LPAREN "(".toList 2 15,
   { create_token .STRING "Hello".toList 2 16 with value := .string "Hello".toList },
   create_token .COMMA ",".toList 2 23,
   create_token .IDENTIFIER "name".toList 2 25,
   create_token .RPAREN ")".toList 2 29,
   create_token .RPAREN ")".toList 3 1,
   create_token .IDENTIFIER "greet".toList 4 1,
   create_token .LPAREN "(".toList 4 6,
   { create_token .STRING "World".toList 4 7 with value := .string "World".toList },
   create_token .RPAREN ")".toList 4 14,
   create_token .EOF [] 4 15]

/-- The parser over `greet_tokens` with the cursor at `i`. -/
def greet_cursor (i : Nat) (had_error : Bool) (stderr : List Char) : Parser :=
  { parser_on greet_tokens with current := i, had_error := had_error, stderr := stderr }

/-- The tokens of `x OP1 y OP2 z`, followed by EOF. -/
def operator_tokens (op1 op2 : Token) : List Token :=
  [create_token .IDENTIFIER ['x'] 1 1, op1, create_token .IDENTIFIER ['y'] 1 5, op2,
   create_token .IDENTIFIER ['z'] 1 9, create_token .EOF [] 1 10]

/-- The parser over `operator_tokens op1 op2` with the cursor at `i`. -/
def operator_cursor (op1 op2 : Token) (i : Nat) : Parser :=
  { parser_on (operator_tokens op1 op2) with current := i }

/-- The tree the grammar describes for

    NewFunc outer(a) ( NewFunc inner() ( return a ) return inner )
    NewVar f = outer(5)
    NewVar r = f()

with function bodies as blocks. -/
def closure_program : ASTNode :=
  .program 1 1
    [.func_decl 1 1 "outer".toList ["a".toList]
      (some (.block 1 18
        [.func_decl 2 5 "inner".toList []
          (some (.block 2 21 [.return_stmt 3 9 (some (.identifier 3 16 "a".toList))])) false,
         .return_stmt 5 5 (some (.identifier 5 12 "inner".toList))])) false,
     .var_decl 7 1 "f".toList
      (some (.call 7 17 (some (.identifier 7 12 "outer".toList))
        [some (.literal 7 18 (.number (Double.atof "5".toList)))])),
     .var_decl 8 1 "r".toList (some (.call 8 13 (some (.identifier 8 12 "f".toList)) []))]

/-- What is observed of an interpreter run: the text on the two streams. -/
def streams (r : Except Fault Interpreter) : Except Fault (List Char × List Char) :=
  r.map (fun st => (st.stdout, st.stderr))

/-- A function body `( return x )`, at position `l`, `c`. -/
def reads (l c : Nat) (x : List Char) : ASTNode :=
  .block l c [.return_stmt l c (some (.identifier l c x))]

/-- The statement `NewVar x = lit`. -/
def declares (l c : Nat) (x : List Char) (lit : Literal) : ASTNode :=
  .var_decl l c x (some (.literal l c lit))

/-- The statement `x = lit`. -/
def assigns (l c : Nat) (x : List Char) (lit : Literal) : ASTNode :=
  .assignment l c (some (.identifier l c x)) (some (.literal l c lit))

/-- The loop `while g run: stmt  g = false end`, whose body runs once when `g` is true. -/
def once_loop (l c : Nat) (g : List Char) (stmt : ASTNode) : ASTNode :=
  .while_loop l c (some (.identifier l c g))
    (some (.block l c [stmt, assigns l c g (.boolean false)]))

/-- An interpreter in the global scope, which binds `x` to the number 1 and `go` to true. -/
def loop_entry : Interpreter :=
  { interpreter_init with
    values := [some (literal_value (.number (Double.atof "1".toList))),
               some (literal_value (.boolean true))],
    scopes := [some { bindings := [("x".toList, 0), ("go".toList, 1)], parent := none }] }

/-- An interpreter inside a call: the global scope 0 binds `g` to a function declared there
whose body is `( return x )`; the current scope 1, a call scope with parent 0, binds `x` to
the number 5. -/
def call_entry : Interpreter :=
  { interpreter_init with
    current_scope := 1,
    values := [some { type := .FUNCTION, is_marked := false,
                      data := .function "g".toList [] (some (reads 1 1 "x".toList)) (some 0) },
               some (literal_value (.number (Double.atof "5".toList)))],
    scopes := [some { bindings := [("g".toList, 0)], parent := none },
               some { bindings := [("x".toList, 1)], parent := some 0 }] }

/-- The scopes on the chain from `scope` outward along `parent`, innermost first (at most
`fuel` of them). -/
def scope_chain (st : Interpreter) : Nat → Option Nat → List Nat
  | 0, _ => []
  | _ + 1, none => []
  | fuel + 1, some scope =>
    scope :: match st.scopes.get? scope with
      | some (some sc) => scope_chain st fuel sc.parent
      | _ => []

/-- The values a value holds: the elements of a list, the values of a map, the fields of
an instance. -/
def Value.children (v : Value) : List Nat :=
  match v.type, v.data with
  | .LIST, .list elements => elements
  | .MAP, .map _ values => values
  | .INSTANCE, .instance_ _ (some fields) => [fields]
  | _, _ => []

/-- The values bound by name in a scope on the chain from the current scope outward. -/
def root_values (st : Interpreter) : List Nat :=
  (scope_chain st st.scopes.length (some st.current_scope)).flatMap fun scope =>
    match st.scopes.get? scope with
    | some (some sc) => sc.bindings.map Prod.snd
    | _ => []

/-- One round of the closure that defines reachability: `seen` and what the values of
`seen` hold. -/
def reach_step (st : Interpreter) (seen : List Nat) : List Nat :=
  (seen ++ seen.flatMap fun value =>
    match st.values.get? value with
    | some (some v) => v.children
    | _ => []).dedup

/-- The distinct values reachable from the current scope chain, as the specification defines
them: bound by name in a scope on the chain, or held, transitively, by a reachable list,
map or instance. -/
def reachable_values (st : Interpreter) : List Nat :=
  Nat.iterate (reach_step st) st.values.length (root_values st).dedup

/-- What is observed of the memory after a collection: the registry, and for every cell of
the value heap whether it is still allocated. -/
def registry_and_cells (r : Except Fault Interpreter) : Except Fault (List Nat × List Bool) :=
  r.map fun st => (st.gc_objects, st.values.map Option.isSome)

/-- The two counts the specification compares at a collection from the state `st`: the
live count `gc_count` after `gc_collect`, and the number of values reachable before it. -/
def live_and_reachable (fuel : Nat) (st : Interpreter) : Except Fault (Nat × Nat) := do
  let st1 ← gc_collect fuel st
  pure (st1.gc_objects.length, (reachable_values st).length)

/-- An interpreter in the global scope, which binds `x` to the number 1 (value 0). Value 1
is a list that holds value 0 and is bound nowhere. Both values are registered, in the order
of their creation, and none is marked. -/
def shared_element : Interpreter :=
  { interpreter_init with
    values := [some (literal_value (.number (Double.atof "1".toList))),
               some { type := .LIST, is_marked := false, data := .list [0] }],
    scopes := [some { bindings := [("x".toList, 0)], parent := none }],
    gc_objects := [0, 1] }

/-- As `shared_element`, but with no binding: neither value is reachable. -/
def garbage_list : Interpreter :=
  { shared_element with scopes := [some { bindings := [], parent := none }] }

/-- The tree of `NewVar m = Max(1, 2)`. -/
def max_program : ASTNode :=
  .program 1 1
    [.var_decl 1 1 "m".toList
      (some (.call 1 15 (some (.identifier 1 12 "Max".toList))
        [some (.literal 1 16 (.number (Double.atof "1".toList))),
         some (.literal 1 19 (.number (Double.atof "2".toList)))]))]

/-- The piece an operand contributes to a string concatenation, as the specification words
it: its text when it is a string, the empty string otherwise. -/
def piece (v : Value) : List Char :=
  match v.type, v.data with
  | .STRING, .string s => s
  | _, _ => []

/-- The tree of `left OP right` for two literals. -/
def literal_op (operator : TokenType) (left right : Literal) : ASTNode :=
  .binary_op 1 3 operator (some (.literal 1 1 left)) (some (.literal 1 5 right))

/-- The text of the string an expression evaluates to in a fresh interpreter. -/
def text_of (fuel : Nat) (e : ASTNode) : Except Fault (List Char) := do
  let (p, st) ← eval_expression fuel interpreter_init (some e)
  let v ← st.load p
  if v.type = .STRING then v.string else .error .punned

/-- A fresh interpreter after `register_builtins`. -/
def with_builtins : Interpreter :=
  match register_builtins interpreter_init with
  | .ok st => st
  | .error _ => interpreter_init

/-- The tree of `Console.Write("hi")`. -/
def write_hi : ASTNode :=
  .call 1 1 (some (.identifier 1 1 "Console.Write".toList))
    [some (.literal 1 15 (.string "hi".toList))]

/-- Statements added behind a `return`: `Extends a b` says that the tree `b` is the tree `a`
with statements added after the last statement of a block, and so on inside that last
statement, along a path through blocks and the branches of `if`. -/
inductive Extends : ASTNode → ASTNode → Prop where
  | same (a : ASTNode) : Extends a a
  | block (l c : Nat) (pre post : List ASTNode) (a b : ASTNode) :
    Extends a b → Extends (.block l c (pre ++ [a])) (.block l c (pre ++ b :: post))
  | program (l c : Nat) (pre post : List ASTNode) (a b : ASTNode) :
    Extends a b → Extends (.program l c (pre ++ [a])) (.program l c (pre ++ b :: post))
  | if_then (l c : Nat) (cond e : Option ASTNode) (a b : ASTNode) :
    Extends a b → Extends (.if_stmt l c cond (some a) e) (.if_stmt l c cond (some b) e)
  | if_else (l c : Nat) (cond t : Option ASTNode) (a b : ASTNode) :
    Extends a b → Extends (.if_stmt l c cond t (some a)) (.if_stmt l c cond t (some b))

/-- The tree of `Console.Write(text)`. -/
def writes (text : String) : ASTNode :=
  .call 1 1 (some (.identifier 1 1 "Console.Write".toList))
    [some (.literal 1 15 (.string text.toList))]

/-- A body whose `return` is the last statement of each block on the way to it:
`Console.Write("a")`, then `if true run: return 1 end`. -/
def returns_last : ASTNode :=
  .block 1 1
    [writes "a",
     .if_stmt 2 1 (some (.literal 2 4 (.boolean true)))
       (some (.block 3 1
         [.return_stmt 3 1 (some (.literal 3 8 (.number (Double.atof "1".toList))))])) none]

/-- The body `returns_last` with a statement behind the `return` and one behind the `if`. -/
def returns_early : ASTNode :=
  .block 1 1
    [writes "a",
     .if_stmt 2 1 (some (.literal 2 4 (.boolean true)))
       (some (.block 3 1
         [.return_stmt 3 1 (some (.literal 3 8 (.number (Double.atof "1".toList)))),
          writes "b"])) none,
     writes "c"]

/-- The result of a run that returned (and `d` for one that did not). -/
def Except.result {α : Type} (x : Except Fault α) (d : α) : α :=
  match x with
  | .ok a => a
  | .error _ => d

/-- The `int` that `run_source` returns: 1 from the branch taken when the error flag is
set, 0 after the evaluation. -/
def Run.status (r : Run) : Nat := if r.had_error then 1 else 0

/-! ## Reference definitions and data for the lexer, the headers, calls and the registry -/

/-- A step of the parser that leaves the error flag set whenever it returns. -/
def Flagged {α : Type} (x : Except Fault (α × Parser)) : Prop :=
  ∀ r, x = .ok r → r.2.had_error = true

/-- The tokens at the cursor are RUN and then COLON, both inside the token array. -/
def at_run_colon (p : Parser) : Bool :=
  decide (p.current + 1 < p.token_count) &&
  ((p.tokens.get? p.current).map Token.type == some .RUN) &&
  ((p.tokens.get? (p.current + 1)).map Token.type == some .COLON)

/-- The parser at the start of the tokens of `source`. -/
def cursor_on (source : String) : Parser :=
  parser_on ((lexer_tokenize (source.length + 2) source.toList).getD [])

/-- The 1-based line and column of the character that follows the text `before`, as the
specification counts them: one more than the number of newline characters in `before`, and
one more than the number of characters behind the last of them. -/
def line_column (before : List Char) : Nat × Nat :=
  (1 + before.count '\n', 1 + (before.reverse.takeWhile (· != '\n')).length)

/-- The texts of the form digits, or digits `.` digits, with at least one digit on each
side of the point. -/
def number_form (l : List Char) : Bool :=
  let ip := l.takeWhile Char.isDigit
  let r := l.dropWhile Char.isDigit
  !ip.isEmpty && (r.isEmpty || match r with
    | '.' :: f => !f.isEmpty && f.all Char.isDigit
    | _ => false)

/-- The decimal value of a text of digits with at most one point, as a `double`: its digits
read as one whole number, over ten to the number of characters behind the point. -/
def decimal_value (l : List Char) : Double :=
  Double.ofUnits false (Double.digitsValue (l.filter Char.isDigit) 0 * 2 ^ 1074)
    (10 ^ ((l.dropWhile (· != '.')).length - 1))

/-- The characters of an identifier: letters, digits, `_` and `.`. -/
def identifier_char (c : Char) : Bool := c.isAlphanum || c == '_' || c == '.'

/-- The keyword set of the grammar surface, as the specification lists it. -/
def keyword_names : List String :=
  ["including", "projectSpace", "NewVar", "NewFunc", "NewClass", "NewEvent", "NewAsync", "if",
   "else", "while", "for", "foreach", "in", "switch", "case", "default", "break", "return",
   "run", "end", "when", "this", "New", "await", "true", "false", "and", "or"]

/-- The interpreter at the start of a function body: `st` with one more scope, the call
scope, which holds `bindings` under the parent `closure` and is made current. -/
def enter_call (st : Interpreter) (closure : Option Nat) (bindings : List (List Char × Nat)) :
    Interpreter :=
  { st with scopes := st.scopes ++ [some (Scope.mk bindings closure)],
            current_scope := st.scopes.length }

/-- An interpreter in the global scope, which binds `f` to a function with the parameters
`a` and `b` and the body `( return a )`. -/
def two_params : Interpreter :=
  { interpreter_init with
    values := [some { type := .FUNCTION, is_marked := false,
                      data := .function "f".toList ["a".toList, "b".toList]
                        (some (reads 1 1 "a".toList)) (some 0) }],
    scopes := [some { bindings := [("f".toList, 0)], parent := none }],
    gc_objects := [0] }

/-- The literal `7` as an argument. -/
def seven : Option ASTNode := some (.literal 1 3 (.number (Double.atof "7".toList)))

/-- The values whose mark flag is set, by address. -/
def marked_values (r : Except Fault Interpreter) : Except Fault (List Nat) :=
  r.map fun st => (List.range st.values.length).filter fun p =>
    match st.values.get? p with
    | some (some v) => v.is_marked
    | _ => false

/-- The allocated values that are not in the registry `gc_objects`, by address. -/
def unregistered_values (r : Except Fault Interpreter) : Except Fault (List Nat) :=
  r.map fun st => (List.range st.values.length).filter fun p =>
    (st.values.get? p).join.isSome && !st.gc_objects.contains p

/-- A number literal. -/
def number_literal (l c : Nat) (text : String) : Option ASTNode :=
  some (.literal l c (.number (Double.atof text.toList)))

/-- The tree of a program with one statement for each way the evaluator makes a value:

    u
    NewVar v
    Max(1, 2)
    if false run: end
    while false run: end
    a block without statements
    NewFunc f() ( )
    f()
    1 + 2
-/
def unregistered_program : ASTNode :=
  .program 1 1
    [.identifier 1 1 "u".toList,
     .var_decl 2 1 "v".toList none,
     .call 3 4 (some (.identifier 3 1 "Max".toList))
       [number_literal 3 5 "1", number_literal 3 8 "2"],
     .if_stmt 4 1 (some (.literal 4 4 (.boolean false))) (some (.block 4 15 [])) none,
     .while_loop 5 1 (some (.literal 5 7 (.boolean false))) (some (.block 5 18 [])),
     .block 6 1 [],
     .func_decl 7 1 "f".toList [] (some (.block 7 15 [])) false,
     .call 8 2 (some (.identifier 8 1 "f".toList)) [],
     .binary_op 9 3 .PLUS (number_literal 9 1 "1") (number_literal 9 5 "2")]

/-- The literal `true` as a loop condition. -/
def always : Option ASTNode := some (.literal 1 7 (.boolean true))

/-- The loop `while go run: break  go = false end` at line `l`. -/
def break_loop (l : Nat) : ASTNode := once_loop l 1 "go".toList (.break_stmt l 1)

/-- A step of the parser that leaves a parser with the property `P` whenever it returns. -/
def Keeps {α : Type} (P : Parser → Prop) (x : Except Fault (α × Parser)) : Prop :=
  ∀ r, x = .ok r → P r.2

/-- The parser over the tokens of `source` with the cursor at `i`. -/
def cursor_at (source : String) (i : Nat) : Parser := { cursor_on source with current := i }

/-- The token types on which `parse_statement` consumes nothing: they start no statement
and no primary expression, and are neither a binary operator nor `=`. -/
def consumes_nothing (type : TokenType) : Bool :=
  !([TokenType.NEWVAR, .NEWFUNC, .NEWASYNC, .IF, .WHILE, .FOR, .FOREACH, .RETURN, .BREAK,
     .NUMBER, .STRING, .TRUE, .FALSE, .IDENTIFIER, .LPAREN, .ASSIGN].contains type) &&
  precedence type == 0

/-- No token of the parser's array is an EOF token. -/
def no_eof (p : Parser) : Prop := ∀ t ∈ p.tokens, t.type ≠ .EOF

/-- The call `Console.Write(x)` at line `l`. -/
def say (l : Nat) (x : String) : ASTNode :=
  .call l 1 (some (.identifier l 1 "Console.Write".toList)) [some (.identifier l 15 x.toList)]

/-- The function body `( while true run: return 1 end )`. -/
def return_loop : ASTNode :=
  .block 1 13 [.while_loop 1 15 always (some (.block 1 31 [.return_stmt 1 31 (number_literal 1 38 "1")]))]

/-- The tree of
```
NewFunc f() ( while true run: return 1 end )
f()
``` -/
def return_loop_program : ASTNode :=
  .program 1 1
    [.func_decl 1 1 "f".toList [] (some return_loop) false,
     .call 2 1 (some (.identifier 2 1 "f".toList)) []]

/-- The function body `( while go run: first  go = again  again = false  return 7 end )` at
line `l`. -/
def again_loop (l : Nat) (first : List ASTNode) : ASTNode :=
  .block l 1 [.while_loop l 3 (some (.identifier l 9 "go".toList))
    (some (.block l 17 (first ++
      [.assignment l 20 (some (.identifier l 17 "go".toList)) (some (.identifier l 22 "again".toList)),
       assigns l 30 "again".toList (.boolean false),
       .return_stmt l 45 (number_literal l 52 "7")])))]

/-- The tree of
```
NewVar go = true
NewVar again = true
NewFunc f() ( while go run: go = again  again = false  return 7 end )
Console.Write(f())
Console.Write(go)
``` -/
def return_in_loop_program : ASTNode :=
  .program 1 1
    [declares 1 1 "go".toList (.boolean true),
     declares 2 1 "again".toList (.boolean true),
     .func_decl 3 1 "f".toList [] (some (again_loop 3 [])) false,
     .call 4 1 (some (.identifier 4 1 "Console.Write".toList))
       [some (.call 4 15 (some (.identifier 4 15 "f".toList)) [])],
     say 5 "go"]

/-- The tree of
```
NewVar go = true
NewVar again = true
NewVar r
NewFunc g() ( )
NewFunc f() ( while go run: r = g()  go = again  again = false  return 7 end )
f()
Console.Write(r)
``` -/
def stale_return_program : ASTNode :=
  .program 1 1
    [declares 1 1 "go".toList (.boolean true),
     declares 2 1 "again".toList (.boolean true),
     .var_decl 3 1 "r".toList none,
     .func_decl 4 1 "g".toList [] (some (.block 4 13 [])) false,
     .func_decl 5 1 "f".toList []
       (some (again_loop 5 [.assignment 5 19 (some (.identifier 5 17 "r".toList))
         (some (.call 5 21 (some (.identifier 5 21 "g".toList)) []))])) false,
     .call 6 1 (some (.identifier 6 1 "f".toList)) [],
     say 7 "r"]

/-- No token behind the cursor is an ERROR token: the parser has consumed none. -/
def no_error_behind (p : Parser) : Prop :=
  ∀ i t, i < p.current → p.tokens.get? i = some t → t.type ≠ .ERROR

/-- The token at the cursor, if there is one, is no ERROR token. -/
def not_at_error (p : Parser) : Prop :=
  ∀ t, p.tokens.get? p.current = some t → t.type ≠ .ERROR

/-- The enumerator of `types.h` that names a token type. -/
def TokenType.enumerator : TokenType → String
  | .NUMBER => "TOKEN_NUMBER" | .STRING => "TOKEN_STRING" | .IDENTIFIER => "TOKEN_IDENTIFIER"
  | .TRUE => "TOKEN_TRUE" | .FALSE => "TOKEN_FALSE"
  | .INCLUDING => "TOKEN_INCLUDING" | .PROJECTSPACE => "TOKEN_PROJECTSPACE"
  | .NEWVAR => "TOKEN_NEWVAR" | .NEWFUNC => "TOKEN_NEWFUNC" | .NEWCLASS => "TOKEN_NEWCLASS"
  | .NEWEVENT => "TOKEN_NEWEVENT" | .NEWASYNC => "TOKEN_NEWASYNC"
  | .IF => "TOKEN_IF" | .ELSE => "TOKEN_ELSE" | .WHILE => "TOKEN_WHILE" | .FOR => "TOKEN_FOR"
  | .FOREACH => "TOKEN_FOREACH" | .IN => "TOKEN_IN" | .SWITCH => "TOKEN_SWITCH"
  | .CASE => "TOKEN_CASE" | .DEFAULT => "TOKEN_DEFAULT" | .BREAK => "TOKEN_BREAK"
  | .RETURN => "TOKEN_RETURN" | .RUN => "TOKEN_RUN" | .END => "TOKEN_END"
  | .WHEN => "TOKEN_WHEN" | .THIS => "TOKEN_THIS" | .NEW => "TOKEN_NEW"
  | .AWAIT => "TOKEN_AWAIT"
  | .PLUS => "TOKEN_PLUS" | .MINUS => "TOKEN_MINUS" | .STAR => "TOKEN_STAR"
  | .SLASH => "TOKEN_SLASH" | .PERCENT => "TOKEN_PERCENT" | .ASSIGN => "TOKEN_ASSIGN"
  | .EQUAL => "TOKEN_EQUAL" | .NOT_EQUAL => "TOKEN_NOT_EQUAL" | .LESS => "TOKEN_LESS"
  | .LESS_EQUAL => "TOKEN_LESS_EQUAL" | .GREATER => "TOKEN_GREATER"
  | .GREATER_EQUAL => "TOKEN_GREATER_EQUAL" | .AND => "TOKEN_AND" | .OR => "TOKEN_OR"
  | .NOT => "TOKEN_NOT"
  | .LPAREN => "TOKEN_LPAREN" | .RPAREN => "TOKEN_RPAREN" | .LBRACKET => "TOKEN_LBRACKET"
  | .RBRACKET => "TOKEN_RBRACKET" | .LBRACE => "TOKEN_LBRACE" | .RBRACE => "TOKEN_RBRACE"
  | .COMMA => "TOKEN_COMMA" | .DOT => "TOKEN_DOT" | .COLON => "TOKEN_COLON"
  | .HASH => "TOKEN_HASH"
  | .NEWLINE => "TOKEN_NEWLINE" | .EOF => "TOKEN_EOF" | .ERROR => "TOKEN_ERROR"

/-- The token type a keyword is to map to, its own: the one named after the keyword, that
is the one whose enumerator is `TOKEN_` and the keyword in capital letters. -/
def own_token_type (keyword : String) (type : TokenType) : Prop :=
  type.enumerator.toList = "TOKEN_".toList ++ keyword.toList.map Char.toUpper

/-- A binary64 datum: the exponent field has 11 bits, the fraction field 52. -/
def Double.valid (d : Double) : Prop := d.expo < 2048 ∧ d.frac < 2 ^ 52

/-- Neither an infinity nor a NaN. -/
def Double.finite (d : Double) : Prop := d.expo < 2047

/-- The number a finite datum stands for (IEEE 754, binary64): with sign bit `s`, exponent
field `e` and fraction field `f` it is `(-1)^s * f * 2^-1074` when `e = 0` (zero and the
subnormal numbers) and `(-1)^s * (2^52 + f) * 2^(e - 1075)` otherwise. -/
def Double.real (d : Double) : ℚ :=
  (if d.sign then -1 else 1) *
    (if d.expo = 0 then (d.frac : ℚ) * 2 ^ (-1074 : ℤ)
     else (2 ^ 52 + (d.frac : ℚ)) * 2 ^ ((d.expo : ℤ) - 1075))

/-- A NaN: the exponent field is all ones and the fraction field is not zero. -/
def Double.is_nan (d : Double) : Prop := d.expo = 2047 ∧ d.frac ≠ 0

/-- An infinity: the exponent field is all ones and the fraction field is zero. -/
def Double.is_inf (d : Double) : Prop := d.expo = 2047 ∧ d.frac = 0

/-- A zero, of either sign. -/
def Double.is_zero (d : Double) : Prop := d.expo = 0 ∧ d.frac = 0

/-- The datum `c` is what an operation with the exact result `q` delivers (IEEE 754, round
to nearest, ties to even). With `2^1024 - 2^970` the bound of overflow, half a unit in the
last place beyond the largest finite number: when `c` is finite, `q` is below the bound in
magnitude, no finite datum is nearer to `q` than `c`, the fraction field of `c` is even
when another number is as near, and `c` has the sign of `q` (also when `q` is rounded to
zero); otherwise `c` is the infinity with the sign of `q`, and `q` is at the bound or
beyond it. -/
def Double.rounds (q : ℚ) (c : Double) : Prop :=
  c.valid ∧
  (c.finite →
    |q| < (2 : ℚ) ^ 1024 - 2 ^ 970 ∧
    (∀ d : Double, d.valid → d.finite → |c.real - q| ≤ |d.real - q|) ∧
    (∀ d : Double, d.valid → d.finite → |d.real - q| = |c.real - q| → d.real ≠ c.real →
      c.frac % 2 = 0) ∧
    (q < 0 → c.sign = true) ∧ (0 < q → c.sign = false)) ∧
  (¬ c.finite → c.is_inf ∧ (2 : ℚ) ^ 1024 - 2 ^ 970 ≤ |q| ∧ (c.sign = true ↔ q < 0))

/-- IEEE 754 addition, `c = a + b`: NaN from a NaN and from infinities of opposite sign; an
infinite operand otherwise; the exact sum rounded for finite operands, where an exact sum
of zero is `-0` only when both operands are negative. -/
def Double.is_sum (a b c : Double) : Prop :=
  (a.is_nan ∨ b.is_nan → c.is_nan) ∧
  (a.is_inf → b.is_inf → (a.sign = b.sign → c = a) ∧ (a.sign ≠ b.sign → c.is_nan)) ∧
  (a.is_inf → b.finite → c = a) ∧
  (a.finite → b.is_inf → c = b) ∧
  (a.finite → b.finite →
    Double.rounds (a.real + b.real) c ∧ (a.real + b.real = 0 → c.sign = (a.sign && b.sign)))

/-- IEEE 754 subtraction, `c = a - b`: the sum of `a` and the opposite of `b`. -/
def Double.is_difference (a b c : Double) : Prop :=
  (a.is_nan ∨ b.is_nan → c.is_nan) ∧
  (a.is_inf → b.is_inf → (a.sign ≠ b.sign → c = a) ∧ (a.sign = b.sign → c.is_nan)) ∧
  (a.is_inf → b.finite → c = a) ∧
  (a.finite → b.is_inf → c.is_inf ∧ c.sign = !b.sign) ∧
  (a.finite → b.finite →
    Double.rounds (a.real - b.real) c ∧ (a.real - b.real = 0 → c.sign = (a.sign && !b.sign)))

/-- IEEE 754 multiplication, `c = a * b`: NaN from a NaN and from zero times infinity; the
infinity otherwise when an operand is infinite; the exact product rounded for finite
operands. The sign is the exclusive or of the signs. -/
def Double.is_product (a b c : Double) : Prop :=
  (a.is_nan ∨ b.is_nan → c.is_nan) ∧
  (a.is_inf → b.is_zero → c.is_nan) ∧ (a.is_zero → b.is_inf → c.is_nan) ∧
  (a.is_inf → ¬ b.is_nan → ¬ b.is_zero → c.is_inf ∧ c.sign = (a.sign != b.sign)) ∧
  (¬ a.is_nan → ¬ a.is_zero → b.is_inf → c.is_inf ∧ c.sign = (a.sign != b.sign)) ∧
  (a.finite → b.finite →
    Double.rounds (a.real * b.real) c ∧ c.sign = (a.sign != b.sign))

/-- IEEE 754 division, `c = a / b`: NaN from a NaN, from infinity by infinity and from zero
by zero; the infinity from an infinite dividend and from a division of a number other than
zero by zero; zero from a finite dividend and an infinite divisor; the exact quotient
rounded otherwise. The sign is the exclusive or of the signs. -/
def Double.is_quotient (a b c : Double) : Prop :=
  (a.is_nan ∨ b.is_nan → c.is_nan) ∧
  (a.is_inf → b.is_inf → c.is_nan) ∧
  (a.is_inf → b.finite → c.is_inf ∧ c.sign = (a.sign != b.sign)) ∧
  (a.finite → b.is_inf → c.is_zero ∧ c.sign = (a.sign != b.sign)) ∧
  (a.is_zero → b.is_zero → c.is_nan) ∧
  (a.finite → ¬ a.is_zero → b.is_zero → c.is_inf ∧ c.sign = (a.sign != b.sign)) ∧
  (a.finite → b.finite → ¬ b.is_zero →
    Double.rounds (a.real / b.real) c ∧ c.sign = (a.sign != b.sign))

/-- The C library `fmod`, `c = fmod(a, b)`: NaN from a NaN, from an infinite `a` and from a
zero `b`; `a` itself when `a` is finite and `b` infinite; otherwise the exact value
`a - n * b` for the whole number `n` that gives it the sign of `a` and a magnitude below
that of `b`. -/
def Double.is_remainder (a b c : Double) : Prop :=
  (a.is_nan ∨ b.is_nan → c.is_nan) ∧
  (a.is_inf → ¬ b.is_nan → c.is_nan) ∧
  (¬ a.is_nan → b.is_zero → c.is_nan) ∧
  (a.finite → b.is_inf → c = a) ∧
  (a.finite → b.finite → ¬ b.is_zero →
    c.valid ∧ c.finite ∧ c.sign = a.sign ∧ |c.real| < |b.real| ∧
    ∃ n : ℤ, c.real = a.real - n * b.real)

/-- The five arithmetic operators with what the specification gives each: the IEEE 754
operation, and the floating-point remainder for `%`. -/
def arithmetic_754 : List (TokenType × (Double → Double → Double → Prop)) :=
  [(.PLUS, Double.is_sum), (.MINUS, Double.is_difference), (.STAR, Double.is_product),
   (.SLASH, Double.is_quotient), (.PERCENT, Double.is_remainder)]

/-- The number an expression evaluates to in a fresh interpreter. -/
def number_of (fuel : Nat) (e : ASTNode) : Except Fault Double := do
  let (p, st) ← eval_expression fuel interpreter_init (some e)
  let v ← st.load p
  if v.type = .NUMBER then v.number else .error .punned

set_option linter.unusedTactic false
set_option linter.unreachableTactic false

theorem skip_whitespace_loop_length (cs : List Char) (col : Nat) :
    (skip_whitespace_loop cs col).1.length ≤ cs.length := by
  induction cs generalizing col with
  | nil => simp [skip_whitespace_loop]
  | cons c cs ih =>
    unfold skip_whitespace_loop
    split
    · exact Nat.le_succ_of_le (ih _)
    · simp

theorem skip_whitespace_length (lx : Lexer) :
    (skip_whitespace lx).current.length ≤ lx.current.length := by
  simpa [skip_whitespace] using skip_whitespace_loop_length lx.current lx.column

theorem advance_length (lx : Lexer) : (Lexer.advance lx).current.length ≤ lx.current.length := by
  unfold Lexer.advance
  split <;> simp_all

theorem advance_length_lt (lx : Lexer) (h : lx.current ≠ []) :
    (Lexer.advance lx).current.length < lx.current.length := by
  unfold Lexer.advance
  split <;> simp_all

theorem skip_comment_loop_length (cs : List Char) (lx : Lexer) :
    (skip_comment_loop cs lx).2.current.length ≤ max cs.length lx.current.length := by
  induction cs, lx using skip_comment_loop.induct with
  | case1 lx => simp [skip_comment_loop]
  | case2 lx rest => simp [skip_comment_loop]; omega
  | case3 lx => simp [skip_comment_loop, Lexer.advance]
  | case4 lx c rest1 hc lx2 lx3 ih =>
    rw [skip_comment_loop]
    · simp only [lx3, lx2, max_self] at ih
      simp only [List.length_cons]
      omega
    · intro h; exact hc (by simpa using h)
  | case5 c rest lx hc lx1 ih =>
    rw [skip_comment_loop]
    · simp only [lx1, max_self] at ih
      simp only [List.length_cons]
      omega
    · exact hc

theorem skip_comment_length (lx : Lexer) :
    (skip_comment lx).2.current.length ≤ lx.current.length ∧
    ((skip_comment lx).1 = true → (skip_comment lx).2.current.length < lx.current.length) := by
  unfold skip_comment
  split
  · rename_i h
    have h1 : lx.current ≠ [] := by
      intro h0; simp [Lexer.peek, h0] at h
    have a1 := advance_length_lt lx h1
    have a2 := advance_length (Lexer.advance lx)
    simp only []
    split
    · have a3 := advance_length (Lexer.advance (Lexer.advance lx))
      have a4 := skip_comment_loop_length (Lexer.advance (Lexer.advance (Lexer.advance lx))).current
        (Lexer.advance (Lexer.advance (Lexer.advance lx)))
      simp only [max_self] at a4
      constructor
      · omega
      · intro _; omega
    · simp; omega
  · simp

theorem skip_trivia_some (n : Nat) (lx : Lexer) (h : lx.current.length < n) :
    ∃ lx1, skip_trivia n lx = some lx1 ∧ lx1.current.length ≤ lx.current.length := by
  induction n generalizing lx with
  | zero => omega
  | succ n ih =>
    unfold skip_trivia
    have w := skip_whitespace_length lx
    have c := skip_comment_length (skip_whitespace lx)
    by_cases hb : (skip_comment (skip_whitespace lx)).1 = true
    · simp only [hb, if_true]
      obtain ⟨lx1, e, l⟩ := ih (skip_comment (skip_whitespace lx)).2 (by have := c.2 hb; omega)
      exact ⟨lx1, e, by have := c.2 hb; omega⟩
    · simp only [hb]
      exact ⟨_, rfl, by omega⟩


theorem parse_string_loop_length (cs : List Char) (lx : Lexer) (h : lx.current = cs) :
    (parse_string_loop cs lx).2.current.length ≤ cs.length := by
  induction cs generalizing lx with
  | nil => simp [parse_string_loop, h]
  | cons c cs ih =>
    unfold parse_string_loop
    split
    · simp [h]
    · simp only [List.length_cons]
      exact Nat.le_succ_of_le (ih _ rfl)

theorem digits_loop_length (cs : List Char) : (digits_loop cs).2.length ≤ cs.length := by
  induction cs with
  | nil => simp [digits_loop]
  | cons c cs ih =>
    unfold digits_loop
    split
    · simp only [List.length_cons]; omega
    · simp

theorem identifier_loop_length (cs : List Char) : (identifier_loop cs).2.length ≤ cs.length := by
  induction cs with
  | nil => simp [identifier_loop]
  | cons c cs ih =>
    unfold identifier_loop
    split
    · simp only [List.length_cons]; omega
    · simp

theorem parse_string_progress (lx : Lexer) (h : lx.current ≠ []) :
    (parse_string lx).1.type = .ERROR ∨ (parse_string lx).2.current.length < lx.current.length := by
  unfold parse_string
  have a1 := advance_length_lt lx h
  have a2 := parse_string_loop_length (Lexer.advance lx).current (Lexer.advance lx) rfl
  simp only []
  split
  · left; simp [create_token]
  · rename_i he
    right
    have a3 := advance_length_lt (parse_string_loop (Lexer.advance lx).current (Lexer.advance lx)).2
      (by simpa [Lexer.is_at_end] using he)
    simp only []
    omega

theorem parse_number_progress (lx : Lexer) (h : (Lexer.peek lx).isDigit = true) :
    (parse_number lx).2.current.length < lx.current.length := by
  unfold parse_number
  cases hc : lx.current with
  | nil => simp [Lexer.peek, hc] at h
  | cons c cs =>
    have hd : c.isDigit = true := by simpa [Lexer.peek, hc] using h
    have a1 := digits_loop_length cs
    have e1 : (digits_loop (c :: cs)).2 = (digits_loop cs).2 := by
      rw [digits_loop]; simp [hd]
    simp only [e1]
    split
    · simp only []
      have a2 := digits_loop_length
        (Lexer.advance { lx with current := (digits_loop cs).2, column := lx.column + (digits_loop (c :: cs)).1.length }).current
      have a3 := advance_length
        { lx with current := (digits_loop cs).2, column := lx.column + (digits_loop (c :: cs)).1.length }
      simp only [List.length_cons] at *
      omega
    · simp only [List.length_cons]
      omega

theorem parse_identifier_progress (lx : Lexer)
    (h : ((Lexer.peek lx).isAlpha || Lexer.peek lx == '_') = true) :
    (parse_identifier lx).2.current.length < lx.current.length := by
  unfold parse_identifier
  cases hc : lx.current with
  | nil => simp [Lexer.peek, hc] at h
  | cons c cs =>
    have hd : (c.isAlphanum || c == '_' || c == '.') = true := by
      have : (c.isAlpha || c == '_') = true := by simpa [Lexer.peek, hc] using h
      simp only [Char.isAlphanum]
      revert this
      cases c.isAlpha <;> cases (c == '_') <;> simp
    have a1 := identifier_loop_length cs
    have e1 : (identifier_loop (c :: cs)).2 = (identifier_loop cs).2 := by
      rw [identifier_loop]; simp only [hd, if_true]
    simp only [e1, List.length_cons]
    omega

theorem matchChar_length (lx : Lexer) (c : Char) :
    (Lexer.matchChar lx c).2.current.length ≤ lx.current.length := by
  unfold Lexer.matchChar
  split_ifs
  · exact Nat.le_refl _
  · exact Nat.le_refl _
  · exact advance_length lx

theorem lookahead_token_length (t2 : TokenType) (s2 : String) (t1 : TokenType) (s1 : String)
    (lx : Lexer) : (lookahead_token t2 s2 t1 s1 lx).2.current.length ≤ lx.current.length := by
  unfold lookahead_token
  simp only []
  split_ifs <;> exact matchChar_length lx '='

theorem ite_holds {α : Type} (P : α → Prop) (b : Bool) (x y : α) (hx : P x) (hy : P y) :
    P (if b = true then x else y) := by
  cases b <;> simpa

theorem punctuation_length (c : Char) (lx : Lexer) :
    (punctuation c lx).2.current.length ≤ lx.current.length := by
  unfold punctuation
  repeat' apply ite_holds (fun r : Token × Lexer => r.2.current.length ≤ lx.current.length)
  all_goals first
    | exact Nat.le_refl _
    | exact matchChar_length lx '='

theorem lexer_next_token_some (n : Nat) (lx : Lexer) (h : lx.current.length < n) :
    ∃ tok lx1, lexer_next_token n lx = some (tok, lx1) ∧
      (tok.type = .EOF ∨ tok.type = .ERROR ∨ lx1.current.length < lx.current.length) := by
  obtain ⟨l1, e, hl⟩ := skip_trivia_some n lx h
  unfold lexer_next_token
  simp only [e]
  generalize hl2 : ({ l1 with start_column := l1.column } : Lexer) = l2
  have hlen : l2.current.length ≤ lx.current.length := by rw [← hl2]; exact hl
  split_ifs with h1 h2 h3 h4 h5
  · exact ⟨_, _, rfl, Or.inl rfl⟩
  · have hne : l2.current ≠ [] := by simpa [Lexer.is_at_end] using h1
    have := advance_length_lt l2 hne
    exact ⟨_, _, rfl, Or.inr (Or.inr (by simp only []; omega))⟩
  · have hne : l2.current ≠ [] := by simpa [Lexer.is_at_end] using h1
    refine ⟨(parse_string l2).1, (parse_string l2).2, rfl, ?_⟩
    rcases parse_string_progress l2 hne with hp | hp
    · exact Or.inr (Or.inl hp)
    · exact Or.inr (Or.inr (by omega))
  · have := parse_number_progress l2 h4
    exact ⟨(parse_number l2).1, (parse_number l2).2, rfl, Or.inr (Or.inr (by omega))⟩
  · have := parse_identifier_progress l2 h5
    exact ⟨(parse_identifier l2).1, (parse_identifier l2).2, rfl, Or.inr (Or.inr (by omega))⟩
  · have hne : l2.current ≠ [] := by simpa [Lexer.is_at_end] using h1
    have a1 := advance_length_lt l2 hne
    have a2 := punctuation_length (Lexer.peek l2) (Lexer.advance l2)
    exact ⟨(punctuation (Lexer.peek l2) (Lexer.advance l2)).1,
      (punctuation (Lexer.peek l2) (Lexer.advance l2)).2, rfl, Or.inr (Or.inr (by omega))⟩

theorem lexer_tokenize_loop_total (n : Nat) (lx : Lexer) (h : lx.current.length + 1 < n) :
    ∃ ts, lexer_tokenize_loop n lx = some ts := by
  induction n generalizing lx with
  | zero => omega
  | succ n ih =>
    obtain ⟨tok, lx1, e, hp⟩ := lexer_next_token_some n lx (by omega)
    unfold lexer_tokenize_loop
    simp only [e]
    split_ifs with h1 h2
    · rcases hp with hp | hp | hp
      · rw [h1] at hp; cases hp
      · rw [h1] at hp; cases hp
      · exact ih lx1 (by omega)
    · exact ⟨_, rfl⟩
    · rcases hp with hp | hp | hp
      · exact absurd (Or.inl hp) h2
      · exact absurd (Or.inr hp) h2
      · obtain ⟨ts, hts⟩ := ih lx1 (by omega)
        exact ⟨_, by rw [hts]; rfl⟩

theorem lexer_tokenize_loop_shape (n : Nat) (lx : Lexer) :
    lexer_tokenize_loop n lx = none ∨
    ∃ ts, lexer_tokenize_loop n lx = some ts ∧ (∀ t ∈ ts, t.type ≠ .NEWLINE) ∧
      ∃ init last, ts = init ++ [last] ∧ (last.type = .EOF ∨ last.type = .ERROR) ∧
        ∀ t ∈ init, t.type ≠ .EOF ∧ t.type ≠ .ERROR := by
  induction n generalizing lx with
  | zero => left; rfl
  | succ n ih =>
    unfold lexer_tokenize_loop
    cases e : lexer_next_token n lx with
    | none => left; rfl
    | some r =>
      obtain ⟨tok, lx1⟩ := r
      simp only []
      split_ifs with h1 h2
      · exact ih lx1
      · right
        refine ⟨[tok], rfl, ?_, [], tok, rfl, h2, ?_⟩
        · intro t ht
          simp only [List.mem_singleton] at ht
          subst ht; exact h1
        · intro t ht; cases ht
      · rcases ih lx1 with hn | ⟨ts, hts, hnl, init, last, hsplit, hlast, hinit⟩
        · left; rw [hn]; rfl
        · right
          refine ⟨tok :: ts, by rw [hts]; rfl, ?_, tok :: init, last, by rw [hsplit]; rfl, hlast, ?_⟩
          · intro t ht
            rcases List.mem_cons.mp ht with rfl | ht
            · exact h1
            · exact hnl t ht
          · intro t ht
            rcases List.mem_cons.mp ht with rfl | ht
            · exact ⟨fun h => h2 (Or.inl h), fun h => h2 (Or.inr h)⟩
            · exact hinit t ht

theorem significant_code_plain (c : Char) (rest : List Char) (h : plain c) :
    significant_text .code (c :: rest) = (significant_text .code rest).map (fun t => c :: t) := by
  obtain ⟨h1, h2, h3, h4, h5, h6⟩ := h
  rw [significant_text]
  · simp [h1, h2, h3, h4]
  · intro r hc; exact absurd hc h6
  · intro r hc; exact absurd hc h6
  · exact h5

theorem significant_code_blank (c : Char) (rest : List Char)
    (h : c = ' ' ∨ c = '\t' ∨ c = '\r' ∨ c = '\n') :
    significant_text .code (c :: rest) = significant_text .code rest := by
  rw [significant_text]
  · simp [h]
  · intro r hc; subst hc; exact absurd h (by decide)
  · intro r hc; subst hc; exact absurd h (by decide)
  · intro hc; subst hc; exact absurd h (by decide)

theorem significant_code_less (rest : List Char) (h : rest.head? ≠ some '-') :
    significant_text .code ('<' :: rest) = (significant_text .code rest).map (fun t => '<' :: t) := by
  rw [significant_text]
  · simp
  · intro r _ hr; subst hr; simp at h
  · intro r _ hr; subst hr; simp at h
  · decide

theorem significant_code_append (pre rest : List Char) (h : ∀ c ∈ pre, plain c) :
    significant_text .code (pre ++ rest) = (significant_text .code rest).map (fun t => pre ++ t) := by
  induction pre with
  | nil => simp
  | cons c pre ih =>
    rw [List.cons_append, significant_code_plain c _ (h c (List.mem_cons_self _ _)),
      ih (fun d hd => h d (List.mem_cons_of_mem _ hd))]
    rw [Option.map_map]
    rfl

theorem skip_whitespace_loop_spec (cs : List Char) (col : Nat) :
    significant_text .code (skip_whitespace_loop cs col).1 = significant_text .code cs ∧
    ∀ c, (skip_whitespace_loop cs col).1.head? = some c → c ≠ ' ' ∧ c ≠ '\t' ∧ c ≠ '\r' := by
  induction cs generalizing col with
  | nil => simp [skip_whitespace_loop]
  | cons c cs ih =>
    unfold skip_whitespace_loop
    split
    · rename_i h
      have hb : c = ' ' ∨ c = '\t' ∨ c = '\r' ∨ c = '\n' := by
        simp only [Bool.or_eq_true, beq_iff_eq] at h
        tauto
      rw [significant_code_blank c cs hb]
      exact ih _
    · rename_i h
      simp only [Bool.or_eq_true, beq_iff_eq, not_or] at h
      refine ⟨rfl, ?_⟩
      intro d hd
      simp only [List.head?_cons, Option.some.injEq] at hd
      subst hd
      tauto

theorem skip_comment_loop_spec (cs : List Char) (lx : Lexer) (text : List Char)
    (h : significant_text .comment cs = some text) :
    (skip_comment_loop cs lx).1 = true ∧
    significant_text .code (skip_comment_loop cs lx).2.current = some text := by
  induction cs, lx using skip_comment_loop.induct with
  | case1 lx => simp [significant_text] at h
  | case2 lx rest =>
    rw [significant_text] at h
    simp [skip_comment_loop, h]
  | case3 lx => simp [significant_text] at h
  | case4 lx c rest1 hc lx2 lx3 ih =>
    rw [significant_text] at h
    · cases h
    · intro r hr; exact hc (by simp only [List.cons.injEq] at hr; exact hr.1)
  | case5 c rest lx hc lx1 ih =>
    rw [skip_comment_loop]
    · rw [significant_text] at h
      · exact ih h
      · intro r h1 h2; exact hc ('>' :: r) h1 h2
      · intro t h1 h2; exact hc t h1 h2
    · exact hc


theorem skip_comment_spec (lx : Lexer) (text : List Char)
    (h : significant_text .code lx.current = some text) :
    significant_text .code (skip_comment lx).2.current = some text ∧
    ((skip_comment lx).1 = false →
      (skip_comment lx).2 = lx ∧ ¬ (Lexer.peek lx = '<' ∧ Lexer.peek_next lx = '-')) := by
  unfold skip_comment
  split
  · rename_i hc
    simp only [Bool.and_eq_true, beq_iff_eq] at hc
    rcases hcur : lx.current with _ | ⟨c0, _ | ⟨c1, rest⟩⟩
    · simp [Lexer.peek, hcur] at hc
    · simp [Lexer.peek_next, hcur] at hc
    · have h0 : c0 = '<' := by simpa [Lexer.peek, hcur] using hc.1
      have h1 : c1 = '-' := by simpa [Lexer.peek_next, hcur] using hc.2
      subst h0 h1
      rw [hcur] at h
      cases rest with
      | nil => simp [significant_text] at h
      | cons c2 rest =>
        by_cases h2 : c2 = '-'
        · subst h2
          rw [significant_text] at h
          have := skip_comment_loop_spec rest
            (Lexer.advance (Lexer.advance (Lexer.advance lx))) text h
          simp [Lexer.advance, Lexer.peek, hcur] at this ⊢
          exact ⟨this.2, fun hf => absurd this.1 (by simp [hf])⟩
        · rw [significant_text] at h
          · cases h
          · intro r hr; exact h2 (by simp only [List.cons.injEq] at hr; exact hr.1)
  · rename_i hc
    simp only [Bool.and_eq_true, beq_iff_eq] at hc
    exact ⟨h, fun _ => ⟨rfl, hc⟩⟩

theorem skip_trivia_spec (n : Nat) (lx lx1 : Lexer) (text : List Char)
    (h : significant_text .code lx.current = some text) (e : skip_trivia n lx = some lx1) :
    significant_text .code lx1.current = some text ∧
    (∀ c, lx1.current.head? = some c → c ≠ ' ' ∧ c ≠ '\t' ∧ c ≠ '\r') ∧
    ¬ (Lexer.peek lx1 = '<' ∧ Lexer.peek_next lx1 = '-') := by
  induction n generalizing lx with
  | zero => simp [skip_trivia] at e
  | succ n ih =>
    unfold skip_trivia at e
    have w := skip_whitespace_loop_spec lx.current lx.column
    have hw : significant_text .code (skip_whitespace lx).current = some text := by
      simp only [skip_whitespace]; rw [w.1]; exact h
    have c := skip_comment_spec (skip_whitespace lx) text hw
    by_cases hb : (skip_comment (skip_whitespace lx)).1 = true
    · simp only [hb, if_true] at e
      exact ih _ c.1 e
    · simp only [hb] at e
      simp only [Bool.not_eq_true] at hb
      have c2 := c.2 hb
      simp only [Bool.false_eq_true, if_false, Option.some.injEq] at e
      subst e
      rw [c2.1]
      rw [c2.1] at c
      exact ⟨hw, w.2, c2.2⟩

theorem parse_string_loop_spec (cs : List Char) (lx : Lexer) (t : List Char)
    (h : significant_text .string cs = some t) (hcur : lx.current = cs) :
    ∃ rest t2, (parse_string_loop cs lx).2.current = '"' :: rest ∧
      significant_text .code rest = some t2 ∧ t = (parse_string_loop cs lx).1 ++ '"' :: t2 := by
  induction cs generalizing lx t with
  | nil => simp [significant_text] at h
  | cons c cs ih =>
    unfold parse_string_loop
    by_cases hq : c = '"'
    · subst hq
      rw [significant_text] at h
      simp only [Option.map_eq_some'] at h
      obtain ⟨t2, h2, rfl⟩ := h
      exact ⟨cs, t2, by simp [hcur], h2, by simp⟩
    · rw [significant_text] at h
      · simp only [Option.map_eq_some'] at h
        obtain ⟨t1, h1, rfl⟩ := h
        have hq2 : (c == '"') = false := by simpa using hq
        simp only [hq2, Bool.false_eq_true, if_false]
        have key : ∀ L : Lexer, L.current = cs → ∃ rest t2,
            (c :: (parse_string_loop cs L).1, (parse_string_loop cs L).2).2.current = '"' :: rest ∧
            significant_text .code rest = some t2 ∧
            c :: t1 = (c :: (parse_string_loop cs L).1, (parse_string_loop cs L).2).1 ++ '"' :: t2 := by
          intro L hL
          obtain ⟨rest, t2, a, b, c3⟩ := ih L t1 h1 hL
          exact ⟨rest, t2, a, b, by rw [c3]; rfl⟩
        exact key _ rfl
      · exact hq

theorem digits_loop_spec (cs : List Char) :
    cs = (digits_loop cs).1 ++ (digits_loop cs).2 ∧ ∀ c ∈ (digits_loop cs).1, c.isDigit = true := by
  induction cs with
  | nil => simp [digits_loop]
  | cons c cs ih =>
    unfold digits_loop
    split
    · rename_i h
      refine ⟨by simp only [List.cons_append]; rw [← ih.1], ?_⟩
      intro d hd
      rcases List.mem_cons.mp hd with rfl | hd
      · exact h
      · exact ih.2 d hd
    · simp

theorem identifier_loop_spec (cs : List Char) :
    cs = (identifier_loop cs).1 ++ (identifier_loop cs).2 ∧
    ∀ c ∈ (identifier_loop cs).1, (c.isAlphanum || c == '_' || c == '.') = true := by
  induction cs with
  | nil => simp [identifier_loop]
  | cons c cs ih =>
    unfold identifier_loop
    split
    · rename_i h
      refine ⟨by simp only [List.cons_append]; rw [← ih.1], ?_⟩
      intro d hd
      rcases List.mem_cons.mp hd with rfl | hd
      · exact h
      · exact ih.2 d hd
    · simp

theorem plain_of_isDigit (c : Char) (h : c.isDigit = true) : plain c := by
  refine ⟨?_, ?_, ?_, ?_, ?_, ?_⟩ <;> (rintro rfl; revert h; decide)

theorem plain_of_identifier_char (c : Char)
    (h : (c.isAlphanum || c == '_' || c == '.') = true) : plain c := by
  refine ⟨?_, ?_, ?_, ?_, ?_, ?_⟩ <;> (rintro rfl; revert h; decide)


theorem advance_current_cons (lx : Lexer) (c : Char) (cs : List Char)
    (h : lx.current = c :: cs) : (Lexer.advance lx).current = cs := by
  simp [Lexer.advance, h]

theorem parse_string_spec (lx : Lexer) (text : List Char) (rest : List Char)
    (hcur : lx.current = '"' :: rest)
    (h : significant_text .code lx.current = some text) :
    (parse_string lx).1.type = .STRING ∧
    ∃ t1, significant_text .code (parse_string lx).2.current = some t1 ∧
      text = token_text (parse_string lx).1 ++ t1 := by
  rw [hcur, significant_text] at h
  simp only [Option.map_eq_some'] at h
  obtain ⟨t', h', rfl⟩ := h
  have hadv : (Lexer.advance lx).current = rest := advance_current_cons lx _ _ hcur
  obtain ⟨rest', t2, a, b, c⟩ := parse_string_loop_spec rest (Lexer.advance lx) t' h' hadv
  unfold parse_string
  simp only [hadv]
  have hne : Lexer.is_at_end (parse_string_loop rest (Lexer.advance lx)).2 = false := by
    simp [Lexer.is_at_end, a]
  simp only [hne, Bool.false_eq_true, if_false]
  refine ⟨rfl, t2, ?_, ?_⟩
  · rw [advance_current_cons _ _ _ a]
    exact b
  · simp [token_text, create_token, c]

theorem parse_number_spec (lx : Lexer) :
    (parse_number lx).1.type = .NUMBER ∧
    lx.current = (parse_number lx).1.lexeme ++ (parse_number lx).2.current ∧
    ∀ c ∈ (parse_number lx).1.lexeme, plain c := by
  have d1 := digits_loop_spec lx.current
  unfold parse_number
  simp only []
  split
  · rename_i hc
    simp only [Bool.and_eq_true, beq_iff_eq] at hc
    rcases hr : (digits_loop lx.current).2 with _ | ⟨c0, rest⟩
    · simp [Lexer.peek, hr] at hc
    · have h0 : c0 = '.' := by simpa [Lexer.peek, hr] using hc.1
      subst h0
      have d2 := digits_loop_spec rest
      refine ⟨rfl, ?_, ?_⟩
      · simp only [create_token, Lexer.advance, hr, List.append_assoc, List.cons_append]
        rw [← d2.1, ← hr]
        exact d1.1
      · intro c hc'
        simp only [create_token, Lexer.advance, hr, List.mem_append, List.mem_cons] at hc'
        rcases hc' with hc' | rfl | hc'
        · exact plain_of_isDigit c (d1.2 c hc')
        · exact ⟨by decide, by decide, by decide, by decide, by decide, by decide⟩
        · exact plain_of_isDigit c (d2.2 c hc')
  · refine ⟨rfl, ?_, ?_⟩
    · simp only [create_token, List.append_nil]
      exact d1.1
    · intro c hc'
      simp only [create_token, List.append_nil] at hc'
      exact plain_of_isDigit c (d1.2 c hc')

theorem lookup_getD_mem {α β : Type} [BEq α] (l : List (α × β)) (k : α) (d : β) :
    (l.lookup k).getD d ∈ d :: l.map Prod.snd := by
  induction l with
  | nil => simp
  | cons p l ih =>
    obtain ⟨a, b⟩ := p
    unfold List.lookup
    split
    · simp
    · simp only [List.map_cons, List.mem_cons] at ih ⊢
      rcases ih with h | h
      · exact Or.inl h
      · exact Or.inr (Or.inr h)

theorem keyword_type_ordinary (identifier : List Char) :
    (keywords.lookup identifier).getD .IDENTIFIER ≠ .STRING ∧
    (keywords.lookup identifier).getD .IDENTIFIER ≠ .NEWLINE ∧
    (keywords.lookup identifier).getD .IDENTIFIER ≠ .EOF ∧
    (keywords.lookup identifier).getD .IDENTIFIER ≠ .ERROR := by
  have h := lookup_getD_mem keywords identifier .IDENTIFIER
  have all : ∀ t ∈ TokenType.IDENTIFIER :: keywords.map Prod.snd,
      t ≠ .STRING ∧ t ≠ .NEWLINE ∧ t ≠ .EOF ∧ t ≠ .ERROR := by decide
  exact all _ h

theorem parse_identifier_spec (lx : Lexer) :
    ((parse_identifier lx).1.type ≠ .STRING ∧ (parse_identifier lx).1.type ≠ .NEWLINE ∧
      (parse_identifier lx).1.type ≠ .EOF ∧ (parse_identifier lx).1.type ≠ .ERROR) ∧
    lx.current = (parse_identifier lx).1.lexeme ++ (parse_identifier lx).2.current ∧
    ∀ c ∈ (parse_identifier lx).1.lexeme, plain c := by
  have d1 := identifier_loop_spec lx.current
  unfold parse_identifier
  simp only [create_token]
  exact ⟨keyword_type_ordinary _, d1.1, fun c hc => plain_of_identifier_char c (d1.2 c hc)⟩


theorem single_token_spec (type : TokenType) (text : String) (c : Char) (lx : Lexer)
    (ht : type ≠ .STRING ∧ type ≠ .NEWLINE ∧ type ≠ .EOF ∧ type ≠ .ERROR)
    (hx : text.toList = [c]) :
    ((single_token type text lx).1.type ≠ .STRING ∧ (single_token type text lx).1.type ≠ .NEWLINE ∧
      (single_token type text lx).1.type ≠ .EOF ∧ (single_token type text lx).1.type ≠ .ERROR) ∧
    c :: lx.current = (single_token type text lx).1.lexeme ++ (single_token type text lx).2.current ∧
    ((single_token type text lx).1.lexeme = [c] ∨ (single_token type text lx).1.lexeme = [c, '=']) := by
  refine ⟨ht, ?_, Or.inl ?_⟩
  · show c :: lx.current = text.toList ++ lx.current
    rw [hx]; rfl
  · exact hx

theorem matchChar_spec (lx : Lexer) (e : Char) :
    ((Lexer.matchChar lx e).1 = true → lx.current = e :: (Lexer.matchChar lx e).2.current) ∧
    ((Lexer.matchChar lx e).1 = false → (Lexer.matchChar lx e).2 = lx) := by
  unfold Lexer.matchChar
  split_ifs with h1 h2
  · simp
  · simp
  · refine ⟨fun _ => ?_, fun h => by simp at h⟩
    rcases hcur : lx.current with _ | ⟨c0, rest⟩
    · simp [Lexer.is_at_end, hcur] at h1
    · have : c0 = e := by simpa [Lexer.peek, hcur] using h2
      subst this
      show c0 :: rest = c0 :: (Lexer.advance lx).current
      rw [advance_current_cons lx _ _ hcur]

theorem lookahead_token_spec (type2 : TokenType) (text2 : String) (type1 : TokenType)
    (text1 : String) (c : Char) (lx : Lexer)
    (ht2 : type2 ≠ .STRING ∧ type2 ≠ .NEWLINE ∧ type2 ≠ .EOF ∧ type2 ≠ .ERROR)
    (ht1 : type1 ≠ .STRING ∧ type1 ≠ .NEWLINE ∧ type1 ≠ .EOF ∧ type1 ≠ .ERROR)
    (hx2 : text2.toList = [c, '=']) (hx1 : text1.toList = [c]) :
    ((lookahead_token type2 text2 type1 text1 lx).1.type ≠ .STRING ∧
      (lookahead_token type2 text2 type1 text1 lx).1.type ≠ .NEWLINE ∧
      (lookahead_token type2 text2 type1 text1 lx).1.type ≠ .EOF ∧
      (lookahead_token type2 text2 type1 text1 lx).1.type ≠ .ERROR) ∧
    c :: lx.current = (lookahead_token type2 text2 type1 text1 lx).1.lexeme ++
      (lookahead_token type2 text2 type1 text1 lx).2.current ∧
    ((lookahead_token type2 text2 type1 text1 lx).1.lexeme = [c] ∨
      (lookahead_token type2 text2 type1 text1 lx).1.lexeme = [c, '=']) := by
  have m := matchChar_spec lx '='
  unfold lookahead_token
  simp only []
  by_cases hm : (Lexer.matchChar lx '=').1 = true
  · simp only [hm, if_true]
    refine ⟨ht2, ?_, Or.inr hx2⟩
    show c :: lx.current = text2.toList ++ (Lexer.matchChar lx '=').2.current
    rw [hx2, m.1 hm]
    rfl
  · simp only [hm]
    simp only [Bool.not_eq_true] at hm
    have := single_token_spec type1 text1 c (Lexer.matchChar lx '=').2 ht1 hx1
    rw [m.2 hm] at this ⊢
    exact this

theorem ite_cases {α : Type} (P : α → Prop) (b : Bool) (x y : α) (hx : b = true → P x)
    (hy : P y) : P (if b = true then x else y) := by
  cases b
  · simpa using hy
  · simpa using hx rfl

theorem punctuation_cases (c : Char) (lx : Lexer) (P : Token × Lexer → Prop)
    (h1 : ∀ (t : TokenType) (s : String),
      (t ≠ .STRING ∧ t ≠ .NEWLINE ∧ t ≠ .EOF ∧ t ≠ .ERROR) → s.toList = [c] →
      P (single_token t s lx))
    (h2 : ∀ (t2 : TokenType) (s2 : String) (t1 : TokenType) (s1 : String),
      (t2 ≠ .STRING ∧ t2 ≠ .NEWLINE ∧ t2 ≠ .EOF ∧ t2 ≠ .ERROR) →
      (t1 ≠ .STRING ∧ t1 ≠ .NEWLINE ∧ t1 ≠ .EOF ∧ t1 ≠ .ERROR) →
      s2.toList = [c, '='] → s1.toList = [c] → P (lookahead_token t2 s2 t1 s1 lx))
    (h3 : ∀ msg, P (create_token .ERROR msg lx.line lx.start_column, lx)) :
    P (punctuation c lx) := by
  unfold punctuation
  iterate 15
    refine ite_cases P _ _ _
      (fun h => by
        have hc := eq_of_beq h
        subst hc
        exact h1 _ _ (by decide) rfl) ?_
  iterate 4
    refine ite_cases P _ _ _
      (fun h => by
        have hc := eq_of_beq h
        subst hc
        exact h2 _ _ _ _ (by decide) (by decide) rfl rfl) ?_
  exact h3 _

theorem punctuation_spec (c : Char) (lx : Lexer) :
    (punctuation c lx).1.type = .ERROR ∨
    (((punctuation c lx).1.type ≠ .STRING ∧ (punctuation c lx).1.type ≠ .NEWLINE ∧
      (punctuation c lx).1.type ≠ .EOF ∧ (punctuation c lx).1.type ≠ .ERROR) ∧
    c :: lx.current = (punctuation c lx).1.lexeme ++ (punctuation c lx).2.current ∧
    ((punctuation c lx).1.lexeme = [c] ∨ (punctuation c lx).1.lexeme = [c, '='])) :=
  punctuation_cases c lx
    (fun r => r.1.type = .ERROR ∨
      ((r.1.type ≠ .STRING ∧ r.1.type ≠ .NEWLINE ∧ r.1.type ≠ .EOF ∧ r.1.type ≠ .ERROR) ∧
       c :: lx.current = r.1.lexeme ++ r.2.current ∧ (r.1.lexeme = [c] ∨ r.1.lexeme = [c, '='])))
    (fun t s ht hs => Or.inr (single_token_spec t s c lx ht hs))
    (fun t2 s2 t1 s1 ht2 ht1 hs2 hs1 => Or.inr (lookahead_token_spec t2 s2 t1 s1 c lx ht2 ht1 hs2 hs1))
    (fun _ => Or.inl rfl)


theorem token_text_of_ne_string (t : Token) (h : t.type ≠ .STRING) : token_text t = t.lexeme := by
  simp [token_text, h]

theorem lexer_next_token_spec (n : Nat) (lx lx1 : Lexer) (text : List Char) (tok : Token)
    (h : significant_text .code lx.current = some text)
    (e : lexer_next_token n lx = some (tok, lx1)) :
    tok.type = .ERROR ∨
    (tok.type = .EOF ∧ tok.lexeme = [] ∧ text = []) ∨
    (tok.type = .NEWLINE ∧ significant_text .code lx1.current = some text) ∨
    (tok.type ≠ .NEWLINE ∧ tok.type ≠ .EOF ∧ tok.type ≠ .ERROR ∧
      ∃ t1, significant_text .code lx1.current = some t1 ∧ text = token_text tok ++ t1) := by
  unfold lexer_next_token at e
  cases hs : skip_trivia n lx with
  | none => simp [hs] at e
  | some l1 =>
    obtain ⟨s1, s2, s3⟩ := skip_trivia_spec n lx l1 text h hs
    simp only [hs] at e
    generalize hl2 : ({ l1 with start_column := l1.column } : Lexer) = l2 at e
    have hcur : l2.current = l1.current := by rw [← hl2]
    have hpk : Lexer.peek l2 = Lexer.peek l1 := by simp [Lexer.peek, hcur]
    have hpn : Lexer.peek_next l2 = Lexer.peek_next l1 := by simp [Lexer.peek_next, hcur]
    rw [← hcur] at s1 s2
    rw [← hpk, ← hpn] at s3
    clear hcur hpk hpn hl2 hs
    split_ifs at e with h1 h2 h3 h4 h5
    · -- end of input
      simp only [Option.some.injEq, Prod.mk.injEq] at e
      obtain ⟨rfl, rfl⟩ := e
      have : l2.current = [] := by simpa [Lexer.is_at_end] using h1
      rw [this, significant_text] at s1
      exact Or.inr (Or.inl ⟨rfl, rfl, by simpa using s1.symm⟩)
    all_goals
      have hne : l2.current ≠ [] := by simpa [Lexer.is_at_end] using h1
      obtain ⟨c, rest, hcr⟩ := List.exists_cons_of_ne_nil hne
      have hpeek : Lexer.peek l2 = c := by simp [Lexer.peek, hcr]
      try rw [hpeek] at e
      simp only [Option.some.injEq] at e
      have e1 := congrArg Prod.fst e
      have e2 := congrArg Prod.snd e
      simp only [] at e1 e2
      subst e1 e2
      clear e
    · -- newline
      have hc : c = '\n' := by simpa [hpeek] using h2
      subst hc
      refine Or.inr (Or.inr (Or.inl ⟨rfl, ?_⟩))
      show significant_text .code (Lexer.advance l2).current = some text
      rw [advance_current_cons l2 _ _ hcr]
      rw [hcr, significant_code_blank _ _ (by decide)] at s1
      exact s1
    · -- string literal
      have hc : c = '"' := by simpa [hpeek] using h3
      subst hc
      obtain ⟨ht, t1, a, b⟩ := parse_string_spec l2 text rest hcr s1
      exact Or.inr (Or.inr (Or.inr ⟨by rw [ht]; decide, by rw [ht]; decide, by rw [ht]; decide,
        t1, a, b⟩))
    · -- number
      obtain ⟨ht, hsplit, hplain⟩ := parse_number_spec l2
      rw [hsplit, significant_code_append _ _ hplain] at s1
      simp only [Option.map_eq_some'] at s1
      obtain ⟨t1, a, b⟩ := s1
      exact Or.inr (Or.inr (Or.inr ⟨by rw [ht]; decide, by rw [ht]; decide, by rw [ht]; decide,
        t1, a, by rw [token_text_of_ne_string _ (by rw [ht]; decide)]; exact b.symm⟩))
    · -- identifier or keyword
      obtain ⟨⟨ht1, ht2, ht3, ht4⟩, hsplit, hplain⟩ := parse_identifier_spec l2
      rw [hsplit, significant_code_append _ _ hplain] at s1
      simp only [Option.map_eq_some'] at s1
      obtain ⟨t1, a, b⟩ := s1
      exact Or.inr (Or.inr (Or.inr ⟨ht2, ht3, ht4, t1, a,
        by rw [token_text_of_ne_string _ ht1]; exact b.symm⟩))
    · -- punctuation
      have hadv := advance_current_cons l2 _ _ hcr
      rcases punctuation_spec c (Lexer.advance l2) with herr | ⟨⟨ht1, ht2, ht3, ht4⟩, hsplit, hlex⟩
      · exact Or.inl herr
      · refine Or.inr (Or.inr (Or.inr ⟨ht2, ht3, ht4, ?_⟩))
        rw [token_text_of_ne_string _ ht1]
        rw [hadv] at hsplit
        have hblank : c ≠ ' ' ∧ c ≠ '\t' ∧ c ≠ '\r' := s2 c (by simp [hcr])
        have hnl : c ≠ '\n' := by simpa [hpeek] using h2
        have hq : c ≠ '"' := by simpa [hpeek] using h3
        -- the text of `c :: rest` starts with `c`
        have hc1 : significant_text .code (c :: rest) =
            (significant_text .code rest).map (fun t => c :: t) := by
          by_cases hlt : c = '<'
          · subst hlt
            apply significant_code_less
            intro hh
            apply s3
            refine ⟨hpeek, ?_⟩
            cases rest with
            | nil => simp at hh
            | cons d rest' =>
              simp only [List.head?_cons, Option.some.injEq] at hh
              subst hh
              simp [Lexer.peek_next, hcr]
          · exact significant_code_plain c rest ⟨hblank.1, hblank.2.1, hblank.2.2, hnl, hq, hlt⟩
        rw [hcr, hc1] at s1
        simp only [Option.map_eq_some'] at s1
        obtain ⟨t0, a0, b0⟩ := s1
        rcases hlex with hl | hl
        · rw [hl] at hsplit ⊢
          simp only [List.singleton_append, List.cons.injEq, true_and] at hsplit
          rw [← hsplit]
          exact ⟨t0, a0, by rw [← b0]; rfl⟩
        · rw [hl] at hsplit ⊢
          simp only [List.cons_append, List.nil_append, List.cons.injEq, true_and] at hsplit
          rw [hsplit, significant_code_plain '=' _ (by
            exact ⟨by decide, by decide, by decide, by decide, by decide, by decide⟩)] at a0
          simp only [Option.map_eq_some'] at a0
          obtain ⟨t1, a1, b1⟩ := a0
          exact ⟨t1, a1, by rw [← b0, ← b1]; rfl⟩


theorem lexer_tokenize_loop_text (n : Nat) (lx : Lexer) (text : List Char) (ts : List Token)
    (h : significant_text .code lx.current = some text)
    (e : lexer_tokenize_loop n lx = some ts)
    (hl : ts.getLast?.map Token.type = some .EOF) :
    ts.flatMap token_text = text := by
  induction n generalizing lx ts text with
  | zero => simp [lexer_tokenize_loop] at e
  | succ n ih =>
    unfold lexer_tokenize_loop at e
    cases hn : lexer_next_token n lx with
    | none => simp [hn] at e
    | some r =>
      obtain ⟨tok, lx1⟩ := r
      have sp := lexer_next_token_spec n lx lx1 text tok h hn
      simp only [hn] at e
      split_ifs at e with h1 h2
      · -- a NEWLINE token is dropped
        rcases sp with sp | sp | sp | sp
        · rw [h1] at sp; cases sp
        · rw [h1] at sp; cases sp.1
        · exact ih lx1 text ts sp.2 e hl
        · exact absurd h1 sp.1
      · -- the sequence ends here
        simp only [Option.some.injEq] at e
        subst e
        simp only [List.getLast?_singleton, Option.map_some', Option.some.injEq] at hl
        rcases sp with sp | sp | sp | sp
        · rw [hl] at sp; cases sp
        · obtain ⟨_, hlex, rfl⟩ := sp
          simp [token_text, hl, hlex]
        · rw [hl] at sp; cases sp.1
        · exact absurd hl sp.2.1
      · cases hr : lexer_tokenize_loop n lx1 with
        | none => simp [hr] at e
        | some ts1 =>
          simp only [hr, Option.map_some', Option.some.injEq] at e
          subst e
          rcases sp with sp | sp | sp | sp
          · exact absurd (Or.inr sp) h2
          · exact absurd (Or.inl sp.1) h2
          · exact absurd sp.1 h1
          · obtain ⟨_, hne, _, t1, a, b⟩ := sp
            cases ts1 with
            | nil =>
              simp only [List.getLast?_singleton, Option.map_some', Option.some.injEq] at hl
              exact absurd hl hne
            | cons t2 ts2 =>
              rw [List.getLast?_cons_cons] at hl
              have := ih lx1 t1 (t2 :: ts2) a hr hl
              rw [List.flatMap_cons, this, b]


theorem FuelLe.refl {α : Type} (x : Except Fault α) : FuelLe x x := Or.inr rfl

theorem FuelLe.bot {α : Type} (y : Except Fault α) : FuelLe (.error .out_of_fuel) y := Or.inl rfl

theorem FuelLe.trans {α : Type} {x y z : Except Fault α} (h1 : FuelLe x y) (h2 : FuelLe y z) :
    FuelLe x z := by
  rcases h1 with h | h
  · exact Or.inl h
  · rw [h]; exact h2

theorem FuelLe.bind {α β : Type} {x y : Except Fault α} {f g : α → Except Fault β}
    (h : FuelLe x y) (hf : ∀ a, FuelLe (f a) (g a)) : FuelLe (x >>= f) (y >>= g) := by
  rcases h with h | h
  · left; rw [h]; rfl
  · subst h
    cases x with
    | error e => right; rfl
    | ok a => exact hf a

theorem FuelLe.ite {α : Type} {c : Prop} [Decidable c] {x y x1 y1 : Except Fault α}
    (h : FuelLe x y) (h1 : FuelLe x1 y1) : FuelLe (if c then x else x1) (if c then y else y1) := by
  split_ifs
  · exact h
  · exact h1

theorem FuelLe.ok_of {α : Type} {x y : Except Fault α} {a : α} (h : FuelLe x y) (hx : x = .ok a) :
    y = .ok a := by
  rcases h with h | h
  · rw [h] at hx; cases hx
  · rw [← h]; exact hx

theorem FuelLe.option {α β : Type} (o : Option α) {x y : Except Fault β}
    {f g : α → Except Fault β} (h : FuelLe x y) (hf : ∀ a, FuelLe (f a) (g a)) :
    FuelLe (match o with | none => x | some a => f a) (match o with | none => y | some a => g a) := by
  cases o
  · exact h
  · exact hf _

theorem parse_params_loop_mono (n : Nat) (p : Parser) (acc : List (List Char)) :
    FuelLe (parse_params_loop n p acc) (parse_params_loop (n + 1) p acc) := by
  induction n generalizing p acc with
  | zero => exact FuelLe.bot _
  | succ n ih =>
    rw [parse_params_loop, parse_params_loop]
    repeat' first
      | exact FuelLe.refl _
      | exact ih _ _
      | apply FuelLe.ite
      | (apply FuelLe.bind; rotate_left; rintro ⟨_, _⟩)

theorem parse_params_mono (n : Nat) (p : Parser) :
    FuelLe (parse_params n p) (parse_params (n + 1) p) := by
  unfold parse_params
  repeat' first
    | exact FuelLe.refl _
    | exact parse_params_loop_mono _ _ _
    | apply FuelLe.ite
    | (apply FuelLe.bind; rotate_left; rintro ⟨_, _⟩)
    | (apply FuelLe.bind; rotate_left; intro _)

theorem parser_mono (n : Nat) :
    (∀ p, FuelLe (parse_primary n p) (parse_primary (n + 1) p)) ∧
    (∀ p args, FuelLe (parse_args_loop n p args) (parse_args_loop (n + 1) p args)) ∧
    (∀ p m, FuelLe (parse_binary n p m) (parse_binary (n + 1) p m)) ∧
    (∀ p l m, FuelLe (parse_binary_loop n p l m) (parse_binary_loop (n + 1) p l m)) ∧
    (∀ p, FuelLe (parse_expression n p) (parse_expression (n + 1) p)) ∧
    (∀ p acc, FuelLe (parse_block_loop n p acc) (parse_block_loop (n + 1) p acc)) ∧
    (∀ p, FuelLe (parse_block n p) (parse_block (n + 1) p)) ∧
    (∀ p, FuelLe (parse_var_decl n p) (parse_var_decl (n + 1) p)) ∧
    (∀ p, FuelLe (parse_func_decl n p) (parse_func_decl (n + 1) p)) ∧
    (∀ p, FuelLe (parse_if n p) (parse_if (n + 1) p)) ∧
    (∀ p, FuelLe (parse_while n p) (parse_while (n + 1) p)) ∧
    (∀ p, FuelLe (parse_for n p) (parse_for (n + 1) p)) ∧
    (∀ p, FuelLe (parse_return n p) (parse_return (n + 1) p)) ∧
    (∀ p, FuelLe (parse_assignment_or_expr n p) (parse_assignment_or_expr (n + 1) p)) ∧
    (∀ p, FuelLe (parse_statement n p) (parse_statement (n + 1) p)) := by
  induction n with
  | zero =>
    refine ⟨fun _ => ?_, fun _ _ => ?_, fun _ _ => ?_, fun _ _ _ => ?_, fun _ => ?_,
      fun _ _ => ?_, fun _ => ?_, fun _ => ?_, fun _ => ?_, fun _ => ?_, fun _ => ?_,
      fun _ => ?_, fun _ => ?_, fun _ => ?_, fun _ => ?_⟩ <;> exact FuelLe.bot _
  | succ n ih =>
    obtain ⟨ih1, ih2, ih3, ih4, ih5, ih6, ih7, ih8, ih9, ih10, ih11, ih12, ih13, ih14, ih15⟩ := ih
    refine ⟨fun p => ?_, fun p a => ?_, fun p m => ?_, fun p l m => ?_, fun p => ?_,
      fun p a => ?_, fun p => ?_, fun p => ?_, fun p => ?_, fun p => ?_, fun p => ?_,
      fun p => ?_, fun p => ?_, fun p => ?_, fun p => ?_⟩
    · rw [parse_primary, parse_primary]
      repeat' first
        | with_reducible exact FuelLe.refl _
        | with_reducible exact ih1 _
        | with_reducible exact ih2 _ _
        | with_reducible exact ih3 _ _
        | with_reducible exact ih4 _ _ _
        | with_reducible exact ih5 _
        | with_reducible exact ih6 _ _
        | with_reducible exact ih7 _
        | with_reducible exact ih8 _
        | with_reducible exact ih9 _
        | with_reducible exact ih10 _
        | with_reducible exact ih11 _
        | with_reducible exact ih12 _
        | with_reducible exact ih13 _
        | with_reducible exact ih14 _
        | with_reducible exact ih15 _
        | with_reducible exact parse_params_mono _ _
        | apply FuelLe.ite
        | (apply FuelLe.bind; rotate_left; rintro ⟨_, _⟩)
        | (apply FuelLe.bind; rotate_left; intro _)
        | split
    · rw [parse_args_loop, parse_args_loop]
      repeat' first
        | with_reducible exact FuelLe.refl _
        | with_reducible exact ih1 _
        | with_reducible exact ih2 _ _
        | with_reducible exact ih3 _ _
        | with_reducible exact ih4 _ _ _
        | with_reducible exact ih5 _
        | with_reducible exact ih6 _ _
        | with_reducible exact ih7 _
        | with_reducible exact ih8 _
        | with_reducible exact ih9 _
        | with_reducible exact ih10 _
        | with_reducible exact ih11 _
        | with_reducible exact ih12 _
        | with_reducible exact ih13 _
        | with_reducible exact ih14 _
        | with_reducible exact ih15 _
        | with_reducible exact parse_params_mono _ _
        | apply FuelLe.ite
        | (apply FuelLe.bind; rotate_left; rintro ⟨_, _⟩)
        | (apply FuelLe.bind; rotate_left; intro _)
        | split
    · rw [parse_binary, parse_binary]
      repeat' first
        | with_reducible exact FuelLe.refl _
        | with_reducible exact ih1 _
        | with_reducible exact ih2 _ _
        | with_reducible exact ih3 _ _
        | with_reducible exact ih4 _ _ _
        | with_reducible exact ih5 _
        | with_reducible exact ih6 _ _
        | with_reducible exact ih7 _
        | with_reducible exact ih8 _
        | with_reducible exact ih9 _
        | with_reducible exact ih10 _
        | with_reducible exact ih11 _
        | with_reducible exact ih12 _
        | with_reducible exact ih13 _
        | with_reducible exact ih14 _
        | with_reducible exact ih15 _
        | with_reducible exact parse_params_mono _ _
        | apply FuelLe.ite
        | (apply FuelLe.bind; rotate_left; rintro ⟨_, _⟩)
        | (apply FuelLe.bind; rotate_left; intro _)
        | split
    · rw [parse_binary_loop, parse_binary_loop]
      repeat' first
        | with_reducible exact FuelLe.refl _
        | with_reducible exact ih1 _
        | with_reducible exact ih2 _ _
        | with_reducible exact ih3 _ _
        | with_reducible exact ih4 _ _ _
        | with_reducible exact ih5 _
        | with_reducible exact ih6 _ _
        | with_reducible exact ih7 _
        | with_reducible exact ih8 _
        | with_reducible exact ih9 _
        | with_reducible exact ih10 _
        | with_reducible exact ih11 _
        | with_reducible exact ih12 _
        | with_reducible exact ih13 _
        | with_reducible exact ih14 _
        | with_reducible exact ih15 _
        | with_reducible exact parse_params_mono _ _
        | apply FuelLe.ite
        | (apply FuelLe.bind; rotate_left; rintro ⟨_, _⟩)
        | (apply FuelLe.bind; rotate_left; intro _)
        | split
    · rw [parse_expression, parse_expression]
      repeat' first
        | with_reducible exact FuelLe.refl _
        | with_reducible exact ih1 _
        | with_reducible exact ih2 _ _
        | with_reducible exact ih3 _ _
        | with_reducible exact ih4 _ _ _
        | with_reducible exact ih5 _
        | with_reducible exact ih6 _ _
        | with_reducible exact ih7 _
        | with_reducible exact ih8 _
        | with_reducible exact ih9 _
        | with_reducible exact ih10 _
        | with_reducible exact ih11 _
        | with_reducible exact ih12 _
        | with_reducible exact ih13 _
        | with_reducible exact ih14 _
        | with_reducible exact ih15 _
        | with_reducible exact parse_params_mono _ _
        | apply FuelLe.ite
        | (apply FuelLe.bind; rotate_left; rintro ⟨_, _⟩)
        | (apply FuelLe.bind; rotate_left; intro _)
        | split
    · rw [parse_block_loop, parse_block_loop]
      repeat' first
        | with_reducible exact FuelLe.refl _
        | with_reducible exact ih1 _
        | with_reducible exact ih2 _ _
        | with_reducible exact ih3 _ _
        | with_reducible exact ih4 _ _ _
        | with_reducible exact ih5 _
        | with_reducible exact ih6 _ _
        | with_reducible exact ih7 _
        | with_reducible exact ih8 _
        | with_reducible exact ih9 _
        | with_reducible exact ih10 _
        | with_reducible exact ih11 _
        | with_reducible exact ih12 _
        | with_reducible exact ih13 _
        | with_reducible exact ih14 _
        | with_reducible exact ih15 _
        | with_reducible exact parse_params_mono _ _
        | apply FuelLe.ite
        | (apply FuelLe.bind; rotate_left; rintro ⟨_, _⟩)
        | (apply FuelLe.bind; rotate_left; intro _)
        | split
    · rw [parse_block, parse_block]
      repeat' first
        | with_reducible exact FuelLe.refl _
        | with_reducible exact ih1 _
        | with_reducible exact ih2 _ _
        | with_reducible exact ih3 _ _
        | with_reducible exact ih4 _ _ _
        | with_reducible exact ih5 _
        | with_reducible exact ih6 _ _
        | with_reducible exact ih7 _
        | with_reducible exact ih8 _
        | with_reducible exact ih9 _
        | with_reducible exact ih10 _
        | with_reducible exact ih11 _
        | with_reducible exact ih12 _
        | with_reducible exact ih13 _
        | with_reducible exact ih14 _
        | with_reducible exact ih15 _
        | with_reducible exact parse_params_mono _ _
        | apply FuelLe.ite
        | (apply FuelLe.bind; rotate_left; rintro ⟨_, _⟩)
        | (apply FuelLe.bind; rotate_left; intro _)
        | split
    · rw [parse_var_decl, parse_var_decl]
      repeat' first
        | with_reducible exact FuelLe.refl _
        | with_reducible exact ih1 _
        | with_reducible exact ih2 _ _
        | with_reducible exact ih3 _ _
        | with_reducible exact ih4 _ _ _
        | with_reducible exact ih5 _
        | with_reducible exact ih6 _ _
        | with_reducible exact ih7 _
        | with_reducible exact ih8 _
        | with_reducible exact ih9 _
        | with_reducible exact ih10 _
        | with_reducible exact ih11 _
        | with_reducible exact ih12 _
        | with_reducible exact ih13 _
        | with_reducible exact ih14 _
        | with_reducible exact ih15 _
        | with_reducible exact parse_params_mono _ _
        | apply FuelLe.ite
        | (apply FuelLe.bind; rotate_left; rintro ⟨_, _⟩)
        | (apply FuelLe.bind; rotate_left; intro _)
        | split
    · rw [parse_func_decl, parse_func_decl]
      repeat' first
        | with_reducible exact FuelLe.refl _
        | with_reducible exact ih1 _
        | with_reducible exact ih2 _ _
        | with_reducible exact ih3 _ _
        | with_reducible exact ih4 _ _ _
        | with_reducible exact ih5 _
        | with_reducible exact ih6 _ _
        | with_reducible exact ih7 _
        | with_reducible exact ih8 _
        | with_reducible exact ih9 _
        | with_reducible exact ih10 _
        | with_reducible exact ih11 _
        | with_reducible exact ih12 _
        | with_reducible exact ih13 _
        | with_reducible exact ih14 _
        | with_reducible exact ih15 _
        | with_reducible exact parse_params_mono _ _
        | apply FuelLe.ite
        | (apply FuelLe.bind; rotate_left; rintro ⟨_, _⟩)
        | (apply FuelLe.bind; rotate_left; intro _)
        | split
    · rw [parse_if, parse_if]
      repeat' first
        | with_reducible exact FuelLe.refl _
        | with_reducible exact ih1 _
        | with_reducible exact ih2 _ _
        | with_reducible exact ih3 _ _
        | with_reducible exact ih4 _ _ _
        | with_reducible exact ih5 _
        | with_reducible exact ih6 _ _
        | with_reducible exact ih7 _
        | with_reducible exact ih8 _
        | with_reducible exact ih9 _
        | with_reducible exact ih10 _
        | with_reducible exact ih11 _
        | with_reducible exact ih12 _
        | with_reducible exact ih13 _
        | with_reducible exact ih14 _
        | with_reducible exact ih15 _
        | with_reducible exact parse_params_mono _ _
        | apply FuelLe.ite
        | (apply FuelLe.bind; rotate_left; rintro ⟨_, _⟩)
        | (apply FuelLe.bind; rotate_left; intro _)
        | split
    · rw [parse_while, parse_while]
      repeat' first
        | with_reducible exact FuelLe.refl _
        | with_reducible exact ih1 _
        | with_reducible exact ih2 _ _
        | with_reducible exact ih3 _ _
        | with_reducible exact ih4 _ _ _
        | with_reducible exact ih5 _
        | with_reducible exact ih6 _ _
        | with_reducible exact ih7 _
        | with_reducible exact ih8 _
        | with_reducible exact ih9 _
        | with_reducible exact ih10 _
        | with_reducible exact ih11 _
        | with_reducible exact ih12 _
        | with_reducible exact ih13 _
        | with_reducible exact ih14 _
        | with_reducible exact ih15 _
        | with_reducible exact parse_params_mono _ _
        | apply FuelLe.ite
        | (apply FuelLe.bind; rotate_left; rintro ⟨_, _⟩)
        | (apply FuelLe.bind; rotate_left; intro _)
        | split
    · rw [parse_for, parse_for]
      repeat' first
        | with_reducible exact FuelLe.refl _
        | with_reducible exact ih1 _
        | with_reducible exact ih2 _ _
        | with_reducible exact ih3 _ _
        | with_reducible exact ih4 _ _ _
        | with_reducible exact ih5 _
        | with_reducible exact ih6 _ _
        | with_reducible exact ih7 _
        | with_reducible exact ih8 _
        | with_reducible exact ih9 _
        | with_reducible exact ih10 _
        | with_reducible exact ih11 _
        | with_reducible exact ih12 _
        | with_reducible exact ih13 _
        | with_reducible exact ih14 _
        | with_reducible exact ih15 _
        | with_reducible exact parse_params_mono _ _
        | apply FuelLe.ite
        | (apply FuelLe.bind; rotate_left; rintro ⟨_, _⟩)
        | (apply FuelLe.bind; rotate_left; intro _)
        | split
    · rw [parse_return, parse_return]
      repeat' first
        | with_reducible exact FuelLe.refl _
        | with_reducible exact ih1 _
        | with_reducible exact ih2 _ _
        | with_reducible exact ih3 _ _
        | with_reducible exact ih4 _ _ _
        | with_reducible exact ih5 _
        | with_reducible exact ih6 _ _
        | with_reducible exact ih7 _
        | with_reducible exact ih8 _
        | with_reducible exact ih9 _
        | with_reducible exact ih10 _
        | with_reducible exact ih11 _
        | with_reducible exact ih12 _
        | with_reducible exact ih13 _
        | with_reducible exact ih14 _
        | with_reducible exact ih15 _
        | with_reducible exact parse_params_mono _ _
        | apply FuelLe.ite
        | (apply FuelLe.bind; rotate_left; rintro ⟨_, _⟩)
        | (apply FuelLe.bind; rotate_left; intro _)
        | split
    · rw [parse_assignment_or_expr, parse_assignment_or_expr]
      repeat' first
        | with_reducible exact FuelLe.refl _
        | with_reducible exact ih1 _
        | with_reducible exact ih2 _ _
        | with_reducible exact ih3 _ _
        | with_reducible exact ih4 _ _ _
        | with_reducible exact ih5 _
        | with_reducible exact ih6 _ _
        | with_reducible exact ih7 _
        | with_reducible exact ih8 _
        | with_reducible exact ih9 _
        | with_reducible exact ih10 _
        | with_reducible exact ih11 _
        | with_reducible exact ih12 _
        | with_reducible exact ih13 _
        | with_reducible exact ih14 _
        | with_reducible exact ih15 _
        | with_reducible exact parse_params_mono _ _
        | apply FuelLe.ite
        | (apply FuelLe.bind; rotate_left; rintro ⟨_, _⟩)
        | (apply FuelLe.bind; rotate_left; intro _)
        | split
    · rw [parse_statement, parse_statement]
      repeat' first
        | with_reducible exact FuelLe.refl _
        | with_reducible exact ih1 _
        | with_reducible exact ih2 _ _
        | with_reducible exact ih3 _ _
        | with_reducible exact ih4 _ _ _
        | with_reducible exact ih5 _
        | with_reducible exact ih6 _ _
        | with_reducible exact ih7 _
        | with_reducible exact ih8 _
        | with_reducible exact ih9 _
        | with_reducible exact ih10 _
        | with_reducible exact ih11 _
        | with_reducible exact ih12 _
        | with_reducible exact ih13 _
        | with_reducible exact ih14 _
        | with_reducible exact ih15 _
        | with_reducible exact parse_params_mono _ _
        | apply FuelLe.ite
        | (apply FuelLe.bind; rotate_left; rintro ⟨_, _⟩)
        | (apply FuelLe.bind; rotate_left; intro _)
        | split


theorem FuelLe.of_step {α : Type} (F : Nat → Except Fault α)
    (h : ∀ n, FuelLe (F n) (F (n + 1))) (n m : Nat) (hnm : n ≤ m) : FuelLe (F n) (F m) := by
  obtain ⟨k, rfl⟩ := Nat.exists_eq_add_of_le hnm
  induction k with
  | zero => exact FuelLe.refl _
  | succ k ih => exact FuelLe.trans (ih (Nat.le_add_right _ _)) (h (n + k))

/-- A run that succeeds with some fuel decides the outcome for every fuel. -/
theorem FuelLe.of_ok {α : Type} (F : Nat → Except Fault α)
    (h : ∀ n, FuelLe (F n) (F (n + 1))) (n : Nat) (a : α) (hn : F n = .ok a) (m : Nat) :
    F m = .error .out_of_fuel ∨ F m = .ok a := by
  rcases Nat.le_total m n with hmn | hnm
  · rcases FuelLe.of_step F h m n hmn with h1 | h1
    · exact Or.inl h1
    · exact Or.inr (h1.trans hn)
  · exact Or.inr ((FuelLe.of_step F h n m hnm).ok_of hn)

theorem skip_trivia_mono (n : Nat) (lx : Lexer) :
    skip_trivia n lx = none ∨ skip_trivia n lx = skip_trivia (n + 1) lx := by
  induction n generalizing lx with
  | zero => left; rfl
  | succ n ih =>
    rw [skip_trivia, skip_trivia]
    split_ifs
    · exact ih _
    · right; rfl

theorem lexer_next_token_mono (n : Nat) (lx : Lexer) :
    lexer_next_token n lx = none ∨ lexer_next_token n lx = lexer_next_token (n + 1) lx := by
  unfold lexer_next_token
  rcases skip_trivia_mono n lx with h | h
  · left; rw [h]
  · right; rw [h]

theorem lexer_tokenize_loop_mono (n : Nat) (lx : Lexer) :
    lexer_tokenize_loop n lx = none ∨
    lexer_tokenize_loop n lx = lexer_tokenize_loop (n + 1) lx := by
  induction n generalizing lx with
  | zero => left; rfl
  | succ n ih =>
    rw [lexer_tokenize_loop, lexer_tokenize_loop]
    rcases lexer_next_token_mono n lx with h | h
    · left; rw [h]
    · rw [← h]
      cases lexer_next_token n lx with
      | none => left; rfl
      | some r =>
        obtain ⟨tok, lx1⟩ := r
        simp only []
        split_ifs
        · exact ih lx1
        · right; rfl
        · rcases ih lx1 with h1 | h1
          · left; rw [h1]; rfl
          · right; rw [h1]

theorem lexer_tokenize_decided (source : List Char) (n : Nat) (ts : List Token)
    (hn : lexer_tokenize n source = some ts) (m : Nat) :
    lexer_tokenize m source = none ∨ lexer_tokenize m source = some ts := by
  have step : ∀ a b, a ≤ b → lexer_tokenize a source = none ∨
      lexer_tokenize a source = lexer_tokenize b source := by
    intro a b hab
    obtain ⟨k, rfl⟩ := Nat.exists_eq_add_of_le hab
    induction k with
    | zero => right; rfl
    | succ k ih =>
      rcases ih (Nat.le_add_right _ _) with h | h
      · exact Or.inl h
      · rcases lexer_tokenize_loop_mono (a + k) (lexer_init source) with h1 | h1
        · left; rw [h]; exact h1
        · right; rw [h]; exact h1
  rcases Nat.le_total m n with hmn | hnm
  · rcases step m n hmn with h | h
    · exact Or.inl h
    · exact Or.inr (h.trans hn)
  · rcases step n m hnm with h | h
    · rw [h] at hn; cases hn
    · exact Or.inr (h ▸ hn)


theorem greet_lexed : lexer_tokenize 64 greet_source = some greet_tokens := by decide!

theorem parse_statement_mono_all (p : Parser) (n : Nat) (r : Option ASTNode × Parser)
    (hn : parse_statement n p = .ok r) (m : Nat) :
    parse_statement m p = .error .out_of_fuel ∨ parse_statement m p = .ok r :=
  FuelLe.of_ok (fun k => parse_statement k p) (fun k => (parser_mono k).2.2.2.2.2.2.2.2.2.2.2.2.2.2 p)
    n r hn m

/-- At the `)` that closes the body, a statement parse consumes nothing. -/
theorem greet_stuck_statement (h : Bool) (e : List Char) :
    ∃ e1, parse_statement 5 (greet_cursor 12 h e) = .ok (none, greet_cursor 12 true e1) :=
  ⟨_, rfl⟩

theorem greet_stuck_loop (n : Nat) (h : Bool) (e : List Char) (acc : List ASTNode) :
    parse_block_loop n (greet_cursor 12 h e) acc = .error .out_of_fuel := by
  induction n generalizing h e with
  | zero => rfl
  | succ n ih =>
    rw [parse_block_loop]
    have c1 : Parser.check (greet_cursor 12 h e) .END = .ok false := rfl
    have c2 : Parser.check (greet_cursor 12 h e) .EOF = .ok false := rfl
    rw [c1]
    simp only [bind, Except.bind, Bool.false_eq_true, if_false]
    rw [c2]
    simp only [Bool.false_eq_true, if_false]
    obtain ⟨e1, he1⟩ := greet_stuck_statement h e
    rcases parse_statement_mono_all _ 5 _ he1 n with hs | hs
    · rw [hs]
    · rw [hs]
      exact ih _ _

theorem greet_body_statement :
    ∃ node, parse_statement 10 (greet_cursor 6 false []) =
      .ok (some node, greet_cursor 12 false []) := by
  have h : (parse_statement 10 (greet_cursor 6 false [])).map (fun r => (r.1.isSome, r.2)) =
      .ok (true, greet_cursor 12 false []) := by decide!
  cases hr : parse_statement 10 (greet_cursor 6 false []) with
  | error e => rw [hr] at h; cases h
  | ok r =>
    obtain ⟨node, q⟩ := r
    rw [hr] at h
    simp only [Except.map, Except.ok.injEq, Prod.mk.injEq] at h
    cases node with
    | none => simp at h
    | some node => exact ⟨node, by rw [h.2]⟩

theorem greet_block (n : Nat) :
    parse_block n (greet_cursor 6 false []) = .error .out_of_fuel := by
  cases n with
  | zero => rfl
  | succ n =>
    rw [parse_block]
    have c0 : ∃ t, Parser.peek (greet_cursor 6 false []) = .ok t := ⟨_, rfl⟩
    obtain ⟨t, ht⟩ := c0
    rw [ht]
    simp only [bind, Except.bind]
    cases n with
    | zero => rfl
    | succ n =>
      rw [parse_block_loop]
      have c1 : Parser.check (greet_cursor 6 false []) .END = .ok false := rfl
      have c2 : Parser.check (greet_cursor 6 false []) .EOF = .ok false := rfl
      rw [c1]
      simp only [bind, Except.bind, Bool.false_eq_true, if_false]
      rw [c2]
      simp only [Bool.false_eq_true, if_false]
      obtain ⟨node, hnode⟩ := greet_body_statement
      rcases parse_statement_mono_all _ 10 _ hnode n with hs | hs
      · rw [hs]
      · rw [hs]
        simp only []
        rw [greet_stuck_loop]

theorem greet_params :
    parse_params 2 (greet_cursor 2 false []) = .ok ([['n', 'a', 'm', 'e']], greet_cursor 5 false []) :=
  rfl

theorem greet_func_decl (n : Nat) :
    parse_func_decl n (greet_cursor 0 false []) = .error .out_of_fuel := by
  cases n with
  | zero => rfl
  | succ n =>
    rw [parse_func_decl]
    have c1 : ∃ t, Parser.previous (Parser.advance (greet_cursor 0 false [])) = .ok t := ⟨_, rfl⟩
    obtain ⟨t, ht⟩ := c1
    have c2 : ∃ t, Parser.expect (Parser.advance (greet_cursor 0 false [])) .IDENTIFIER
        "Expected function name" = .ok (some t, greet_cursor 2 false []) := ⟨_, rfl⟩
    obtain ⟨t2, ht2⟩ := c2
    simp only [ht, ht2, bind, Except.bind]
    rcases FuelLe.of_ok (fun k => parse_params k (greet_cursor 2 false []))
      (fun k => parse_params_mono k _) 2 _ greet_params n with hp | hp
    · rw [hp]
    · rw [hp]
      simp only []
      have c3 : ∃ t, Parser.expect (greet_cursor 5 false []) .LPAREN
          "Expected '(' before function body" = .ok (t, greet_cursor 6 false []) := ⟨_, rfl⟩
      obtain ⟨t3, ht3⟩ := c3
      rw [ht3]
      simp only []
      rw [greet_block]

theorem greet_statement (n : Nat) :
    parse_statement n (greet_cursor 0 false []) = .error .out_of_fuel := by
  cases n with
  | zero => rfl
  | succ n =>
    rw [parse_statement]
    have c1 : Parser.matchTok (greet_cursor 0 false []) .NEWVAR =
        .ok (false, greet_cursor 0 false []) := rfl
    have c2 : Parser.matchTok (greet_cursor 0 false []) .NEWFUNC =
        .ok (true, greet_cursor 1 false []) := rfl
    have c3 : Parser.back (greet_cursor 1 false []) = greet_cursor 0 false [] := rfl
    simp only [c1, c2, c3, bind, Except.bind, pure, Except.pure, Bool.false_eq_true, if_false,
      if_true]
    exact greet_func_decl n

theorem greet_never_parses (n : Nat) :
    parser_parse n (parser_on greet_tokens) = .error .out_of_fuel := by
  unfold parser_parse
  have e0 : parser_on greet_tokens = greet_cursor 0 false [] := rfl
  rw [e0]
  cases n with
  | zero => rfl
  | succ n =>
    rw [parser_parse_loop]
    have c1 : Parser.check (greet_cursor 0 false []) .EOF = .ok false := rfl
    simp only [c1, bind, Except.bind, Bool.false_eq_true, if_false]
    rw [greet_statement]

theorem greet_pipeline_never_returns (fuel : Nat) :
    pipeline fuel greet_source = .error .out_of_fuel := by
  unfold pipeline
  rcases lexer_tokenize_decided greet_source 64 greet_tokens greet_lexed fuel with h | h
  · rw [h]
  · rw [h]
    simp only [greet_never_parses, bind, Except.bind]

theorem parse_primary_mono (n k : Nat) (p : Parser) (r : Option ASTNode × Parser)
    (h : parse_primary n p = .ok r) : parse_primary (n + k) p = .ok r := by
  induction k with
  | zero => exact h
  | succ k ih => exact ((parser_mono (n + k)).1 p).ok_of ih

theorem parse_primary_mono_le (n f : Nat) (p : Parser) (r : Option ASTNode × Parser)
    (h : parse_primary n p = .ok r) (hf : n ≤ f) : parse_primary f p = .ok r := by
  obtain ⟨k, rfl⟩ := Nat.exists_eq_add_of_le hf
  exact parse_primary_mono n k p r h

theorem parse_binary_loop_stop (f : Nat) (p : Parser) (l : Option ASTNode) (m : Nat) (t : Token)
    (hf : 0 < f) (hp : Parser.peek p = .ok t)
    (h : precedence t.type = 0 ∨ precedence t.type < m) :
    parse_binary_loop f p l m = .ok (l, p) := by
  obtain ⟨g, rfl⟩ : ∃ g, f = g + 1 := ⟨f - 1, by omega⟩
  rw [parse_binary_loop, hp]
  rcases h with h | h
  · simp [bind, Except.bind, h, pure, Except.pure]
  · simp [bind, Except.bind, h, pure, Except.pure]

theorem parse_binary_loop_step (f : Nat) (p : Parser) (l : Option ASTNode) (m : Nat) (t : Token)
    (hf : 0 < f) (hp : Parser.peek p = .ok t) (h0 : 0 < precedence t.type)
    (hm : m ≤ precedence t.type) :
    parse_binary_loop f p l m =
      (parse_binary (f - 1) (Parser.advance p) (precedence t.type + 1) >>= fun r =>
        parse_binary_loop (f - 1) r.2 (some (.binary_op t.line t.column t.type l r.1)) m) := by
  obtain ⟨g, rfl⟩ : ∃ g, f = g + 1 := ⟨f - 1, by omega⟩
  rw [parse_binary_loop, hp]
  have h1 : ¬ precedence t.type = 0 := by omega
  have h2 : ¬ precedence t.type < m := by omega
  simp only [bind, Except.bind, h1, h2, if_false, Nat.add_sub_cancel]

theorem parse_binary_step (f n : Nat) (p : Parser) (m : Nat) (a : Option ASTNode) (pa : Parser)
    (h : parse_primary n p = .ok (a, pa)) (hf : n < f) :
    parse_binary f p m = parse_binary_loop (f - 1) pa a m := by
  obtain ⟨g, rfl⟩ : ∃ g, f = g + 1 := ⟨f - 1, by omega⟩
  rw [parse_binary, parse_primary_mono_le n g p _ h (by omega)]
  rfl

/-- Two binary operators in a row: the tree `parse_expression` builds. -/
theorem parse_two_operators (p pa pb pc : Parser) (a b c : Option ASTNode)
    (op1 op2 last : Token) (n k : Nat)
    (ha : parse_primary n p = .ok (a, pa))
    (h1 : Parser.peek pa = .ok op1)
    (hb : parse_primary n (Parser.advance pa) = .ok (b, pb))
    (h2 : Parser.peek pb = .ok op2)
    (hc : parse_primary n (Parser.advance pb) = .ok (c, pc))
    (h3 : Parser.peek pc = .ok last) (hlast : precedence last.type = 0)
    (hp1 : 0 < precedence op1.type) (hp2 : 0 < precedence op2.type) :
    parse_expression (n + 6 + k) p = .ok
      (if precedence op1.type < precedence op2.type then
        some (.binary_op op1.line op1.column op1.type a
          (some (.binary_op op2.line op2.column op2.type b c)))
       else
        some (.binary_op op2.line op2.column op2.type
          (some (.binary_op op1.line op1.column op1.type a b)) c), pc) := by
  have hn : 0 < n := by
    cases n with
    | zero => simp [parse_primary] at ha
    | succ n => omega
  have e0 : n + 6 + k = (n + 5 + k) + 1 := by omega
  rw [e0, parse_expression]
  generalize hF : n + 5 + k = F
  rw [parse_binary_step F n p 0 a pa ha (by omega)]
  rw [parse_binary_loop_step _ pa a 0 op1 (by omega) h1 hp1 (Nat.zero_le _)]
  rw [parse_binary_step _ n _ _ b pb hb (by omega)]
  by_cases hlt : precedence op1.type < precedence op2.type
  · simp only [hlt, if_true]
    rw [parse_binary_loop_step _ pb b _ op2 (by omega) h2 hp2 (by omega)]
    rw [parse_binary_step _ n _ _ c pc hc (by omega)]
    rw [parse_binary_loop_stop _ pc c _ last (by omega) h3 (Or.inl hlast)]
    simp only [bind, Except.bind]
    rw [parse_binary_loop_stop _ pc _ _ last (by omega) h3 (Or.inl hlast)]
    simp only []
    rw [parse_binary_loop_stop _ pc _ _ last (by omega) h3 (Or.inl hlast)]
  · simp only [hlt, if_false]
    rw [parse_binary_loop_stop _ pb b _ op2 (by omega) h2 (Or.inr (by omega))]
    simp only [bind, Except.bind]
    rw [parse_binary_loop_step _ pb _ 0 op2 (by omega) h2 hp2 (Nat.zero_le _)]
    rw [parse_binary_step _ n _ _ c pc hc (by omega)]
    rw [parse_binary_loop_stop _ pc c _ last (by omega) h3 (Or.inl hlast)]
    simp only [bind, Except.bind]
    rw [parse_binary_loop_stop _ pc _ _ last (by omega) h3 (Or.inl hlast)]


theorem precedence_of_level (t : TokenType) (l : Nat) (h : binary_level t = some l) :
    precedence t = l ∧ 0 < l := by
  cases t <;> simp [binary_level] at h <;> subst h <;> exact ⟨rfl, by decide⟩

theorem precedence_of_no_level (t : TokenType) (h : binary_level t = none) :
    precedence t = 0 := by
  cases t <;> simp [binary_level] at h <;> rfl


/-! ## Properties of the lexer and the parser -/

/-- The three stages composed on the token sequence of `sum_source`: the parse leaves the
error flag clear and the program writes exactly `30` and a newline. -/
theorem pipeline_sum_scenario :
    pipeline 64 sum_source = .ok { had_error := false, stdout := "30\n".toList } := by
  decide!

/-- The three stages composed on the token sequence of `if_source`: with `10 > 5` the
program writes `yes` and a newline, with `10 < 5` it writes nothing; the error flag is
clear in both runs. -/
theorem pipeline_if_scenario :
    pipeline 64 (if_source true) = .ok { had_error := false, stdout := "yes\n".toList } ∧
    pipeline 64 (if_source false) = .ok { had_error := false, stdout := [] } := by
  decide!

/-- C4. Precedence climbing. Let `a`, `b`, `c` be what `parse_primary` yields at the three
operand positions of `a OP1 b OP2 c` (`op1`, `op2` the operator tokens, `last` the token
after `c`, which is no binary operator), with `op1` on level `l1` and `op2` on level `l2`
of the order `or` < `and` < equality < relational < additive < multiplicative. With enough
fuel `parse_expression` yields `BinaryOp(op1, a, BinaryOp(op2, b, c))` when `l1 < l2`, and
`BinaryOp(op2, BinaryOp(op1, a, b), c)` when `l2 < l1` (the lower operator on top in both
cases); each node carries the position of its operator token. -/
theorem parse_expression_precedence (p pa pb pc : Parser) (a b c : Option ASTNode)
    (op1 op2 last : Token) (n l1 l2 : Nat)
    (ha : parse_primary n p = .ok (a, pa))
    (h1 : Parser.peek pa = .ok op1)
    (hb : parse_primary n (Parser.advance pa) = .ok (b, pb))
    (h2 : Parser.peek pb = .ok op2)
    (hc : parse_primary n (Parser.advance pb) = .ok (c, pc))
    (h3 : Parser.peek pc = .ok last) (hlast : binary_level last.type = none)
    (hl1 : binary_level op1.type = some l1) (hl2 : binary_level op2.type = some l2) :
    (l1 < l2 → ∀ k, parse_expression (n + 6 + k) p = .ok
      (some (.binary_op op1.line op1.column op1.type a
        (some (.binary_op op2.line op2.column op2.type b c))), pc)) ∧
    (l2 < l1 → ∀ k, parse_expression (n + 6 + k) p = .ok
      (some (.binary_op op2.line op2.column op2.type
        (some (.binary_op op1.line op1.column op1.type a b)) c), pc)) := by
  obtain ⟨e1, p1⟩ := precedence_of_level _ _ hl1
  obtain ⟨e2, p2⟩ := precedence_of_level _ _ hl2
  have e3 := precedence_of_no_level _ hlast
  constructor
  · intro hlt k
    rw [parse_two_operators p pa pb pc a b c op1 op2 last n k ha h1 hb h2 hc h3 e3
      (by omega) (by omega)]
    rw [if_pos (by omega)]
  · intro hlt k
    rw [parse_two_operators p pa pb pc a b c op1 op2 last n k ha h1 hb h2 hc h3 e3
      (by omega) (by omega)]
    rw [if_neg (by omega)]

/-- C4, at `x + y * z` and at `x * y + z`. -/
theorem parse_expression_precedence_witness :
    parse_expression 7
        (operator_cursor (create_token .PLUS ['+'] 1 3) (create_token .STAR ['*'] 1 7) 0) = .ok
      (some (.binary_op 1 3 .PLUS (some (.identifier 1 1 ['x']))
        (some (.binary_op 1 7 .STAR (some (.identifier 1 5 ['y']))
          (some (.identifier 1 9 ['z']))))),
       operator_cursor (create_token .PLUS ['+'] 1 3) (create_token .STAR ['*'] 1 7) 5) ∧
    parse_expression 7
        (operator_cursor (create_token .STAR ['*'] 1 3) (create_token .PLUS ['+'] 1 7) 0) = .ok
      (some (.binary_op 1 7 .PLUS
        (some (.binary_op 1 3 .STAR (some (.identifier 1 1 ['x']))
          (some (.identifier 1 5 ['y']))))
        (some (.identifier 1 9 ['z']))),
       operator_cursor (create_token .STAR ['*'] 1 3) (create_token .PLUS ['+'] 1 7) 5) :=
  ⟨(parse_expression_precedence
      (operator_cursor (create_token .PLUS ['+'] 1 3) (create_token .STAR ['*'] 1 7) 0)
      (operator_cursor (create_token .PLUS ['+'] 1 3) (create_token .STAR ['*'] 1 7) 1)
      (operator_cursor (create_token .PLUS ['+'] 1 3) (create_token .STAR ['*'] 1 7) 3)
      (operator_cursor (create_token .PLUS ['+'] 1 3) (create_token .STAR ['*'] 1 7) 5)
      (some (.identifier 1 1 ['x'])) (some (.identifier 1 5 ['y'])) (some (.identifier 1 9 ['z']))
      (create_token .PLUS ['+'] 1 3) (create_token .STAR ['*'] 1 7) (create_token .EOF [] 1 10)
      1 5 6 rfl rfl rfl rfl rfl rfl rfl rfl rfl).1 (by decide) 0,
   (parse_expression_precedence
      (operator_cursor (create_token .STAR ['*'] 1 3) (create_token .PLUS ['+'] 1 7) 0)
      (operator_cursor (create_token .STAR ['*'] 1 3) (create_token .PLUS ['+'] 1 7) 1)
      (operator_cursor (create_token .STAR ['*'] 1 3) (create_token .PLUS ['+'] 1 7) 3)
      (operator_cursor (create_token .STAR ['*'] 1 3) (create_token .PLUS ['+'] 1 7) 5)
      (some (.identifier 1 1 ['x'])) (some (.identifier 1 5 ['y'])) (some (.identifier 1 9 ['z']))
      (create_token .STAR ['*'] 1 3) (create_token .PLUS ['+'] 1 7) (create_token .EOF [] 1 10)
      1 6 5 rfl rfl rfl rfl rfl rfl rfl rfl rfl).2 (by decide) 0⟩

/-- C5. Left associativity. With `a`, `b`, `c`, `op1`, `op2`, `last` as in C4 and both
operators on the same level (the same operator twice included), `parse_expression` yields
the left-nested tree `BinaryOp(op2, BinaryOp(op1, a, b), c)`. -/
theorem parse_expression_left_assoc (p pa pb pc : Parser) (a b c : Option ASTNode)
    (op1 op2 last : Token) (n l : Nat)
    (ha : parse_primary n p = .ok (a, pa))
    (h1 : Parser.peek pa = .ok op1)
    (hb : parse_primary n (Parser.advance pa) = .ok (b, pb))
    (h2 : Parser.peek pb = .ok op2)
    (hc : parse_primary n (Parser.advance pb) = .ok (c, pc))
    (h3 : Parser.peek pc = .ok last) (hlast : binary_level last.type = none)
    (hl1 : binary_level op1.type = some l) (hl2 : binary_level op2.type = some l) (k : Nat) :
    parse_expression (n + 6 + k) p = .ok
      (some (.binary_op op2.line op2.column op2.type
        (some (.binary_op op1.line op1.column op1.type a b)) c), pc) := by
  obtain ⟨e1, p1⟩ := precedence_of_level _ _ hl1
  obtain ⟨e2, p2⟩ := precedence_of_level _ _ hl2
  have e3 := precedence_of_no_level _ hlast
  rw [parse_two_operators p pa pb pc a b c op1 op2 last n k ha h1 hb h2 hc h3 e3
    (by omega) (by omega)]
  rw [if_neg (by omega)]

/-- C5, at `x - y + z`. -/
theorem parse_expression_left_assoc_witness :
    parse_expression 7
        (operator_cursor (create_token .MINUS ['-'] 1 3) (create_token .PLUS ['+'] 1 7) 0) = .ok
      (some (.binary_op 1 7 .PLUS
        (some (.binary_op 1 3 .MINUS (some (.identifier 1 1 ['x']))
          (some (.identifier 1 5 ['y']))))
        (some (.identifier 1 9 ['z']))),
       operator_cursor (create_token .MINUS ['-'] 1 3) (create_token .PLUS ['+'] 1 7) 5) :=
  parse_expression_left_assoc
    (operator_cursor (create_token .MINUS ['-'] 1 3) (create_token .PLUS ['+'] 1 7) 0)
    (operator_cursor (create_token .MINUS ['-'] 1 3) (create_token .PLUS ['+'] 1 7) 1)
    (operator_cursor (create_token .MINUS ['-'] 1 3) (create_token .PLUS ['+'] 1 7) 3)
    (operator_cursor (create_token .MINUS ['-'] 1 3) (create_token .PLUS ['+'] 1 7) 5)
    (some (.identifier 1 1 ['x'])) (some (.identifier 1 5 ['y'])) (some (.identifier 1 9 ['z']))
    (create_token .MINUS ['-'] 1 3) (create_token .PLUS ['+'] 1 7) (create_token .EOF [] 1 10)
    1 5 rfl rfl rfl rfl rfl rfl rfl rfl rfl 0

/-- C6 (counterexample). The source `"a"` has neither comment nor blank and tokenizes to
STRING, EOF; the lexemes concatenate to `a`, without the quotes, not to the source. -/
theorem lexeme_round_trip_fails :
    (lexer_tokenize 8 ['"', 'a', '"']).map (fun ts => ts.map Token.type) = some [.STRING, .EOF] ∧
    significant_text .code ['"', 'a', '"'] = some ['"', 'a', '"'] ∧
    (lexer_tokenize 8 ['"', 'a', '"']).map (fun ts => ts.flatMap Token.lexeme) = some ['a'] := by
  decide!

/-- C6 (amended). For every source on which `significant_text` is defined and on which
`lexer_tokenize` ends with an EOF token, concatenating the texts of the returned tokens in
order (the lexeme, between double quotes for a STRING token) reproduces the source text
with its comments and the blanks between tokens removed. -/
theorem lexer_round_trip (fuel : Nat) (source text : List Char) (ts : List Token)
    (h : significant_text .code source = some text)
    (e : lexer_tokenize fuel source = some ts)
    (hl : ts.getLast?.map Token.type = some .EOF) :
    ts.flatMap token_text = text :=
  lexer_tokenize_loop_text fuel (lexer_init source) text ts h e hl

/-- C6 (amended), at a source with a string literal, a comment and blanks. -/
theorem lexer_round_trip_witness :
    significant_text .code "x = \"a b\" <-- note --> + y1 <= 2.5\n".toList
      = some "x=\"a b\"+y1<=2.5".toList ∧
    lexer_tokenize 64 "x = \"a b\" <-- note --> + y1 <= 2.5\n".toList
      = some ((lexer_tokenize 64 "x = \"a b\" <-- note --> + y1 <= 2.5\n".toList).getD []) ∧
    ((lexer_tokenize 64 "x = \"a b\" <-- note --> + y1 <= 2.5\n".toList).getD []).getLast?.map
      Token.type = some .EOF ∧
    ((lexer_tokenize 64 "x = \"a b\" <-- note --> + y1 <= 2.5\n".toList).getD []).flatMap
      token_text = "x=\"a b\"+y1<=2.5".toList :=
  ⟨by decide!, by decide!, by decide!,
   lexer_round_trip 64 "x = \"a b\" <-- note --> + y1 <= 2.5\n".toList
     "x=\"a b\"+y1<=2.5".toList
     ((lexer_tokenize 64 "x = \"a b\" <-- note --> + y1 <= 2.5\n".toList).getD [])
     (by decide!) (by decide!) (by decide!)⟩

/-- C7. For every source, `lexer_tokenize` returns (fuel `length + 2` is enough), and
whenever it returns, with whatever fuel, the sequence holds no NEWLINE token, its last
token is EOF or ERROR, and no token before the last is EOF or ERROR. -/
theorem lexer_tokenize_ends_once (source : List Char) :
    (∃ ts, lexer_tokenize (source.length + 2) source = some ts) ∧
    ∀ fuel, lexer_tokenize fuel source = none ∨
      ∃ ts, lexer_tokenize fuel source = some ts ∧ (∀ t ∈ ts, t.type ≠ .NEWLINE) ∧
        ∃ init last, ts = init ++ [last] ∧ (last.type = .EOF ∨ last.type = .ERROR) ∧
          ∀ t ∈ init, t.type ≠ .EOF ∧ t.type ≠ .ERROR :=
  ⟨lexer_tokenize_loop_total (source.length + 2) (lexer_init source) (by
      show source.length + 1 < source.length + 2
      omega),
   fun fuel => lexer_tokenize_loop_shape fuel (lexer_init source)⟩

/-! ## Evaluator -/

/-- One more unit of fuel leaves every result of the evaluator as it is, once it is not out
of fuel. -/
theorem eval_mono (n : Nat) :
    (∀ st e, FuelLe (eval_expression n st e) (eval_expression (n + 1) st e)) ∧
    (∀ st o l r, FuelLe (eval_binary_op n st o l r) (eval_binary_op (n + 1) st o l r)) ∧
    (∀ st a, FuelLe (eval_args n st a) (eval_args (n + 1) st a)) ∧
    (∀ st c a, FuelLe (eval_call n st c a) (eval_call (n + 1) st c a)) ∧
    (∀ st x i, FuelLe (eval_var_decl n st x i) (eval_var_decl (n + 1) st x i)) ∧
    (∀ st c t e, FuelLe (eval_if n st c t e) (eval_if (n + 1) st c t e)) ∧
    (∀ st c b, FuelLe (eval_while n st c b) (eval_while (n + 1) st c b)) ∧
    (∀ st t v, FuelLe (eval_assignment n st t v) (eval_assignment (n + 1) st t v)) ∧
    (∀ st s r, FuelLe (eval_block_loop n st s r) (eval_block_loop (n + 1) st s r)) ∧
    (∀ st s, FuelLe (eval_block n st s) (eval_block (n + 1) st s)) ∧
    (∀ st e, FuelLe (eval_node n st e) (eval_node (n + 1) st e)) := by
  induction n with
  | zero =>
    refine ⟨fun _ _ => ?_, fun _ _ _ _ => ?_, fun _ _ => ?_, fun _ _ _ => ?_, fun _ _ _ => ?_,
      fun _ _ _ _ => ?_, fun _ _ _ => ?_, fun _ _ _ => ?_, fun _ _ _ => ?_, fun _ _ => ?_,
      fun _ _ => ?_⟩ <;> first | (rw [eval_expression]; exact FuelLe.bot _) | (rw [eval_binary_op]; exact FuelLe.bot _) | (rw [eval_args]; exact FuelLe.bot _) | (rw [eval_call]; exact FuelLe.bot _) | (rw [eval_var_decl]; exact FuelLe.bot _) | (rw [eval_if]; exact FuelLe.bot _) | (rw [eval_while]; exact FuelLe.bot _) | (rw [eval_assignment]; exact FuelLe.bot _) | (rw [eval_block_loop]; exact FuelLe.bot _) | (rw [eval_block]; exact FuelLe.bot _) | (rw [eval_node]; exact FuelLe.bot _)
  | succ n ih =>
    obtain ⟨ih1, ih2, ih3, ih4, ih5, ih6, ih7, ih8, ih9, ih10, ih11⟩ := ih
    refine ⟨fun st e => ?_, fun st o l r => ?_, fun st a => ?_, fun st c a => ?_,
      fun st x i => ?_, fun st c t e => ?_, fun st c b => ?_, fun st t v => ?_,
      fun st s r => ?_, fun st s => ?_, fun st e => ?_⟩
    · cases e with
      | none => rw [eval_expression, eval_expression]; exact FuelLe.refl _
      | some node =>
        cases node <;> simp only [eval_expression] <;>
        repeat' first
          | with_reducible exact FuelLe.refl _
          | with_reducible exact ih1 _ _
          | with_reducible exact ih2 _ _ _ _
          | with_reducible exact ih3 _ _
          | with_reducible exact ih4 _ _ _
          | with_reducible exact ih5 _ _ _
          | with_reducible exact ih6 _ _ _ _
          | with_reducible exact ih7 _ _ _
          | with_reducible exact ih8 _ _ _
          | with_reducible exact ih9 _ _ _
          | with_reducible exact ih10 _ _
          | with_reducible exact ih11 _ _
          | apply FuelLe.ite
          | (apply FuelLe.bind; rotate_left; rintro ⟨_, _⟩)
          | (apply FuelLe.bind; rotate_left; intro _)
          | split
    · rw [eval_binary_op, eval_binary_op]
      repeat' first
        | with_reducible exact FuelLe.refl _
        | with_reducible exact ih1 _ _
        | with_reducible exact ih2 _ _ _ _
        | with_reducible exact ih3 _ _
        | with_reducible exact ih4 _ _ _
        | with_reducible exact ih5 _ _ _
        | with_reducible exact ih6 _ _ _ _
        | with_reducible exact ih7 _ _ _
        | with_reducible exact ih8 _ _ _
        | with_reducible exact ih9 _ _ _
        | with_reducible exact ih10 _ _
        | with_reducible exact ih11 _ _
        | apply FuelLe.ite
        | (apply FuelLe.bind; rotate_left; rintro ⟨_, _⟩)
        | (apply FuelLe.bind; rotate_left; intro _)
        | split
    · cases a with
      | nil => rw [eval_args, eval_args]; exact FuelLe.refl _
      | cons x rest =>
        rw [eval_args, eval_args]
        repeat' first
          | with_reducible exact FuelLe.refl _
          | with_reducible exact ih1 _ _
          | with_reducible exact ih2 _ _ _ _
          | with_reducible exact ih3 _ _
          | with_reducible exact ih4 _ _ _
          | with_reducible exact ih5 _ _ _
          | with_reducible exact ih6 _ _ _ _
          | with_reducible exact ih7 _ _ _
          | with_reducible exact ih8 _ _ _
          | with_reducible exact ih9 _ _ _
          | with_reducible exact ih10 _ _
          | with_reducible exact ih11 _ _
          | apply FuelLe.ite
          | (apply FuelLe.bind; rotate_left; rintro ⟨_, _⟩)
          | (apply FuelLe.bind; rotate_left; intro _)
          | split
    · rw [eval_call, eval_call]
      repeat' first
        | with_reducible exact FuelLe.refl _
        | with_reducible exact ih1 _ _
        | with_reducible exact ih2 _ _ _ _
        | with_reducible exact ih3 _ _
        | with_reducible exact ih4 _ _ _
        | with_reducible exact ih5 _ _ _
        | with_reducible exact ih6 _ _ _ _
        | with_reducible exact ih7 _ _ _
        | with_reducible exact ih8 _ _ _
        | with_reducible exact ih9 _ _ _
        | with_reducible exact ih10 _ _
        | with_reducible exact ih11 _ _
        | apply FuelLe.ite
        | (apply FuelLe.bind; rotate_left; rintro ⟨_, _⟩)
        | (apply FuelLe.bind; rotate_left; intro _)
        | split
    · cases i <;> simp only [eval_var_decl] <;>
      repeat' first
        | with_reducible exact FuelLe.refl _
        | with_reducible exact ih1 _ _
        | with_reducible exact ih2 _ _ _ _
        | with_reducible exact ih3 _ _
        | with_reducible exact ih4 _ _ _
        | with_reducible exact ih5 _ _ _
        | with_reducible exact ih6 _ _ _ _
        | with_reducible exact ih7 _ _ _
        | with_reducible exact ih8 _ _ _
        | with_reducible exact ih9 _ _ _
        | with_reducible exact ih10 _ _
        | with_reducible exact ih11 _ _
        | apply FuelLe.ite
        | (apply FuelLe.bind; rotate_left; rintro ⟨_, _⟩)
        | (apply FuelLe.bind; rotate_left; intro _)
        | split
    · rw [eval_if, eval_if]
      repeat' first
        | with_reducible exact FuelLe.refl _
        | with_reducible exact ih1 _ _
        | with_reducible exact ih2 _ _ _ _
        | with_reducible exact ih3 _ _
        | with_reducible exact ih4 _ _ _
        | with_reducible exact ih5 _ _ _
        | with_reducible exact ih6 _ _ _ _
        | with_reducible exact ih7 _ _ _
        | with_reducible exact ih8 _ _ _
        | with_reducible exact ih9 _ _ _
        | with_reducible exact ih10 _ _
        | with_reducible exact ih11 _ _
        | apply FuelLe.ite
        | (apply FuelLe.bind; rotate_left; rintro ⟨_, _⟩)
        | (apply FuelLe.bind; rotate_left; intro _)
        | split
    · rw [eval_while, eval_while]
      repeat' first
        | with_reducible exact FuelLe.refl _
        | with_reducible exact ih1 _ _
        | with_reducible exact ih2 _ _ _ _
        | with_reducible exact ih3 _ _
        | with_reducible exact ih4 _ _ _
        | with_reducible exact ih5 _ _ _
        | with_reducible exact ih6 _ _ _ _
        | with_reducible exact ih7 _ _ _
        | with_reducible exact ih8 _ _ _
        | with_reducible exact ih9 _ _ _
        | with_reducible exact ih10 _ _
        | with_reducible exact ih11 _ _
        | apply FuelLe.ite
        | (apply FuelLe.bind; rotate_left; rintro ⟨_, _⟩)
        | (apply FuelLe.bind; rotate_left; intro _)
        | split
    · rw [eval_assignment, eval_assignment]
      repeat' first
        | with_reducible exact FuelLe.refl _
        | with_reducible exact ih1 _ _
        | with_reducible exact ih2 _ _ _ _
        | with_reducible exact ih3 _ _
        | with_reducible exact ih4 _ _ _
        | with_reducible exact ih5 _ _ _
        | with_reducible exact ih6 _ _ _ _
        | with_reducible exact ih7 _ _ _
        | with_reducible exact ih8 _ _ _
        | with_reducible exact ih9 _ _ _
        | with_reducible exact ih10 _ _
        | with_reducible exact ih11 _ _
        | apply FuelLe.ite
        | (apply FuelLe.bind; rotate_left; rintro ⟨_, _⟩)
        | (apply FuelLe.bind; rotate_left; intro _)
        | split
    · cases s with
      | nil => rw [eval_block_loop, eval_block_loop]; exact FuelLe.refl _
      | cons x rest =>
        rw [eval_block_loop, eval_block_loop]
        repeat' first
          | with_reducible exact FuelLe.refl _
          | with_reducible exact ih1 _ _
          | with_reducible exact ih2 _ _ _ _
          | with_reducible exact ih3 _ _
          | with_reducible exact ih4 _ _ _
          | with_reducible exact ih5 _ _ _
          | with_reducible exact ih6 _ _ _ _
          | with_reducible exact ih7 _ _ _
          | with_reducible exact ih8 _ _ _
          | with_reducible exact ih9 _ _ _
          | with_reducible exact ih10 _ _
          | with_reducible exact ih11 _ _
          | apply FuelLe.ite
          | (apply FuelLe.bind; rotate_left; rintro ⟨_, _⟩)
          | (apply FuelLe.bind; rotate_left; intro _)
          | split
    · rw [eval_block, eval_block]
      repeat' first
        | with_reducible exact FuelLe.refl _
        | with_reducible exact ih1 _ _
        | with_reducible exact ih2 _ _ _ _
        | with_reducible exact ih3 _ _
        | with_reducible exact ih4 _ _ _
        | with_reducible exact ih5 _ _ _
        | with_reducible exact ih6 _ _ _ _
        | with_reducible exact ih7 _ _ _
        | with_reducible exact ih8 _ _ _
        | with_reducible exact ih9 _ _ _
        | with_reducible exact ih10 _ _
        | with_reducible exact ih11 _ _
        | apply FuelLe.ite
        | (apply FuelLe.bind; rotate_left; rintro ⟨_, _⟩)
        | (apply FuelLe.bind; rotate_left; intro _)
        | split
    · cases e with
      | none => rw [eval_node, eval_node]; exact FuelLe.refl _
      | some node =>
        cases node <;> simp only [eval_node] <;>
        repeat' first
          | with_reducible exact FuelLe.refl _
          | with_reducible exact ih1 _ _
          | with_reducible exact ih2 _ _ _ _
          | with_reducible exact ih3 _ _
          | with_reducible exact ih4 _ _ _
          | with_reducible exact ih5 _ _ _
          | with_reducible exact ih6 _ _ _ _
          | with_reducible exact ih7 _ _ _
          | with_reducible exact ih8 _ _ _
          | with_reducible exact ih9 _ _ _
          | with_reducible exact ih10 _ _
          | with_reducible exact ih11 _ _
          | apply FuelLe.ite
          | (apply FuelLe.bind; rotate_left; rintro ⟨_, _⟩)
          | (apply FuelLe.bind; rotate_left; intro _)
          | split

/-- More fuel leaves a run of the interpreter as it is, once it is not out of fuel. -/
theorem interpreter_run_mono (n k : Nat) (st : Interpreter) (ast : ASTNode) :
    FuelLe (interpreter_run n st ast) (interpreter_run (n + k) st ast) := by
  induction k with
  | zero => exact FuelLe.refl _
  | succ k ih =>
    refine FuelLe.trans ih ?_
    unfold interpreter_run
    apply FuelLe.bind (FuelLe.refl _)
    intro st1
    apply FuelLe.bind ((eval_mono (n + k)).2.2.2.2.2.2.2.2.2.2 st1 (some ast))
    intro a
    exact FuelLe.refl _

/-- A run that shows a fault on its streams is that fault. -/
theorem streams_error {r : Except Fault Interpreter} {e : Fault} (h : streams r = .error e) :
    r = .error e := by
  cases r with
  | error e1 => simpa [streams, Except.map] using h
  | ok st => simp [streams, Except.map] at h

/-- The run of `closure_program`, evaluated. -/
theorem closure_run_base :
    streams (interpreter_run 14 interpreter_init closure_program) = .error .scope_freed := by
  decide!

theorem closure_run_faults (k : Nat) :
    interpreter_run (14 + k) interpreter_init closure_program = .error .scope_freed := by
  have h := interpreter_run_mono 14 k interpreter_init closure_program
  rw [streams_error closure_run_base] at h
  rcases h with h | h
  · exact absurd h (by simp)
  · exact h.symm

theorem closure_run_never_returns (fuel : Nat) (st : Interpreter) :
    interpreter_run fuel interpreter_init closure_program ≠ .ok st := by
  intro e
  by_cases hf : fuel < 14
  · have h := interpreter_run_mono fuel (14 - fuel) interpreter_init closure_program
    rw [show fuel + (14 - fuel) = 14 + 0 by omega, closure_run_faults 0, e] at h
    rcases h with h | h <;> simp at h
  · rw [show fuel = 14 + (fuel - 14) by omega, closure_run_faults] at e
    simp at e

/-! ### Bindings of one scope -/

theorem bindings_set_none {bs : List (List Char × Nat)} {x : List Char} (v : Nat)
    (h : bs.lookup x = none) : bindings_set bs x v = none := by
  induction bs with
  | nil => rfl
  | cons b rest ih =>
    obtain ⟨n, w⟩ := b
    by_cases hn : n = x
    · subst hn; simp [List.lookup] at h
    · have hx : (x == n) = false := by simpa using fun e => hn e.symm
      simp only [List.lookup, hx] at h
      simp [bindings_set, hn, ih h]

theorem bindings_set_some {bs : List (List Char × Nat)} {x : List Char} {w : Nat} (v : Nat)
    (h : bs.lookup x = some w) :
    ∃ r, bindings_set bs x v = some r ∧ r.lookup x = some v ∧
      ∀ y, y ≠ x → r.lookup y = bs.lookup y := by
  induction bs with
  | nil => simp [List.lookup] at h
  | cons b rest ih =>
    obtain ⟨n, u⟩ := b
    by_cases hn : n = x
    · subst hn
      refine ⟨(n, v) :: rest, by simp [bindings_set], by simp [List.lookup], ?_⟩
      intro y hy
      have : (y == n) = false := by simpa using hy
      simp [List.lookup, this]
    · have hx : (x == n) = false := by simpa using fun e => hn e.symm
      simp only [List.lookup, hx] at h
      obtain ⟨r, hr, hrx, hro⟩ := ih h
      refine ⟨(n, u) :: r, by simp [bindings_set, hn, hr], by simp [List.lookup, hx, hrx], ?_⟩
      intro y hy
      by_cases hyn : (y == n) = true
      · simp [List.lookup, hyn]
      · have hyn2 : (y == n) = false := by simpa using hyn
        simp [List.lookup, hyn2, hro y hy]

theorem lookup_append_new (bs : List (List Char × Nat)) (x y : List Char) (v : Nat) :
    (bs ++ [(x, v)]).lookup y = match bs.lookup y with
      | some w => some w
      | none => if y = x then some v else none := by
  induction bs with
  | nil =>
    by_cases h : y = x
    · subst h; simp [List.lookup]
    · have : (y == x) = false := by simpa using h
      simp [List.lookup, this, h]
  | cons b rest ih =>
    obtain ⟨n, u⟩ := b
    by_cases hyn : (y == n) = true
    · simp [List.lookup, hyn]
    · have hyn2 : (y == n) = false := by simpa using hyn
      simp only [List.cons_append, List.lookup, hyn2]
      exact ih

/-- After `scope_define` the scope binds the name to the value. -/
theorem lookup_bindings_define_same (bs : List (List Char × Nat)) (x : List Char) (v : Nat) :
    (bindings_define bs x v).lookup x = some v := by
  unfold bindings_define
  cases h : bs.lookup x with
  | none => rw [bindings_set_none v h]; simp [lookup_append_new, h]
  | some w =>
    obtain ⟨r, hr, hrx, _⟩ := bindings_set_some v h
    rw [hr]; exact hrx

/-- After `scope_define` the other names of the scope are bound as before. -/
theorem lookup_bindings_define_other (bs : List (List Char × Nat)) {x y : List Char} (v : Nat)
    (hy : y ≠ x) : (bindings_define bs x v).lookup y = bs.lookup y := by
  unfold bindings_define
  cases h : bs.lookup x with
  | none =>
    rw [bindings_set_none v h]
    simp only [lookup_append_new, hy, if_false]
    cases bs.lookup y <;> rfl
  | some w =>
    obtain ⟨r, hr, _, hro⟩ := bindings_set_some v h
    rw [hr]; exact hro y hy

theorem scope_at_lt {st : Interpreter} {s : Nat} {sc : Scope} (h : st.scope_at s = .ok sc) :
    s < st.scopes.length := by
  unfold Interpreter.scope_at at h
  by_contra hlt
  rw [List.get?_eq_none.mpr (Nat.le_of_not_lt hlt)] at h
  simp at h

theorem load_lt {st : Interpreter} {p : Nat} {v : Value} (h : st.load p = .ok v) :
    p < st.values.length := by
  unfold Interpreter.load at h
  by_contra hlt
  rw [List.get?_eq_none.mpr (Nat.le_of_not_lt hlt)] at h
  simp at h

theorem scope_at_congr {st1 st2 : Interpreter} (h : st1.scopes = st2.scopes) (s : Nat) :
    st1.scope_at s = st2.scope_at s := by
  unfold Interpreter.scope_at; rw [h]

theorem load_congr {st1 st2 : Interpreter} (h : st1.values = st2.values) (p : Nat) :
    st1.load p = st2.load p := by
  unfold Interpreter.load; rw [h]

theorem scope_at_put_scope {st : Interpreter} {s : Nat} (sc : Scope) (h : s < st.scopes.length) :
    (st.put_scope s sc).scope_at s = .ok sc := by
  simp [Interpreter.scope_at, Interpreter.put_scope, List.get?_eq_getElem?, List.getElem?_set, h]

theorem load_create_value_new (st : Interpreter) (t : ValueType) :
    (st.create_value t).2.load st.values.length = .ok ⟨t, false, .zeroed⟩ := by
  simp [Interpreter.load, Interpreter.create_value, List.get?_eq_getElem?]

theorem load_create_value_old {st : Interpreter} {p : Nat} (t : ValueType)
    (h : p < st.values.length) : (st.create_value t).2.load p = st.load p := by
  simp [Interpreter.load, Interpreter.create_value, List.get?_eq_getElem?,
    List.getElem?_append_left h]

theorem load_eval_literal_new (st : Interpreter) (lit : Literal) :
    (eval_literal st lit).2.load st.values.length = .ok (literal_value lit) := by
  simp [eval_literal, Interpreter.load, Interpreter.create_value, Interpreter.store,
    Interpreter.gc_register, List.get?_eq_getElem?, List.getElem?_set]

theorem eval_literal_fst (st : Interpreter) (lit : Literal) :
    (eval_literal st lit).1 = st.values.length := rfl

theorem scope_get_walk_congr {st1 st2 : Interpreter} (h : st1.scopes = st2.scopes)
    (fuel s : Nat) (x : List Char) : scope_get_walk st1 fuel s x = scope_get_walk st2 fuel s x := by
  induction fuel generalizing s with
  | zero => rfl
  | succ n ih =>
    rw [scope_get_walk, scope_get_walk, scope_at_congr h]
    cases st2.scope_at s with
    | error e => rfl
    | ok sc =>
      simp only [bind, Except.bind]
      cases sc.bindings.lookup x with
      | some v => rfl
      | none =>
        cases sc.parent with
        | none => rfl
        | some p => exact ih p

/-- A lookup that returns is not changed by more fuel. -/
theorem scope_get_walk_fuel {st : Interpreter} {fuel s : Nat} {x : List Char} {r : Option Nat}
    (h : scope_get_walk st fuel s x = .ok r) (k : Nat) :
    scope_get_walk st (fuel + k) s x = .ok r := by
  induction fuel generalizing s with
  | zero => simp [scope_get_walk] at h
  | succ n ih =>
    rw [show n + 1 + k = (n + k) + 1 by omega, scope_get_walk]
    rw [scope_get_walk] at h
    cases hs : st.scope_at s with
    | error e => rw [hs] at h; simp [bind, Except.bind] at h
    | ok sc =>
      rw [hs] at h
      simp only [bind, Except.bind] at h ⊢
      cases hl : sc.bindings.lookup x with
      | some v => rw [hl] at h; exact h
      | none =>
        rw [hl] at h
        cases hp : sc.parent with
        | none => rw [hp] at h; exact h
        | some p => rw [hp] at h; exact ih h

/-- A lookup that returns is not changed by scopes allocated after it. -/
theorem scope_get_walk_append {st st2 : Interpreter} {fuel s : Nat} {x : List Char}
    {r : Option Nat} (extra : List (Option Scope)) (h2 : st2.scopes = st.scopes ++ extra)
    (h : scope_get_walk st fuel s x = .ok r) : scope_get_walk st2 fuel s x = .ok r := by
  induction fuel generalizing s with
  | zero => simp [scope_get_walk] at h
  | succ n ih =>
    rw [scope_get_walk] at h ⊢
    cases hs : st.scope_at s with
    | error e => rw [hs] at h; simp [bind, Except.bind] at h
    | ok sc =>
      have hs2 : st2.scope_at s = .ok sc := by
        have hlt := scope_at_lt hs
        unfold Interpreter.scope_at at hs ⊢
        rw [h2, List.get?_eq_getElem?, List.getElem?_append_left hlt, ← List.get?_eq_getElem?]
        exact hs
      rw [hs] at h
      rw [hs2]
      simp only [bind, Except.bind] at h ⊢
      cases hl : sc.bindings.lookup x with
      | some v => rw [hl] at h; exact h
      | none =>
        rw [hl] at h
        cases hp : sc.parent with
        | none => rw [hp] at h; exact h
        | some p => rw [hp] at h; exact ih h

/-- The lookup in a scope just allocated with no bindings and parent `c` is the lookup
in `c`. -/
theorem scope_get_fresh {st st2 : Interpreter} {c : Nat} {x : List Char} {r : Option Nat}
    (h2 : st2.scopes = st.scopes ++ [some { bindings := [], parent := some c }])
    (h : scope_get st c x = .ok r) : scope_get st2 st.scopes.length x = .ok r := by
  have hs : st2.scope_at st.scopes.length = .ok { bindings := [], parent := some c } := by
    simp [Interpreter.scope_at, h2, List.get?_eq_getElem?]
  rw [scope_get, h2, List.length_append, List.length_singleton, scope_get_walk, hs]
  simp only [bind, Except.bind, List.lookup]
  exact scope_get_walk_append _ h2 h

theorem scope_define_ok {st : Interpreter} {s : Nat} {sc : Scope} (x : List Char) (v : Nat)
    (hs : st.scope_at s = .ok sc) :
    scope_define st s x v =
      .ok (st.put_scope s { sc with bindings := bindings_define sc.bindings x v }) := by
  simp [scope_define, hs, bind, Except.bind, pure, Except.pure]

theorem get_append_pair {α : Type} (l : List α) (a b : α) :
    (l ++ [a, b]).get? (l.length + 1) = some b := by
  induction l with
  | nil => rfl
  | cons h t ih => simpa using ih

/-- The call of a function whose body is `( return x )`, where the closure chain does not
bind `x`: the state it leaves. -/
theorem eval_call_reads (st : Interpreter) (k l c : Nat)
    (f x name : List Char) (params : List (List Char)) (marked : Bool)
    (fv cl : Nat)
    (hf : scope_get st st.current_scope f = .ok (some fv))
    (hv : st.load fv =
      .ok ⟨.FUNCTION, marked, .function name params (some (reads l c x)) (some cl)⟩)
    (hc : scope_get st cl x = .ok none) :
    eval_call (k + 6) st (some (.identifier l c f)) [] = .ok (st.values.length + 1,
      { st with
        values := st.values ++ [some ⟨.NULL, false, .zeroed⟩, some ⟨.NULL, false, .zeroed⟩],
        scopes := (st.scopes ++ [some (Scope.mk [] (some cl))]).set st.scopes.length none,
        stderr := st.stderr ++ "Undefined variable: ".toList ++ x ++ ['\n'],
        return_value := none }) := by
  have hg : ∀ s2 : Interpreter, s2.scopes = st.scopes ++ [some (Scope.mk [] (some cl))] →
      scope_get s2 st.scopes.length x = .ok none := fun s2 h2 => scope_get_fresh h2 hc
  simp only [eval_call, eval_expression, eval_identifier, hf, eval_args, bind, Except.bind, hv,
      pure, Except.pure, reads, bind_params, eval_node, eval_block, eval_block_loop,
      Interpreter.create_scope, Interpreter.create_value]
  rw [hg _ rfl]
  simp [finish_call, Interpreter.free_scope]

theorem set_append_length {α : Type} (l : List α) (a b : α) :
    (l ++ [a]).set l.length b = l ++ [b] := by
  induction l with
  | nil => rfl
  | cons h t ih => simp

/-- A lookup that returns is the same after a scope was allocated and freed again. -/
theorem scope_get_after_call {st st1 : Interpreter} {a : Option Scope} {s : Nat} {x : List Char}
    {r : Option Nat} (h : st1.scopes = (st.scopes ++ [a]).set st.scopes.length none)
    (hw : scope_get st s x = .ok r) : scope_get st1 s x = .ok r := by
  rw [set_append_length] at h
  have h2 := scope_get_walk_fuel (scope_get_walk_append [none] h hw) 1
  rw [scope_get, h, List.length_append, List.length_singleton]
  exact h2


theorem eval_node_block (n l c : Nat) (st : Interpreter) (statements : List ASTNode) :
    eval_node (n + 2) st (some (.block l c statements)) =
      eval_block_loop n (st.create_value .NULL).2 statements st.values.length := by
  simp only [eval_node, eval_block]

theorem eval_block_loop_cons {st st1 : Interpreter} {stmt : ASTNode} {n r : Nat}
    (rest : List ASTNode) (r0 : Nat) (h : eval_node n st (some stmt) = .ok (r, st1))
    (hr : st1.return_value = none) :
    eval_block_loop (n + 1) st (stmt :: rest) r0 = eval_block_loop n st1 rest r := by
  rw [eval_block_loop]
  simp only [bind, Except.bind, h, hr]
  rfl

theorem parser_parse_loop_mono (n : Nat) (p : Parser) (acc : List ASTNode) :
    FuelLe (parser_parse_loop n p acc) (parser_parse_loop (n + 1) p acc) := by
  induction n generalizing p acc with
  | zero => exact FuelLe.bot _
  | succ n ih =>
    rw [parser_parse_loop, parser_parse_loop]
    repeat' first
      | with_reducible exact FuelLe.refl _
      | with_reducible exact ih _ _
      | with_reducible exact (parser_mono n).2.2.2.2.2.2.2.2.2.2.2.2.2.2 _
      | apply FuelLe.ite
      | (apply FuelLe.bind; rotate_left; rintro ⟨_, _⟩)
      | (apply FuelLe.bind; rotate_left; intro _)

theorem parser_parse_mono (n : Nat) (p : Parser) :
    FuelLe (parser_parse n p) (parser_parse (n + 1) p) := by
  unfold parser_parse
  exact FuelLe.bind (parser_parse_loop_mono n p []) (fun _ => FuelLe.refl _)

/-- One more unit of fuel leaves the outcome of `run_source` as it is, once it is not out of
fuel. -/
theorem run_source_mono (source : List Char) (n : Nat) :
    FuelLe (run_source n source) (run_source (n + 1) source) := by
  unfold run_source
  rcases lexer_tokenize_loop_mono n (lexer_init source) with h | h
  · rw [lexer_tokenize, h]; exact FuelLe.bot _
  · rw [lexer_tokenize, lexer_tokenize, ← h]
    cases lexer_tokenize_loop n (lexer_init source) with
    | none => exact FuelLe.refl _
    | some tokens =>
      simp only []
      repeat' first
        | with_reducible exact FuelLe.refl _
        | with_reducible exact parser_parse_mono _ _
        | with_reducible exact interpreter_run_mono _ 1 _ _
        | apply FuelLe.ite
        | (apply FuelLe.bind; rotate_left; rintro ⟨_, _⟩)
        | (apply FuelLe.bind; rotate_left; intro _)
        | split

/-- A fault other than the end of the fuel, met with some fuel, is the outcome for every
larger fuel, and there is no fuel with which the run returns. -/
theorem FuelLe.of_fault {α : Type} (F : Nat → Except Fault α)
    (h : ∀ n, FuelLe (F n) (F (n + 1))) (n : Nat) (e : Fault) (he : e ≠ .out_of_fuel)
    (hn : F n = .error e) : (∀ k, F (n + k) = .error e) ∧ ∀ m a, F m ≠ .ok a := by
  have up : ∀ k, F (n + k) = .error e := by
    intro k
    rcases FuelLe.of_step F h n (n + k) (Nat.le_add_right _ _) with h1 | h1
    · rw [hn] at h1
      exact absurd (Except.error.inj h1) he
    · rw [← h1]; exact hn
  refine ⟨up, fun m a hm => ?_⟩
  rcases Nat.le_total m n with hmn | hnm
  · have h1 := (FuelLe.of_step F h m n hmn).ok_of hm
    rw [hn] at h1; cases h1
  · obtain ⟨k, rfl⟩ := Nat.exists_eq_add_of_le hnm
    rw [up k] at hm; cases hm

theorem sum_scenario_base : run_source 64 sum_source = .error .token_bounds := by
  decide!

theorem if_scenario_base (greater : Bool) :
    run_source 64 (if_source greater) = .error .token_bounds := by
  cases greater <;> decide!

theorem greet_scenario_base : run_source 64 greet_source = .error .token_bounds := by
  decide!

/-! ### The end-to-end scenarios -/

/-- C1 (evaluation at the failing input). `parser_init` keeps `*tokens`, the address of
the first token, as the token array of the parser, so the read of the second token is a
read past that one object. On the source of the scenario `run_source` stops with this fault
for every fuel from 64 on and returns for no fuel: no flag is delivered and nothing is
written. Composed on the token sequence itself, the three stages leave the error flag
clear and write `30` and a newline. -/
theorem run_source_sum_scenario_faults :
    (∀ k, run_source (64 + k) sum_source = .error .token_bounds) ∧
    (∀ fuel r, run_source fuel sum_source ≠ .ok r) ∧
    pipeline 64 sum_source = .ok { had_error := false, stdout := "30\n".toList } :=
  ⟨(FuelLe.of_fault (fun n => run_source n sum_source) (run_source_mono sum_source) 64
      .token_bounds (by decide) sum_scenario_base).1,
   (FuelLe.of_fault (fun n => run_source n sum_source) (run_source_mono sum_source) 64
      .token_bounds (by decide) sum_scenario_base).2,
   pipeline_sum_scenario⟩

/-- C2 (evaluation at the failing input). On the `greet` scenario `run_source` stops with
the read past the first token (as in C1) for every fuel from 64 on, and returns for no
fuel. Composed on the token sequence itself the stages do not return either, whatever the
fuel: `parse_block` reads the body until `end` or the end of input, so at the `)` that
closes the body `parse_statement` sets the error flag and consumes nothing, and the block
loop repeats for ever. -/
theorem run_source_greet_scenario_faults :
    (∀ k, run_source (64 + k) greet_source = .error .token_bounds) ∧
    (∀ fuel r, run_source fuel greet_source ≠ .ok r) ∧
    ∀ fuel, pipeline fuel greet_source = .error .out_of_fuel :=
  ⟨(FuelLe.of_fault (fun n => run_source n greet_source) (run_source_mono greet_source) 64
      .token_bounds (by decide) greet_scenario_base).1,
   (FuelLe.of_fault (fun n => run_source n greet_source) (run_source_mono greet_source) 64
      .token_bounds (by decide) greet_scenario_base).2,
   greet_pipeline_never_returns⟩

/-- C3 (evaluation at the failing input). On both sources of the scenario, with `10 > 5`
and with `10 < 5`, `run_source` stops with the read past the first token (as in C1) for
every fuel from 64 on, and returns for no fuel. Composed on the token sequence itself, the
three stages leave the error flag clear in both runs and write `yes` and a newline in the
first, nothing in the second. -/
theorem run_source_if_scenario_faults :
    (∀ greater k, run_source (64 + k) (if_source greater) = .error .token_bounds) ∧
    (∀ greater fuel r, run_source fuel (if_source greater) ≠ .ok r) ∧
    pipeline 64 (if_source true) = .ok { had_error := false, stdout := "yes\n".toList } ∧
    pipeline 64 (if_source false) = .ok { had_error := false, stdout := [] } :=
  ⟨fun greater => (FuelLe.of_fault (fun n => run_source n (if_source greater))
      (run_source_mono (if_source greater)) 64 .token_bounds (by decide)
      (if_scenario_base greater)).1,
   fun greater => (FuelLe.of_fault (fun n => run_source n (if_source greater))
      (run_source_mono (if_source greater)) 64 .token_bounds (by decide)
      (if_scenario_base greater)).2,
   pipeline_if_scenario⟩

/-! ### Properties of the evaluator -/

/-- C8 (evaluation at the failing input). `outer(5)` declares `inner` in its call scope,
which becomes the closure of `inner`, and returns it; `eval_call` then frees that scope.
The later call `f()` reads `a` through the closure, that is from the freed scope: the run
of `closure_program` faults with a read of a freed scope for every fuel from 14 on, and
returns for no fuel. The value 5 that `a` had in the outer call is not delivered. -/
theorem closure_read_after_return_faults :
    (∀ k, interpreter_run (14 + k) interpreter_init closure_program = .error .scope_freed) ∧
    ∀ fuel st, interpreter_run fuel interpreter_init closure_program ≠ .ok st :=
  ⟨closure_run_faults, closure_run_never_returns⟩

/-- C10. Let `f` name a user function whose closure scope is `cl` and whose body is
`( return x )`, and let `x` be bound in the caller's scope chain (to the live value at `w`)
but nowhere on the chain of `cl`. The call `f()` returns (fuel 6 and more); it allocates one
scope, with no bindings and parent `cl`, and frees it; the read of `x` in the body is an
undefined variable: the message goes to stderr and the call yields a fresh null value, not
`w`. After the call the caller's scope is current again and still binds `x` to `w`. -/
theorem eval_call_scope_parent_is_closure (st : Interpreter) (k l c : Nat)
    (f x name : List Char) (params : List (List Char)) (marked : Bool)
    (fv cl w : Nat) (wv : Value)
    (hf : scope_get st st.current_scope f = .ok (some fv))
    (hv : st.load fv =
      .ok ⟨.FUNCTION, marked, .function name params (some (reads l c x)) (some cl)⟩)
    (hw : scope_get st st.current_scope x = .ok (some w))
    (hwv : st.load w = .ok wv)
    (hc : scope_get st cl x = .ok none) :
    ∃ st1, eval_call (k + 6) st (some (.identifier l c f)) [] = .ok (st.values.length + 1, st1) ∧
      st1.load (st.values.length + 1) = .ok ⟨.NULL, false, .zeroed⟩ ∧
      st.values.length + 1 ≠ w ∧
      st1.stderr = st.stderr ++ "Undefined variable: ".toList ++ x ++ ['\n'] ∧
      st1.scopes = (st.scopes ++ [some (Scope.mk [] (some cl))]).set st.scopes.length none ∧
      st1.current_scope = st.current_scope ∧
      scope_get st1 st1.current_scope x = .ok (some w) := by
  have hlt := load_lt hwv
  refine ⟨_, eval_call_reads st k l c f x name params marked fv cl hf hv hc, ?_, by omega,
    rfl, rfl, rfl, ?_⟩
  · simp only [Interpreter.load, get_append_pair]
  · exact scope_get_after_call rfl hw

/-- C10, at `call_entry`: the caller's scope binds `x` to 5, `g` was declared in the global
scope, and `g()` reads `x` as undefined. -/
theorem eval_call_scope_parent_is_closure_witness :
    ∃ st1, eval_call 6 call_entry (some (.identifier 1 1 "g".toList)) [] = .ok (3, st1) ∧
      st1.load 3 = .ok ⟨.NULL, false, .zeroed⟩ ∧
      3 ≠ 1 ∧
      st1.stderr = "Undefined variable: x\n".toList ∧
      st1.scopes = [some (Scope.mk [("g".toList, 0)] none),
        some (Scope.mk [("x".toList, 1)] (some 0)), none] ∧
      st1.current_scope = 1 ∧
      scope_get st1 st1.current_scope "x".toList = .ok (some 1) :=
  eval_call_scope_parent_is_closure call_entry 0 1 1 "g".toList "x".toList "g".toList [] false
    0 0 1 (literal_value (.number (Double.atof "5".toList))) rfl rfl rfl rfl rfl

/-! ## Collector -/

/-- One more unit of fuel leaves the outcome of `gc_mark` and of its loop as it is, once it
is not out of fuel. -/
theorem gc_mark_mono (n : Nat) :
    (∀ st v, FuelLe (gc_mark n st v) (gc_mark (n + 1) st v)) ∧
    (∀ st vs, FuelLe (gc_mark_all n st vs) (gc_mark_all (n + 1) st vs)) := by
  induction n with
  | zero =>
    refine ⟨fun _ _ => ?_, fun _ _ => ?_⟩
    · rw [gc_mark]; exact FuelLe.bot _
    · rw [gc_mark_all]; exact FuelLe.bot _
  | succ n ih =>
    obtain ⟨ih1, ih2⟩ := ih
    refine ⟨fun st v => ?_, fun st vs => ?_⟩
    · cases v with
      | none => rw [gc_mark, gc_mark]; exact FuelLe.refl _
      | some p =>
        rw [gc_mark, gc_mark]
        repeat' first
          | with_reducible exact FuelLe.refl _
          | with_reducible exact ih1 _ _
          | with_reducible exact ih2 _ _
          | apply FuelLe.ite
          | (apply FuelLe.bind; rotate_left; intro _)
          | split
    · cases vs with
      | nil => rw [gc_mark_all, gc_mark_all]; exact FuelLe.refl _
      | cons p rest =>
        rw [gc_mark_all, gc_mark_all]
        exact FuelLe.bind (ih1 _ _) (fun _ => ih2 _ _)

theorem gc_mark_chain_mono (n : Nat) (st : Interpreter) (scope : Option Nat) :
    FuelLe (gc_mark_chain n st scope) (gc_mark_chain (n + 1) st scope) := by
  induction n generalizing st scope with
  | zero => rw [gc_mark_chain]; exact FuelLe.bot _
  | succ n ih =>
    cases scope with
    | none => rw [gc_mark_chain, gc_mark_chain]; exact FuelLe.refl _
    | some s =>
      rw [gc_mark_chain, gc_mark_chain]
      apply FuelLe.bind (FuelLe.refl _)
      intro sc
      exact FuelLe.bind ((gc_mark_mono n).2 _ _) (fun _ => ih _ _)

/-- One more unit of fuel leaves the outcome of `free_value` and of its loop as it is, once
it is not out of fuel. -/
theorem free_value_mono (n : Nat) :
    (∀ st v, FuelLe (free_value n st v) (free_value (n + 1) st v)) ∧
    (∀ st vs, FuelLe (free_value_all n st vs) (free_value_all (n + 1) st vs)) := by
  induction n with
  | zero =>
    refine ⟨fun _ _ => ?_, fun _ _ => ?_⟩
    · rw [free_value]; exact FuelLe.bot _
    · rw [free_value_all]; exact FuelLe.bot _
  | succ n ih =>
    obtain ⟨ih1, ih2⟩ := ih
    refine ⟨fun st v => ?_, fun st vs => ?_⟩
    · cases v with
      | none => rw [free_value, free_value]; exact FuelLe.refl _
      | some p =>
        rw [free_value, free_value]
        repeat' first
          | with_reducible exact FuelLe.refl _
          | with_reducible exact ih1 _ _
          | with_reducible exact ih2 _ _
          | apply FuelLe.ite
          | (apply FuelLe.bind; rotate_left; intro _)
          | split
    · cases vs with
      | nil => rw [free_value_all, free_value_all]; exact FuelLe.refl _
      | cons p rest =>
        rw [free_value_all, free_value_all]
        exact FuelLe.bind (ih1 _ _) (fun _ => ih2 _ _)

theorem gc_sweep_loop_mono (n : Nat) (st : Interpreter) (registry alive : List Nat) :
    FuelLe (gc_sweep_loop n st registry alive) (gc_sweep_loop (n + 1) st registry alive) := by
  induction registry generalizing st alive with
  | nil => rw [gc_sweep_loop, gc_sweep_loop]; exact FuelLe.refl _
  | cons p rest ih =>
    rw [gc_sweep_loop, gc_sweep_loop]
    apply FuelLe.bind (FuelLe.refl _)
    intro v
    apply FuelLe.ite (ih _ _)
    exact FuelLe.bind ((free_value_mono n).1 _ _) (fun _ => ih _ _)

/-- One more unit of fuel leaves the outcome of `gc_collect` as it is, once it is not out of
fuel. -/
theorem gc_collect_mono (st : Interpreter) (n : Nat) :
    FuelLe (gc_collect n st) (gc_collect (n + 1) st) := by
  unfold gc_collect gc_mark_roots gc_sweep
  apply FuelLe.bind (gc_mark_chain_mono n st _)
  intro st1
  exact FuelLe.bind (gc_sweep_loop_mono n st1 _ _) (fun _ => FuelLe.refl _)

theorem FuelLe.map {α β : Type} {x y : Except Fault α} (f : α → β) (h : FuelLe x y) :
    FuelLe (x.map f) (y.map f) := by
  rcases h with h | h
  · subst h; exact Or.inl rfl
  · subst h; exact Or.inr rfl

theorem registry_and_cells_mono (st : Interpreter) (n : Nat) :
    FuelLe (registry_and_cells (gc_collect n st)) (registry_and_cells (gc_collect (n + 1) st)) :=
  FuelLe.map _ (gc_collect_mono st n)

theorem registry_and_cells_error {r : Except Fault Interpreter} {e : Fault}
    (h : registry_and_cells r = .error e) : r = .error e := by
  cases r with
  | error e1 => simpa [registry_and_cells, Except.map] using h
  | ok st => simp [registry_and_cells, Except.map] at h

theorem shared_element_base :
    registry_and_cells (gc_collect 3 shared_element) = .ok ([0], [false, false]) := by
  decide!

theorem garbage_list_base :
    registry_and_cells (gc_collect 3 garbage_list) = .error .value_freed := by
  decide!

theorem live_and_reachable_mono (st : Interpreter) (n : Nat) :
    FuelLe (live_and_reachable n st) (live_and_reachable (n + 1) st) := by
  unfold live_and_reachable
  exact FuelLe.bind (gc_collect_mono st n) (fun _ => FuelLe.refl _)

theorem max_program_counts_mono (n : Nat) :
    FuelLe (interpreter_run n interpreter_init max_program >>= live_and_reachable n)
      (interpreter_run (n + 1) interpreter_init max_program >>= live_and_reachable (n + 1)) :=
  FuelLe.bind (interpreter_run_mono n 1 interpreter_init max_program)
    (fun st => live_and_reachable_mono st n)

theorem max_program_counts_base :
    (interpreter_run 10 interpreter_init max_program >>= live_and_reachable 10) = .ok (3, 4) := by
  decide!

/-- C11 (evaluation at the failing input). In `shared_element` value 0 is registered and
reachable (the current scope binds `x` to it), and the registered list 1, which holds
value 0, is reachable from nowhere. `gc_collect` marks value 0 and keeps it in the registry,
and then sweeps the list: `free_value` frees the elements of the list with it, so value 0
is deallocated although it is reachable and stays in the registry (for every fuel from 3
on). In `garbage_list`, where neither value is reachable, the sweep frees value 0 and then
reads it again when it frees the list that holds it: the collection ends in a read of a
freed value and does not return. -/
theorem gc_collect_frees_reachable_element :
    (0 ∈ reachable_values shared_element ∧ 0 ∈ shared_element.gc_objects ∧
      1 ∉ reachable_values shared_element) ∧
    (∀ k, registry_and_cells (gc_collect (3 + k) shared_element) = .ok ([0], [false, false])) ∧
    (∀ k, gc_collect (3 + k) garbage_list = .error .value_freed) ∧
    ∀ fuel st, gc_collect fuel garbage_list ≠ .ok st := by
  have hg := FuelLe.of_fault (fun n => gc_collect n garbage_list) (gc_collect_mono garbage_list)
    3 .value_freed (by decide) (registry_and_cells_error garbage_list_base)
  refine ⟨by decide!, fun k => ?_, hg.1, hg.2⟩
  exact (FuelLe.of_step (fun n => registry_and_cells (gc_collect n shared_element))
    (registry_and_cells_mono shared_element) 3 (3 + k) (Nat.le_add_right _ _)).ok_of
    shared_element_base

/-- C12 (evaluation at the failing input). After the run of `NewVar m = Max(1, 2)` four
values are reachable from the current scope chain: the three built-in functions and the
value of `m`. The value of `m` was made by `builtin_max`, which does not register it, so
`gc_collect` leaves a live count of 3, not 4 (for every fuel from 10 on). -/
theorem gc_count_misses_unregistered (k : Nat) :
    (interpreter_run (10 + k) interpreter_init max_program >>= live_and_reachable (10 + k))
      = .ok (3, 4) :=
  (FuelLe.of_step
    (fun n => interpreter_run n interpreter_init max_program >>= live_and_reachable n)
    max_program_counts_mono 10 (10 + k) (Nat.le_add_right _ _)).ok_of max_program_counts_base

/-- A run that returned is its result. -/
theorem Except.result_ok {α : Type} {x : Except Fault α} (d : α) (h : x.toBool = true) :
    x = .ok (Except.result x d) := by
  cases x with
  | error e => simp [Except.toBool] at h
  | ok a => rfl

/-! ### Binary operators -/

theorem load_store_same {st : Interpreter} {p : Nat} (v : Value) (h : p < st.values.length) :
    (st.store p v).load p = .ok v := by
  simp [Interpreter.load, Interpreter.store, List.get?_eq_getElem?, List.getElem?_set, h]

/-- The result value of `eval_binary_op` once both operands are evaluated: a fresh,
registered value with the fields that `binary_result` computes from the two operand values;
the state is otherwise the one the right operand left. -/
theorem eval_binary_op_result {st st1 st2 : Interpreter} {l r : Option ASTNode}
    {fuel lp rp : Nat} {lv rv v : Value} (operator : TokenType)
    (hl : eval_expression fuel st l = .ok (lp, st1))
    (hr : eval_expression fuel st1 r = .ok (rp, st2))
    (hlv : st2.load lp = .ok lv) (hrv : st2.load rp = .ok rv)
    (hv : binary_result operator lv rv = .ok v) :
    ∃ st3, eval_binary_op (fuel + 1) st operator l r = .ok (st2.values.length, st3) ∧
      st3.load st2.values.length = .ok v ∧
      st3.gc_objects = st2.gc_objects ++ [st2.values.length] ∧
      st3.stdout = st2.stdout ∧ st3.stderr = st2.stderr ∧ st3.scopes = st2.scopes ∧
      st3.current_scope = st2.current_scope ∧ st3.return_value = st2.return_value := by
  have h1 : ((st2.create_value .NUMBER).2.gc_register st2.values.length).load lp = .ok lv :=
    ((load_congr rfl lp).trans (load_create_value_old _ (load_lt hlv))).trans hlv
  have h2 : ((st2.create_value .NUMBER).2.gc_register st2.values.length).load rp = .ok rv :=
    ((load_congr rfl rp).trans (load_create_value_old _ (load_lt hrv))).trans hrv
  refine ⟨((st2.create_value .NUMBER).2.gc_register st2.values.length).store
    st2.values.length v, ?_, ?_, rfl, rfl, rfl, rfl, rfl, rfl⟩
  · rw [eval_binary_op]
    simp only [bind, Except.bind, hl, hr, h1, h2, hv]
    rfl
  · apply load_store_same
    simp [Interpreter.gc_register, Interpreter.create_value]

/-- A fault of the right operand is the outcome of `eval_binary_op`, whatever the operator
and the value of the left operand. -/
theorem eval_binary_op_right_fault {st st1 : Interpreter} {l r : Option ASTNode}
    {fuel lp : Nat} {e : Fault} (operator : TokenType)
    (hl : eval_expression fuel st l = .ok (lp, st1))
    (hr : eval_expression fuel st1 r = .error e) :
    eval_binary_op (fuel + 1) st operator l r = .error e := by
  rw [eval_binary_op]
  simp only [bind, Except.bind, hl, hr]

theorem binary_result_plus_string {lv rv : Value}
    (hs : lv.type = .STRING ∨ rv.type = .STRING)
    (hwl : lv.type = .STRING → ∃ s, lv.data = .string s)
    (hwr : rv.type = .STRING → ∃ s, rv.data = .string s) :
    binary_result .PLUS lv rv =
      .ok ⟨.STRING, false, .string ((piece lv ++ piece rv).take 1023)⟩ := by
  have sl : ∀ v : Value, v.type = .STRING → (∃ s, v.data = .string s) →
      v.string = .ok (piece v) := by
    intro v ht hd
    obtain ⟨s, hd⟩ := hd
    simp [Value.string, hd, piece, ht]
  have nl : ∀ v : Value, v.type ≠ .STRING → piece v = [] := by
    intro v ht
    unfold piece
    cases hty : v.type <;> first | exact absurd hty ht | rfl
  simp only [binary_result, hs, if_true, bind, Except.bind]
  by_cases h1 : lv.type = .STRING <;> by_cases h2 : rv.type = .STRING
  · simp [h1, h2, sl lv h1 (hwl h1), sl rv h2 (hwr h2), pure, Except.pure]
  · simp [h1, h2, sl lv h1 (hwl h1), nl rv h2, pure, Except.pure]
  · simp [h1, h2, sl rv h2 (hwr h2), nl lv h1, pure, Except.pure]
  · exact absurd hs (by simp [h1, h2])

theorem binary_result_and {lv rv : Value} {a b : Bool} (ha : lv.boolean = .ok a)
    (hb : rv.boolean = .ok b) :
    binary_result .AND lv rv = .ok ⟨.BOOL, false, .boolean (a && b)⟩ := by
  cases a <;> simp [binary_result, ha, hb, bind, Except.bind, pure, Except.pure]

theorem binary_result_or {lv rv : Value} {a b : Bool} (ha : lv.boolean = .ok a)
    (hb : rv.boolean = .ok b) :
    binary_result .OR lv rv = .ok ⟨.BOOL, false, .boolean (a || b)⟩ := by
  cases a <;> simp [binary_result, ha, hb, bind, Except.bind, pure, Except.pure]

/-- C13 (counterexample). `s + "b"`, where `s` is the letter `a` 1023 times, evaluates to
the string `s`: the `b` is lost, the result is not the concatenation of the two strings. -/
theorem plus_truncates_long_strings :
    text_of 3 (literal_op .PLUS (.string (List.replicate 1023 'a')) (.string ['b']))
      = .ok (List.replicate 1023 'a') ∧
    List.replicate 1023 'a' ≠ List.replicate 1023 'a' ++ ['b'] := by
  decide!

/-- C13 (amended). Let the two operands of `+` evaluate, left then right, to the values `lv`
and `rv`, at least one of them a string (a string value carries its text). Then
`eval_binary_op` returns a fresh string value whose text is the first 1023 characters of
`piece lv` followed by `piece rv` (`snprintf` into a buffer of 1024 bytes): the whole
concatenation when that is at most 1023 characters long. -/
theorem eval_binary_op_plus_string (st st1 st2 : Interpreter) (l r : Option ASTNode)
    (fuel lp rp : Nat) (lv rv : Value)
    (hl : eval_expression fuel st l = .ok (lp, st1))
    (hr : eval_expression fuel st1 r = .ok (rp, st2))
    (hlv : st2.load lp = .ok lv) (hrv : st2.load rp = .ok rv)
    (hs : lv.type = .STRING ∨ rv.type = .STRING)
    (hwl : lv.type = .STRING → ∃ s, lv.data = .string s)
    (hwr : rv.type = .STRING → ∃ s, rv.data = .string s) :
    ∃ st3, eval_binary_op (fuel + 1) st .PLUS l r = .ok (st2.values.length, st3) ∧
      st3.load st2.values.length =
        .ok ⟨.STRING, false, .string ((piece lv ++ piece rv).take 1023)⟩ ∧
      ((piece lv ++ piece rv).length ≤ 1023 →
        st3.load st2.values.length = .ok ⟨.STRING, false, .string (piece lv ++ piece rv)⟩) := by
  obtain ⟨st3, h1, h2, _⟩ := eval_binary_op_result .PLUS hl hr hlv hrv
    (binary_result_plus_string hs hwl hwr)
  refine ⟨st3, h1, h2, fun hlen => ?_⟩
  rw [h2, List.take_of_length_le hlen]

/-- C13 (amended), at `"a" + "b"`, which gives `"ab"`, and at `"x" + 5`, which gives
`"x"`. -/
theorem eval_binary_op_plus_string_witness :
    (∃ st3, eval_binary_op 2 interpreter_init .PLUS
        (some (.literal 1 1 (.string ['a']))) (some (.literal 1 5 (.string ['b'])))
          = .ok (2, st3) ∧
      st3.load 2 = .ok ⟨.STRING, false, .string ['a', 'b']⟩ ∧
      ((2 : Nat) ≤ 1023 → st3.load 2 = .ok ⟨.STRING, false, .string ['a', 'b']⟩)) ∧
    (∃ st3, eval_binary_op 2 interpreter_init .PLUS
        (some (.literal 1 1 (.string ['x'])))
        (some (.literal 1 5 (.number (Double.atof ['5'])))) = .ok (2, st3) ∧
      st3.load 2 = .ok ⟨.STRING, false, .string ['x']⟩ ∧
      ((1 : Nat) ≤ 1023 → st3.load 2 = .ok ⟨.STRING, false, .string ['x']⟩)) :=
  ⟨eval_binary_op_plus_string interpreter_init
      (eval_literal interpreter_init (.string ['a'])).2
      (eval_literal (eval_literal interpreter_init (.string ['a'])).2 (.string ['b'])).2
      (some (.literal 1 1 (.string ['a']))) (some (.literal 1 5 (.string ['b']))) 1 0 1
      (literal_value (.string ['a'])) (literal_value (.string ['b']))
      rfl rfl rfl rfl (Or.inl rfl) (fun _ => ⟨_, rfl⟩) (fun _ => ⟨_, rfl⟩),
   eval_binary_op_plus_string interpreter_init
      (eval_literal interpreter_init (.string ['x'])).2
      (eval_literal (eval_literal interpreter_init (.string ['x'])).2
        (.number (Double.atof ['5']))).2
      (some (.literal 1 1 (.string ['x']))) (some (.literal 1 5 (.number (Double.atof ['5']))))
      1 0 1 (literal_value (.string ['x'])) (literal_value (.number (Double.atof ['5'])))
      rfl rfl rfl rfl (Or.inl rfl) (fun _ => ⟨_, rfl⟩) (fun h => absurd h (by decide))⟩

/-- C15. For `and` and `or`, with the left operand evaluated to `lp` in state `st1`,
`eval_binary_op` evaluates the right operand from `st1`, whatever the value of the left
operand. If that evaluation faults, so does `eval_binary_op`. If it returns the value `rp`
in state `st2`, `eval_binary_op` returns a fresh boolean value (the conjunction, the
disjunction of the two booleans) in a state that has the output, the error text and the
scopes of `st2`: the effects of the right operand are there, also when the left operand
is false for `and` or true for `or`. -/
theorem eval_binary_op_logical_eager (st st1 : Interpreter) (l r : Option ASTNode)
    (fuel lp : Nat) (operator : TokenType) (right : Except Fault (Nat × Interpreter))
    (hop : operator = .AND ∨ operator = .OR)
    (hl : eval_expression fuel st l = .ok (lp, st1))
    (hr : eval_expression fuel st1 r = right) :
    (∀ e, right = .error e → eval_binary_op (fuel + 1) st operator l r = .error e) ∧
    (∀ rp st2 lv rv a b, right = .ok (rp, st2) → st2.load lp = .ok lv → st2.load rp = .ok rv →
      lv.boolean = .ok a → rv.boolean = .ok b →
      ∃ st3, eval_binary_op (fuel + 1) st operator l r = .ok (st2.values.length, st3) ∧
        st3.load st2.values.length =
          .ok ⟨.BOOL, false, .boolean (if operator = .AND then a && b else a || b)⟩ ∧
        st3.stdout = st2.stdout ∧ st3.stderr = st2.stderr ∧ st3.scopes = st2.scopes) := by
  refine ⟨fun e he => eval_binary_op_right_fault operator hl (hr.trans he), ?_⟩
  intro rp st2 lv rv a b he hlv hrv ha hb
  have hres : binary_result operator lv rv =
      .ok ⟨.BOOL, false, .boolean (if operator = .AND then a && b else a || b)⟩ := by
    rcases hop with h | h
    · subst h; simpa using binary_result_and ha hb
    · subst h; simpa using binary_result_or ha hb
  obtain ⟨st3, h1, h2, _, h4, h5, h6, _⟩ :=
    eval_binary_op_result operator hl (hr.trans he) hlv hrv hres
  exact ⟨st3, h1, h2, h4, h5, h6⟩

/-- C15, at `false and Console.Write("hi")` and at `true or Console.Write("hi")` in a fresh
interpreter with the built-in functions: `hi` is written in both. -/
theorem eval_binary_op_logical_eager_witness :
    (∃ st3, eval_binary_op 5 with_builtins .AND (some (.literal 1 1 (.boolean false)))
        (some write_hi) = .ok (6, st3) ∧
      st3.load 6 = .ok ⟨.BOOL, false, .boolean false⟩ ∧ st3.stdout = "hi\n".toList) ∧
    (∃ st3, eval_binary_op 5 with_builtins .OR (some (.literal 1 1 (.boolean true)))
        (some write_hi) = .ok (6, st3) ∧
      st3.load 6 = .ok ⟨.BOOL, false, .boolean true⟩ ∧ st3.stdout = "hi\n".toList) := by
  constructor
  · obtain ⟨st3, h1, h2, h3, _⟩ := (eval_binary_op_logical_eager with_builtins
      (eval_literal with_builtins (.boolean false)).2 (some (.literal 1 1 (.boolean false)))
      (some write_hi) 4 3 .AND _ (Or.inl rfl) rfl rfl).2 5
      (Except.result (eval_expression 4 (eval_literal with_builtins (.boolean false)).2
        (some write_hi)) (0, with_builtins)).2
      (literal_value (.boolean false)) ⟨.NULL, false, .zeroed⟩ false false rfl rfl rfl rfl rfl
    exact ⟨st3, h1, h2, h3⟩
  · obtain ⟨st3, h1, h2, h3, _⟩ := (eval_binary_op_logical_eager with_builtins
      (eval_literal with_builtins (.boolean true)).2 (some (.literal 1 1 (.boolean true)))
      (some write_hi) 4 3 .OR _ (Or.inr rfl) rfl rfl).2 5
      (Except.result (eval_expression 4 (eval_literal with_builtins (.boolean true)).2
        (some write_hi)) (0, with_builtins)).2
      (literal_value (.boolean true)) ⟨.NULL, false, .zeroed⟩ true false rfl rfl rfl rfl rfl
    exact ⟨st3, h1, h2, h3⟩

/-! ### Blocks and the return signal -/

/-- The statement loop stops at the statement that leaves the return signal set: what
follows it in the block plays no part. -/
theorem eval_block_loop_extends {a b : ASTNode}
    (hab : ∀ fuel st r st1, eval_node fuel st (some a) = .ok (r, st1) →
      st1.return_value.isSome = true → eval_node fuel st (some b) = .ok (r, st1))
    (pre post : List ASTNode) (fuel : Nat) (st : Interpreter) (r0 r : Nat) (st1 : Interpreter)
    (h : eval_block_loop fuel st (pre ++ [a]) r0 = .ok (r, st1))
    (hr : st1.return_value.isSome = true) :
    eval_block_loop fuel st (pre ++ b :: post) r0 = .ok (r, st1) := by
  induction pre generalizing fuel st r0 with
  | nil =>
    cases fuel with
    | zero => simp [eval_block_loop] at h
    | succ n =>
      simp only [List.nil_append] at h ⊢
      rw [eval_block_loop] at h ⊢
      cases hn : eval_node n st (some a) with
      | error e => rw [hn] at h; simp [bind, Except.bind] at h
      | ok x =>
        obtain ⟨r1, s1⟩ := x
        rw [hn] at h
        simp only [bind, Except.bind] at h ⊢
        by_cases hs : s1.return_value.isSome = true
        · simp only [hs, if_true] at h
          rw [hab n st r1 s1 hn hs]
          simp only [hs, if_true]
          exact h
        · simp only [hs] at h
          cases n with
          | zero => simp [eval_block_loop] at h
          | succ m =>
            simp only [eval_block_loop, Bool.false_eq_true, if_false] at h
            cases h
            exact absurd hr hs
  | cons p pre ih =>
    cases fuel with
    | zero => simp [eval_block_loop] at h
    | succ n =>
      simp only [List.cons_append] at h ⊢
      rw [eval_block_loop] at h ⊢
      cases hn : eval_node n st (some p) with
      | error e => rw [hn] at h; simp [bind, Except.bind] at h
      | ok x =>
        obtain ⟨r1, s1⟩ := x
        rw [hn] at h
        simp only [bind, Except.bind] at h ⊢
        by_cases hs : s1.return_value.isSome = true
        · simp only [hs, if_true] at h ⊢
          exact h
        · simp only [hs] at h ⊢
          exact ih n s1 r1 h

/-- The statement loop runs the statements in their order: when a first part of the block
has run through with the return signal clear, the loop goes on with the rest from the
state and the result that part left. -/
theorem eval_block_loop_append (pre rest : List ASTNode) (fuel : Nat) (st st1 : Interpreter)
    (r0 r : Nat) (h : eval_block_loop fuel st pre r0 = .ok (r, st1))
    (hc : st1.return_value = none) :
    eval_block_loop fuel st (pre ++ rest) r0 =
      eval_block_loop (fuel - pre.length) st1 rest r := by
  induction pre generalizing fuel st r0 with
  | nil =>
    cases fuel with
    | zero => simp [eval_block_loop] at h
    | succ n =>
      rw [eval_block_loop] at h
      cases h
      rfl
  | cons p pre ih =>
    cases fuel with
    | zero => simp [eval_block_loop] at h
    | succ n =>
      simp only [List.cons_append, List.length_cons, Nat.add_sub_add_right]
      rw [eval_block_loop] at h ⊢
      cases hn : eval_node n st (some p) with
      | error e => rw [hn] at h; simp [bind, Except.bind] at h
      | ok x =>
        obtain ⟨r1, s1⟩ := x
        rw [hn] at h
        simp only [bind, Except.bind] at h ⊢
        by_cases hs : s1.return_value.isSome = true
        · simp only [hs, if_true] at h
          cases h
          rw [hc] at hs
          simp at hs
        · simp only [hs] at h ⊢
          exact ih n s1 r1 h

/-- Statements added behind an executed `return`, in its block and in the blocks around it
through the branches of `if`, are not evaluated. -/
theorem eval_node_extends {a b : ASTNode} (hab : Extends a b) :
    ∀ (fuel : Nat) (st : Interpreter) (r : Nat) (st1 : Interpreter),
      eval_node fuel st (some a) = .ok (r, st1) → st1.return_value.isSome = true →
      eval_node fuel st (some b) = .ok (r, st1) := by
  induction hab with
  | same a => intro fuel st r st1 h _; exact h
  | block l c pre post a b _ ih =>
    intro fuel st r st1 h hr
    cases fuel with
    | zero => simp [eval_node] at h
    | succ n =>
      simp only [eval_node] at h ⊢
      cases n with
      | zero => simp [eval_block] at h
      | succ m =>
        rw [eval_block] at h ⊢
        exact eval_block_loop_extends ih pre post m _ _ r st1 h hr
  | program l c pre post a b _ ih =>
    intro fuel st r st1 h hr
    cases fuel with
    | zero => simp [eval_node] at h
    | succ n =>
      simp only [eval_node] at h ⊢
      cases n with
      | zero => simp [eval_block] at h
      | succ m =>
        rw [eval_block] at h ⊢
        exact eval_block_loop_extends ih pre post m _ _ r st1 h hr
  | if_then l c cond e a b _ ih =>
    intro fuel st r st1 h hr
    cases fuel with
    | zero => simp [eval_node] at h
    | succ n =>
      simp only [eval_node] at h ⊢
      cases n with
      | zero => simp [eval_if] at h
      | succ m =>
        cases e with
        | none =>
          simp only [eval_if] at h ⊢
          cases hc : eval_expression m st cond with
          | error e1 => rw [hc] at h; simp [bind, Except.bind] at h
          | ok x =>
            obtain ⟨cv, s1⟩ := x
            rw [hc] at h
            simp only [bind, Except.bind] at h ⊢
            cases hl : s1.load cv with
            | error e1 => rw [hl] at h; simp at h
            | ok v =>
              rw [hl] at h
              simp only [] at h ⊢
              cases hb : v.boolean with
              | error e1 => rw [hb] at h; simp at h
              | ok t =>
                rw [hb] at h
                simp only [] at h ⊢
                cases t with
                | true => simp only [if_true] at h ⊢; exact ih m s1 r st1 h hr
                | false => exact h
        | some e0 =>
          simp only [eval_if] at h ⊢
          cases hc : eval_expression m st cond with
          | error e1 => rw [hc] at h; simp [bind, Except.bind] at h
          | ok x =>
            obtain ⟨cv, s1⟩ := x
            rw [hc] at h
            simp only [bind, Except.bind] at h ⊢
            cases hl : s1.load cv with
            | error e1 => rw [hl] at h; simp at h
            | ok v =>
              rw [hl] at h
              simp only [] at h ⊢
              cases hb : v.boolean with
              | error e1 => rw [hb] at h; simp at h
              | ok t =>
                rw [hb] at h
                simp only [] at h ⊢
                cases t with
                | true => simp only [if_true] at h ⊢; exact ih m s1 r st1 h hr
                | false => exact h
  | if_else l c cond t a b _ ih =>
    intro fuel st r st1 h hr
    cases fuel with
    | zero => simp [eval_node] at h
    | succ n =>
      simp only [eval_node] at h ⊢
      cases n with
      | zero => simp [eval_if] at h
      | succ m =>
        simp only [eval_if] at h ⊢
        cases hc : eval_expression m st cond with
        | error e1 => rw [hc] at h; simp [bind, Except.bind] at h
        | ok x =>
          obtain ⟨cv, s1⟩ := x
          rw [hc] at h
          simp only [bind, Except.bind] at h ⊢
          cases hl : s1.load cv with
          | error e1 => rw [hl] at h; simp at h
          | ok v =>
            rw [hl] at h
            simp only [] at h ⊢
            cases hb : v.boolean with
            | error e1 => rw [hb] at h; simp at h
            | ok tr =>
              rw [hb] at h
              simp only [] at h ⊢
              cases tr with
              | true => exact h
              | false =>
                simp only [Bool.false_eq_true, if_false] at h ⊢
                exact ih m s1 r st1 h hr

/-- C16. Let the tree `b` be the tree `a` with statements added behind the last statement
of a block (or program) and, inside that last statement, behind the last statement of its
blocks, along a path through blocks and the branches of `if`. If the evaluation of `a`
returns with the return signal set, then the evaluation of `b` returns the same value in
the same state: no statement added behind the executed `return` is evaluated, in its own
block or in a block around it. And the statements of a block are evaluated in their order:
when a first part of a block has run through with the signal clear, the statement loop
goes on with the rest of the block from the state that part left. -/
theorem eval_block_stops_after_return (a b : ASTNode) (fuel : Nat) (st : Interpreter)
    (r : Nat) (st1 : Interpreter) (hab : Extends a b)
    (h : eval_node fuel st (some a) = .ok (r, st1)) (hr : st1.return_value.isSome = true) :
    eval_node fuel st (some b) = .ok (r, st1) ∧
    ∀ (pre rest : List ASTNode) (n : Nat) (s0 s1 : Interpreter) (r0 r1 : Nat),
      eval_block_loop n s0 pre r0 = .ok (r1, s1) → s1.return_value = none →
      eval_block_loop n s0 (pre ++ rest) r0 = eval_block_loop (n - pre.length) s1 rest r1 :=
  ⟨eval_node_extends hab fuel st r st1 h hr,
   fun pre rest n s0 s1 r0 r1 h1 h2 => eval_block_loop_append pre rest n s0 s1 r0 r1 h1 h2⟩

/-- C16, at `returns_last` and `returns_early` in a fresh interpreter with the built-in
functions: the run of `returns_last` writes `a` and leaves the return signal set, and
`returns_early`, which has `Console.Write("b")` behind the `return` and `Console.Write("c")`
behind the `if`, gives the same result in the same state. -/
theorem eval_block_stops_after_return_witness :
    streams ((eval_node 11 with_builtins (some returns_last)).map (fun x => x.2))
      = .ok ("a\n".toList, []) ∧
    (Except.result (eval_node 11 with_builtins (some returns_last))
      (0, with_builtins)).2.return_value.isSome = true ∧
    eval_node 11 with_builtins (some returns_early) =
      .ok (Except.result (eval_node 11 with_builtins (some returns_last)) (0, with_builtins)) :=
  ⟨by decide!, by decide!,
   (eval_block_stops_after_return returns_last returns_early 11 with_builtins _ _
      (Extends.block 1 1 [writes "a"] [writes "c"] _ _
        (Extends.if_then 2 1 _ none _ _
          (Extends.block 3 1 [] [writes "b"] _ _ (Extends.same _))))
      (Except.result_ok (0, with_builtins) (by decide!)) (by decide!)).1⟩

/-! ### Scopes: definition and assignment -/

theorem lookup_eq_none_iff_names (bs : List (List Char × Nat)) (x : List Char) :
    bs.lookup x = none ↔ x ∉ bs.map Prod.fst := by
  induction bs with
  | nil => simp [List.lookup]
  | cons b rest ih =>
    obtain ⟨n, w⟩ := b
    by_cases h : x = n
    · subst h; simp [List.lookup]
    · have hx : (x == n) = false := by simpa using h
      simp only [List.lookup, hx, ih, List.map_cons, List.mem_cons, h, false_or]

/-- The store of `scope_define` and `scope_set` on a name the scope binds: the first slot
with that name gets the value, every other slot stays as it is. -/
theorem bindings_set_split {bs : List (List Char × Nat)} {x : List Char} {w : Nat} (v : Nat)
    (h : bs.lookup x = some w) :
    ∃ pre post, bs = pre ++ (x, w) :: post ∧ (∀ p ∈ pre, p.1 ≠ x) ∧
      bindings_set bs x v = some (pre ++ (x, v) :: post) := by
  induction bs with
  | nil => simp [List.lookup] at h
  | cons b rest ih =>
    obtain ⟨n, u⟩ := b
    by_cases hn : n = x
    · subst hn
      simp only [List.lookup, beq_self_eq_true, Option.some.injEq] at h
      subst h
      exact ⟨[], rest, rfl, by simp, by simp [bindings_set]⟩
    · have hx : (x == n) = false := by simpa using fun e => hn e.symm
      simp only [List.lookup, hx] at h
      obtain ⟨pre, post, h1, h2, h3⟩ := ih h
      refine ⟨(n, u) :: pre, post, by rw [h1]; rfl, ?_, by simp [bindings_set, hn, h3]⟩
      intro p hp
      rcases List.mem_cons.mp hp with e | e
      · rw [e]; exact hn
      · exact h2 p e

theorem scope_at_eq {st : Interpreter} {s : Nat} {sc : Scope} :
    st.scope_at s = .ok sc ↔ st.scopes.get? s = some (some sc) := by
  unfold Interpreter.scope_at
  constructor
  · intro h
    cases hg : st.scopes.get? s with
    | none => rw [hg] at h; simp at h
    | some o =>
      cases o with
      | none => rw [hg] at h; simp at h
      | some sc1 => rw [hg] at h; simp at h; rw [h]
  · intro h; rw [h]

theorem scope_at_put_scope_other {st : Interpreter} {s t : Nat} (sc : Scope) (h : t ≠ s) :
    (st.put_scope s sc).scope_at t = st.scope_at t := by
  simp [Interpreter.scope_at, Interpreter.put_scope, List.get?_eq_getElem?,
    List.getElem?_set_ne (Ne.symm h)]

/-- C18. On a live scope `s`, `scope_define(s, n, v)` writes the bindings of `s` and nothing
else. If `s` binds `n` already, the first slot named `n` gets `v` in place and every other
slot is as before (the count is unchanged); otherwise exactly one slot `(n, v)` is appended.
Afterwards `n` maps to `v` in `s`, every other name maps as before, names that were unique
in `s` stay unique, the parent of `s` is the same, every other scope (any ancestor of `s`
with its binding of `n` among them) and every value is as before. -/
theorem scope_define_overwrites_or_appends (st : Interpreter) (s : Nat) (sc : Scope)
    (n : List Char) (v : Nat) (hs : st.scope_at s = .ok sc) :
    ∃ bs, scope_define st s n v = .ok (st.put_scope s { bindings := bs, parent := sc.parent }) ∧
      (∀ w, sc.bindings.lookup n = some w → ∃ pre post, sc.bindings = pre ++ (n, w) :: post ∧
        (∀ p ∈ pre, p.1 ≠ n) ∧ bs = pre ++ (n, v) :: post ∧ bs.length = sc.bindings.length) ∧
      (sc.bindings.lookup n = none → bs = sc.bindings ++ [(n, v)]) ∧
      bs.lookup n = some v ∧
      (∀ y, y ≠ n → bs.lookup y = sc.bindings.lookup y) ∧
      ((sc.bindings.map Prod.fst).Nodup → (bs.map Prod.fst).Nodup) ∧
      (st.put_scope s { bindings := bs, parent := sc.parent }).scope_at s =
        .ok { bindings := bs, parent := sc.parent } ∧
      (∀ t, t ≠ s →
        (st.put_scope s { bindings := bs, parent := sc.parent }).scope_at t = st.scope_at t) ∧
      (st.put_scope s { bindings := bs, parent := sc.parent }).values = st.values := by
  refine ⟨bindings_define sc.bindings n v, scope_define_ok n v hs, ?_, ?_,
    lookup_bindings_define_same _ _ _, fun y hy => lookup_bindings_define_other _ _ hy, ?_,
    scope_at_put_scope _ (scope_at_lt hs), fun t ht => scope_at_put_scope_other _ ht, rfl⟩
  · intro w hw
    obtain ⟨pre, post, h1, h2, h3⟩ := bindings_set_split v hw
    have hb : bindings_define sc.bindings n v = pre ++ (n, v) :: post := by
      simp [bindings_define, h3]
    refine ⟨pre, post, h1, h2, hb, ?_⟩
    rw [hb, h1]; simp
  · intro hn
    simp [bindings_define, bindings_set_none v hn]
  · intro hnd
    cases hl : sc.bindings.lookup n with
    | some w =>
      obtain ⟨pre, post, h1, _, h3⟩ := bindings_set_split v hl
      have hb : bindings_define sc.bindings n v = pre ++ (n, v) :: post := by
        simp [bindings_define, h3]
      have : (bindings_define sc.bindings n v).map Prod.fst = sc.bindings.map Prod.fst := by
        rw [hb, h1]; simp
      rw [this]; exact hnd
    | none =>
      simp only [bindings_define, bindings_set_none v hl, List.map_append, List.map_cons,
        List.map_nil]
      rw [List.nodup_append]
      refine ⟨hnd, by simp, ?_⟩
      intro a ha hb
      rw [List.mem_singleton] at hb
      subst hb
      exact (lookup_eq_none_iff_names _ _).mp hl ha

/-- C18, at `call_entry`: defining `g` in the call scope 1, which does not bind it, appends
one slot and leaves the global scope 0 with its own `g`; defining `x`, which scope 1 binds,
overwrites the slot in place. -/
theorem scope_define_overwrites_or_appends_witness :
    (∃ bs, scope_define call_entry 1 "g".toList 1 =
        .ok (call_entry.put_scope 1 { bindings := bs, parent := some 0 }) ∧
      bs = [("x".toList, 1), ("g".toList, 1)] ∧
      (call_entry.put_scope 1 { bindings := bs, parent := some 0 }).scope_at 0 =
        .ok { bindings := [("g".toList, 0)], parent := none }) ∧
    (∃ bs, scope_define call_entry 1 "x".toList 0 =
        .ok (call_entry.put_scope 1 { bindings := bs, parent := some 0 }) ∧
      bs.lookup "x".toList = some 0 ∧ bs.length = 1) := by
  constructor
  · obtain ⟨bs, h1, _, h3, _, _, _, _, h8, _⟩ := scope_define_overwrites_or_appends call_entry 1
      { bindings := [("x".toList, 1)], parent := some 0 } "g".toList 1 rfl
    exact ⟨bs, h1, h3 rfl, (h8 0 (by decide)).trans rfl⟩
  · obtain ⟨bs, h1, h2, _, h4, _⟩ := scope_define_overwrites_or_appends call_entry 1
      { bindings := [("x".toList, 1)], parent := some 0 } "x".toList 0 rfl
    obtain ⟨pre, post, _, _, _, h5⟩ := h2 1 rfl
    exact ⟨bs, h1, h4, h5⟩

/-- The two walks along `parent` agree: where `scope_get` finds the name, `scope_set`
stores into the first slot with that name of the innermost scope that binds it; where
`scope_get` finds nothing, `scope_set` changes nothing. -/
theorem scope_set_walk_spec (st : Interpreter) (x : List Char) (v : Nat) (fuel : Nat) :
    ∀ (s : Nat) (found : Option Nat), scope_get_walk st fuel s x = .ok found →
      (found = none → scope_set_walk fuel st s x v = .ok st) ∧
      (∀ w, found = some w → ∃ before b after sc pre post,
        scope_chain st fuel (some s) = before ++ b :: after ∧
        (∀ t ∈ before, ∃ tsc, st.scope_at t = .ok tsc ∧ tsc.bindings.lookup x = none) ∧
        st.scope_at b = .ok sc ∧ sc.bindings = pre ++ (x, w) :: post ∧
        (∀ p ∈ pre, p.1 ≠ x) ∧
        scope_set_walk fuel st s x v =
          .ok (st.put_scope b { bindings := pre ++ (x, v) :: post, parent := sc.parent })) := by
  induction fuel with
  | zero => intro s found h; simp [scope_get_walk] at h
  | succ n ih =>
    intro s found h
    rw [scope_get_walk] at h
    cases hs : st.scope_at s with
    | error e => rw [hs] at h; simp [bind, Except.bind] at h
    | ok sc0 =>
      rw [hs] at h
      simp only [bind, Except.bind] at h
      have hget := scope_at_eq.mp hs
      cases hl : sc0.bindings.lookup x with
      | some w0 =>
        rw [hl] at h
        cases h
        refine ⟨fun e => (by cases e), ?_⟩
        intro w hw
        cases hw
        obtain ⟨pre, post, h1, h2, h3⟩ := bindings_set_split v hl
        refine ⟨[], s, scope_chain st n sc0.parent, sc0, pre, post, ?_, by simp, hs, h1, h2, ?_⟩
        · simp only [scope_chain, hget, List.nil_append]
        · rw [scope_set_walk, hs]
          simp [bind, Except.bind, h3, pure, Except.pure]
      | none =>
        rw [hl] at h
        have hb : bindings_set sc0.bindings x v = none := bindings_set_none v hl
        cases hp : sc0.parent with
        | none =>
          rw [hp] at h
          cases h
          refine ⟨fun _ => ?_, fun w hw => (by cases hw)⟩
          rw [scope_set_walk, hs]
          simp [bind, Except.bind, hb, hp, pure, Except.pure]
        | some parent =>
          rw [hp] at h
          obtain ⟨i1, i2⟩ := ih parent found h
          have hstep : scope_set_walk (n + 1) st s x v = scope_set_walk n st parent x v := by
            rw [scope_set_walk, hs]
            simp [bind, Except.bind, hb, hp]
          refine ⟨fun e => hstep.trans (i1 e), ?_⟩
          intro w hw
          obtain ⟨before, b, after, sc, pre, post, h1, h2, h3, h4, h5, h6⟩ := i2 w hw
          refine ⟨s :: before, b, after, sc, pre, post, ?_, ?_, h3, h4, h5, hstep.trans h6⟩
          · simp only [scope_chain, hget, hp, h1, List.cons_append]
          · intro t ht
            rcases List.mem_cons.mp ht with e | e
            · rw [e]; exact ⟨sc0, hs, hl⟩
            · exact h2 t e

/-- C17. Let the value expression of `x = e` evaluate to the value `v` in state `st1`, and
let `scope_get` return for `x` on the chain of the current scope of `st1`. If `x` is bound
nowhere on the chain, the assignment yields `v` and leaves `st1` as it is: no scope changes
and no binding is created. If `x` is bound (to `w`), then there is a scope `b` on the chain
such that no scope before it on the chain binds `x`, and the assignment yields `v` and
writes `v` into the first slot named `x` of `b`: every other slot of `b`, the parent of `b`,
every other scope and every value are as in `st1`. -/
theorem eval_assignment_replaces_innermost (st st1 : Interpreter) (fuel l c : Nat)
    (x : List Char) (e : Option ASTNode) (v : Nat) (found : Option Nat)
    (he : eval_expression fuel st e = .ok (v, st1))
    (hg : scope_get st1 st1.current_scope x = .ok found) :
    (found = none →
      eval_assignment (fuel + 1) st (some (.identifier l c x)) e = .ok (v, st1)) ∧
    (∀ w, found = some w → ∃ before b after sc pre post,
      scope_chain st1 st1.scopes.length (some st1.current_scope) = before ++ b :: after ∧
      (∀ t ∈ before, ∃ tsc, st1.scope_at t = .ok tsc ∧ tsc.bindings.lookup x = none) ∧
      st1.scope_at b = .ok sc ∧ sc.bindings = pre ++ (x, w) :: post ∧
      (∀ p ∈ pre, p.1 ≠ x) ∧
      eval_assignment (fuel + 1) st (some (.identifier l c x)) e = .ok (v,
        st1.put_scope b { bindings := pre ++ (x, v) :: post, parent := sc.parent }) ∧
      (∀ t, t ≠ b →
        (st1.put_scope b { bindings := pre ++ (x, v) :: post, parent := sc.parent }).scope_at t
          = st1.scope_at t) ∧
      (st1.put_scope b { bindings := pre ++ (x, v) :: post, parent := sc.parent }).values =
        st1.values) := by
  have hrun : eval_assignment (fuel + 1) st (some (.identifier l c x)) e =
      (scope_set st1 st1.current_scope x v).map (fun st2 => (v, st2)) := by
    simp only [eval_assignment, bind, Except.bind, he]
    cases scope_set st1 st1.current_scope x v <;> rfl
  obtain ⟨h1, h2⟩ := scope_set_walk_spec st1 x v st1.scopes.length st1.current_scope found hg
  refine ⟨fun hn => ?_, fun w hw => ?_⟩
  · rw [hrun, scope_set, h1 hn]; rfl
  · obtain ⟨before, b, after, sc, pre, post, a1, a2, a3, a4, a5, a6⟩ := h2 w hw
    refine ⟨before, b, after, sc, pre, post, a1, a2, a3, a4, a5, ?_,
      fun t ht => scope_at_put_scope_other _ ht, rfl⟩
    rw [hrun, scope_set, a6]; rfl

/-- C17, at `call_entry`, whose current scope 1 binds `x` and has the global scope 0, which
binds `g`, as parent: `z = 7` changes no scope, and `g = 7` writes the slot of `g` in the
global scope and leaves scope 1 as it is. -/
theorem eval_assignment_replaces_innermost_witness :
    eval_assignment 2 call_entry (some (.identifier 1 1 "z".toList))
        (some (.literal 1 5 (.number (Double.atof ['7'])))) =
      .ok (2, (eval_literal call_entry (.number (Double.atof ['7']))).2) ∧
    (∃ before b after sc pre post,
      scope_chain (eval_literal call_entry (.number (Double.atof ['7']))).2 2 (some 1) =
        before ++ b :: after ∧
      (∀ t ∈ before, ∃ tsc,
        (eval_literal call_entry (.number (Double.atof ['7']))).2.scope_at t = .ok tsc ∧
        tsc.bindings.lookup "g".toList = none) ∧
      (eval_literal call_entry (.number (Double.atof ['7']))).2.scope_at b = .ok sc ∧
      sc.bindings = pre ++ ("g".toList, 0) :: post ∧
      (∀ p ∈ pre, p.1 ≠ "g".toList) ∧
      eval_assignment 2 call_entry (some (.identifier 1 1 "g".toList))
          (some (.literal 1 5 (.number (Double.atof ['7'])))) = .ok (2,
        (eval_literal call_entry (.number (Double.atof ['7']))).2.put_scope b
          { bindings := pre ++ ("g".toList, 2) :: post, parent := sc.parent }) ∧
      (∀ t, t ≠ b →
        ((eval_literal call_entry (.number (Double.atof ['7']))).2.put_scope b
          { bindings := pre ++ ("g".toList, 2) :: post, parent := sc.parent }).scope_at t
          = (eval_literal call_entry (.number (Double.atof ['7']))).2.scope_at t) ∧
      ((eval_literal call_entry (.number (Double.atof ['7']))).2.put_scope b
        { bindings := pre ++ ("g".toList, 2) :: post, parent := sc.parent }).values =
        (eval_literal call_entry (.number (Double.atof ['7']))).2.values) ∧
    (eval_assignment 2 call_entry (some (.identifier 1 1 "g".toList))
        (some (.literal 1 5 (.number (Double.atof ['7']))))).map (fun r => r.2.scopes) =
      .ok [some { bindings := [("g".toList, 2)], parent := none },
           some { bindings := [("x".toList, 1)], parent := some 0 }] :=
  ⟨(eval_assignment_replaces_innermost call_entry
      (eval_literal call_entry (.number (Double.atof ['7']))).2 1 1 1 "z".toList
      (some (.literal 1 5 (.number (Double.atof ['7'])))) 2 none rfl rfl).1 rfl,
   (eval_assignment_replaces_innermost call_entry
      (eval_literal call_entry (.number (Double.atof ['7']))).2 1 1 1 "g".toList
      (some (.literal 1 5 (.number (Double.atof ['7'])))) 2 (some 0) rfl rfl).2 0 rfl,
   by decide!⟩

/-! ### Undefined names -/

/-- C19. Let `x` be bound nowhere on the chain of the current scope. Evaluating the
identifier `x` returns a fresh null value and writes `Undefined variable: x` to stderr; the
scopes, the current scope, the output, the return signal and the exit flag are as before.
As a statement of a block, with no return pending, it is followed by the evaluation of the
remaining statements of the block. -/
theorem eval_identifier_undefined_goes_on (st : Interpreter) (n l c : Nat) (x : List Char)
    (hg : scope_get st st.current_scope x = .ok none) :
    ∃ st1, eval_node (n + 2) st (some (.identifier l c x)) = .ok (st.values.length, st1) ∧
      st1.load st.values.length = .ok ⟨.NULL, false, .zeroed⟩ ∧
      st1.scopes = st.scopes ∧ st1.current_scope = st.current_scope ∧
      st1.stdout = st.stdout ∧ st1.return_value = st.return_value ∧
      st1.should_exit = st.should_exit ∧
      st1.stderr = st.stderr ++ "Undefined variable: ".toList ++ x ++ ['\n'] ∧
      (st.return_value = none → ∀ rest r0,
        eval_block_loop (n + 3) st (.identifier l c x :: rest) r0 =
          eval_block_loop (n + 2) st1 rest st.values.length) := by
  have hrun : eval_node (n + 2) st (some (.identifier l c x)) = .ok
      (({ st with stderr := st.stderr ++ "Undefined variable: ".toList ++ x ++ ['\n'] }
        ).create_value .NULL) := by
    simp only [eval_node, eval_expression, eval_identifier, hg, bind, Except.bind]
    rfl
  refine ⟨_, hrun, ?_, rfl, rfl, rfl, rfl, rfl, rfl, ?_⟩
  · exact load_create_value_new _ _
  · intro hr rest r0
    rw [eval_block_loop, hrun]
    simp only [bind, Except.bind]
    have : (({ st with stderr := st.stderr ++ "Undefined variable: ".toList ++ x ++ ['\n'] }
        ).create_value .NULL).2.return_value = none := hr
    simp only [this]
    rfl

/-- C19, at `loop_entry`, which binds no `y`: the identifier `y` yields the null value 2 and
leaves the scope as it is; in a block it is followed by the next statement. -/
theorem eval_identifier_undefined_goes_on_witness :
    (∃ st1, eval_node 2 loop_entry (some (.identifier 1 1 "y".toList)) = .ok (2, st1) ∧
      st1.load 2 = .ok ⟨.NULL, false, .zeroed⟩ ∧
      st1.scopes = [some { bindings := [("x".toList, 0), ("go".toList, 1)], parent := none }] ∧
      st1.stderr = "Undefined variable: y\n".toList) ∧
    streams ((eval_node 11 with_builtins (some (.block 1 1
      [.identifier 1 1 "y".toList, writes "a"]))).map (fun r => r.2)) =
      .ok ("a\n".toList, "Undefined variable: y\n".toList) := by
  constructor
  · obtain ⟨st1, h1, h2, h3, _, _, _, _, h8, _⟩ :=
      eval_identifier_undefined_goes_on loop_entry 0 1 1 "y".toList rfl
    exact ⟨st1, h1, h2, h3, h8⟩
  · decide!

/-! ### The error flag of the parser -/

/-- C20. Let `parser_parse`, on the parser that `parser_init` made from the tokens of the
source, return the tree `ast` and leave the parser `parser`. If the error flag of `parser`
is set, `run_source` returns 1 with nothing evaluated and nothing written, whatever the
tree is; if the flag is clear, `run_source` is the run of `interpreter_run` on `ast` from a
fresh interpreter, and returns 0 when that run returns. -/
theorem run_source_checks_error_flag (fuel : Nat) (source : List Char) (tokens : List Token)
    (parser0 parser : Parser) (ast : ASTNode)
    (ht : lexer_tokenize fuel source = some tokens)
    (hi : parser_init tokens tokens.length = .ok parser0)
    (hp : parser_parse fuel parser0 = .ok (ast, parser)) :
    (parser.had_error = true →
      run_source fuel source = .ok { had_error := true, stdout := [] } ∧
      (run_source fuel source).map Run.status = .ok 1) ∧
    (parser.had_error = false →
      run_source fuel source = (interpreter_run fuel interpreter_init ast).map
        (fun st => { had_error := false, stdout := st.stdout }) ∧
      ∀ r, run_source fuel source = .ok r → r.status = 0) := by
  have hrun : run_source fuel source =
      if parser.had_error = true then .ok { had_error := true, stdout := [] }
      else (interpreter_run fuel interpreter_init ast).map
        (fun st => { had_error := false, stdout := st.stdout }) := by
    simp only [run_source, ht, hi, hp, bind, Except.bind]
    split
    · rfl
    · cases interpreter_run fuel interpreter_init ast <;> rfl
  refine ⟨fun h => ?_, fun h => ?_⟩
  · rw [hrun]; simp [h, Except.map, Run.status]
  · rw [hrun]
    simp only [h, Bool.false_eq_true, if_false, true_and]
    intro r hr
    cases hi2 : interpreter_run fuel interpreter_init ast with
    | error e => rw [hi2] at hr; simp [Except.map] at hr
    | ok st2 =>
      rw [hi2] at hr
      simp only [Except.map, Except.ok.injEq] at hr
      rw [← hr]; rfl

/-- C20, at the source `)`, on which the parser sets the error flag, and at the empty
source, on which it leaves the flag clear. -/
theorem run_source_checks_error_flag_witness :
    (run_source 6 [')'] = .ok { had_error := true, stdout := [] } ∧
      (run_source 6 [')']).map Run.status = .ok 1) ∧
    run_source 3 [] = (interpreter_run 3 interpreter_init
      (Except.result (parser_parse 3 (Except.result (parser_init [create_token .EOF [] 1 1] 1) (parser_on [])))
        (.program 1 1 [], parser_on [])).1).map
        (fun st => { had_error := false, stdout := st.stdout }) ∧
    run_source 3 [] = .ok { had_error := false, stdout := [] } :=
  ⟨(run_source_checks_error_flag 6 [')']
      [create_token .RPAREN [')'] 1 1, create_token .EOF [] 1 2]
      (Except.result (parser_init [create_token .RPAREN [')'] 1 1, create_token .EOF [] 1 2] 2)
        (parser_on []))
      (Except.result (parser_parse 6
        (Except.result (parser_init [create_token .RPAREN [')'] 1 1, create_token .EOF [] 1 2] 2)
        (parser_on []))) (.program 1 1 [], parser_on [])).2
      (Except.result (parser_parse 6
        (Except.result (parser_init [create_token .RPAREN [')'] 1 1, create_token .EOF [] 1 2] 2)
        (parser_on []))) (.program 1 1 [], parser_on [])).1
      (by decide!) (by decide!)
      (Except.result_ok (.program 1 1 [], parser_on []) (by decide!))).1 (by decide!),
   ((run_source_checks_error_flag 3 [] [create_token .EOF [] 1 1]
      (Except.result (parser_init [create_token .EOF [] 1 1] 1) (parser_on []))
      (Except.result (parser_parse 3 (Except.result (parser_init [create_token .EOF [] 1 1] 1) (parser_on [])))
        (.program 1 1 [], parser_on [])).2
      (Except.result (parser_parse 3 (Except.result (parser_init [create_token .EOF [] 1 1] 1) (parser_on [])))
        (.program 1 1 [], parser_on [])).1
      (by decide!) (by decide!)
      (Except.result_ok (.program 1 1 [], parser_on []) (by decide!))).2 (by decide!)).1,
   by decide!⟩

/-! ## Block headers -/

theorem flagged_pure {α : Type} (a : α) (p : Parser) (h : p.had_error = true) :
    Flagged (Pure.pure (a, p) : Except Fault (α × Parser)) := by
  intro r e
  cases e
  exact h

theorem flagged_bind {α β : Type} {x : Except Fault (β × Parser)}
    {f : β × Parser → Except Fault (α × Parser)} (hx : Flagged x)
    (hf : ∀ r, r.2.had_error = true → Flagged (f r)) : Flagged (x >>= f) := by
  intro r e
  cases x with
  | error _ => cases e
  | ok a => exact hf a (hx a rfl) r e

theorem flagged_bind_plain {α β : Type} {x : Except Fault β}
    {f : β → Except Fault (α × Parser)} (hf : ∀ b, Flagged (f b)) : Flagged (x >>= f) := by
  intro r e
  cases x with
  | error _ => cases e
  | ok a => exact hf a r e

theorem flagged_ite {α : Type} {c : Prop} [Decidable c] {x y : Except Fault (α × Parser)}
    (hx : Flagged x) (hy : Flagged y) : Flagged (if c then x else y) := by
  split
  · exact hx
  · exact hy

theorem Parser.advance_had_error (p : Parser) : (Parser.advance p).had_error = p.had_error := by
  unfold Parser.advance
  split <;> rfl

theorem Parser.back_had_error (p : Parser) : (Parser.back p).had_error = p.had_error := rfl

theorem flagged_matchTok (p : Parser) (type : TokenType) (h : p.had_error = true) :
    Flagged (Parser.matchTok p type) := by
  unfold Parser.matchTok
  refine flagged_bind_plain fun found => ?_
  split
  · exact flagged_pure _ _ (by rw [Parser.advance_had_error]; exact h)
  · exact flagged_pure _ _ h

theorem flagged_expect (p : Parser) (type : TokenType) (message : String)
    (h : p.had_error = true) : Flagged (Parser.expect p type message) := by
  unfold Parser.expect
  refine flagged_bind_plain fun found => ?_
  split
  · refine flagged_bind_plain fun token => ?_
    exact flagged_pure _ _ (by rw [Parser.advance_had_error]; exact h)
  · refine flagged_bind_plain fun token => ?_
    exact flagged_pure _ _ rfl

theorem parse_params_loop_flagged (n : Nat) (p : Parser) (params : List (List Char))
    (h : p.had_error = true) : Flagged (parse_params_loop n p params) := by
  induction n generalizing p params with
  | zero => intro r e; cases e
  | succ n ih =>
    rw [parse_params_loop]
    refine flagged_bind (flagged_expect _ _ _ h) ?_
    rintro ⟨param, p1⟩ h1
    refine flagged_bind (flagged_matchTok _ _ h1) ?_
    rintro ⟨more, p2⟩ h2
    exact flagged_ite (ih _ _ h2) (flagged_pure _ _ h2)

theorem parse_params_flagged (n : Nat) (p : Parser) (h : p.had_error = true) :
    Flagged (parse_params n p) := by
  unfold parse_params
  refine flagged_bind (flagged_expect _ _ _ h) ?_
  rintro ⟨_, p1⟩ h1
  refine flagged_bind_plain fun atEnd => ?_
  have tail : ∀ r : List (List Char) × Parser, r.2.had_error = true →
      Flagged (do
        let (_, p3) ← Parser.expect r.2 .RPAREN "Expected ')' after parameters"
        Pure.pure (r.1, p3)) := by
    rintro ⟨params, p2⟩ h2
    refine flagged_bind (flagged_expect _ _ _ h2) ?_
    rintro ⟨_, p3⟩ h3
    exact flagged_pure _ _ h3
  dsimp only
  apply flagged_ite
  · exact flagged_bind (flagged_pure _ _ h1) tail
  · exact flagged_bind (parse_params_loop_flagged _ _ _ h1) tail

theorem flagged_error {α : Type} (e : Fault) : Flagged (Except.error e : Except Fault (α × Parser)) := by
  intro r h
  cases h

set_option maxHeartbeats 4000000 in
/-- Once the error flag is set, every parsing function returns with it set. -/
theorem parser_flagged (n : Nat) :
    (∀ p, p.had_error = true → Flagged (parse_primary n p)) ∧
    (∀ p a, p.had_error = true → Flagged (parse_args_loop n p a)) ∧
    (∀ p m, p.had_error = true → Flagged (parse_binary n p m)) ∧
    (∀ p l m, p.had_error = true → Flagged (parse_binary_loop n p l m)) ∧
    (∀ p, p.had_error = true → Flagged (parse_expression n p)) ∧
    (∀ p a, p.had_error = true → Flagged (parse_block_loop n p a)) ∧
    (∀ p, p.had_error = true → Flagged (parse_block n p)) ∧
    (∀ p, p.had_error = true → Flagged (parse_var_decl n p)) ∧
    (∀ p, p.had_error = true → Flagged (parse_func_decl n p)) ∧
    (∀ p, p.had_error = true → Flagged (parse_if n p)) ∧
    (∀ p, p.had_error = true → Flagged (parse_while n p)) ∧
    (∀ p, p.had_error = true → Flagged (parse_for n p)) ∧
    (∀ p, p.had_error = true → Flagged (parse_return n p)) ∧
    (∀ p, p.had_error = true → Flagged (parse_assignment_or_expr n p)) ∧
    (∀ p, p.had_error = true → Flagged (parse_statement n p)) := by
  induction n with
  | zero =>
    refine ⟨fun _ _ => ?_, fun _ _ _ => ?_, fun _ _ _ => ?_, fun _ _ _ _ => ?_, fun _ _ => ?_, fun _ _ _ => ?_, fun _ _ => ?_, fun _ _ => ?_, fun _ _ => ?_, fun _ _ => ?_, fun _ _ => ?_, fun _ _ => ?_, fun _ _ => ?_, fun _ _ => ?_, fun _ _ => ?_⟩ <;>
      exact flagged_error _
  | succ n ih =>
    obtain ⟨ih1, ih2, ih3, ih4, ih5, ih6, ih7, ih8, ih9, ih10, ih11, ih12, ih13, ih14, ih15⟩ := ih
    refine ⟨fun p h => ?_, fun p a h => ?_, fun p m h => ?_, fun p l m h => ?_, fun p h => ?_, fun p a h => ?_, fun p h => ?_, fun p h => ?_, fun p h => ?_, fun p h => ?_, fun p h => ?_, fun p h => ?_, fun p h => ?_, fun p h => ?_, fun p h => ?_⟩
    · rw [parse_primary]
      repeat' first
        | exact flagged_pure _ _ (by first | assumption | rfl | (simp only [Parser.advance_had_error, Parser.back_had_error]; assumption))
        | exact flagged_error _
        | exact ih1 _ (by first | assumption | rfl | (simp only [Parser.advance_had_error, Parser.back_had_error]; assumption))
        | exact ih2 _ _ (by first | assumption | rfl | (simp only [Parser.advance_had_error, Parser.back_had_error]; assumption))
        | exact ih3 _ _ (by first | assumption | rfl | (simp only [Parser.advance_had_error, Parser.back_had_error]; assumption))
        | exact ih4 _ _ _ (by first | assumption | rfl | (simp only [Parser.advance_had_error, Parser.back_had_error]; assumption))
        | exact ih5 _ (by first | assumption | rfl | (simp only [Parser.advance_had_error, Parser.back_had_error]; assumption))
        | exact ih6 _ _ (by first | assumption | rfl | (simp only [Parser.advance_had_error, Parser.back_had_error]; assumption))
        | exact ih7 _ (by first | assumption | rfl | (simp only [Parser.advance_had_error, Parser.back_had_error]; assumption))
        | exact ih8 _ (by first | assumption | rfl | (simp only [Parser.advance_had_error, Parser.back_had_error]; assumption))
        | exact ih9 _ (by first | assumption | rfl | (simp only [Parser.advance_had_error, Parser.back_had_error]; assumption))
        | exact ih10 _ (by first | assumption | rfl | (simp only [Parser.advance_had_error, Parser.back_had_error]; assumption))
        | exact ih11 _ (by first | assumption | rfl | (simp only [Parser.advance_had_error, Parser.back_had_error]; assumption))
        | exact ih12 _ (by first | assumption | rfl | (simp only [Parser.advance_had_error, Parser.back_had_error]; assumption))
        | exact ih13 _ (by first | assumption | rfl | (simp only [Parser.advance_had_error, Parser.back_had_error]; assumption))
        | exact ih14 _ (by first | assumption | rfl | (simp only [Parser.advance_had_error, Parser.back_had_error]; assumption))
        | exact ih15 _ (by first | assumption | rfl | (simp only [Parser.advance_had_error, Parser.back_had_error]; assumption))
        | exact flagged_matchTok _ _ (by first | assumption | rfl | (simp only [Parser.advance_had_error, Parser.back_had_error]; assumption))
        | exact flagged_expect _ _ _ (by first | assumption | rfl | (simp only [Parser.advance_had_error, Parser.back_had_error]; assumption))
        | exact parse_params_flagged _ _ (by first | assumption | rfl | (simp only [Parser.advance_had_error, Parser.back_had_error]; assumption))
        | apply flagged_ite
        | (apply flagged_bind; rotate_left; rintro ⟨_, _⟩ _; try dsimp only)
        | (apply flagged_bind_plain; intro _)
        | split
    · rw [parse_args_loop]
      repeat' first
        | exact flagged_pure _ _ (by first | assumption | rfl | (simp only [Parser.advance_had_error, Parser.back_had_error]; assumption))
        | exact flagged_error _
        | exact ih1 _ (by first | assumption | rfl | (simp only [Parser.advance_had_error, Parser.back_had_error]; assumption))
        | exact ih2 _ _ (by first | assumption | rfl | (simp only [Parser.advance_had_error, Parser.back_had_error]; assumption))
        | exact ih3 _ _ (by first | assumption | rfl | (simp only [Parser.advance_had_error, Parser.back_had_error]; assumption))
        | exact ih4 _ _ _ (by first | assumption | rfl | (simp only [Parser.advance_had_error, Parser.back_had_error]; assumption))
        | exact ih5 _ (by first | assumption | rfl | (simp only [Parser.advance_had_error, Parser.back_had_error]; assumption))
        | exact ih6 _ _ (by first | assumption | rfl | (simp only [Parser.advance_had_error, Parser.back_had_error]; assumption))
        | exact ih7 _ (by first | assumption | rfl | (simp only [Parser.advance_had_error, Parser.back_had_error]; assumption))
        | exact ih8 _ (by first | assumption | rfl | (simp only [Parser.advance_had_error, Parser.back_had_error]; assumption))
        | exact ih9 _ (by first | assumption | rfl | (simp only [Parser.advance_had_error, Parser.back_had_error]; assumption))
        | exact ih10 _ (by first | assumption | rfl | (simp only [Parser.advance_had_error, Parser.back_had_error]; assumption))
        | exact ih11 _ (by first | assumption | rfl | (simp only [Parser.advance_had_error, Parser.back_had_error]; assumption))
        | exact ih12 _ (by first | assumption | rfl | (simp only [Parser.advance_had_error, Parser.back_had_error]; assumption))
        | exact ih13 _ (by first | assumption | rfl | (simp only [Parser.advance_had_error, Parser.back_had_error]; assumption))
        | exact ih14 _ (by first | assumption | rfl | (simp only [Parser.advance_had_error, Parser.back_had_error]; assumption))
        | exact ih15 _ (by first | assumption | rfl | (simp only [Parser.advance_had_error, Parser.back_had_error]; assumption))
        | exact flagged_matchTok _ _ (by first | assumption | rfl | (simp only [Parser.advance_had_error, Parser.back_had_error]; assumption))
        | exact flagged_expect _ _ _ (by first | assumption | rfl | (simp only [Parser.advance_had_error, Parser.back_had_error]; assumption))
        | exact parse_params_flagged _ _ (by first | assumption | rfl | (simp only [Parser.advance_had_error, Parser.back_had_error]; assumption))
        | apply flagged_ite
        | (apply flagged_bind; rotate_left; rintro ⟨_, _⟩ _; try dsimp only)
        | (apply flagged_bind_plain; intro _)
        | split
    · rw [parse_binary]
      repeat' first
        | exact flagged_pure _ _ (by first | assumption | rfl | (simp only [Parser.advance_had_error, Parser.back_had_error]; assumption))
        | exact flagged_error _
        | exact ih1 _ (by first | assumption | rfl | (simp only [Parser.advance_had_error, Parser.back_had_error]; assumption))
        | exact ih2 _ _ (by first | assumption | rfl | (simp only [Parser.advance_had_error, Parser.back_had_error]; assumption))
        | exact ih3 _ _ (by first | assumption | rfl | (simp only [Parser.advance_had_error, Parser.back_had_error]; assumption))
        | exact ih4 _ _ _ (by first | assumption | rfl | (simp only [Parser.advance_had_error, Parser.back_had_error]; assumption))
        | exact ih5 _ (by first | assumption | rfl | (simp only [Parser.advance_had_error, Parser.back_had_error]; assumption))
        | exact ih6 _ _ (by first | assumption | rfl | (simp only [Parser.advance_had_error, Parser.back_had_error]; assumption))
        | exact ih7 _ (by first | assumption | rfl | (simp only [Parser.advance_had_error, Parser.back_had_error]; assumption))
        | exact ih8 _ (by first | assumption | rfl | (simp only [Parser.advance_had_error, Parser.back_had_error]; assumption))
        | exact ih9 _ (by first | assumption | rfl | (simp only [Parser.advance_had_error, Parser.back_had_error]; assumption))
        | exact ih10 _ (by first | assumption | rfl | (simp only [Parser.advance_had_error, Parser.back_had_error]; assumption))
        | exact ih11 _ (by first | assumption | rfl | (simp only [Parser.advance_had_error, Parser.back_had_error]; assumption))
        | exact ih12 _ (by first | assumption | rfl | (simp only [Parser.advance_had_error, Parser.back_had_error]; assumption))
        | exact ih13 _ (by first | assumption | rfl | (simp only [Parser.advance_had_error, Parser.back_had_error]; assumption))
        | exact ih14 _ (by first | assumption | rfl | (simp only [Parser.advance_had_error, Parser.back_had_error]; assumption))
        | exact ih15 _ (by first | assumption | rfl | (simp only [Parser.advance_had_error, Parser.back_had_error]; assumption))
        | exact flagged_matchTok _ _ (by first | assumption | rfl | (simp only [Parser.advance_had_error, Parser.back_had_error]; assumption))
        | exact flagged_expect _ _ _ (by first | assumption | rfl | (simp only [Parser.advance_had_error, Parser.back_had_error]; assumption))
        | exact parse_params_flagged _ _ (by first | assumption | rfl | (simp only [Parser.advance_had_error, Parser.back_had_error]; assumption))
        | apply flagged_ite
        | (apply flagged_bind; rotate_left; rintro ⟨_, _⟩ _; try dsimp only)
        | (apply flagged_bind_plain; intro _)
        | split
    · rw [parse_binary_loop]
      repeat' first
        | exact flagged_pure _ _ (by first | assumption | rfl | (simp only [Parser.advance_had_error, Parser.back_had_error]; assumption))
        | exact flagged_error _
        | exact ih1 _ (by first | assumption | rfl | (simp only [Parser.advance_had_error, Parser.back_had_error]; assumption))
        | exact ih2 _ _ (by first | assumption | rfl | (simp only [Parser.advance_had_error, Parser.back_had_error]; assumption))
        | exact ih3 _ _ (by first | assumption | rfl | (simp only [Parser.advance_had_error, Parser.back_had_error]; assumption))
        | exact ih4 _ _ _ (by first | assumption | rfl | (simp only [Parser.advance_had_error, Parser.back_had_error]; assumption))
        | exact ih5 _ (by first | assumption | rfl | (simp only [Parser.advance_had_error, Parser.back_had_error]; assumption))
        | exact ih6 _ _ (by first | assumption | rfl | (simp only [Parser.advance_had_error, Parser.back_had_error]; assumption))
        | exact ih7 _ (by first | assumption | rfl | (simp only [Parser.advance_had_error, Parser.back_had_error]; assumption))
        | exact ih8 _ (by first | assumption | rfl | (simp only [Parser.advance_had_error, Parser.back_had_error]; assumption))
        | exact ih9 _ (by first | assumption | rfl | (simp only [Parser.advance_had_error, Parser.back_had_error]; assumption))
        | exact ih10 _ (by first | assumption | rfl | (simp only [Parser.advance_had_error, Parser.back_had_error]; assumption))
        | exact ih11 _ (by first | assumption | rfl | (simp only [Parser.advance_had_error, Parser.back_had_error]; assumption))
        | exact ih12 _ (by first | assumption | rfl | (simp only [Parser.advance_had_error, Parser.back_had_error]; assumption))
        | exact ih13 _ (by first | assumption | rfl | (simp only [Parser.advance_had_error, Parser.back_had_error]; assumption))
        | exact ih14 _ (by first | assumption | rfl | (simp only [Parser.advance_had_error, Parser.back_had_error]; assumption))
        | exact ih15 _ (by first | assumption | rfl | (simp only [Parser.advance_had_error, Parser.back_had_error]; assumption))
        | exact flagged_matchTok _ _ (by first | assumption | rfl | (simp only [Parser.advance_had_error, Parser.back_had_error]; assumption))
        | exact flagged_expect _ _ _ (by first | assumption | rfl | (simp only [Parser.advance_had_error, Parser.back_had_error]; assumption))
        | exact parse_params_flagged _ _ (by first | assumption | rfl | (simp only [Parser.advance_had_error, Parser.back_had_error]; assumption))
        | apply flagged_ite
        | (apply flagged_bind; rotate_left; rintro ⟨_, _⟩ _; try dsimp only)
        | (apply flagged_bind_plain; intro _)
        | split
    · rw [parse_expression]
      repeat' first
        | exact flagged_pure _ _ (by first | assumption | rfl | (simp only [Parser.advance_had_error, Parser.back_had_error]; assumption))
        | exact flagged_error _
        | exact ih1 _ (by first | assumption | rfl | (simp only [Parser.advance_had_error, Parser.back_had_error]; assumption))
        | exact ih2 _ _ (by first | assumption | rfl | (simp only [Parser.advance_had_error, Parser.back_had_error]; assumption))
        | exact ih3 _ _ (by first | assumption | rfl | (simp only [Parser.advance_had_error, Parser.back_had_error]; assumption))
        | exact ih4 _ _ _ (by first | assumption | rfl | (simp only [Parser.advance_had_error, Parser.back_had_error]; assumption))
        | exact ih5 _ (by first | assumption | rfl | (simp only [Parser.advance_had_error, Parser.back_had_error]; assumption))
        | exact ih6 _ _ (by first | assumption | rfl | (simp only [Parser.advance_had_error, Parser.back_had_error]; assumption))
        | exact ih7 _ (by first | assumption | rfl | (simp only [Parser.advance_had_error, Parser.back_had_error]; assumption))
        | exact ih8 _ (by first | assumption | rfl | (simp only [Parser.advance_had_error, Parser.back_had_error]; assumption))
        | exact ih9 _ (by first | assumption | rfl | (simp only [Parser.advance_had_error, Parser.back_had_error]; assumption))
        | exact ih10 _ (by first | assumption | rfl | (simp only [Parser.advance_had_error, Parser.back_had_error]; assumption))
        | exact ih11 _ (by first | assumption | rfl | (simp only [Parser.advance_had_error, Parser.back_had_error]; assumption))
        | exact ih12 _ (by first | assumption | rfl | (simp only [Parser.advance_had_error, Parser.back_had_error]; assumption))
        | exact ih13 _ (by first | assumption | rfl | (simp only [Parser.advance_had_error, Parser.back_had_error]; assumption))
        | exact ih14 _ (by first | assumption | rfl | (simp only [Parser.advance_had_error, Parser.back_had_error]; assumption))
        | exact ih15 _ (by first | assumption | rfl | (simp only [Parser.advance_had_error, Parser.back_had_error]; assumption))
        | exact flagged_matchTok _ _ (by first | assumption | rfl | (simp only [Parser.advance_had_error, Parser.back_had_error]; assumption))
        | exact flagged_expect _ _ _ (by first | assumption | rfl | (simp only [Parser.advance_had_error, Parser.back_had_error]; assumption))
        | exact parse_params_flagged _ _ (by first | assumption | rfl | (simp only [Parser.advance_had_error, Parser.back_had_error]; assumption))
        | apply flagged_ite
        | (apply flagged_bind; rotate_left; rintro ⟨_, _⟩ _; try dsimp only)
        | (apply flagged_bind_plain; intro _)
        | split
    · rw [parse_block_loop]
      repeat' first
        | exact flagged_pure _ _ (by first | assumption | rfl | (simp only [Parser.advance_had_error, Parser.back_had_error]; assumption))
        | exact flagged_error _
        | exact ih1 _ (by first | assumption | rfl | (simp only [Parser.advance_had_error, Parser.back_had_error]; assumption))
        | exact ih2 _ _ (by first | assumption | rfl | (simp only [Parser.advance_had_error, Parser.back_had_error]; assumption))
        | exact ih3 _ _ (by first | assumption | rfl | (simp only [Parser.advance_had_error, Parser.back_had_error]; assumption))
        | exact ih4 _ _ _ (by first | assumption | rfl | (simp only [Parser.advance_had_error, Parser.back_had_error]; assumption))
        | exact ih5 _ (by first | assumption | rfl | (simp only [Parser.advance_had_error, Parser.back_had_error]; assumption))
        | exact ih6 _ _ (by first | assumption | rfl | (simp only [Parser.advance_had_error, Parser.back_had_error]; assumption))
        | exact ih7 _ (by first | assumption | rfl | (simp only [Parser.advance_had_error, Parser.back_had_error]; assumption))
        | exact ih8 _ (by first | assumption | rfl | (simp only [Parser.advance_had_error, Parser.back_had_error]; assumption))
        | exact ih9 _ (by first | assumption | rfl | (simp only [Parser.advance_had_error, Parser.back_had_error]; assumption))
        | exact ih10 _ (by first | assumption | rfl | (simp only [Parser.advance_had_error, Parser.back_had_error]; assumption))
        | exact ih11 _ (by first | assumption | rfl | (simp only [Parser.advance_had_error, Parser.back_had_error]; assumption))
        | exact ih12 _ (by first | assumption | rfl | (simp only [Parser.advance_had_error, Parser.back_had_error]; assumption))
        | exact ih13 _ (by first | assumption | rfl | (simp only [Parser.advance_had_error, Parser.back_had_error]; assumption))
        | exact ih14 _ (by first | assumption | rfl | (simp only [Parser.advance_had_error, Parser.back_had_error]; assumption))
        | exact ih15 _ (by first | assumption | rfl | (simp only [Parser.advance_had_error, Parser.back_had_error]; assumption))
        | exact flagged_matchTok _ _ (by first | assumption | rfl | (simp only [Parser.advance_had_error, Parser.back_had_error]; assumption))
        | exact flagged_expect _ _ _ (by first | assumption | rfl | (simp only [Parser.advance_had_error, Parser.back_had_error]; assumption))
        | exact parse_params_flagged _ _ (by first | assumption | rfl | (simp only [Parser.advance_had_error, Parser.back_had_error]; assumption))
        | apply flagged_ite
        | (apply flagged_bind; rotate_left; rintro ⟨_, _⟩ _; try dsimp only)
        | (apply flagged_bind_plain; intro _)
        | split
    · rw [parse_block]
      repeat' first
        | exact flagged_pure _ _ (by first | assumption | rfl | (simp only [Parser.advance_had_error, Parser.back_had_error]; assumption))
        | exact flagged_error _
        | exact ih1 _ (by first | assumption | rfl | (simp only [Parser.advance_had_error, Parser.back_had_error]; assumption))
        | exact ih2 _ _ (by first | assumption | rfl | (simp only [Parser.advance_had_error, Parser.back_had_error]; assumption))
        | exact ih3 _ _ (by first | assumption | rfl | (simp only [Parser.advance_had_error, Parser.back_had_error]; assumption))
        | exact ih4 _ _ _ (by first | assumption | rfl | (simp only [Parser.advance_had_error, Parser.back_had_error]; assumption))
        | exact ih5 _ (by first | assumption | rfl | (simp only [Parser.advance_had_error, Parser.back_had_error]; assumption))
        | exact ih6 _ _ (by first | assumption | rfl | (simp only [Parser.advance_had_error, Parser.back_had_error]; assumption))
        | exact ih7 _ (by first | assumption | rfl | (simp only [Parser.advance_had_error, Parser.back_had_error]; assumption))
        | exact ih8 _ (by first | assumption | rfl | (simp only [Parser.advance_had_error, Parser.back_had_error]; assumption))
        | exact ih9 _ (by first | assumption | rfl | (simp only [Parser.advance_had_error, Parser.back_had_error]; assumption))
        | exact ih10 _ (by first | assumption | rfl | (simp only [Parser.advance_had_error, Parser.back_had_error]; assumption))
        | exact ih11 _ (by first | assumption | rfl | (simp only [Parser.advance_had_error, Parser.back_had_error]; assumption))
        | exact ih12 _ (by first | assumption | rfl | (simp only [Parser.advance_had_error, Parser.back_had_error]; assumption))
        | exact ih13 _ (by first | assumption | rfl | (simp only [Parser.advance_had_error, Parser.back_had_error]; assumption))
        | exact ih14 _ (by first | assumption | rfl | (simp only [Parser.advance_had_error, Parser.back_had_error]; assumption))
        | exact ih15 _ (by first | assumption | rfl | (simp only [Parser.advance_had_error, Parser.back_had_error]; assumption))
        | exact flagged_matchTok _ _ (by first | assumption | rfl | (simp only [Parser.advance_had_error, Parser.back_had_error]; assumption))
        | exact flagged_expect _ _ _ (by first | assumption | rfl | (simp only [Parser.advance_had_error, Parser.back_had_error]; assumption))
        | exact parse_params_flagged _ _ (by first | assumption | rfl | (simp only [Parser.advance_had_error, Parser.back_had_error]; assumption))
        | apply flagged_ite
        | (apply flagged_bind; rotate_left; rintro ⟨_, _⟩ _; try dsimp only)
        | (apply flagged_bind_plain; intro _)
        | split
    · rw [parse_var_decl]
      repeat' first
        | exact flagged_pure _ _ (by first | assumption | rfl | (simp only [Parser.advance_had_error, Parser.back_had_error]; assumption))
        | exact flagged_error _
        | exact ih1 _ (by first | assumption | rfl | (simp only [Parser.advance_had_error, Parser.back_had_error]; assumption))
        | exact ih2 _ _ (by first | assumption | rfl | (simp only [Parser.advance_had_error, Parser.back_had_error]; assumption))
        | exact ih3 _ _ (by first | assumption | rfl | (simp only [Parser.advance_had_error, Parser.back_had_error]; assumption))
        | exact ih4 _ _ _ (by first | assumption | rfl | (simp only [Parser.advance_had_error, Parser.back_had_error]; assumption))
        | exact ih5 _ (by first | assumption | rfl | (simp only [Parser.advance_had_error, Parser.back_had_error]; assumption))
        | exact ih6 _ _ (by first | assumption | rfl | (simp only [Parser.advance_had_error, Parser.back_had_error]; assumption))
        | exact ih7 _ (by first | assumption | rfl | (simp only [Parser.advance_had_error, Parser.back_had_error]; assumption))
        | exact ih8 _ (by first | assumption | rfl | (simp only [Parser.advance_had_error, Parser.back_had_error]; assumption))
        | exact ih9 _ (by first | assumption | rfl | (simp only [Parser.advance_had_error, Parser.back_had_error]; assumption))
        | exact ih10 _ (by first | assumption | rfl | (simp only [Parser.advance_had_error, Parser.back_had_error]; assumption))
        | exact ih11 _ (by first | assumption | rfl | (simp only [Parser.advance_had_error, Parser.back_had_error]; assumption))
        | exact ih12 _ (by first | assumption | rfl | (simp only [Parser.advance_had_error, Parser.back_had_error]; assumption))
        | exact ih13 _ (by first | assumption | rfl | (simp only [Parser.advance_had_error, Parser.back_had_error]; assumption))
        | exact ih14 _ (by first | assumption | rfl | (simp only [Parser.advance_had_error, Parser.back_had_error]; assumption))
        | exact ih15 _ (by first | assumption | rfl | (simp only [Parser.advance_had_error, Parser.back_had_error]; assumption))
        | exact flagged_matchTok _ _ (by first | assumption | rfl | (simp only [Parser.advance_had_error, Parser.back_had_error]; assumption))
        | exact flagged_expect _ _ _ (by first | assumption | rfl | (simp only [Parser.advance_had_error, Parser.back_had_error]; assumption))
        | exact parse_params_flagged _ _ (by first | assumption | rfl | (simp only [Parser.advance_had_error, Parser.back_had_error]; assumption))
        | apply flagged_ite
        | (apply flagged_bind; rotate_left; rintro ⟨_, _⟩ _; try dsimp only)
        | (apply flagged_bind_plain; intro _)
        | split
    · rw [parse_func_decl]
      repeat' first
        | exact flagged_pure _ _ (by first | assumption | rfl | (simp only [Parser.advance_had_error, Parser.back_had_error]; assumption))
        | exact flagged_error _
        | exact ih1 _ (by first | assumption | rfl | (simp only [Parser.advance_had_error, Parser.back_had_error]; assumption))
        | exact ih2 _ _ (by first | assumption | rfl | (simp only [Parser.advance_had_error, Parser.back_had_error]; assumption))
        | exact ih3 _ _ (by first | assumption | rfl | (simp only [Parser.advance_had_error, Parser.back_had_error]; assumption))
        | exact ih4 _ _ _ (by first | assumption | rfl | (simp only [Parser.advance_had_error, Parser.back_had_error]; assumption))
        | exact ih5 _ (by first | assumption | rfl | (simp only [Parser.advance_had_error, Parser.back_had_error]; assumption))
        | exact ih6 _ _ (by first | assumption | rfl | (simp only [Parser.advance_had_error, Parser.back_had_error]; assumption))
        | exact ih7 _ (by first | assumption | rfl | (simp only [Parser.advance_had_error, Parser.back_had_error]; assumption))
        | exact ih8 _ (by first | assumption | rfl | (simp only [Parser.advance_had_error, Parser.back_had_error]; assumption))
        | exact ih9 _ (by first | assumption | rfl | (simp only [Parser.advance_had_error, Parser.back_had_error]; assumption))
        | exact ih10 _ (by first | assumption | rfl | (simp only [Parser.advance_had_error, Parser.back_had_error]; assumption))
        | exact ih11 _ (by first | assumption | rfl | (simp only [Parser.advance_had_error, Parser.back_had_error]; assumption))
        | exact ih12 _ (by first | assumption | rfl | (simp only [Parser.advance_had_error, Parser.back_had_error]; assumption))
        | exact ih13 _ (by first | assumption | rfl | (simp only [Parser.advance_had_error, Parser.back_had_error]; assumption))
        | exact ih14 _ (by first | assumption | rfl | (simp only [Parser.advance_had_error, Parser.back_had_error]; assumption))
        | exact ih15 _ (by first | assumption | rfl | (simp only [Parser.advance_had_error, Parser.back_had_error]; assumption))
        | exact flagged_matchTok _ _ (by first | assumption | rfl | (simp only [Parser.advance_had_error, Parser.back_had_error]; assumption))
        | exact flagged_expect _ _ _ (by first | assumption | rfl | (simp only [Parser.advance_had_error, Parser.back_had_error]; assumption))
        | exact parse_params_flagged _ _ (by first | assumption | rfl | (simp only [Parser.advance_had_error, Parser.back_had_error]; assumption))
        | apply flagged_ite
        | (apply flagged_bind; rotate_left; rintro ⟨_, _⟩ _; try dsimp only)
        | (apply flagged_bind_plain; intro _)
        | split
    · rw [parse_if]
      repeat' first
        | exact flagged_pure _ _ (by first | assumption | rfl | (simp only [Parser.advance_had_error, Parser.back_had_error]; assumption))
        | exact flagged_error _
        | exact ih1 _ (by first | assumption | rfl | (simp only [Parser.advance_had_error, Parser.back_had_error]; assumption))
        | exact ih2 _ _ (by first | assumption | rfl | (simp only [Parser.advance_had_error, Parser.back_had_error]; assumption))
        | exact ih3 _ _ (by first | assumption | rfl | (simp only [Parser.advance_had_error, Parser.back_had_error]; assumption))
        | exact ih4 _ _ _ (by first | assumption | rfl | (simp only [Parser.advance_had_error, Parser.back_had_error]; assumption))
        | exact ih5 _ (by first | assumption | rfl | (simp only [Parser.advance_had_error, Parser.back_had_error]; assumption))
        | exact ih6 _ _ (by first | assumption | rfl | (simp only [Parser.advance_had_error, Parser.back_had_error]; assumption))
        | exact ih7 _ (by first | assumption | rfl | (simp only [Parser.advance_had_error, Parser.back_had_error]; assumption))
        | exact ih8 _ (by first | assumption | rfl | (simp only [Parser.advance_had_error, Parser.back_had_error]; assumption))
        | exact ih9 _ (by first | assumption | rfl | (simp only [Parser.advance_had_error, Parser.back_had_error]; assumption))
        | exact ih10 _ (by first | assumption | rfl | (simp only [Parser.advance_had_error, Parser.back_had_error]; assumption))
        | exact ih11 _ (by first | assumption | rfl | (simp only [Parser.advance_had_error, Parser.back_had_error]; assumption))
        | exact ih12 _ (by first | assumption | rfl | (simp only [Parser.advance_had_error, Parser.back_had_error]; assumption))
        | exact ih13 _ (by first | assumption | rfl | (simp only [Parser.advance_had_error, Parser.back_had_error]; assumption))
        | exact ih14 _ (by first | assumption | rfl | (simp only [Parser.advance_had_error, Parser.back_had_error]; assumption))
        | exact ih15 _ (by first | assumption | rfl | (simp only [Parser.advance_had_error, Parser.back_had_error]; assumption))
        | exact flagged_matchTok _ _ (by first | assumption | rfl | (simp only [Parser.advance_had_error, Parser.back_had_error]; assumption))
        | exact flagged_expect _ _ _ (by first | assumption | rfl | (simp only [Parser.advance_had_error, Parser.back_had_error]; assumption))
        | exact parse_params_flagged _ _ (by first | assumption | rfl | (simp only [Parser.advance_had_error, Parser.back_had_error]; assumption))
        | apply flagged_ite
        | (apply flagged_bind; rotate_left; rintro ⟨_, _⟩ _; try dsimp only)
        | (apply flagged_bind_plain; intro _)
        | split
    · rw [parse_while]
      repeat' first
        | exact flagged_pure _ _ (by first | assumption | rfl | (simp only [Parser.advance_had_error, Parser.back_had_error]; assumption))
        | exact flagged_error _
        | exact ih1 _ (by first | assumption | rfl | (simp only [Parser.advance_had_error, Parser.back_had_error]; assumption))
        | exact ih2 _ _ (by first | assumption | rfl | (simp only [Parser.advance_had_error, Parser.back_had_error]; assumption))
        | exact ih3 _ _ (by first | assumption | rfl | (simp only [Parser.advance_had_error, Parser.back_had_error]; assumption))
        | exact ih4 _ _ _ (by first | assumption | rfl | (simp only [Parser.advance_had_error, Parser.back_had_error]; assumption))
        | exact ih5 _ (by first | assumption | rfl | (simp only [Parser.advance_had_error, Parser.back_had_error]; assumption))
        | exact ih6 _ _ (by first | assumption | rfl | (simp only [Parser.advance_had_error, Parser.back_had_error]; assumption))
        | exact ih7 _ (by first | assumption | rfl | (simp only [Parser.advance_had_error, Parser.back_had_error]; assumption))
        | exact ih8 _ (by first | assumption | rfl | (simp only [Parser.advance_had_error, Parser.back_had_error]; assumption))
        | exact ih9 _ (by first | assumption | rfl | (simp only [Parser.advance_had_error, Parser.back_had_error]; assumption))
        | exact ih10 _ (by first | assumption | rfl | (simp only [Parser.advance_had_error, Parser.back_had_error]; assumption))
        | exact ih11 _ (by first | assumption | rfl | (simp only [Parser.advance_had_error, Parser.back_had_error]; assumption))
        | exact ih12 _ (by first | assumption | rfl | (simp only [Parser.advance_had_error, Parser.back_had_error]; assumption))
        | exact ih13 _ (by first | assumption | rfl | (simp only [Parser.advance_had_error, Parser.back_had_error]; assumption))
        | exact ih14 _ (by first | assumption | rfl | (simp only [Parser.advance_had_error, Parser.back_had_error]; assumption))
        | exact ih15 _ (by first | assumption | rfl | (simp only [Parser.advance_had_error, Parser.back_had_error]; assumption))
        | exact flagged_matchTok _ _ (by first | assumption | rfl | (simp only [Parser.advance_had_error, Parser.back_had_error]; assumption))
        | exact flagged_expect _ _ _ (by first | assumption | rfl | (simp only [Parser.advance_had_error, Parser.back_had_error]; assumption))
        | exact parse_params_flagged _ _ (by first | assumption | rfl | (simp only [Parser.advance_had_error, Parser.back_had_error]; assumption))
        | apply flagged_ite
        | (apply flagged_bind; rotate_left; rintro ⟨_, _⟩ _; try dsimp only)
        | (apply flagged_bind_plain; intro _)
        | split
    · rw [parse_for]
      repeat' first
        | exact flagged_pure _ _ (by first | assumption | rfl | (simp only [Parser.advance_had_error, Parser.back_had_error]; assumption))
        | exact flagged_error _
        | exact ih1 _ (by first | assumption | rfl | (simp only [Parser.advance_had_error, Parser.back_had_error]; assumption))
        | exact ih2 _ _ (by first | assumption | rfl | (simp only [Parser.advance_had_error, Parser.back_had_error]; assumption))
        | exact ih3 _ _ (by first | assumption | rfl | (simp only [Parser.advance_had_error, Parser.back_had_error]; assumption))
        | exact ih4 _ _ _ (by first | assumption | rfl | (simp only [Parser.advance_had_error, Parser.back_had_error]; assumption))
        | exact ih5 _ (by first | assumption | rfl | (simp only [Parser.advance_had_error, Parser.back_had_error]; assumption))
        | exact ih6 _ _ (by first | assumption | rfl | (simp only [Parser.advance_had_error, Parser.back_had_error]; assumption))
        | exact ih7 _ (by first | assumption | rfl | (simp only [Parser.advance_had_error, Parser.back_had_error]; assumption))
        | exact ih8 _ (by first | assumption | rfl | (simp only [Parser.advance_had_error, Parser.back_had_error]; assumption))
        | exact ih9 _ (by first | assumption | rfl | (simp only [Parser.advance_had_error, Parser.back_had_error]; assumption))
        | exact ih10 _ (by first | assumption | rfl | (simp only [Parser.advance_had_error, Parser.back_had_error]; assumption))
        | exact ih11 _ (by first | assumption | rfl | (simp only [Parser.advance_had_error, Parser.back_had_error]; assumption))
        | exact ih12 _ (by first | assumption | rfl | (simp only [Parser.advance_had_error, Parser.back_had_error]; assumption))
        | exact ih13 _ (by first | assumption | rfl | (simp only [Parser.advance_had_error, Parser.back_had_error]; assumption))
        | exact ih14 _ (by first | assumption | rfl | (simp only [Parser.advance_had_error, Parser.back_had_error]; assumption))
        | exact ih15 _ (by first | assumption | rfl | (simp only [Parser.advance_had_error, Parser.back_had_error]; assumption))
        | exact flagged_matchTok _ _ (by first | assumption | rfl | (simp only [Parser.advance_had_error, Parser.back_had_error]; assumption))
        | exact flagged_expect _ _ _ (by first | assumption | rfl | (simp only [Parser.advance_had_error, Parser.back_had_error]; assumption))
        | exact parse_params_flagged _ _ (by first | assumption | rfl | (simp only [Parser.advance_had_error, Parser.back_had_error]; assumption))
        | apply flagged_ite
        | (apply flagged_bind; rotate_left; rintro ⟨_, _⟩ _; try dsimp only)
        | (apply flagged_bind_plain; intro _)
        | split
    · rw [parse_return]
      repeat' first
        | exact flagged_pure _ _ (by first | assumption | rfl | (simp only [Parser.advance_had_error, Parser.back_had_error]; assumption))
        | exact flagged_error _
        | exact ih1 _ (by first | assumption | rfl | (simp only [Parser.advance_had_error, Parser.back_had_error]; assumption))
        | exact ih2 _ _ (by first | assumption | rfl | (simp only [Parser.advance_had_error, Parser.back_had_error]; assumption))
        | exact ih3 _ _ (by first | assumption | rfl | (simp only [Parser.advance_had_error, Parser.back_had_error]; assumption))
        | exact ih4 _ _ _ (by first | assumption | rfl | (simp only [Parser.advance_had_error, Parser.back_had_error]; assumption))
        | exact ih5 _ (by first | assumption | rfl | (simp only [Parser.advance_had_error, Parser.back_had_error]; assumption))
        | exact ih6 _ _ (by first | assumption | rfl | (simp only [Parser.advance_had_error, Parser.back_had_error]; assumption))
        | exact ih7 _ (by first | assumption | rfl | (simp only [Parser.advance_had_error, Parser.back_had_error]; assumption))
        | exact ih8 _ (by first | assumption | rfl | (simp only [Parser.advance_had_error, Parser.back_had_error]; assumption))
        | exact ih9 _ (by first | assumption | rfl | (simp only [Parser.advance_had_error, Parser.back_had_error]; assumption))
        | exact ih10 _ (by first | assumption | rfl | (simp only [Parser.advance_had_error, Parser.back_had_error]; assumption))
        | exact ih11 _ (by first | assumption | rfl | (simp only [Parser.advance_had_error, Parser.back_had_error]; assumption))
        | exact ih12 _ (by first | assumption | rfl | (simp only [Parser.advance_had_error, Parser.back_had_error]; assumption))
        | exact ih13 _ (by first | assumption | rfl | (simp only [Parser.advance_had_error, Parser.back_had_error]; assumption))
        | exact ih14 _ (by first | assumption | rfl | (simp only [Parser.advance_had_error, Parser.back_had_error]; assumption))
        | exact ih15 _ (by first | assumption | rfl | (simp only [Parser.advance_had_error, Parser.back_had_error]; assumption))
        | exact flagged_matchTok _ _ (by first | assumption | rfl | (simp only [Parser.advance_had_error, Parser.back_had_error]; assumption))
        | exact flagged_expect _ _ _ (by first | assumption | rfl | (simp only [Parser.advance_had_error, Parser.back_had_error]; assumption))
        | exact parse_params_flagged _ _ (by first | assumption | rfl | (simp only [Parser.advance_had_error, Parser.back_had_error]; assumption))
        | apply flagged_ite
        | (apply flagged_bind; rotate_left; rintro ⟨_, _⟩ _; try dsimp only)
        | (apply flagged_bind_plain; intro _)
        | split
    · rw [parse_assignment_or_expr]
      repeat' first
        | exact flagged_pure _ _ (by first | assumption | rfl | (simp only [Parser.advance_had_error, Parser.back_had_error]; assumption))
        | exact flagged_error _
        | exact ih1 _ (by first | assumption | rfl | (simp only [Parser.advance_had_error, Parser.back_had_error]; assumption))
        | exact ih2 _ _ (by first | assumption | rfl | (simp only [Parser.advance_had_error, Parser.back_had_error]; assumption))
        | exact ih3 _ _ (by first | assumption | rfl | (simp only [Parser.advance_had_error, Parser.back_had_error]; assumption))
        | exact ih4 _ _ _ (by first | assumption | rfl | (simp only [Parser.advance_had_error, Parser.back_had_error]; assumption))
        | exact ih5 _ (by first | assumption | rfl | (simp only [Parser.advance_had_error, Parser.back_had_error]; assumption))
        | exact ih6 _ _ (by first | assumption | rfl | (simp only [Parser.advance_had_error, Parser.back_had_error]; assumption))
        | exact ih7 _ (by first | assumption | rfl | (simp only [Parser.advance_had_error, Parser.back_had_error]; assumption))
        | exact ih8 _ (by first | assumption | rfl | (simp only [Parser.advance_had_error, Parser.back_had_error]; assumption))
        | exact ih9 _ (by first | assumption | rfl | (simp only [Parser.advance_had_error, Parser.back_had_error]; assumption))
        | exact ih10 _ (by first | assumption | rfl | (simp only [Parser.advance_had_error, Parser.back_had_error]; assumption))
        | exact ih11 _ (by first | assumption | rfl | (simp only [Parser.advance_had_error, Parser.back_had_error]; assumption))
        | exact ih12 _ (by first | assumption | rfl | (simp only [Parser.advance_had_error, Parser.back_had_error]; assumption))
        | exact ih13 _ (by first | assumption | rfl | (simp only [Parser.advance_had_error, Parser.back_had_error]; assumption))
        | exact ih14 _ (by first | assumption | rfl | (simp only [Parser.advance_had_error, Parser.back_had_error]; assumption))
        | exact ih15 _ (by first | assumption | rfl | (simp only [Parser.advance_had_error, Parser.back_had_error]; assumption))
        | exact flagged_matchTok _ _ (by first | assumption | rfl | (simp only [Parser.advance_had_error, Parser.back_had_error]; assumption))
        | exact flagged_expect _ _ _ (by first | assumption | rfl | (simp only [Parser.advance_had_error, Parser.back_had_error]; assumption))
        | exact parse_params_flagged _ _ (by first | assumption | rfl | (simp only [Parser.advance_had_error, Parser.back_had_error]; assumption))
        | apply flagged_ite
        | (apply flagged_bind; rotate_left; rintro ⟨_, _⟩ _; try dsimp only)
        | (apply flagged_bind_plain; intro _)
        | split
    · rw [parse_statement]
      repeat' first
        | exact flagged_pure _ _ (by first | assumption | rfl | (simp only [Parser.advance_had_error, Parser.back_had_error]; assumption))
        | exact flagged_error _
        | exact ih1 _ (by first | assumption | rfl | (simp only [Parser.advance_had_error, Parser.back_had_error]; assumption))
        | exact ih2 _ _ (by first | assumption | rfl | (simp only [Parser.advance_had_error, Parser.back_had_error]; assumption))
        | exact ih3 _ _ (by first | assumption | rfl | (simp only [Parser.advance_had_error, Parser.back_had_error]; assumption))
        | exact ih4 _ _ _ (by first | assumption | rfl | (simp only [Parser.advance_had_error, Parser.back_had_error]; assumption))
        | exact ih5 _ (by first | assumption | rfl | (simp only [Parser.advance_had_error, Parser.back_had_error]; assumption))
        | exact ih6 _ _ (by first | assumption | rfl | (simp only [Parser.advance_had_error, Parser.back_had_error]; assumption))
        | exact ih7 _ (by first | assumption | rfl | (simp only [Parser.advance_had_error, Parser.back_had_error]; assumption))
        | exact ih8 _ (by first | assumption | rfl | (simp only [Parser.advance_had_error, Parser.back_had_error]; assumption))
        | exact ih9 _ (by first | assumption | rfl | (simp only [Parser.advance_had_error, Parser.back_had_error]; assumption))
        | exact ih10 _ (by first | assumption | rfl | (simp only [Parser.advance_had_error, Parser.back_had_error]; assumption))
        | exact ih11 _ (by first | assumption | rfl | (simp only [Parser.advance_had_error, Parser.back_had_error]; assumption))
        | exact ih12 _ (by first | assumption | rfl | (simp only [Parser.advance_had_error, Parser.back_had_error]; assumption))
        | exact ih13 _ (by first | assumption | rfl | (simp only [Parser.advance_had_error, Parser.back_had_error]; assumption))
        | exact ih14 _ (by first | assumption | rfl | (simp only [Parser.advance_had_error, Parser.back_had_error]; assumption))
        | exact ih15 _ (by first | assumption | rfl | (simp only [Parser.advance_had_error, Parser.back_had_error]; assumption))
        | exact flagged_matchTok _ _ (by first | assumption | rfl | (simp only [Parser.advance_had_error, Parser.back_had_error]; assumption))
        | exact flagged_expect _ _ _ (by first | assumption | rfl | (simp only [Parser.advance_had_error, Parser.back_had_error]; assumption))
        | exact parse_params_flagged _ _ (by first | assumption | rfl | (simp only [Parser.advance_had_error, Parser.back_had_error]; assumption))
        | apply flagged_ite
        | (apply flagged_bind; rotate_left; rintro ⟨_, _⟩ _; try dsimp only)
        | (apply flagged_bind_plain; intro _)
        | split
theorem Parser.check_true {p : Parser} {type : TokenType} (h : Parser.check p type = .ok true) :
    p.current < p.token_count ∧ (p.tokens.get? p.current).map Token.type = some type := by
  unfold Parser.check at h
  split at h
  · cases h
  · rename_i hlt
    unfold Parser.peek at h
    cases hg : p.tokens.get? p.current with
    | none => rw [hg] at h; cases h
    | some t =>
      rw [hg] at h
      have ht : decide (t.type = type) = true := by
        injection h
      exact ⟨by omega, by simpa using ht⟩

theorem Parser.expect_found {p : Parser} {type : TokenType} (message : String) {t : Token}
    (hlt : p.current < p.token_count) (hg : p.tokens.get? p.current = some t)
    (ht : t.type = type) :
    Parser.expect p type message = .ok (some t, { p with current := p.current + 1 }) := by
  have hc : Parser.check p type = .ok true := by
    unfold Parser.check Parser.peek
    rw [if_neg (by omega), hg]
    simp [ht, pure, Except.pure, bind, Except.bind]
  have ha : Parser.advance p = { p with current := p.current + 1 } := by
    unfold Parser.advance
    rw [if_pos hlt]
  have hp : Parser.previous { p with current := p.current + 1 } = .ok t := by
    unfold Parser.previous
    rw [if_neg (by simp)]
    show (match p.tokens.get? (p.current + 1 - 1) with
      | some t => Except.ok t
      | none => Except.error Fault.token_bounds) = _
    rw [Nat.add_sub_cancel, hg]
  unfold Parser.expect
  rw [hc, ha]
  simp only [hp, bind, Except.bind, pure, Except.pure, if_true]

/-- The two `expect` calls of a header, when the tokens are not RUN and COLON: whatever
follows returns with the error flag set. -/
theorem expect_run_colon_flagged {α : Type} {p : Parser} (m1 m2 : String)
    (k : Parser → Except Fault (α × Parser)) (h : at_run_colon p = false)
    (hk : ∀ q, q.had_error = true → Flagged (k q)) :
    Flagged (do let (_, p3) ← Parser.expect p .RUN m1
                let (_, p4) ← Parser.expect p3 .COLON m2
                k p4) := by
  have tail : ∀ q : Parser, q.had_error = true →
      Flagged (do let (_, p4) ← Parser.expect q .COLON m2
                  k p4) := by
    intro q hq
    refine flagged_bind (flagged_expect _ _ _ hq) ?_
    rintro ⟨_, p4⟩ h4
    exact hk p4 h4
  cases hc : Parser.check p .RUN with
  | error e =>
    intro r e1
    simp [Parser.expect, hc, bind, Except.bind] at e1
  | ok found =>
    cases found with
    | false =>
      cases hp : Parser.peek p with
      | error e =>
        intro r e1
        simp [Parser.expect, hc, hp, bind, Except.bind, pure, Except.pure] at e1
      | ok current =>
        have e2 : Parser.expect p .RUN m1 = .ok (none, { p with
            had_error := true
            stderr := p.stderr ++ "Parse error at line ".toList ++
              Nat.toDigits 10 current.line ++ ", column ".toList ++
              Nat.toDigits 10 current.column ++ ": ".toList ++ m1.toList ++ ['\n'] }) := by
          simp [Parser.expect, hc, hp, bind, Except.bind, pure, Except.pure]
        rw [e2]
        exact tail _ rfl
    | true =>
      obtain ⟨hlt, hg⟩ := Parser.check_true hc
      obtain ⟨t1, hg1, ht1⟩ := Option.map_eq_some'.mp hg
      rw [Parser.expect_found m1 hlt hg1 ht1]
      show Flagged (do let (_, p4) ← Parser.expect { p with current := p.current + 1 } .COLON m2
                       k p4)
      cases hc2 : Parser.check { p with current := p.current + 1 } .COLON with
      | error e =>
        intro r e1
        simp [Parser.expect, hc2, bind, Except.bind] at e1
      | ok found2 =>
        cases found2 with
        | true =>
          obtain ⟨hlt2, hg2⟩ := Parser.check_true hc2
          have : at_run_colon p = true := by
            simp only [at_run_colon, Bool.and_eq_true, decide_eq_true_eq, beq_iff_eq]
            exact ⟨⟨hlt2, hg⟩, hg2⟩
          rw [this] at h
          cases h
        | false =>
          cases hp : Parser.peek { p with current := p.current + 1 } with
          | error e =>
            intro r e1
            simp [Parser.expect, hc2, hp, bind, Except.bind, pure, Except.pure] at e1
          | ok current =>
            intro r e1
            simp only [Parser.expect, hc2, hp, bind, Except.bind, pure, Except.pure] at e1
            exact hk _ rfl r e1

theorem Except.ok_bind {α β : Type} (a : α) (f : α → Except Fault β) :
    (Except.ok a >>= f) = f a := rfl

theorem flagged_bind_ok {α β : Type} {x : Except Fault β}
    {f : β → Except Fault (α × Parser)} (hf : ∀ b, x = .ok b → Flagged (f b)) :
    Flagged (x >>= f) := by
  intro r e
  cases x with
  | error _ => cases e
  | ok a => exact hf a rfl r e

/-- The two `expect` calls of a header, when the tokens are not RUN and then COLON: the
second one returns with the error flag set. -/
theorem run_colon_missing {p : Parser} (m1 m2 : String) (h : at_run_colon p = false)
    (r1 r2 : Option Token × Parser) (e1 : Parser.expect p .RUN m1 = .ok r1)
    (e2 : Parser.expect r1.2 .COLON m2 = .ok r2) : r2.2.had_error = true := by
  have f := expect_run_colon_flagged m1 m2 (fun q => (Pure.pure ((), q) : Except Fault (Unit × Parser))) h
    (fun q hq => flagged_pure _ _ hq) ((), r2.2)
  apply f
  rw [e1]
  show (do let (_, p4) ← Parser.expect r1.2 .COLON m2
           (Pure.pure ((), p4) : Except Fault (Unit × Parser))) = _
  rw [e2]
  rfl

/-- The two `expect` calls of a header, at RUN and then COLON: each consumes its token. -/
theorem run_colon_found {p : Parser} (m1 m2 : String) (h : at_run_colon p = true) :
    ∃ t1 t2, Parser.expect p .RUN m1 = .ok (some t1, { p with current := p.current + 1 }) ∧
      Parser.expect { p with current := p.current + 1 } .COLON m2 =
        .ok (some t2, { p with current := p.current + 2 }) := by
  simp only [at_run_colon, Bool.and_eq_true, decide_eq_true_eq, beq_iff_eq,
    Option.map_eq_some'] at h
  obtain ⟨⟨hlt, t1, hg1, ht1⟩, t2, hg2, ht2⟩ := h
  exact ⟨t1, t2, Parser.expect_found m1 (by omega) hg1 ht1,
    @Parser.expect_found { p with current := p.current + 1 } .COLON m2 t2 (by simpa using hlt)
      hg2 ht2⟩

/-- C21. Let `parse_if` and `parse_while` stand behind their condition at the cursor `p2`,
and `parse_for` behind its iterable at the cursor `q4`. When the tokens at that cursor are
not RUN and then COLON, each function that returns, returns with `had_error` set. When they
are, the function goes on as if the cursor had been moved by two tokens and nothing else
had changed: `parse_block` is called with the cursor on the token after the COLON. -/
theorem header_requires_run_colon (fuel : Nat) (p p2 q q2 q3 q4 : Parser)
    (condition iterable : Option ASTNode) (iterator : Token) (in_token : Option Token)
    (hc : parse_expression fuel (Parser.advance p) = .ok (condition, p2))
    (hi : Parser.expect (Parser.advance q) .IDENTIFIER "Expected iterator variable" =
      .ok (some iterator, q2))
    (hn : Parser.expect q2 .IN "Expected 'in' after iterator" = .ok (in_token, q3))
    (he : parse_expression fuel q3 = .ok (iterable, q4)) :
    (at_run_colon p2 = false →
      (∀ r, parse_if (fuel + 1) p = .ok r → r.2.had_error = true) ∧
      (∀ r, parse_while (fuel + 1) p = .ok r → r.2.had_error = true)) ∧
    (at_run_colon q4 = false → ∀ r, parse_for (fuel + 1) q = .ok r → r.2.had_error = true) ∧
    (at_run_colon p2 = true →
      parse_if (fuel + 1) p = (do
        let if_token ← Parser.previous (Parser.advance p)
        let (then_branch, p5) ← parse_block fuel { p2 with current := p2.current + 2 }
        let (isEnd, p6) ← Parser.matchTok p5 .END
        if isEnd then
          pure (some (.if_stmt if_token.line if_token.column condition then_branch none), p6)
        else do
          let (isElse, p7) ← Parser.matchTok p6 .ELSE
          if isElse then do
            let (_, p8) ← Parser.expect p7 .COLON "Expected ':' after 'else'"
            let (else_branch, p9) ← parse_block fuel p8
            let (_, p10) ← Parser.expect p9 .END "Expected 'end' after else block"
            pure (some (.if_stmt if_token.line if_token.column condition then_branch
              else_branch), p10)
          else
            pure (some (.if_stmt if_token.line if_token.column condition then_branch none),
              p7)) ∧
      parse_while (fuel + 1) p = (do
        let while_token ← Parser.previous (Parser.advance p)
        let (body, p5) ← parse_block fuel { p2 with current := p2.current + 2 }
        let (_, p6) ← Parser.expect p5 .END "Expected 'end' after while block"
        pure (some (.while_loop while_token.line while_token.column condition body), p6))) ∧
    (at_run_colon q4 = true →
      parse_for (fuel + 1) q = (do
        let for_token ← Parser.previous (Parser.advance q)
        let (body, p7) ← parse_block fuel { q4 with current := q4.current + 2 }
        let (_, p8) ← Parser.expect p7 .END "Expected 'end' after for block"
        pure (some (.for_loop for_token.line for_token.column iterator.lexeme iterable body),
          p8))) := by
  obtain ⟨f1, f2, f3, f4, f5, f6, f7, f8, f9, f10, f11, f12, f13, f14, f15⟩ := parser_flagged fuel
  refine ⟨fun h => ⟨?_, ?_⟩, fun h => ?_, fun h => ⟨?_, ?_⟩, fun h => ?_⟩
  · rw [parse_if]
    show Flagged _
    refine flagged_bind_plain fun if_token => ?_
    rw [hc]
    dsimp only [Except.ok_bind]
    refine flagged_bind_ok fun r1 e1 => flagged_bind_ok fun r2 e2 => ?_
    have h4 := run_colon_missing _ _ h r1 r2 e1 e2
    repeat' first
      | exact flagged_pure _ _ (by first | assumption | rfl | (simp only [Parser.advance_had_error, Parser.back_had_error]; assumption))
      | exact f7 _ (by first | assumption | rfl | (simp only [Parser.advance_had_error, Parser.back_had_error]; assumption))
      | exact flagged_matchTok _ _ (by first | assumption | rfl | (simp only [Parser.advance_had_error, Parser.back_had_error]; assumption))
      | exact flagged_expect _ _ _ (by first | assumption | rfl | (simp only [Parser.advance_had_error, Parser.back_had_error]; assumption))
      | apply flagged_ite
      | (apply flagged_bind; rotate_left; rintro ⟨_, _⟩ _; try dsimp only)
  · rw [parse_while]
    show Flagged _
    refine flagged_bind_plain fun while_token => ?_
    rw [hc]
    dsimp only [Except.ok_bind]
    refine flagged_bind_ok fun r1 e1 => flagged_bind_ok fun r2 e2 => ?_
    have h4 := run_colon_missing _ _ h r1 r2 e1 e2
    repeat' first
      | exact flagged_pure _ _ (by first | assumption | rfl | (simp only [Parser.advance_had_error, Parser.back_had_error]; assumption))
      | exact f7 _ (by first | assumption | rfl | (simp only [Parser.advance_had_error, Parser.back_had_error]; assumption))
      | exact flagged_matchTok _ _ (by first | assumption | rfl | (simp only [Parser.advance_had_error, Parser.back_had_error]; assumption))
      | exact flagged_expect _ _ _ (by first | assumption | rfl | (simp only [Parser.advance_had_error, Parser.back_had_error]; assumption))
      | apply flagged_ite
      | (apply flagged_bind; rotate_left; rintro ⟨_, _⟩ _; try dsimp only)
  · rw [parse_for]
    show Flagged _
    dsimp only
    rw [hi]
    dsimp only [Except.ok_bind]
    rw [hn]
    dsimp only [Except.ok_bind]
    refine flagged_bind_plain fun for_token => ?_
    rw [he]
    dsimp only [Except.ok_bind]
    refine flagged_bind_ok fun r1 e1 => flagged_bind_ok fun r2 e2 => ?_
    have h4 := run_colon_missing _ _ h r1 r2 e1 e2
    repeat' first
      | exact flagged_pure _ _ (by first | assumption | rfl | (simp only [Parser.advance_had_error, Parser.back_had_error]; assumption))
      | exact f7 _ (by first | assumption | rfl | (simp only [Parser.advance_had_error, Parser.back_had_error]; assumption))
      | exact flagged_matchTok _ _ (by first | assumption | rfl | (simp only [Parser.advance_had_error, Parser.back_had_error]; assumption))
      | exact flagged_expect _ _ _ (by first | assumption | rfl | (simp only [Parser.advance_had_error, Parser.back_had_error]; assumption))
      | apply flagged_ite
      | (apply flagged_bind; rotate_left; rintro ⟨_, _⟩ _; try dsimp only)
  · obtain ⟨t1, t2, e1, e2⟩ := run_colon_found "Expected 'run:' after if condition"
      "Expected ':' after 'run'" h
    rw [parse_if]
    congr 1
    funext if_token
    rw [hc]
    dsimp only [Except.ok_bind]
    rw [e1]
    dsimp only [Except.ok_bind]
    rw [e2]
    rfl
  · obtain ⟨t1, t2, e1, e2⟩ := run_colon_found "Expected 'run:' after while condition"
      "Expected ':' after 'run'" h
    rw [parse_while]
    congr 1
    funext while_token
    rw [hc]
    dsimp only [Except.ok_bind]
    rw [e1]
    dsimp only [Except.ok_bind]
    rw [e2]
    rfl
  · obtain ⟨t1, t2, e1, e2⟩ := run_colon_found "Expected 'run:' after for condition"
      "Expected ':' after 'run'" h
    rw [parse_for]
    dsimp only
    rw [hi]
    dsimp only [Except.ok_bind]
    rw [hn]
    dsimp only [Except.ok_bind]
    congr 1
    funext for_token
    rw [he]
    dsimp only [Except.ok_bind]
    rw [e1]
    dsimp only [Except.ok_bind]
    rw [e2]
    rfl

/-- C21 on the headers `if x run end` and `for i in xs : end`, which lack the COLON or the
RUN (both functions return, with the flag set), and on `if x run: end` and
`for i in xs run: end`, where the block is parsed from the token `end` on (token 4 of the
first, token 6 of the second). -/
theorem header_requires_run_colon_witness :
    (((∀ r, parse_if 5 (cursor_on "if x run end") = .ok r → r.2.had_error = true) ∧
      (∀ r, parse_while 5 (cursor_on "if x run end") = .ok r → r.2.had_error = true)) ∧
     (∀ r, parse_for 5 (cursor_on "for i in xs : end") = .ok r → r.2.had_error = true) ∧
     (parse_if 5 (cursor_on "if x run end")).map (fun r => r.2.had_error) = .ok true ∧
     (parse_for 5 (cursor_on "for i in xs : end")).map (fun r => r.2.had_error) = .ok true) ∧
    (parse_if 5 (cursor_on "if x run: end") = (do
        let if_token ← Parser.previous (Parser.advance (cursor_on "if x run: end"))
        let (then_branch, p5) ← parse_block 4 { cursor_on "if x run: end" with current := 4 }
        let (isEnd, p6) ← Parser.matchTok p5 .END
        if isEnd then
          pure (some (.if_stmt if_token.line if_token.column
            (some (.identifier 1 4 ['x'])) then_branch none), p6)
        else do
          let (isElse, p7) ← Parser.matchTok p6 .ELSE
          if isElse then do
            let (_, p8) ← Parser.expect p7 .COLON "Expected ':' after 'else'"
            let (else_branch, p9) ← parse_block 4 p8
            let (_, p10) ← Parser.expect p9 .END "Expected 'end' after else block"
            pure (some (.if_stmt if_token.line if_token.column
              (some (.identifier 1 4 ['x'])) then_branch else_branch), p10)
          else
            pure (some (.if_stmt if_token.line if_token.column
              (some (.identifier 1 4 ['x'])) then_branch none), p7))) ∧
    (parse_for 5 (cursor_on "for i in xs run: end") = (do
        let for_token ← Parser.previous (Parser.advance (cursor_on "for i in xs run: end"))
        let (body, p7) ← parse_block 4 { cursor_on "for i in xs run: end" with current := 6 }
        let (_, p8) ← Parser.expect p7 .END "Expected 'end' after for block"
        pure (some (.for_loop for_token.line for_token.column ['i']
          (some (.identifier 1 10 ['x', 's'])) body), p8))) ∧
    (parse_if 5 (cursor_on "if x run: end")).map (fun r => (r.2.had_error, r.2.current)) =
      .ok (false, 5) :=
  ⟨⟨(header_requires_run_colon 4 (cursor_on "if x run end") _ (cursor_on "for i in xs : end")
      _ _ _ _ _ _ _ rfl rfl rfl rfl).1 (by decide!),
    (header_requires_run_colon 4 (cursor_on "if x run end") _ (cursor_on "for i in xs : end")
      _ _ _ _ _ _ _ rfl rfl rfl rfl).2.1 (by decide!), by decide!, by decide!⟩,
   ((header_requires_run_colon 4 (cursor_on "if x run: end") _
      (cursor_on "for i in xs run: end") _ _ _ _ _ _ _ rfl rfl rfl rfl).2.2.1 (by decide!)).1,
   (header_requires_run_colon 4 (cursor_on "if x run: end") _
      (cursor_on "for i in xs run: end") _ _ _ _ _ _ _ rfl rfl rfl rfl).2.2.2 (by decide!),
   by decide!⟩

/-! ## Tokens at the cursor -/

theorem lexer_tokenize_stable (source : List Char) (n : Nat) (ts : List Token)
    (h : lexer_tokenize n source = some ts) (k : Nat) :
    lexer_tokenize (n + k) source = some ts := by
  induction k with
  | zero => exact h
  | succ k ih =>
    rcases lexer_tokenize_loop_mono (n + k) (lexer_init source) with h1 | h1
    · have : lexer_tokenize (n + k) source = none := h1
      rw [this] at ih
      cases ih
    · have : lexer_tokenize (n + k) source = lexer_tokenize (n + k + 1) source := h1
      rw [← Nat.add_assoc, ← this]
      exact ih

/-- At a character that is neither a blank nor `<`, there is nothing to skip. -/
theorem skip_trivia_at (fuel : Nat) (lx : Lexer) (c : Char) (rest : List Char)
    (hcur : lx.current = c :: rest) (hb : (c == ' ' || c == '\t' || c == '\r') = false)
    (hl : c ≠ '<') : skip_trivia (fuel + 1) lx = some lx := by
  have hw : skip_whitespace lx = lx := by
    unfold skip_whitespace
    rw [hcur, skip_whitespace_loop, if_neg (by simp [hb])]
    cases lx
    simp only [Lexer.mk.injEq, and_true, true_and] at hcur ⊢
    exact hcur.symm
  have hs : skip_comment lx = (false, lx) := by
    unfold skip_comment
    have : (Lexer.peek lx == '<') = false := by
      simp [Lexer.peek, hcur, hl]
    rw [this]
    rfl
  unfold skip_trivia
  rw [hw, hs]
  rfl

/-- The branch of `lexer_next_token` taken at the character `c` of a token. -/
theorem lexer_next_token_at (fuel : Nat) (lx : Lexer) (c : Char) (rest : List Char)
    (hcur : lx.current = c :: rest) (hb : (c == ' ' || c == '\t' || c == '\r') = false)
    (hl : c ≠ '<') (hn : c ≠ '\n') :
    lexer_next_token (fuel + 1) lx =
      if c == '"' then some (parse_string { lx with start_column := lx.column })
      else if c.isDigit then some (parse_number { lx with start_column := lx.column })
      else if c.isAlpha || c == '_' then
        some (parse_identifier { lx with start_column := lx.column })
      else some (punctuation c (Lexer.advance { lx with start_column := lx.column })) := by
  unfold lexer_next_token
  rw [skip_trivia_at fuel lx c rest hcur hb hl]
  simp only [Lexer.is_at_end, Lexer.peek, hcur, List.isEmpty_cons, List.headD_cons]
  rw [if_neg (by simp), if_neg (by simpa using hn)]
/-! ### String literals -/

theorem advance_overrun_cons (lx : Lexer) (c : Char) (cs : List Char)
    (h : lx.current = c :: cs) : (Lexer.advance lx).overrun = lx.overrun := by
  simp [Lexer.advance, h]

theorem dropWhile_head {α : Type} (p : α → Bool) (l : List α) (c : α) (tl : List α)
    (h : l.dropWhile p = c :: tl) : p c = false := by
  induction l with
  | nil => cases h
  | cons a l ih =>
    rw [List.dropWhile_cons] at h
    split at h
    · exact ih h
    · rename_i hp
      cases h
      simpa using hp

/-- The scanning loop of `parse_string` passes the characters before the next quote and
stops there, or at the end when there is none; it never moves past the end. -/
theorem parse_string_loop_scan (cs : List Char) (lx : Lexer) (h : lx.current = cs) :
    (parse_string_loop cs lx).1 = cs.takeWhile (· != '"') ∧
    (parse_string_loop cs lx).2.current = cs.dropWhile (· != '"') ∧
    (parse_string_loop cs lx).2.overrun = lx.overrun ∧
    (parse_string_loop cs lx).2.start_column = lx.start_column := by
  induction cs generalizing lx with
  | nil => simp [parse_string_loop, h]
  | cons c cs ih =>
    unfold parse_string_loop
    by_cases hq : c = '"'
    · subst hq
      simp [h]
    · have hq1 : (c == '"') = false := by simpa using hq
      rw [if_neg (by simp [hq])]
      simp only [List.takeWhile_cons, List.dropWhile_cons, bne, hq1, Bool.not_false, if_true]
      obtain ⟨i1, i2, i3, i4⟩ := ih
        { (if (c == '\n') = true then { lx with line := lx.line + 1, column := 0 } else lx) with
          current := cs,
          column := (if (c == '\n') = true then
            { lx with line := lx.line + 1, column := 0 } else lx).column + 1 } rfl
      refine ⟨by rw [i1]; rfl, i2, ?_, ?_⟩
      · rw [i3]; split <;> rfl
      · rw [i4]; split <;> rfl

/-- C25. Let the cursor stand on a `"` that starts a token, with `rest` behind it. If
`rest` holds no `"`, `lexer_next_token` returns an ERROR token with the message
`Unterminated string`, the cursor rests on the terminator without having been moved past
it, and `lexer_tokenize` from this cursor ends with that token. If `rest` holds a `"`,
`lexer_next_token` returns a STRING token whose payload is `rest` up to its first `"`,
character for character, and the cursor rests behind that `"`. -/
theorem lexer_next_token_string (fuel : Nat) (lx : Lexer) (rest : List Char)
    (hcur : lx.current = '"' :: rest) :
    ('"' ∉ rest → ∃ tok lx1, lexer_next_token (fuel + 1) lx = some (tok, lx1) ∧
      tok.type = .ERROR ∧ tok.lexeme = "Unterminated string".toList ∧
      lx1.current = [] ∧ lx1.overrun = lx.overrun ∧
      lexer_tokenize_loop (fuel + 2) lx = some [tok]) ∧
    ('"' ∈ rest → ∃ tok lx1, lexer_next_token (fuel + 1) lx = some (tok, lx1) ∧
      tok.type = .STRING ∧ tok.value = .string (rest.takeWhile (· != '"')) ∧
      tok.lexeme = rest.takeWhile (· != '"') ∧
      '"' :: lx1.current = rest.dropWhile (· != '"') ∧ lx1.overrun = lx.overrun) := by
  have hnext := lexer_next_token_at fuel lx '"' rest hcur (by decide) (by decide) (by decide)
  rw [if_pos (by decide)] at hnext
  have hadv : (Lexer.advance { lx with start_column := lx.column }).current = rest :=
    advance_current_cons _ _ _ hcur
  have hov : (Lexer.advance { lx with start_column := lx.column }).overrun = lx.overrun :=
    advance_overrun_cons _ _ _ hcur
  obtain ⟨s1, s2, s3, s4⟩ := parse_string_loop_scan rest
    (Lexer.advance { lx with start_column := lx.column }) hadv
  constructor
  · intro hno
    have hd : rest.dropWhile (· != '"') = [] := by
      rw [List.dropWhile_eq_nil_iff]
      intro c hc
      have : c ≠ '"' := fun e => hno (e ▸ hc)
      simpa using this
    have hend : Lexer.is_at_end (parse_string_loop rest
        (Lexer.advance { lx with start_column := lx.column })).2 = true := by
      simp [Lexer.is_at_end, s2, hd]
    have hp : parse_string { lx with start_column := lx.column } =
        (create_token .ERROR "Unterminated string".toList
          (parse_string_loop rest (Lexer.advance { lx with start_column := lx.column })).2.line
          (parse_string_loop rest
            (Lexer.advance { lx with start_column := lx.column })).2.start_column,
         (parse_string_loop rest (Lexer.advance { lx with start_column := lx.column })).2) := by
      unfold parse_string
      simp only [hadv, hend, if_true]
    refine ⟨_, _, hnext.trans (congrArg some hp), rfl, rfl, by rw [s2, hd], by rw [s3, hov], ?_⟩
    rw [lexer_tokenize_loop, hnext, hp]
    simp [create_token]
  · intro hyes
    have hd : rest.dropWhile (· != '"') ≠ [] := by
      rw [Ne, List.dropWhile_eq_nil_iff]
      intro hall
      have := hall '"' hyes
      simp at this
    have hend : Lexer.is_at_end (parse_string_loop rest
        (Lexer.advance { lx with start_column := lx.column })).2 = false := by
      simp [Lexer.is_at_end, s2, hd]
    have hp : parse_string { lx with start_column := lx.column } =
        ({ create_token .STRING (rest.takeWhile (· != '"'))
            (Lexer.advance (parse_string_loop rest
              (Lexer.advance { lx with start_column := lx.column })).2).line
            (Lexer.advance (parse_string_loop rest
              (Lexer.advance { lx with start_column := lx.column })).2).start_column with
            value := .string (rest.takeWhile (· != '"')) },
         Lexer.advance (parse_string_loop rest
           (Lexer.advance { lx with start_column := lx.column })).2) := by
      unfold parse_string
      simp only [hadv, hend, s1]
      rfl
    refine ⟨_, _, hnext.trans (congrArg some hp), rfl, rfl, rfl, ?_, ?_⟩
    · obtain ⟨c, tl, htl⟩ := List.exists_cons_of_ne_nil hd
      have hc : c = '"' := by
        simpa using dropWhile_head _ _ _ _ htl
      rw [htl, hc]
      congr 1
      exact advance_current_cons _ _ _ (s2.trans (htl.trans (by rw [hc])))
    · have : (Lexer.advance (parse_string_loop rest
          (Lexer.advance { lx with start_column := lx.column })).2).overrun =
          (parse_string_loop rest (Lexer.advance { lx with start_column := lx.column })).2.overrun := by
        obtain ⟨c, tl, htl⟩ := List.exists_cons_of_ne_nil hd
        exact advance_overrun_cons _ _ _ (s2.trans htl)
      rw [this, s3, hov]

/-! ### Numbers -/

theorem digits_loop_eq (cs : List Char) :
    digits_loop cs = (cs.takeWhile Char.isDigit, cs.dropWhile Char.isDigit) := by
  induction cs with
  | nil => rfl
  | cons c cs ih =>
    unfold digits_loop
    by_cases h : c.isDigit = true
    · simp [h, ih]
    · simp [h]

theorem isDigit_ne_point (c : Char) (h : c.isDigit = true) : c ≠ '.' := by
  rintro rfl
  exact absurd h (by decide)

/-- The two shapes of a text of the number form. -/
theorem number_form_parts (l : List Char) (h : number_form l = true) :
    ∃ ip fp, ip ≠ [] ∧ (∀ c ∈ ip, c.isDigit = true) ∧ (∀ c ∈ fp, c.isDigit = true) ∧
      ((fp = [] ∧ l = ip) ∨ (fp ≠ [] ∧ l = ip ++ '.' :: fp)) := by
  unfold number_form at h
  simp only [Bool.and_eq_true, Bool.not_eq_true', Bool.or_eq_true, List.isEmpty_eq_true] at h
  obtain ⟨h1, h2⟩ := h
  have hsplit := List.takeWhile_append_dropWhile Char.isDigit l
  have hip : ∀ c ∈ l.takeWhile Char.isDigit, c.isDigit = true :=
    fun c hc => List.mem_takeWhile_imp hc
  have hne : l.takeWhile Char.isDigit ≠ [] := by
    intro e
    simp [e] at h1
  rcases h2 with h2 | h2
  · exact ⟨_, [], hne, hip, by simp, Or.inl ⟨rfl, by rw [h2, List.append_nil] at hsplit; exact hsplit.symm⟩⟩
  · split at h2
    · rename_i f hf
      simp only [Bool.and_eq_true, Bool.not_eq_true', List.all_eq_true] at h2
      refine ⟨_, f, hne, hip, h2.2, Or.inr ⟨?_, ?_⟩⟩
      · intro e
        simp [e] at h2
      · rw [← hf]
        exact hsplit.symm
    · cases h2

theorem number_form_digits (ip : List Char) (hne : ip ≠ [])
    (hip : ∀ c ∈ ip, c.isDigit = true) : number_form ip = true := by
  unfold number_form
  have h1 : ip.takeWhile Char.isDigit = ip := List.takeWhile_eq_self_iff.mpr hip
  have h2 : ip.dropWhile Char.isDigit = [] := List.dropWhile_eq_nil_iff.mpr hip
  simp [h1, h2, hne]

theorem takeWhile_digits_point (ip rest : List Char) (hip : ∀ c ∈ ip, c.isDigit = true) :
    (ip ++ '.' :: rest).takeWhile Char.isDigit = ip ∧
    (ip ++ '.' :: rest).dropWhile Char.isDigit = '.' :: rest := by
  rw [List.takeWhile_append_of_pos hip, List.dropWhile_append_of_pos hip]
  simp [List.takeWhile_cons, List.dropWhile_cons]

theorem number_form_point (ip fp : List Char) (hne : ip ≠ [])
    (hip : ∀ c ∈ ip, c.isDigit = true) (hfne : fp ≠ []) (hfp : ∀ c ∈ fp, c.isDigit = true) :
    number_form (ip ++ '.' :: fp) = true := by
  unfold number_form
  obtain ⟨h1, h2⟩ := takeWhile_digits_point ip fp hip
  simp only [h1, h2]
  simp [hne, hfne, List.all_eq_true]
  exact hfp

/-- On a text of the number form, `atof` delivers the decimal value of the whole text. -/
theorem atof_decimal_value (l : List Char) (h : number_form l = true) :
    Double.atof l = decimal_value l := by
  obtain ⟨ip, fp, hne, hip, hfp, hl⟩ := number_form_parts l h
  have hnp : ∀ c ∈ ip, (c != '.') = true := fun c hc => by
    simpa using isDigit_ne_point c (hip c hc)
  rcases hl with ⟨rfl, rfl⟩ | ⟨hfne, rfl⟩
  · unfold Double.atof decimal_value
    have h1 : l.takeWhile Char.isDigit = l := List.takeWhile_eq_self_iff.mpr hip
    have h2 : l.dropWhile Char.isDigit = [] := List.dropWhile_eq_nil_iff.mpr hip
    have h3 : l.filter Char.isDigit = l := List.filter_eq_self.mpr hip
    have h4 : l.dropWhile (· != '.') = [] := List.dropWhile_eq_nil_iff.mpr hnp
    simp only [h1, h2, h3, h4, List.append_nil, List.length_nil]
  · unfold Double.atof decimal_value
    obtain ⟨h1, h2⟩ := takeWhile_digits_point ip fp hip
    have h3 : (ip ++ '.' :: fp).filter Char.isDigit = ip ++ fp := by
      rw [List.filter_append, List.filter_eq_self.mpr hip, List.filter_cons_of_neg (by decide),
        List.filter_eq_self.mpr hfp]
    have h4 : (ip ++ '.' :: fp).dropWhile (· != '.') = '.' :: fp := by
      rw [List.dropWhile_append_of_pos hnp]
      simp [List.dropWhile_cons]
    have h5 : fp.takeWhile Char.isDigit = fp := List.takeWhile_eq_self_iff.mpr hfp
    simp only [h1, h2, h3, h4, h5, List.length_cons, Nat.add_sub_cancel]
/-- What `parse_number` scans: the digits at the cursor, and behind them a point with its
digits when a digit follows the point. -/
theorem parse_number_scan (lx : Lexer) :
    (parse_number lx).1.type = .NUMBER ∧
    (parse_number lx).1.value = .number (Double.atof (parse_number lx).1.lexeme) ∧
    ((∃ d r1, lx.current.dropWhile Char.isDigit = '.' :: d :: r1 ∧ d.isDigit = true ∧
        (parse_number lx).1.lexeme =
          lx.current.takeWhile Char.isDigit ++ '.' :: (d :: r1).takeWhile Char.isDigit ∧
        (parse_number lx).2.current = (d :: r1).dropWhile Char.isDigit) ∨
     ((∀ d r1, lx.current.dropWhile Char.isDigit = '.' :: d :: r1 → d.isDigit = false) ∧
        (parse_number lx).1.lexeme = lx.current.takeWhile Char.isDigit ∧
        (parse_number lx).2.current = lx.current.dropWhile Char.isDigit)) := by
  unfold parse_number
  simp only [digits_loop_eq]
  refine ⟨rfl, rfl, ?_⟩
  rcases hr : lx.current.dropWhile Char.isDigit with _ | ⟨x, _ | ⟨d, r1⟩⟩
  · right
    simp [Lexer.peek, create_token]
  · right
    simp [Lexer.peek, Lexer.peek_next, create_token]
  · by_cases hx : x = '.'
    · subst hx
      by_cases hd : d.isDigit = true
      · left
        refine ⟨d, r1, rfl, hd, ?_, ?_⟩
        · simp [Lexer.peek, Lexer.peek_next, hd, Lexer.advance, create_token]
        · simp [Lexer.peek, Lexer.peek_next, hd, Lexer.advance, create_token]
      · right
        refine ⟨?_, ?_, ?_⟩
        · intro d1 r2 e
          cases e
          simpa using hd
        · simp [Lexer.peek, Lexer.peek_next, hd, create_token]
        · simp [Lexer.peek, Lexer.peek_next, hd, create_token]
    · right
      refine ⟨?_, ?_, ?_⟩
      · intro d1 r2 e
        cases e
        exact absurd rfl hx
      · simp [Lexer.peek, Lexer.peek_next, hx, create_token]
      · simp [Lexer.peek, Lexer.peek_next, hx, create_token]

/-- C26. At a digit, `lexer_next_token` returns a NUMBER token. Its lexeme is a prefix of
the input of the form digits or digits `.` digits, and no prefix of that form is longer;
its payload is the decimal value of the lexeme; and when the digits are followed by a `.`
with no digit behind it, the lexeme is the digits alone and the cursor rests on the `.`. -/
theorem lexer_next_token_number (fuel : Nat) (lx : Lexer) (c : Char) (rest : List Char)
    (hcur : lx.current = c :: rest) (hc : c.isDigit = true) :
    ∃ tok lx1, lexer_next_token (fuel + 1) lx = some (tok, lx1) ∧ tok.type = .NUMBER ∧
      lx.current = tok.lexeme ++ lx1.current ∧ number_form tok.lexeme = true ∧
      (∀ q, q <+: lx.current → number_form q = true → q.length ≤ tok.lexeme.length) ∧
      tok.value = .number (decimal_value tok.lexeme) ∧
      (∀ r, lx.current.dropWhile Char.isDigit = '.' :: r →
        (∀ d r1, r = d :: r1 → d.isDigit = false) →
        tok.lexeme = lx.current.takeWhile Char.isDigit ∧ lx1.current = '.' :: r) := by
  have hne : ∀ d : Char, d.isDigit = false → c ≠ d := by
    rintro d hd rfl
    rw [hc] at hd
    cases hd
  have hnext := lexer_next_token_at fuel lx c rest hcur
    (by simp [hne ' ' (by decide), hne '\t' (by decide), hne '\r' (by decide)])
    (hne '<' (by decide)) (hne '\n' (by decide))
  rw [if_neg (by simpa using hne '"' (by decide)), if_pos hc] at hnext
  obtain ⟨s1, s2, s3⟩ := parse_number_scan { lx with start_column := lx.column }
  generalize parse_number { lx with start_column := lx.column } = pn at hnext s1 s2 s3
  obtain ⟨tok, lx1⟩ := pn
  simp only [] at s1 s2 s3
  have hsplit := List.takeWhile_append_dropWhile Char.isDigit lx.current
  have hip : ∀ x ∈ lx.current.takeWhile Char.isDigit, x.isDigit = true :=
    fun x hx => List.mem_takeWhile_imp hx
  have hipne : lx.current.takeWhile Char.isDigit ≠ [] := by
    rw [hcur, List.takeWhile_cons, if_pos hc]
    exact List.cons_ne_nil _ _
  refine ⟨tok, lx1, hnext, s1, ?_⟩
  rcases s3 with ⟨d, r1, hr, hd, hlex, hrest⟩ | ⟨hno, hlex, hrest⟩
  · have hfp : ∀ x ∈ (d :: r1).takeWhile Char.isDigit, x.isDigit = true :=
      fun x hx => List.mem_takeWhile_imp hx
    have hfne : (d :: r1).takeWhile Char.isDigit ≠ [] := by
      rw [List.takeWhile_cons, if_pos hd]
      exact List.cons_ne_nil _ _
    have hform := number_form_point _ _ hipne hip hfne hfp
    refine ⟨?_, ?_, ?_, ?_, ?_⟩
    · rw [hlex, hrest, List.append_assoc, List.cons_append, List.takeWhile_append_dropWhile,
        ← hr]
      exact hsplit.symm
    · rw [hlex]
      exact hform
    · intro q hq hqf
      obtain ⟨s, hs⟩ := hq
      obtain ⟨ipq, fpq, hqne, hqip, hqfp, hq2⟩ := number_form_parts q hqf
      rw [hlex]
      simp only [List.length_append, List.length_cons]
      rcases hq2 with ⟨rfl, rfl⟩ | ⟨hfq, rfl⟩
      · have : (q ++ s).takeWhile Char.isDigit = q ++ s.takeWhile Char.isDigit :=
          List.takeWhile_append_of_pos hqip
        have h2 : (lx.current.takeWhile Char.isDigit).length = (q ++ s.takeWhile Char.isDigit).length := by
          rw [← this, hs]
        rw [List.length_append] at h2
        omega
      · rw [List.append_assoc, List.cons_append] at hs
        obtain ⟨t1, t2⟩ := takeWhile_digits_point ipq (fpq ++ s) hqip
        rw [hs] at t1 t2
        rw [hr] at t2
        have e2 : d :: r1 = fpq ++ s := by
          injection t2
        have : (d :: r1).takeWhile Char.isDigit = fpq ++ s.takeWhile Char.isDigit := by
          rw [e2]
          exact List.takeWhile_append_of_pos hqfp
        rw [this, t1]
        simp only [List.length_append, List.length_cons]
        omega
    · rw [s2, atof_decimal_value _ (by rw [hlex]; exact hform)]
    · intro r hr2 hnd
      rw [hr] at hr2
      injection hr2 with _ hr3
      have := hnd d r1 hr3.symm
      rw [hd] at this
      cases this
  · have hform := number_form_digits _ hipne hip
    refine ⟨?_, ?_, ?_, ?_, ?_⟩
    · rw [hlex, hrest]
      exact hsplit.symm
    · rw [hlex]
      exact hform
    · intro q hq hqf
      obtain ⟨s, hs⟩ := hq
      obtain ⟨ipq, fpq, hqne, hqip, hqfp, hq2⟩ := number_form_parts q hqf
      rw [hlex]
      rcases hq2 with ⟨rfl, rfl⟩ | ⟨hfq, rfl⟩
      · have : (q ++ s).takeWhile Char.isDigit = q ++ s.takeWhile Char.isDigit :=
          List.takeWhile_append_of_pos hqip
        rw [← hs, this, List.length_append]
        omega
      · exfalso
        rw [List.append_assoc, List.cons_append] at hs
        obtain ⟨t1, t2⟩ := takeWhile_digits_point ipq (fpq ++ s) hqip
        rw [hs] at t2
        obtain ⟨f0, f1, hf⟩ := List.exists_cons_of_ne_nil hfq
        rw [hf, List.cons_append] at t2
        have := hno f0 (f1 ++ s) t2
        rw [hqfp f0 (by rw [hf]; exact List.mem_cons_self _ _)] at this
        cases this
    · rw [s2, atof_decimal_value _ (by rw [hlex]; exact hform)]
    · intro r hr2 hnd
      exact ⟨hlex, hrest.trans hr2⟩

/-! ### Identifiers and keywords -/

theorem identifier_loop_eq (cs : List Char) :
    identifier_loop cs = (cs.takeWhile identifier_char, cs.dropWhile identifier_char) := by
  induction cs with
  | nil => rfl
  | cons c cs ih =>
    unfold identifier_loop
    by_cases h : (c.isAlphanum || c == '_' || c == '.') = true
    · rw [if_pos h, ih, List.takeWhile_cons, List.dropWhile_cons]
      simp [identifier_char, h]
    · rw [if_neg h, List.takeWhile_cons, List.dropWhile_cons]
      simp [identifier_char, h]

theorem isAlpha_not_isDigit (c : Char) (h : c.isAlpha = true) : c.isDigit = false := by
  simp only [Char.isAlpha, Char.isUpper, Char.isLower, Char.isDigit, Bool.or_eq_true,
    Bool.and_eq_true, decide_eq_true_eq, Bool.and_eq_false_imp, decide_eq_false_iff_not,
    UInt32.le_def, BitVec.le_def] at h ⊢
  intro h1
  have e48 : (UInt32.toBitVec 48).toNat = 48 := rfl
  have e57 : (UInt32.toBitVec 57).toNat = 57 := rfl
  have e65 : (UInt32.toBitVec 65).toNat = 65 := rfl
  have e90 : (UInt32.toBitVec 90).toNat = 90 := rfl
  have e97 : (UInt32.toBitVec 97).toNat = 97 := rfl
  have e122 : (UInt32.toBitVec 122).toNat = 122 := rfl
  rw [e48] at h1
  rw [e57]
  rw [e65, e90, e97, e122] at h
  omega

theorem lookup_mem {α β : Type} [BEq α] [LawfulBEq α] (l : List (α × β)) (k : α) (t : β)
    (h : l.lookup k = some t) : (k, t) ∈ l := by
  induction l with
  | nil => cases h
  | cons p l ih =>
    obtain ⟨a, b⟩ := p
    unfold List.lookup at h
    split at h
    · rename_i he
      have : k = a := by simpa using he
      cases h
      rw [this]
      exact List.mem_cons_self _ _
    · exact List.mem_cons_of_mem _ (ih h)

theorem lookup_of_mem {α β : Type} [BEq α] [LawfulBEq α] (l : List (α × β)) (k : α) (t : β)
    (hn : (l.map Prod.fst).Nodup) (h : (k, t) ∈ l) : l.lookup k = some t := by
  induction l with
  | nil => cases h
  | cons p l ih =>
    obtain ⟨a, b⟩ := p
    rw [List.map_cons, List.nodup_cons] at hn
    unfold List.lookup
    rcases List.mem_cons.mp h with e | e
    · cases e
      simp
    · have hne : k ≠ a := by
        rintro rfl
        exact hn.1 (List.mem_map.mpr ⟨(k, t), e, rfl⟩)
      have : (k == a) = false := by simpa using hne
      simp only [this]
      exact ih hn.2 e

theorem lookup_none {α β : Type} [BEq α] [LawfulBEq α] (l : List (α × β)) (k : α) :
    l.lookup k = none ↔ k ∉ l.map Prod.fst := by
  induction l with
  | nil => simp [List.lookup]
  | cons p l ih =>
    obtain ⟨a, b⟩ := p
    by_cases h : k = a
    · subst h; simp [List.lookup]
    · have hx : (k == a) = false := by simpa using h
      simp only [List.lookup, hx, ih, List.map_cons, List.mem_cons, h, false_or]

/-- C22 (evaluation at the failing input). With the cursor on `<-1`, `skip_comment` answers
false and has consumed `<-`: the cursor rests on `1`. So `x<-1` tokenizes to IDENTIFIER `x`,
NUMBER `1`, EOF (for every fuel from 6 on); no LESS and no MINUS token is produced. -/
theorem skip_comment_eats_less_minus :
    skip_comment (Lexer.mk "<-1".toList 1 2 1 false) = (false, Lexer.mk "1".toList 1 4 1 false) ∧
    ∀ k, lexer_tokenize (6 + k) "x<-1".toList =
      some [create_token .IDENTIFIER "x".toList 1 1,
        { create_token .NUMBER "1".toList 1 4 with value := .number (Double.atof "1".toList) },
        create_token .EOF [] 1 5] :=
  ⟨by decide!, lexer_tokenize_stable _ 6 _ (by decide!)⟩

/-- C23 (evaluation at the failing input). In `<-- a ---> 7` the loop of `skip_comment`
consumes the first two dashes of `--->`, finds the third where it looks for `>`, and goes
on behind it: the comment is never closed and the only token is EOF, at column 13 (for
every fuel from 14 on). With `-->` in place of `--->` the source yields NUMBER `7` and
EOF. -/
theorem skip_comment_misses_close_after_dash :
    (∀ k, lexer_tokenize (14 + k) "<-- a ---> 7".toList = some [create_token .EOF [] 1 13]) ∧
    ∀ k, lexer_tokenize (13 + k) "<-- a --> 7".toList =
      some [{ create_token .NUMBER "7".toList 1 11 with value := .number (Double.atof "7".toList) },
        create_token .EOF [] 1 12] :=
  ⟨lexer_tokenize_stable _ 14 _ (by decide!), lexer_tokenize_stable _ 13 _ (by decide!)⟩

/-- C24 (evaluation at the failing input). In the source `x = "a`, newline, `b"` the string
literal starts at line 1, column 5. Its token carries column 5 and line 2, the line on which
the literal ends (for every fuel from 12 on). -/
theorem string_token_line_is_end_line :
    line_column "x = ".toList = (1, 5) ∧
    ∀ k, lexer_tokenize (12 + k) "x = \"a\nb\"".toList =
      some [create_token .IDENTIFIER "x".toList 1 1, create_token .ASSIGN "=".toList 1 3,
        { create_token .STRING "a\nb".toList 2 5 with value := .string "a\nb".toList },
        create_token .EOF [] 2 3] :=
  ⟨by decide!, lexer_tokenize_stable _ 12 _ (by decide!)⟩
/-- C25 at the cursor on `"abc` (no closing quote; `x "abc` tokenizes to IDENTIFIER `x` and
the ERROR token) and at the cursor on `"a\n" x`, where the payload keeps the backslash and
the `n` as they are. -/
theorem lexer_next_token_string_witness :
    (∃ tok lx1, lexer_next_token 1 (lexer_init "\"abc".toList) = some (tok, lx1) ∧
      tok.type = .ERROR ∧ tok.lexeme = "Unterminated string".toList ∧
      lx1.current = [] ∧ lx1.overrun = false ∧
      lexer_tokenize_loop 2 (lexer_init "\"abc".toList) = some [tok]) ∧
    (∃ tok lx1, lexer_next_token 1 (lexer_init "\"a\\n\" x".toList) = some (tok, lx1) ∧
      tok.type = .STRING ∧ tok.value = .string ['a', '\\', 'n'] ∧
      tok.lexeme = ['a', '\\', 'n'] ∧
      '"' :: lx1.current = "\" x".toList ∧ lx1.overrun = false) ∧
    lexer_tokenize 8 "x \"abc".toList =
      some [create_token .IDENTIFIER "x".toList 1 1,
        create_token .ERROR "Unterminated string".toList 1 3] :=
  ⟨(lexer_next_token_string 0 (lexer_init "\"abc".toList) "abc".toList rfl).1 (by decide),
   (lexer_next_token_string 0 (lexer_init "\"a\\n\" x".toList) "a\\n\" x".toList rfl).2
     (by decide), by decide!⟩

/-- C26 at the cursor on `1.5.3` (the lexeme is `1.5`, the second point stays), with the
token sequences of `1.5.3` and of `1.`. -/
theorem lexer_next_token_number_witness :
    (∃ tok lx1, lexer_next_token 1 (lexer_init "1.5.3".toList) = some (tok, lx1) ∧
      tok.type = .NUMBER ∧
      "1.5.3".toList = tok.lexeme ++ lx1.current ∧ number_form tok.lexeme = true ∧
      (∀ q, q <+: "1.5.3".toList → number_form q = true → q.length ≤ tok.lexeme.length) ∧
      tok.value = .number (decimal_value tok.lexeme) ∧
      (∀ r, "1.5.3".toList.dropWhile Char.isDigit = '.' :: r →
        (∀ d r1, r = d :: r1 → d.isDigit = false) →
        tok.lexeme = "1.5.3".toList.takeWhile Char.isDigit ∧ lx1.current = '.' :: r)) ∧
    lexer_tokenize 7 "1.5.3".toList =
      some [{ create_token .NUMBER "1.5".toList 1 1 with value := .number ⟨false, 1023, 2 ^ 51⟩ },
        create_token .DOT ".".toList 1 4,
        { create_token .NUMBER "3".toList 1 5 with value := .number ⟨false, 1024, 2 ^ 51⟩ },
        create_token .EOF [] 1 6] ∧
    lexer_tokenize 4 "1.".toList =
      some [{ create_token .NUMBER "1".toList 1 1 with value := .number ⟨false, 1023, 0⟩ },
        create_token .DOT ".".toList 1 2, create_token .EOF [] 1 3] :=
  ⟨lexer_next_token_number 0 (lexer_init "1.5.3".toList) '1' ".5.3".toList rfl (by decide),
   by decide!, by decide!⟩

/-! ### Parameters -/

theorem set_get_self {α : Type} (l : List α) (i : Nat) (a : α) (h : l.get? i = some a) :
    l.set i a = l := by
  induction l generalizing i with
  | nil => rfl
  | cons x l ih =>
    cases i with
    | zero =>
      simp only [List.get?_cons_zero, Option.some.injEq] at h
      rw [List.set_cons_zero, h]
    | succ i =>
      rw [List.set_cons_succ, ih i (by simpa using h)]

theorem put_scope_same {st : Interpreter} {s : Nat} {sc : Scope} (h : st.scope_at s = .ok sc) :
    st.put_scope s sc = st := by
  unfold Interpreter.put_scope
  rw [set_get_self _ _ _ (scope_at_eq.mp h)]

theorem put_scope_twice (st : Interpreter) (s : Nat) (a b : Scope) :
    (st.put_scope s a).put_scope s b = st.put_scope s b := by
  simp [Interpreter.put_scope, List.set_set]

/-- The parameter loop on a scope that binds none of the parameter names, which are pairwise
distinct: the pairs of `params.zip args` are appended to the scope, in order. -/
theorem bind_params_fresh (scope : Nat) (params : List (List Char)) :
    ∀ (args : List Nat) (st : Interpreter) (sc : Scope), st.scope_at scope = .ok sc →
      params.Nodup → (∀ x ∈ params, sc.bindings.lookup x = none) →
      bind_params st scope params args =
        .ok (st.put_scope scope { sc with bindings := sc.bindings ++ params.zip args }) := by
  induction params with
  | nil =>
    intro args st sc hs _ _
    rw [bind_params, List.zip_nil_left, List.append_nil]
    · exact congrArg Except.ok (put_scope_same hs).symm
    · intro _ _ _ _ e
      cases e
  | cons p ps ih =>
    intro args st sc hs hd hn
    cases args with
    | nil =>
      rw [bind_params, List.zip_nil_right, List.append_nil]
      · exact congrArg Except.ok (put_scope_same hs).symm
      · intro _ _ _ _ _ e
        cases e
    | cons a as =>
      rw [List.nodup_cons] at hd
      have hp : sc.bindings.lookup p = none := hn p (List.mem_cons_self _ _)
      have hdef : bindings_define sc.bindings p a = sc.bindings ++ [(p, a)] := by
        simp [bindings_define, bindings_set_none a hp]
      rw [bind_params, scope_define_ok p a hs, hdef]
      show bind_params (st.put_scope scope { sc with bindings := sc.bindings ++ [(p, a)] })
        scope ps as = _
      rw [ih as _ { sc with bindings := sc.bindings ++ [(p, a)] }
        (scope_at_put_scope _ (scope_at_lt hs)) hd.2 ?_]
      · rw [put_scope_twice]
        simp
      · intro x hx
        show (sc.bindings ++ [(p, a)]).lookup x = none
        rw [lookup_append_new, hn x (List.mem_cons_of_mem _ hx)]
        have : x ≠ p := by
          rintro rfl
          exact hd.1 hx
        simp [this]

theorem eval_args_length (fuel : Nat) :
    ∀ (st : Interpreter) (nodes : List (Option ASTNode)) (args : List Nat) (st1 : Interpreter),
      eval_args fuel st nodes = .ok (args, st1) → args.length = nodes.length := by
  induction fuel with
  | zero =>
    intro st nodes args st1 h
    rw [eval_args] at h
    cases h
  | succ fuel ih =>
    intro st nodes args st1 h
    cases nodes with
    | nil =>
      rw [eval_args] at h
      cases h
      rfl
    | cons n rest =>
      rw [eval_args] at h
      cases h1 : eval_expression fuel st n with
      | error e => rw [h1] at h; cases h
      | ok r1 =>
        obtain ⟨v, s1⟩ := r1
        rw [h1] at h
        dsimp only [Except.ok_bind] at h
        cases h2 : eval_args fuel s1 rest with
        | error e => rw [h2] at h; cases h
        | ok r2 =>
          obtain ⟨vs, s2⟩ := r2
          rw [h2] at h
          cases h
          simp [ih s1 rest vs s2 h2]

theorem zip_lookup (params : List (List Char)) :
    ∀ (args : List Nat), params.Nodup → ∀ (i : Nat) (h : i < params.length),
      (params.zip args).lookup (params.get ⟨i, h⟩) = args.get? i := by
  induction params with
  | nil => intro args _ i h; cases h
  | cons p ps ih =>
    intro args hd i h
    rw [List.nodup_cons] at hd
    cases args with
    | nil => simp [List.lookup]
    | cons a as =>
      cases i with
      | zero => simp [List.lookup]
      | succ i =>
        have hlt : i < ps.length := by simpa using h
        have hne : ps.get ⟨i, hlt⟩ ≠ p := by
          intro e
          exact hd.1 (e ▸ List.get_mem ps i hlt)
        have hb : (ps.get ⟨i, hlt⟩ == p) = false := by simpa using hne
        show ((p, a) :: ps.zip as).lookup (ps.get ⟨i, hlt⟩) = as.get? i
        rw [List.lookup, hb]
        exact ih as hd.2 i hlt
/-- C28. Let a call evaluate its callee and then all its arguments, to `args`, and let the
callee be a user function with pairwise distinct parameter names `params`. Every argument
has been evaluated (`args` is as long as the argument list). The body runs in a new scope
under the closure whose bindings are the pairs of `params.zip args`, in order: there are
`min p a` of them, parameter `i` is bound to `args[i]` when `i < a`, and is unbound in the
call scope when `i ≥ a`; an argument beyond `p` is in no pair. -/
theorem eval_call_binds_positionally (fuel : Nat) (st st1 st2 : Interpreter)
    (calleeNode : Option ASTNode) (argNodes : List (Option ASTNode)) (callee : Nat)
    (args : List Nat) (name : List Char) (params : List (List Char)) (body : Option ASTNode)
    (closure : Option Nat) (marked : Bool)
    (hc : eval_expression fuel st calleeNode = .ok (callee, st1))
    (ha : eval_args fuel st1 argNodes = .ok (args, st2))
    (hv : st2.load callee = .ok ⟨.FUNCTION, marked, .function name params body closure⟩)
    (hd : params.Nodup) :
    args.length = argNodes.length ∧
    eval_call (fuel + 1) st calleeNode argNodes = (do
      let (_, st4) ← eval_node fuel (enter_call st2 closure (params.zip args)) body
      pure (finish_call st4 st2.current_scope st2.scopes.length)) ∧
    (params.zip args).length = min params.length args.length ∧
    ∀ (i : Nat) (h : i < params.length),
      (params.zip args).lookup (params.get ⟨i, h⟩) = args.get? i := by
  refine ⟨eval_args_length fuel st1 argNodes args st2 ha, ?_, List.length_zip _ _,
    zip_lookup params args hd⟩
  have hs : (st2.create_scope closure).2.scope_at st2.scopes.length =
      .ok { bindings := [], parent := closure } := by
    simp [Interpreter.create_scope, Interpreter.scope_at, List.get?_eq_getElem?]
  have hb := bind_params_fresh st2.scopes.length params args (st2.create_scope closure).2 _ hs hd
    (fun _ _ => rfl)
  have he : { (st2.create_scope closure).2.put_scope st2.scopes.length
        { bindings := [] ++ params.zip args, parent := closure } with
      current_scope := st2.scopes.length } = enter_call st2 closure (params.zip args) := by
    simp [Interpreter.create_scope, Interpreter.put_scope, enter_call, set_append_length]
  rw [eval_call, hc]
  dsimp only [Except.ok_bind]
  rw [ha]
  dsimp only [Except.ok_bind]
  rw [hv]
  dsimp only [Except.ok_bind]
  rw [if_neg (by decide), if_pos rfl, hb]
  dsimp only [Except.ok_bind]
  rw [he]
  rfl

/-- C28 on the function `f(a, b)` with the body `( return a )`: the call `f(7)` binds `a`
alone, `f(7, 7, 7)` evaluates three arguments and binds `a` and `b`; both calls return the
value of the first argument. -/
theorem eval_call_binds_positionally_witness :
    (∃ st2, eval_args 6 two_params [seven] = .ok ([1], st2) ∧
      eval_call 7 two_params (some (.identifier 1 1 "f".toList)) [seven] = (do
        let (_, st4) ← eval_node 6 (enter_call st2 (some 0) [("a".toList, 1)])
          (some (reads 1 1 "a".toList))
        pure (finish_call st4 0 1)) ∧
      List.lookup "b".toList [("a".toList, 1)] = none) ∧
    (∃ st2, eval_args 6 two_params [seven, seven, seven] = .ok ([1, 2, 3], st2) ∧
      eval_call 7 two_params (some (.identifier 1 1 "f".toList)) [seven, seven, seven] = (do
        let (_, st4) ← eval_node 6
          (enter_call st2 (some 0) [("a".toList, 1), ("b".toList, 2)])
          (some (reads 1 1 "a".toList))
        pure (finish_call st4 0 1)) ∧
      [("a".toList, 1), ("b".toList, 2)].length = min 2 3) ∧
    (eval_call 7 two_params (some (.identifier 1 1 "f".toList)) [seven]).map Prod.fst =
      .ok 1 ∧
    (eval_call 7 two_params (some (.identifier 1 1 "f".toList)) [seven, seven, seven]).map
      Prod.fst = .ok 1 :=
  ⟨⟨_, rfl,
    (eval_call_binds_positionally 6 two_params two_params _
      (some (.identifier 1 1 "f".toList)) [seven] 0 [1] "f".toList
      ["a".toList, "b".toList] (some (reads 1 1 "a".toList)) (some 0) false rfl rfl rfl
      (by decide)).2.1,
    (eval_call_binds_positionally 6 two_params two_params _
      (some (.identifier 1 1 "f".toList)) [seven] 0 [1] "f".toList
      ["a".toList, "b".toList] (some (reads 1 1 "a".toList)) (some 0) false rfl rfl rfl
      (by decide)).2.2.2 1 (by decide)⟩,
   ⟨_, rfl,
    (eval_call_binds_positionally 6 two_params two_params _
      (some (.identifier 1 1 "f".toList)) [seven, seven, seven] 0 [1, 2, 3] "f".toList ["a".toList, "b".toList] (some (reads 1 1 "a".toList)) (some 0)
      false rfl rfl rfl (by decide)).2.1,
    (eval_call_binds_positionally 6 two_params two_params _
      (some (.identifier 1 1 "f".toList)) [seven, seven, seven] 0 [1, 2, 3] "f".toList ["a".toList, "b".toList] (some (reads 1 1 "a".toList)) (some 0)
      false rfl rfl rfl (by decide)).2.2.1⟩,
   by decide!, by decide!⟩

/-! ### Marks and the registry -/

theorem marks_after_collect_mono (n : Nat) :
    FuelLe (marked_values (interpreter_run n interpreter_init max_program >>= gc_collect n))
      (marked_values
        (interpreter_run (n + 1) interpreter_init max_program >>= gc_collect (n + 1))) :=
  FuelLe.map _ (FuelLe.bind (interpreter_run_mono n 1 interpreter_init max_program)
    (fun st => gc_collect_mono st n))

theorem unregistered_values_mono (ast : ASTNode) (n : Nat) :
    FuelLe (unregistered_values (interpreter_run n interpreter_init ast))
      (unregistered_values (interpreter_run (n + 1) interpreter_init ast)) :=
  FuelLe.map _ (interpreter_run_mono n 1 interpreter_init ast)

theorem registry_after_run_mono (ast : ASTNode) (n : Nat) :
    FuelLe ((interpreter_run n interpreter_init ast).map
        (fun st => (st.values.length, st.gc_objects)))
      ((interpreter_run (n + 1) interpreter_init ast).map
        (fun st => (st.values.length, st.gc_objects))) :=
  FuelLe.map _ (interpreter_run_mono n 1 interpreter_init ast)

theorem marks_after_run_mono (ast : ASTNode) (n : Nat) :
    FuelLe (marked_values (interpreter_run n interpreter_init ast))
      (marked_values (interpreter_run (n + 1) interpreter_init ast)) :=
  FuelLe.map _ (interpreter_run_mono n 1 interpreter_init ast)

/-- C29 (evaluation at the failing input). After the run of `NewVar m = Max(1, 2)` the
current scope binds `m` to value 6, which `builtin_max` made and nothing registered. The
mark phase of `gc_collect` marks it; the sweep visits the registry only, so when
`gc_collect` has returned, value 6 still has its mark flag set (for every fuel from 10
on). -/
theorem gc_collect_leaves_mark (k : Nat) :
    unregistered_values (interpreter_run (10 + k) interpreter_init max_program) = .ok [3, 6] ∧
    marked_values (interpreter_run (10 + k) interpreter_init max_program) = .ok [] ∧
    marked_values
      (interpreter_run (10 + k) interpreter_init max_program >>= gc_collect (10 + k)) =
        .ok [6] :=
  ⟨(FuelLe.of_step (fun n => unregistered_values (interpreter_run n interpreter_init max_program))
      (unregistered_values_mono max_program) 10 (10 + k) (Nat.le_add_right _ _)).ok_of
      (by decide!),
   (FuelLe.of_step (fun n => marked_values (interpreter_run n interpreter_init max_program))
      (marks_after_run_mono max_program) 10 (10 + k) (Nat.le_add_right _ _)).ok_of (by decide!),
   (FuelLe.of_step
      (fun n => marked_values
        (interpreter_run n interpreter_init max_program >>= gc_collect n))
      marks_after_collect_mono 10 (10 + k) (Nat.le_add_right _ _)).ok_of (by decide!)⟩

/-- C30 (evaluation at the failing input). The run of `unregistered_program` allocates the
values 0 to 19. Nine of them are not in `gc_objects` when the run has returned: the null
values that `eval_block` makes for the program, for the empty block and for the function
body (3, 13, 15), the null values of the undefined `u` (4), of `NewVar v` (5), of the `if`
(10), of the `while` (12) and of the call `f()` (16), and the number that `builtin_max`
returns (8). The values of the literals, of `1 + 2`, of `NewFunc f` and of the three
built-in functions are registered (for every fuel from 16 on). -/
theorem create_value_sites_unregistered (k : Nat) :
    unregistered_values (interpreter_run (16 + k) interpreter_init unregistered_program) =
      .ok [3, 4, 5, 8, 10, 12, 13, 15, 16] ∧
    (interpreter_run (16 + k) interpreter_init unregistered_program).map
      (fun st => (st.values.length, st.gc_objects)) =
      .ok (20, [0, 1, 2, 6, 7, 9, 11, 14, 17, 18, 19]) :=
  ⟨(FuelLe.of_step
      (fun n => unregistered_values (interpreter_run n interpreter_init unregistered_program))
      (unregistered_values_mono unregistered_program) 16 (16 + k) (Nat.le_add_right _ _)).ok_of
      (by decide!),
   (FuelLe.of_step
      (fun n => (interpreter_run n interpreter_init unregistered_program).map
        (fun st => (st.values.length, st.gc_objects)))
      (registry_after_run_mono unregistered_program) 16 (16 + k) (Nat.le_add_right _ _)).ok_of (by decide!)⟩

/-! ## Statements without an evaluator -/

/-- An evaluation that returns with some fuel returns the same, or runs out of fuel, with
any other. -/
theorem eval_node_decided (st : Interpreter) (node : Option ASTNode) (m : Nat)
    (r : Nat × Interpreter) (h : eval_node m st node = .ok r) (n : Nat) :
    eval_node n st node = .error .out_of_fuel ∨ eval_node n st node = .ok r :=
  FuelLe.of_ok (fun k => eval_node k st node) (fun k => (eval_mono k).2.2.2.2.2.2.2.2.2.2 st node)
    m r h n

theorem eval_expression_decided (st : Interpreter) (node : Option ASTNode) (m : Nat)
    (r : Nat × Interpreter) (h : eval_expression m st node = .ok r) (n : Nat) :
    eval_expression n st node = .error .out_of_fuel ∨ eval_expression n st node = .ok r :=
  FuelLe.of_ok (fun k => eval_expression k st node) (fun k => (eval_mono k).1 st node) m r h n

/-- A loop whose condition is true in every state and whose body returns in every state
does not return, whatever the fuel. -/
theorem eval_while_forever (cond body : Option ASTNode)
    (hc : ∀ n st, eval_expression n st cond = .error .out_of_fuel ∨
      ∃ cv st1 v, eval_expression n st cond = .ok (cv, st1) ∧ st1.load cv = .ok v ∧
        v.boolean = .ok true)
    (hb : ∀ n st, eval_node n st body = .error .out_of_fuel ∨ ∃ r, eval_node n st body = .ok r) :
    ∀ n st, eval_while n st cond body = .error .out_of_fuel := by
  intro n
  induction n with
  | zero => intro st; rw [eval_while]
  | succ n ih =>
    intro st
    rw [eval_while]
    rcases hc n st with h | ⟨cv, st1, v, h, hl, hv⟩
    · rw [h]; rfl
    · rw [h]
      dsimp only [Except.ok_bind]
      rw [hl]
      dsimp only [Except.ok_bind]
      rw [hv]
      dsimp only [Except.ok_bind]
      rw [if_pos rfl]
      rcases hb n st1 with h2 | ⟨r, h2⟩
      · rw [h2]; rfl
      · rw [h2]
        exact ih _

theorem always_true (n : Nat) (st : Interpreter) :
    eval_expression n st always = .error .out_of_fuel ∨
      ∃ cv st1 v, eval_expression n st always = .ok (cv, st1) ∧ st1.load cv = .ok v ∧
        v.boolean = .ok true := by
  cases n with
  | zero => left; rw [eval_expression]
  | succ n =>
    right
    exact ⟨_, _, _, by simp only [always, eval_expression]; rfl,
      load_eval_literal_new st (.boolean true), rfl⟩

/-- C40. For every state, every iterator name, every iterable and every body (also absent
ones), `eval_node` on a `for` node returns (fuel 2 is enough) a fresh value of type NULL. The
state it leaves differs from the one before in that one value cell only: no scope has
changed, the return signal, the current scope, the registry and both output streams are as
before. Neither the iterable nor the body is looked at. -/
theorem eval_node_for_loop_is_null (fuel : Nat) (st : Interpreter) (l c : Nat)
    (iterator : List Char) (iterable body : Option ASTNode) :
    eval_node (fuel + 2) st (some (.for_loop l c iterator iterable body)) =
      .ok (st.values.length,
        { st with values := st.values ++ [some ⟨.NULL, false, .zeroed⟩] }) ∧
    Interpreter.load { st with values := st.values ++ [some ⟨.NULL, false, .zeroed⟩] }
      st.values.length = .ok ⟨.NULL, false, .zeroed⟩ :=
  ⟨by simp only [eval_node, eval_expression]; rfl, load_create_value_new st .NULL⟩


/-! ### `break` -/

theorem check_at {p : Parser} {t : Token} (type : TokenType) (hlt : p.current < p.token_count)
    (hg : p.tokens.get? p.current = some t) :
    Parser.check p type = .ok (decide (t.type = type)) := by
  unfold Parser.check Parser.peek
  rw [if_neg (by omega), hg]
  rfl

theorem matchTok_at_ne {p : Parser} {t : Token} {type : TokenType}
    (hlt : p.current < p.token_count) (hg : p.tokens.get? p.current = some t)
    (hne : t.type ≠ type) : Parser.matchTok p type = .ok (false, p) := by
  unfold Parser.matchTok
  rw [check_at type hlt hg, decide_eq_false hne]
  rfl

theorem matchTok_at_eq {p : Parser} {t : Token} {type : TokenType}
    (hlt : p.current < p.token_count) (hg : p.tokens.get? p.current = some t)
    (he : t.type = type) :
    Parser.matchTok p type = .ok (true, { p with current := p.current + 1 }) := by
  unfold Parser.matchTok
  rw [check_at type hlt hg, decide_eq_true he]
  have ha : Parser.advance p = { p with current := p.current + 1 } := by
    unfold Parser.advance
    rw [if_pos hlt]
  rw [ha]
  rfl

/-- `parse_statement` at a BREAK token: the token is consumed, the node takes its position
from the token behind it. -/
theorem parse_statement_break (fuel : Nat) (p : Parser) (t next : Token)
    (hlt : p.current < p.token_count) (hg : p.tokens.get? p.current = some t)
    (hb : t.type = .BREAK) (hn : p.tokens.get? (p.current + 1) = some next) :
    parse_statement (fuel + 1) p =
      .ok (some (.break_stmt next.line next.column), { p with current := p.current + 1 }) := by
  have ne : ∀ type : TokenType, type ≠ .BREAK → Parser.matchTok p type = .ok (false, p) :=
    fun type h => matchTok_at_ne hlt hg (by rw [hb]; exact fun e => h e.symm)
  rw [parse_statement, ne .NEWVAR (by decide)]
  dsimp only [Except.ok_bind]
  rw [if_neg (by decide), ne .NEWFUNC (by decide)]
  dsimp only [Except.ok_bind]
  rw [if_neg (by decide), ne .NEWASYNC (by decide)]
  dsimp only [Except.ok_bind]
  rw [if_neg (by decide), ne .IF (by decide)]
  dsimp only [Except.ok_bind]
  rw [if_neg (by decide), ne .WHILE (by decide)]
  dsimp only [Except.ok_bind]
  rw [if_neg (by decide), ne .FOR (by decide)]
  dsimp only [Except.ok_bind]
  rw [if_neg (by decide), ne .FOREACH (by decide)]
  dsimp only [Except.ok_bind]
  rw [if_neg (by decide), ne .RETURN (by decide)]
  dsimp only [Except.ok_bind]
  rw [if_neg (by decide), matchTok_at_eq hlt hg hb]
  dsimp only [Except.ok_bind]
  rw [if_pos rfl]
  have hp : Parser.peek { p with current := p.current + 1 } = .ok next := by
    unfold Parser.peek
    show (match p.tokens.get? (p.current + 1) with
      | some t => Except.ok t
      | none => Except.error Fault.token_bounds) = _
    rw [hn]
  rw [hp]
  rfl

theorem eval_node_break (fuel : Nat) (s : Interpreter) (l c : Nat) :
    eval_node (fuel + 2) s (some (.break_stmt l c)) = .ok (s.create_value .NULL) := by
  simp only [eval_node, eval_expression]

theorem break_body_returns (l c : Nat) (n : Nat) (st : Interpreter) :
    eval_node n st (some (.block l c [.break_stmt l c])) = .error .out_of_fuel ∨
      ∃ r, eval_node n st (some (.block l c [.break_stmt l c])) = .ok r := by
  have h : ∃ r, eval_node 5 st (some (.block l c [.break_stmt l c])) = .ok r := by
    rw [eval_node_block 3, eval_block_loop, eval_node_break 0]
    dsimp only [Except.ok_bind]
    split
    · exact ⟨_, rfl⟩
    · rw [eval_block_loop]
      exact ⟨_, rfl⟩
  obtain ⟨r, hr⟩ := h
  rcases eval_node_decided st _ 5 r hr n with e | e
  · exact Or.inl e
  · exact Or.inr ⟨r, e⟩

/-- C31. At a BREAK token `parse_statement` consumes the token and returns a BREAK node.
Evaluating a BREAK node returns a fresh null value in a state that differs from the one
before in that value cell only: no scope, no return signal, no output. In a loop whose
condition is true and whose body is a block that starts with `break`, the statements behind
the `break` are evaluated and the loop is entered again with the same condition and body;
a loop `while true run: break end` does not return, whatever the state and the fuel. -/
theorem break_is_inert (fuel : Nat) (p : Parser) (t next : Token) (st st1 : Interpreter)
    (l c cv : Nat) (cond : Option ASTNode) (rest : List ASTNode) (v : Value)
    (hlt : p.current < p.token_count) (hg : p.tokens.get? p.current = some t)
    (hb : t.type = .BREAK) (hn : p.tokens.get? (p.current + 1) = some next)
    (hc : eval_expression (fuel + 5) st cond = .ok (cv, st1)) (hl : st1.load cv = .ok v)
    (hv : v.boolean = .ok true) (hr : st1.return_value = none) :
    parse_statement (fuel + 1) p =
      .ok (some (.break_stmt next.line next.column), { p with current := p.current + 1 }) ∧
    (∀ s : Interpreter, eval_node (fuel + 2) s (some (.break_stmt l c)) =
      .ok (s.values.length,
        { s with values := s.values ++ [some ⟨.NULL, false, .zeroed⟩] })) ∧
    eval_while (fuel + 6) st cond (some (.block l c (.break_stmt l c :: rest))) = (do
      let (_, st2) ← eval_block_loop (fuel + 2)
        { st1 with values := st1.values ++
            [some ⟨.NULL, false, .zeroed⟩, some ⟨.NULL, false, .zeroed⟩] }
        rest (st1.values.length + 1)
      eval_while (fuel + 5) st2 cond (some (.block l c (.break_stmt l c :: rest)))) ∧
    ∀ n s, eval_while n s always (some (.block l c [.break_stmt l c])) =
      .error .out_of_fuel := by
  refine ⟨parse_statement_break fuel p t next hlt hg hb hn, fun s => ?_, ?_,
    eval_while_forever _ _ always_true (break_body_returns l c)⟩
  · rw [eval_node_break]
    rfl
  · rw [eval_while, hc]
    dsimp only [Except.ok_bind]
    rw [hl]
    dsimp only [Except.ok_bind]
    rw [hv]
    dsimp only [Except.ok_bind]
    rw [if_pos rfl, eval_node_block (fuel + 3), eval_block_loop, eval_node_break fuel]
    dsimp only [Except.ok_bind]
    have h1 : ((st1.create_value .NULL).2.create_value .NULL).2.return_value = none := hr
    have h2 : ((st1.create_value .NULL).2.create_value .NULL).2 =
        { st1 with values := st1.values ++
            [some ⟨.NULL, false, .zeroed⟩, some ⟨.NULL, false, .zeroed⟩] } := by
      simp [Interpreter.create_value]
    have h3 : ((st1.create_value .NULL).2.create_value .NULL).1 = st1.values.length + 1 := by
      simp [Interpreter.create_value]
    rw [h1]
    simp only [Option.isSome_none, Bool.false_eq_true, if_false]
    rw [h2, h3]

/-- C31 on the tokens of `break` and on `while go run: break  go = false end` in a state
that binds `go` to true: the assignment behind the `break` is evaluated, so the loop ends
when its condition is evaluated again, with `go` bound to the new value 4 and no return
signal. -/
theorem break_is_inert_witness :
    parse_statement 1 (cursor_on "break") =
      .ok (some (.break_stmt 1 6), { cursor_on "break" with current := 1 }) ∧
    eval_while 6 loop_entry (some (.identifier 1 1 "go".toList))
        (some (.block 1 1 [.break_stmt 1 1, assigns 1 1 "go".toList (.boolean false)])) = (do
      let (_, st2) ← eval_block_loop 2
        { loop_entry with values := loop_entry.values ++
            [some ⟨.NULL, false, .zeroed⟩, some ⟨.NULL, false, .zeroed⟩] }
        [assigns 1 1 "go".toList (.boolean false)] (loop_entry.values.length + 1)
      eval_while 5 st2 (some (.identifier 1 1 "go".toList))
        (some (.block 1 1 [.break_stmt 1 1, assigns 1 1 "go".toList (.boolean false)]))) ∧
    (eval_node 9 loop_entry (some (break_loop 1))).map
        (fun r => (r.2.scopes, r.2.return_value, r.2.stdout)) =
      .ok ([some (Scope.mk [("x".toList, 0), ("go".toList, 4)] none)], none, []) :=
  ⟨(break_is_inert 0 (cursor_on "break") _ _ loop_entry loop_entry 1 1 1
      (some (.identifier 1 1 "go".toList)) [assigns 1 1 "go".toList (.boolean false)] _
      (by decide) rfl rfl rfl rfl rfl rfl rfl).1,
   (break_is_inert 0 (cursor_on "break") _ _ loop_entry loop_entry 1 1 1
      (some (.identifier 1 1 "go".toList)) [assigns 1 1 "go".toList (.boolean false)] _
      (by decide) rfl rfl rfl rfl rfl rfl rfl).2.2.1,
   by decide!⟩

/-! ## What the parsing functions keep -/

theorem keeps_pure {α : Type} {P : Parser → Prop} (a : α) (p : Parser) (h : P p) :
    Keeps P (Pure.pure (a, p) : Except Fault (α × Parser)) := by
  intro r e
  cases e
  exact h

theorem keeps_error {α : Type} {P : Parser → Prop} (e : Fault) :
    Keeps P (Except.error e : Except Fault (α × Parser)) := by
  intro r h
  cases h

theorem keeps_bind {α β : Type} {P : Parser → Prop} {x : Except Fault (β × Parser)}
    {f : β × Parser → Except Fault (α × Parser)} (hx : Keeps P x)
    (hf : ∀ r, P r.2 → Keeps P (f r)) : Keeps P (x >>= f) := by
  intro r e
  cases x with
  | error _ => cases e
  | ok a => exact hf a (hx a rfl) r e

theorem keeps_bind_plain {α β : Type} {P : Parser → Prop} {x : Except Fault β}
    {f : β → Except Fault (α × Parser)} (hf : ∀ b, Keeps P (f b)) : Keeps P (x >>= f) := by
  intro r e
  cases x with
  | error _ => cases e
  | ok a => exact hf a r e

theorem keeps_ite {α : Type} {P : Parser → Prop} {c : Prop} [Decidable c]
    {x y : Except Fault (α × Parser)} (hx : Keeps P x) (hy : Keeps P y) :
    Keeps P (if c then x else y) := by
  split
  · exact hx
  · exact hy

theorem keeps_matchTok {P : Parser → Prop} (hadv : ∀ p, P p → P (Parser.advance p))
    (p : Parser) (type : TokenType) (h : P p) : Keeps P (Parser.matchTok p type) := by
  unfold Parser.matchTok
  refine keeps_bind_plain fun found => ?_
  split
  · exact keeps_pure _ _ (hadv _ h)
  · exact keeps_pure _ _ h

theorem keeps_expect {P : Parser → Prop} (hadv : ∀ p, P p → P (Parser.advance p))
    (hflag : ∀ p (e : List Char), P p → P { p with had_error := true, stderr := e })
    (p : Parser) (type : TokenType) (message : String) (h : P p) :
    Keeps P (Parser.expect p type message) := by
  unfold Parser.expect
  refine keeps_bind_plain fun found => ?_
  split
  · refine keeps_bind_plain fun token => ?_
    exact keeps_pure _ _ (hadv _ h)
  · refine keeps_bind_plain fun token => ?_
    exact keeps_pure _ _ (hflag _ _ h)

theorem parse_params_loop_keeps {P : Parser → Prop}
    (hadv : ∀ p, P p → P (Parser.advance p))
    (hflag : ∀ p (e : List Char), P p → P { p with had_error := true, stderr := e })
    (n : Nat) (p : Parser) (params : List (List Char)) (h : P p) :
    Keeps P (parse_params_loop n p params) := by
  induction n generalizing p params with
  | zero => intro r e; cases e
  | succ n ih =>
    rw [parse_params_loop]
    refine keeps_bind (keeps_expect hadv hflag _ _ _ h) ?_
    rintro ⟨param, p1⟩ h1
    refine keeps_bind (keeps_matchTok hadv _ _ h1) ?_
    rintro ⟨more, p2⟩ h2
    exact keeps_ite (ih _ _ h2) (keeps_pure _ _ h2)

theorem parse_params_keeps {P : Parser → Prop} (hadv : ∀ p, P p → P (Parser.advance p))
    (hflag : ∀ p (e : List Char), P p → P { p with had_error := true, stderr := e })
    (n : Nat) (p : Parser) (h : P p) : Keeps P (parse_params n p) := by
  unfold parse_params
  refine keeps_bind (keeps_expect hadv hflag _ _ _ h) ?_
  rintro ⟨_, p1⟩ h1
  refine keeps_bind_plain fun atEnd => ?_
  have tail : ∀ r : List (List Char) × Parser, P r.2 →
      Keeps P (do
        let (_, p3) ← Parser.expect r.2 .RPAREN "Expected ')' after parameters"
        Pure.pure (r.1, p3)) := by
    rintro ⟨params, p2⟩ h2
    refine keeps_bind (keeps_expect hadv hflag _ _ _ h2) ?_
    rintro ⟨_, p3⟩ h3
    exact keeps_pure _ _ h3
  dsimp only
  apply keeps_ite
  · exact keeps_bind (keeps_pure _ _ h1) tail
  · exact keeps_bind (parse_params_loop_keeps hadv hflag _ _ _ h1) tail

set_option maxHeartbeats 4000000 in
/-- A property of the parser that the cursor moves and the error reports keep is kept by
every parsing function. -/
theorem parser_keeps {P : Parser → Prop} (hadv : ∀ p, P p → P (Parser.advance p))
    (hback : ∀ p, P p → P (Parser.back p))
    (hflag : ∀ p (e : List Char), P p → P { p with had_error := true, stderr := e })
    (n : Nat) :
    (∀ p, P p → Keeps P (parse_primary n p)) ∧
    (∀ p a, P p → Keeps P (parse_args_loop n p a)) ∧
    (∀ p m, P p → Keeps P (parse_binary n p m)) ∧
    (∀ p l m, P p → Keeps P (parse_binary_loop n p l m)) ∧
    (∀ p, P p → Keeps P (parse_expression n p)) ∧
    (∀ p a, P p → Keeps P (parse_block_loop n p a)) ∧
    (∀ p, P p → Keeps P (parse_block n p)) ∧
    (∀ p, P p → Keeps P (parse_var_decl n p)) ∧
    (∀ p, P p → Keeps P (parse_func_decl n p)) ∧
    (∀ p, P p → Keeps P (parse_if n p)) ∧
    (∀ p, P p → Keeps P (parse_while n p)) ∧
    (∀ p, P p → Keeps P (parse_for n p)) ∧
    (∀ p, P p → Keeps P (parse_return n p)) ∧
    (∀ p, P p → Keeps P (parse_assignment_or_expr n p)) ∧
    (∀ p, P p → Keeps P (parse_statement n p)) := by
  induction n with
  | zero =>
    refine ⟨fun _ _ => ?_, fun _ _ _ => ?_, fun _ _ _ => ?_, fun _ _ _ _ => ?_, fun _ _ => ?_, fun _ _ _ => ?_, fun _ _ => ?_, fun _ _ => ?_, fun _ _ => ?_, fun _ _ => ?_, fun _ _ => ?_, fun _ _ => ?_, fun _ _ => ?_, fun _ _ => ?_, fun _ _ => ?_⟩ <;>
      exact keeps_error _
  | succ n ih =>
    obtain ⟨ih1, ih2, ih3, ih4, ih5, ih6, ih7, ih8, ih9, ih10, ih11, ih12, ih13, ih14, ih15⟩ := ih
    refine ⟨fun p h => ?_, fun p a h => ?_, fun p m h => ?_, fun p l m h => ?_, fun p h => ?_, fun p a h => ?_, fun p h => ?_, fun p h => ?_, fun p h => ?_, fun p h => ?_, fun p h => ?_, fun p h => ?_, fun p h => ?_, fun p h => ?_, fun p h => ?_⟩
    · rw [parse_primary]
      repeat' first
        | exact keeps_pure _ _ (by first | assumption | exact hadv _ (by assumption) | exact hback _ (by assumption) | exact hflag _ _ (by assumption))
        | exact keeps_error _
        | exact ih1 _ (by first | assumption | exact hadv _ (by assumption) | exact hback _ (by assumption) | exact hflag _ _ (by assumption))
        | exact ih2 _ _ (by first | assumption | exact hadv _ (by assumption) | exact hback _ (by assumption) | exact hflag _ _ (by assumption))
        | exact ih3 _ _ (by first | assumption | exact hadv _ (by assumption) | exact hback _ (by assumption) | exact hflag _ _ (by assumption))
        | exact ih4 _ _ _ (by first | assumption | exact hadv _ (by assumption) | exact hback _ (by assumption) | exact hflag _ _ (by assumption))
        | exact ih5 _ (by first | assumption | exact hadv _ (by assumption) | exact hback _ (by assumption) | exact hflag _ _ (by assumption))
        | exact ih6 _ _ (by first | assumption | exact hadv _ (by assumption) | exact hback _ (by assumption) | exact hflag _ _ (by assumption))
        | exact ih7 _ (by first | assumption | exact hadv _ (by assumption) | exact hback _ (by assumption) | exact hflag _ _ (by assumption))
        | exact ih8 _ (by first | assumption | exact hadv _ (by assumption) | exact hback _ (by assumption) | exact hflag _ _ (by assumption))
        | exact ih9 _ (by first | assumption | exact hadv _ (by assumption) | exact hback _ (by assumption) | exact hflag _ _ (by assumption))
        | exact ih10 _ (by first | assumption | exact hadv _ (by assumption) | exact hback _ (by assumption) | exact hflag _ _ (by assumption))
        | exact ih11 _ (by first | assumption | exact hadv _ (by assumption) | exact hback _ (by assumption) | exact hflag _ _ (by assumption))
        | exact ih12 _ (by first | assumption | exact hadv _ (by assumption) | exact hback _ (by assumption) | exact hflag _ _ (by assumption))
        | exact ih13 _ (by first | assumption | exact hadv _ (by assumption) | exact hback _ (by assumption) | exact hflag _ _ (by assumption))
        | exact ih14 _ (by first | assumption | exact hadv _ (by assumption) | exact hback _ (by assumption) | exact hflag _ _ (by assumption))
        | exact ih15 _ (by first | assumption | exact hadv _ (by assumption) | exact hback _ (by assumption) | exact hflag _ _ (by assumption))
        | exact keeps_matchTok hadv _ _ (by first | assumption | exact hadv _ (by assumption) | exact hback _ (by assumption) | exact hflag _ _ (by assumption))
        | exact keeps_expect hadv hflag _ _ _ (by first | assumption | exact hadv _ (by assumption) | exact hback _ (by assumption) | exact hflag _ _ (by assumption))
        | exact parse_params_keeps hadv hflag _ _ (by first | assumption | exact hadv _ (by assumption) | exact hback _ (by assumption) | exact hflag _ _ (by assumption))
        | apply keeps_ite
        | (apply keeps_bind; rotate_left; rintro ⟨_, _⟩ _; try dsimp only)
        | (apply keeps_bind_plain; intro _)
        | split
    · rw [parse_args_loop]
      repeat' first
        | exact keeps_pure _ _ (by first | assumption | exact hadv _ (by assumption) | exact hback _ (by assumption) | exact hflag _ _ (by assumption))
        | exact keeps_error _
        | exact ih1 _ (by first | assumption | exact hadv _ (by assumption) | exact hback _ (by assumption) | exact hflag _ _ (by assumption))
        | exact ih2 _ _ (by first | assumption | exact hadv _ (by assumption) | exact hback _ (by assumption) | exact hflag _ _ (by assumption))
        | exact ih3 _ _ (by first | assumption | exact hadv _ (by assumption) | exact hback _ (by assumption) | exact hflag _ _ (by assumption))
        | exact ih4 _ _ _ (by first | assumption | exact hadv _ (by assumption) | exact hback _ (by assumption) | exact hflag _ _ (by assumption))
        | exact ih5 _ (by first | assumption | exact hadv _ (by assumption) | exact hback _ (by assumption) | exact hflag _ _ (by assumption))
        | exact ih6 _ _ (by first | assumption | exact hadv _ (by assumption) | exact hback _ (by assumption) | exact hflag _ _ (by assumption))
        | exact ih7 _ (by first | assumption | exact hadv _ (by assumption) | exact hback _ (by assumption) | exact hflag _ _ (by assumption))
        | exact ih8 _ (by first | assumption | exact hadv _ (by assumption) | exact hback _ (by assumption) | exact hflag _ _ (by assumption))
        | exact ih9 _ (by first | assumption | exact hadv _ (by assumption) | exact hback _ (by assumption) | exact hflag _ _ (by assumption))
        | exact ih10 _ (by first | assumption | exact hadv _ (by assumption) | exact hback _ (by assumption) | exact hflag _ _ (by assumption))
        | exact ih11 _ (by first | assumption | exact hadv _ (by assumption) | exact hback _ (by assumption) | exact hflag _ _ (by assumption))
        | exact ih12 _ (by first | assumption | exact hadv _ (by assumption) | exact hback _ (by assumption) | exact hflag _ _ (by assumption))
        | exact ih13 _ (by first | assumption | exact hadv _ (by assumption) | exact hback _ (by assumption) | exact hflag _ _ (by assumption))
        | exact ih14 _ (by first | assumption | exact hadv _ (by assumption) | exact hback _ (by assumption) | exact hflag _ _ (by assumption))
        | exact ih15 _ (by first | assumption | exact hadv _ (by assumption) | exact hback _ (by assumption) | exact hflag _ _ (by assumption))
        | exact keeps_matchTok hadv _ _ (by first | assumption | exact hadv _ (by assumption) | exact hback _ (by assumption) | exact hflag _ _ (by assumption))
        | exact keeps_expect hadv hflag _ _ _ (by first | assumption | exact hadv _ (by assumption) | exact hback _ (by assumption) | exact hflag _ _ (by assumption))
        | exact parse_params_keeps hadv hflag _ _ (by first | assumption | exact hadv _ (by assumption) | exact hback _ (by assumption) | exact hflag _ _ (by assumption))
        | apply keeps_ite
        | (apply keeps_bind; rotate_left; rintro ⟨_, _⟩ _; try dsimp only)
        | (apply keeps_bind_plain; intro _)
        | split
    · rw [parse_binary]
      repeat' first
        | exact keeps_pure _ _ (by first | assumption | exact hadv _ (by assumption) | exact hback _ (by assumption) | exact hflag _ _ (by assumption))
        | exact keeps_error _
        | exact ih1 _ (by first | assumption | exact hadv _ (by assumption) | exact hback _ (by assumption) | exact hflag _ _ (by assumption))
        | exact ih2 _ _ (by first | assumption | exact hadv _ (by assumption) | exact hback _ (by assumption) | exact hflag _ _ (by assumption))
        | exact ih3 _ _ (by first | assumption | exact hadv _ (by assumption) | exact hback _ (by assumption) | exact hflag _ _ (by assumption))
        | exact ih4 _ _ _ (by first | assumption | exact hadv _ (by assumption) | exact hback _ (by assumption) | exact hflag _ _ (by assumption))
        | exact ih5 _ (by first | assumption | exact hadv _ (by assumption) | exact hback _ (by assumption) | exact hflag _ _ (by assumption))
        | exact ih6 _ _ (by first | assumption | exact hadv _ (by assumption) | exact hback _ (by assumption) | exact hflag _ _ (by assumption))
        | exact ih7 _ (by first | assumption | exact hadv _ (by assumption) | exact hback _ (by assumption) | exact hflag _ _ (by assumption))
        | exact ih8 _ (by first | assumption | exact hadv _ (by assumption) | exact hback _ (by assumption) | exact hflag _ _ (by assumption))
        | exact ih9 _ (by first | assumption | exact hadv _ (by assumption) | exact hback _ (by assumption) | exact hflag _ _ (by assumption))
        | exact ih10 _ (by first | assumption | exact hadv _ (by assumption) | exact hback _ (by assumption) | exact hflag _ _ (by assumption))
        | exact ih11 _ (by first | assumption | exact hadv _ (by assumption) | exact hback _ (by assumption) | exact hflag _ _ (by assumption))
        | exact ih12 _ (by first | assumption | exact hadv _ (by assumption) | exact hback _ (by assumption) | exact hflag _ _ (by assumption))
        | exact ih13 _ (by first | assumption | exact hadv _ (by assumption) | exact hback _ (by assumption) | exact hflag _ _ (by assumption))
        | exact ih14 _ (by first | assumption | exact hadv _ (by assumption) | exact hback _ (by assumption) | exact hflag _ _ (by assumption))
        | exact ih15 _ (by first | assumption | exact hadv _ (by assumption) | exact hback _ (by assumption) | exact hflag _ _ (by assumption))
        | exact keeps_matchTok hadv _ _ (by first | assumption | exact hadv _ (by assumption) | exact hback _ (by assumption) | exact hflag _ _ (by assumption))
        | exact keeps_expect hadv hflag _ _ _ (by first | assumption | exact hadv _ (by assumption) | exact hback _ (by assumption) | exact hflag _ _ (by assumption))
        | exact parse_params_keeps hadv hflag _ _ (by first | assumption | exact hadv _ (by assumption) | exact hback _ (by assumption) | exact hflag _ _ (by assumption))
        | apply keeps_ite
        | (apply keeps_bind; rotate_left; rintro ⟨_, _⟩ _; try dsimp only)
        | (apply keeps_bind_plain; intro _)
        | split
    · rw [parse_binary_loop]
      repeat' first
        | exact keeps_pure _ _ (by first | assumption | exact hadv _ (by assumption) | exact hback _ (by assumption) | exact hflag _ _ (by assumption))
        | exact keeps_error _
        | exact ih1 _ (by first | assumption | exact hadv _ (by assumption) | exact hback _ (by assumption) | exact hflag _ _ (by assumption))
        | exact ih2 _ _ (by first | assumption | exact hadv _ (by assumption) | exact hback _ (by assumption) | exact hflag _ _ (by assumption))
        | exact ih3 _ _ (by first | assumption | exact hadv _ (by assumption) | exact hback _ (by assumption) | exact hflag _ _ (by assumption))
        | exact ih4 _ _ _ (by first | assumption | exact hadv _ (by assumption) | exact hback _ (by assumption) | exact hflag _ _ (by assumption))
        | exact ih5 _ (by first | assumption | exact hadv _ (by assumption) | exact hback _ (by assumption) | exact hflag _ _ (by assumption))
        | exact ih6 _ _ (by first | assumption | exact hadv _ (by assumption) | exact hback _ (by assumption) | exact hflag _ _ (by assumption))
        | exact ih7 _ (by first | assumption | exact hadv _ (by assumption) | exact hback _ (by assumption) | exact hflag _ _ (by assumption))
        | exact ih8 _ (by first | assumption | exact hadv _ (by assumption) | exact hback _ (by assumption) | exact hflag _ _ (by assumption))
        | exact ih9 _ (by first | assumption | exact hadv _ (by assumption) | exact hback _ (by assumption) | exact hflag _ _ (by assumption))
        | exact ih10 _ (by first | assumption | exact hadv _ (by assumption) | exact hback _ (by assumption) | exact hflag _ _ (by assumption))
        | exact ih11 _ (by first | assumption | exact hadv _ (by assumption) | exact hback _ (by assumption) | exact hflag _ _ (by assumption))
        | exact ih12 _ (by first | assumption | exact hadv _ (by assumption) | exact hback _ (by assumption) | exact hflag _ _ (by assumption))
        | exact ih13 _ (by first | assumption | exact hadv _ (by assumption) | exact hback _ (by assumption) | exact hflag _ _ (by assumption))
        | exact ih14 _ (by first | assumption | exact hadv _ (by assumption) | exact hback _ (by assumption) | exact hflag _ _ (by assumption))
        | exact ih15 _ (by first | assumption | exact hadv _ (by assumption) | exact hback _ (by assumption) | exact hflag _ _ (by assumption))
        | exact keeps_matchTok hadv _ _ (by first | assumption | exact hadv _ (by assumption) | exact hback _ (by assumption) | exact hflag _ _ (by assumption))
        | exact keeps_expect hadv hflag _ _ _ (by first | assumption | exact hadv _ (by assumption) | exact hback _ (by assumption) | exact hflag _ _ (by assumption))
        | exact parse_params_keeps hadv hflag _ _ (by first | assumption | exact hadv _ (by assumption) | exact hback _ (by assumption) | exact hflag _ _ (by assumption))
        | apply keeps_ite
        | (apply keeps_bind; rotate_left; rintro ⟨_, _⟩ _; try dsimp only)
        | (apply keeps_bind_plain; intro _)
        | split
    · rw [parse_expression]
      repeat' first
        | exact keeps_pure _ _ (by first | assumption | exact hadv _ (by assumption) | exact hback _ (by assumption) | exact hflag _ _ (by assumption))
        | exact keeps_error _
        | exact ih1 _ (by first | assumption | exact hadv _ (by assumption) | exact hback _ (by assumption) | exact hflag _ _ (by assumption))
        | exact ih2 _ _ (by first | assumption | exact hadv _ (by assumption) | exact hback _ (by assumption) | exact hflag _ _ (by assumption))
        | exact ih3 _ _ (by first | assumption | exact hadv _ (by assumption) | exact hback _ (by assumption) | exact hflag _ _ (by assumption))
        | exact ih4 _ _ _ (by first | assumption | exact hadv _ (by assumption) | exact hback _ (by assumption) | exact hflag _ _ (by assumption))
        | exact ih5 _ (by first | assumption | exact hadv _ (by assumption) | exact hback _ (by assumption) | exact hflag _ _ (by assumption))
        | exact ih6 _ _ (by first | assumption | exact hadv _ (by assumption) | exact hback _ (by assumption) | exact hflag _ _ (by assumption))
        | exact ih7 _ (by first | assumption | exact hadv _ (by assumption) | exact hback _ (by assumption) | exact hflag _ _ (by assumption))
        | exact ih8 _ (by first | assumption | exact hadv _ (by assumption) | exact hback _ (by assumption) | exact hflag _ _ (by assumption))
        | exact ih9 _ (by first | assumption | exact hadv _ (by assumption) | exact hback _ (by assumption) | exact hflag _ _ (by assumption))
        | exact ih10 _ (by first | assumption | exact hadv _ (by assumption) | exact hback _ (by assumption) | exact hflag _ _ (by assumption))
        | exact ih11 _ (by first | assumption | exact hadv _ (by assumption) | exact hback _ (by assumption) | exact hflag _ _ (by assumption))
        | exact ih12 _ (by first | assumption | exact hadv _ (by assumption) | exact hback _ (by assumption) | exact hflag _ _ (by assumption))
        | exact ih13 _ (by first | assumption | exact hadv _ (by assumption) | exact hback _ (by assumption) | exact hflag _ _ (by assumption))
        | exact ih14 _ (by first | assumption | exact hadv _ (by assumption) | exact hback _ (by assumption) | exact hflag _ _ (by assumption))
        | exact ih15 _ (by first | assumption | exact hadv _ (by assumption) | exact hback _ (by assumption) | exact hflag _ _ (by assumption))
        | exact keeps_matchTok hadv _ _ (by first | assumption | exact hadv _ (by assumption) | exact hback _ (by assumption) | exact hflag _ _ (by assumption))
        | exact keeps_expect hadv hflag _ _ _ (by first | assumption | exact hadv _ (by assumption) | exact hback _ (by assumption) | exact hflag _ _ (by assumption))
        | exact parse_params_keeps hadv hflag _ _ (by first | assumption | exact hadv _ (by assumption) | exact hback _ (by assumption) | exact hflag _ _ (by assumption))
        | apply keeps_ite
        | (apply keeps_bind; rotate_left; rintro ⟨_, _⟩ _; try dsimp only)
        | (apply keeps_bind_plain; intro _)
        | split
    · rw [parse_block_loop]
      repeat' first
        | exact keeps_pure _ _ (by first | assumption | exact hadv _ (by assumption) | exact hback _ (by assumption) | exact hflag _ _ (by assumption))
        | exact keeps_error _
        | exact ih1 _ (by first | assumption | exact hadv _ (by assumption) | exact hback _ (by assumption) | exact hflag _ _ (by assumption))
        | exact ih2 _ _ (by first | assumption | exact hadv _ (by assumption) | exact hback _ (by assumption) | exact hflag _ _ (by assumption))
        | exact ih3 _ _ (by first | assumption | exact hadv _ (by assumption) | exact hback _ (by assumption) | exact hflag _ _ (by assumption))
        | exact ih4 _ _ _ (by first | assumption | exact hadv _ (by assumption) | exact hback _ (by assumption) | exact hflag _ _ (by assumption))
        | exact ih5 _ (by first | assumption | exact hadv _ (by assumption) | exact hback _ (by assumption) | exact hflag _ _ (by assumption))
        | exact ih6 _ _ (by first | assumption | exact hadv _ (by assumption) | exact hback _ (by assumption) | exact hflag _ _ (by assumption))
        | exact ih7 _ (by first | assumption | exact hadv _ (by assumption) | exact hback _ (by assumption) | exact hflag _ _ (by assumption))
        | exact ih8 _ (by first | assumption | exact hadv _ (by assumption) | exact hback _ (by assumption) | exact hflag _ _ (by assumption))
        | exact ih9 _ (by first | assumption | exact hadv _ (by assumption) | exact hback _ (by assumption) | exact hflag _ _ (by assumption))
        | exact ih10 _ (by first | assumption | exact hadv _ (by assumption) | exact hback _ (by assumption) | exact hflag _ _ (by assumption))
        | exact ih11 _ (by first | assumption | exact hadv _ (by assumption) | exact hback _ (by assumption) | exact hflag _ _ (by assumption))
        | exact ih12 _ (by first | assumption | exact hadv _ (by assumption) | exact hback _ (by assumption) | exact hflag _ _ (by assumption))
        | exact ih13 _ (by first | assumption | exact hadv _ (by assumption) | exact hback _ (by assumption) | exact hflag _ _ (by assumption))
        | exact ih14 _ (by first | assumption | exact hadv _ (by assumption) | exact hback _ (by assumption) | exact hflag _ _ (by assumption))
        | exact ih15 _ (by first | assumption | exact hadv _ (by assumption) | exact hback _ (by assumption) | exact hflag _ _ (by assumption))
        | exact keeps_matchTok hadv _ _ (by first | assumption | exact hadv _ (by assumption) | exact hback _ (by assumption) | exact hflag _ _ (by assumption))
        | exact keeps_expect hadv hflag _ _ _ (by first | assumption | exact hadv _ (by assumption) | exact hback _ (by assumption) | exact hflag _ _ (by assumption))
        | exact parse_params_keeps hadv hflag _ _ (by first | assumption | exact hadv _ (by assumption) | exact hback _ (by assumption) | exact hflag _ _ (by assumption))
        | apply keeps_ite
        | (apply keeps_bind; rotate_left; rintro ⟨_, _⟩ _; try dsimp only)
        | (apply keeps_bind_plain; intro _)
        | split
    · rw [parse_block]
      repeat' first
        | exact keeps_pure _ _ (by first | assumption | exact hadv _ (by assumption) | exact hback _ (by assumption) | exact hflag _ _ (by assumption))
        | exact keeps_error _
        | exact ih1 _ (by first | assumption | exact hadv _ (by assumption) | exact hback _ (by assumption) | exact hflag _ _ (by assumption))
        | exact ih2 _ _ (by first | assumption | exact hadv _ (by assumption) | exact hback _ (by assumption) | exact hflag _ _ (by assumption))
        | exact ih3 _ _ (by first | assumption | exact hadv _ (by assumption) | exact hback _ (by assumption) | exact hflag _ _ (by assumption))
        | exact ih4 _ _ _ (by first | assumption | exact hadv _ (by assumption) | exact hback _ (by assumption) | exact hflag _ _ (by assumption))
        | exact ih5 _ (by first | assumption | exact hadv _ (by assumption) | exact hback _ (by assumption) | exact hflag _ _ (by assumption))
        | exact ih6 _ _ (by first | assumption | exact hadv _ (by assumption) | exact hback _ (by assumption) | exact hflag _ _ (by assumption))
        | exact ih7 _ (by first | assumption | exact hadv _ (by assumption) | exact hback _ (by assumption) | exact hflag _ _ (by assumption))
        | exact ih8 _ (by first | assumption | exact hadv _ (by assumption) | exact hback _ (by assumption) | exact hflag _ _ (by assumption))
        | exact ih9 _ (by first | assumption | exact hadv _ (by assumption) | exact hback _ (by assumption) | exact hflag _ _ (by assumption))
        | exact ih10 _ (by first | assumption | exact hadv _ (by assumption) | exact hback _ (by assumption) | exact hflag _ _ (by assumption))
        | exact ih11 _ (by first | assumption | exact hadv _ (by assumption) | exact hback _ (by assumption) | exact hflag _ _ (by assumption))
        | exact ih12 _ (by first | assumption | exact hadv _ (by assumption) | exact hback _ (by assumption) | exact hflag _ _ (by assumption))
        | exact ih13 _ (by first | assumption | exact hadv _ (by assumption) | exact hback _ (by assumption) | exact hflag _ _ (by assumption))
        | exact ih14 _ (by first | assumption | exact hadv _ (by assumption) | exact hback _ (by assumption) | exact hflag _ _ (by assumption))
        | exact ih15 _ (by first | assumption | exact hadv _ (by assumption) | exact hback _ (by assumption) | exact hflag _ _ (by assumption))
        | exact keeps_matchTok hadv _ _ (by first | assumption | exact hadv _ (by assumption) | exact hback _ (by assumption) | exact hflag _ _ (by assumption))
        | exact keeps_expect hadv hflag _ _ _ (by first | assumption | exact hadv _ (by assumption) | exact hback _ (by assumption) | exact hflag _ _ (by assumption))
        | exact parse_params_keeps hadv hflag _ _ (by first | assumption | exact hadv _ (by assumption) | exact hback _ (by assumption) | exact hflag _ _ (by assumption))
        | apply keeps_ite
        | (apply keeps_bind; rotate_left; rintro ⟨_, _⟩ _; try dsimp only)
        | (apply keeps_bind_plain; intro _)
        | split
    · rw [parse_var_decl]
      repeat' first
        | exact keeps_pure _ _ (by first | assumption | exact hadv _ (by assumption) | exact hback _ (by assumption) | exact hflag _ _ (by assumption))
        | exact keeps_error _
        | exact ih1 _ (by first | assumption | exact hadv _ (by assumption) | exact hback _ (by assumption) | exact hflag _ _ (by assumption))
        | exact ih2 _ _ (by first | assumption | exact hadv _ (by assumption) | exact hback _ (by assumption) | exact hflag _ _ (by assumption))
        | exact ih3 _ _ (by first | assumption | exact hadv _ (by assumption) | exact hback _ (by assumption) | exact hflag _ _ (by assumption))
        | exact ih4 _ _ _ (by first | assumption | exact hadv _ (by assumption) | exact hback _ (by assumption) | exact hflag _ _ (by assumption))
        | exact ih5 _ (by first | assumption | exact hadv _ (by assumption) | exact hback _ (by assumption) | exact hflag _ _ (by assumption))
        | exact ih6 _ _ (by first | assumption | exact hadv _ (by assumption) | exact hback _ (by assumption) | exact hflag _ _ (by assumption))
        | exact ih7 _ (by first | assumption | exact hadv _ (by assumption) | exact hback _ (by assumption) | exact hflag _ _ (by assumption))
        | exact ih8 _ (by first | assumption | exact hadv _ (by assumption) | exact hback _ (by assumption) | exact hflag _ _ (by assumption))
        | exact ih9 _ (by first | assumption | exact hadv _ (by assumption) | exact hback _ (by assumption) | exact hflag _ _ (by assumption))
        | exact ih10 _ (by first | assumption | exact hadv _ (by assumption) | exact hback _ (by assumption) | exact hflag _ _ (by assumption))
        | exact ih11 _ (by first | assumption | exact hadv _ (by assumption) | exact hback _ (by assumption) | exact hflag _ _ (by assumption))
        | exact ih12 _ (by first | assumption | exact hadv _ (by assumption) | exact hback _ (by assumption) | exact hflag _ _ (by assumption))
        | exact ih13 _ (by first | assumption | exact hadv _ (by assumption) | exact hback _ (by assumption) | exact hflag _ _ (by assumption))
        | exact ih14 _ (by first | assumption | exact hadv _ (by assumption) | exact hback _ (by assumption) | exact hflag _ _ (by assumption))
        | exact ih15 _ (by first | assumption | exact hadv _ (by assumption) | exact hback _ (by assumption) | exact hflag _ _ (by assumption))
        | exact keeps_matchTok hadv _ _ (by first | assumption | exact hadv _ (by assumption) | exact hback _ (by assumption) | exact hflag _ _ (by assumption))
        | exact keeps_expect hadv hflag _ _ _ (by first | assumption | exact hadv _ (by assumption) | exact hback _ (by assumption) | exact hflag _ _ (by assumption))
        | exact parse_params_keeps hadv hflag _ _ (by first | assumption | exact hadv _ (by assumption) | exact hback _ (by assumption) | exact hflag _ _ (by assumption))
        | apply keeps_ite
        | (apply keeps_bind; rotate_left; rintro ⟨_, _⟩ _; try dsimp only)
        | (apply keeps_bind_plain; intro _)
        | split
    · rw [parse_func_decl]
      repeat' first
        | exact keeps_pure _ _ (by first | assumption | exact hadv _ (by assumption) | exact hback _ (by assumption) | exact hflag _ _ (by assumption))
        | exact keeps_error _
        | exact ih1 _ (by first | assumption | exact hadv _ (by assumption) | exact hback _ (by assumption) | exact hflag _ _ (by assumption))
        | exact ih2 _ _ (by first | assumption | exact hadv _ (by assumption) | exact hback _ (by assumption) | exact hflag _ _ (by assumption))
        | exact ih3 _ _ (by first | assumption | exact hadv _ (by assumption) | exact hback _ (by assumption) | exact hflag _ _ (by assumption))
        | exact ih4 _ _ _ (by first | assumption | exact hadv _ (by assumption) | exact hback _ (by assumption) | exact hflag _ _ (by assumption))
        | exact ih5 _ (by first | assumption | exact hadv _ (by assumption) | exact hback _ (by assumption) | exact hflag _ _ (by assumption))
        | exact ih6 _ _ (by first | assumption | exact hadv _ (by assumption) | exact hback _ (by assumption) | exact hflag _ _ (by assumption))
        | exact ih7 _ (by first | assumption | exact hadv _ (by assumption) | exact hback _ (by assumption) | exact hflag _ _ (by assumption))
        | exact ih8 _ (by first | assumption | exact hadv _ (by assumption) | exact hback _ (by assumption) | exact hflag _ _ (by assumption))
        | exact ih9 _ (by first | assumption | exact hadv _ (by assumption) | exact hback _ (by assumption) | exact hflag _ _ (by assumption))
        | exact ih10 _ (by first | assumption | exact hadv _ (by assumption) | exact hback _ (by assumption) | exact hflag _ _ (by assumption))
        | exact ih11 _ (by first | assumption | exact hadv _ (by assumption) | exact hback _ (by assumption) | exact hflag _ _ (by assumption))
        | exact ih12 _ (by first | assumption | exact hadv _ (by assumption) | exact hback _ (by assumption) | exact hflag _ _ (by assumption))
        | exact ih13 _ (by first | assumption | exact hadv _ (by assumption) | exact hback _ (by assumption) | exact hflag _ _ (by assumption))
        | exact ih14 _ (by first | assumption | exact hadv _ (by assumption) | exact hback _ (by assumption) | exact hflag _ _ (by assumption))
        | exact ih15 _ (by first | assumption | exact hadv _ (by assumption) | exact hback _ (by assumption) | exact hflag _ _ (by assumption))
        | exact keeps_matchTok hadv _ _ (by first | assumption | exact hadv _ (by assumption) | exact hback _ (by assumption) | exact hflag _ _ (by assumption))
        | exact keeps_expect hadv hflag _ _ _ (by first | assumption | exact hadv _ (by assumption) | exact hback _ (by assumption) | exact hflag _ _ (by assumption))
        | exact parse_params_keeps hadv hflag _ _ (by first | assumption | exact hadv _ (by assumption) | exact hback _ (by assumption) | exact hflag _ _ (by assumption))
        | apply keeps_ite
        | (apply keeps_bind; rotate_left; rintro ⟨_, _⟩ _; try dsimp only)
        | (apply keeps_bind_plain; intro _)
        | split
    · rw [parse_if]
      repeat' first
        | exact keeps_pure _ _ (by first | assumption | exact hadv _ (by assumption) | exact hback _ (by assumption) | exact hflag _ _ (by assumption))
        | exact keeps_error _
        | exact ih1 _ (by first | assumption | exact hadv _ (by assumption) | exact hback _ (by assumption) | exact hflag _ _ (by assumption))
        | exact ih2 _ _ (by first | assumption | exact hadv _ (by assumption) | exact hback _ (by assumption) | exact hflag _ _ (by assumption))
        | exact ih3 _ _ (by first | assumption | exact hadv _ (by assumption) | exact hback _ (by assumption) | exact hflag _ _ (by assumption))
        | exact ih4 _ _ _ (by first | assumption | exact hadv _ (by assumption) | exact hback _ (by assumption) | exact hflag _ _ (by assumption))
        | exact ih5 _ (by first | assumption | exact hadv _ (by assumption) | exact hback _ (by assumption) | exact hflag _ _ (by assumption))
        | exact ih6 _ _ (by first | assumption | exact hadv _ (by assumption) | exact hback _ (by assumption) | exact hflag _ _ (by assumption))
        | exact ih7 _ (by first | assumption | exact hadv _ (by assumption) | exact hback _ (by assumption) | exact hflag _ _ (by assumption))
        | exact ih8 _ (by first | assumption | exact hadv _ (by assumption) | exact hback _ (by assumption) | exact hflag _ _ (by assumption))
        | exact ih9 _ (by first | assumption | exact hadv _ (by assumption) | exact hback _ (by assumption) | exact hflag _ _ (by assumption))
        | exact ih10 _ (by first | assumption | exact hadv _ (by assumption) | exact hback _ (by assumption) | exact hflag _ _ (by assumption))
        | exact ih11 _ (by first | assumption | exact hadv _ (by assumption) | exact hback _ (by assumption) | exact hflag _ _ (by assumption))
        | exact ih12 _ (by first | assumption | exact hadv _ (by assumption) | exact hback _ (by assumption) | exact hflag _ _ (by assumption))
        | exact ih13 _ (by first | assumption | exact hadv _ (by assumption) | exact hback _ (by assumption) | exact hflag _ _ (by assumption))
        | exact ih14 _ (by first | assumption | exact hadv _ (by assumption) | exact hback _ (by assumption) | exact hflag _ _ (by assumption))
        | exact ih15 _ (by first | assumption | exact hadv _ (by assumption) | exact hback _ (by assumption) | exact hflag _ _ (by assumption))
        | exact keeps_matchTok hadv _ _ (by first | assumption | exact hadv _ (by assumption) | exact hback _ (by assumption) | exact hflag _ _ (by assumption))
        | exact keeps_expect hadv hflag _ _ _ (by first | assumption | exact hadv _ (by assumption) | exact hback _ (by assumption) | exact hflag _ _ (by assumption))
        | exact parse_params_keeps hadv hflag _ _ (by first | assumption | exact hadv _ (by assumption) | exact hback _ (by assumption) | exact hflag _ _ (by assumption))
        | apply keeps_ite
        | (apply keeps_bind; rotate_left; rintro ⟨_, _⟩ _; try dsimp only)
        | (apply keeps_bind_plain; intro _)
        | split
    · rw [parse_while]
      repeat' first
        | exact keeps_pure _ _ (by first | assumption | exact hadv _ (by assumption) | exact hback _ (by assumption) | exact hflag _ _ (by assumption))
        | exact keeps_error _
        | exact ih1 _ (by first | assumption | exact hadv _ (by assumption) | exact hback _ (by assumption) | exact hflag _ _ (by assumption))
        | exact ih2 _ _ (by first | assumption | exact hadv _ (by assumption) | exact hback _ (by assumption) | exact hflag _ _ (by assumption))
        | exact ih3 _ _ (by first | assumption | exact hadv _ (by assumption) | exact hback _ (by assumption) | exact hflag _ _ (by assumption))
        | exact ih4 _ _ _ (by first | assumption | exact hadv _ (by assumption) | exact hback _ (by assumption) | exact hflag _ _ (by assumption))
        | exact ih5 _ (by first | assumption | exact hadv _ (by assumption) | exact hback _ (by assumption) | exact hflag _ _ (by assumption))
        | exact ih6 _ _ (by first | assumption | exact hadv _ (by assumption) | exact hback _ (by assumption) | exact hflag _ _ (by assumption))
        | exact ih7 _ (by first | assumption | exact hadv _ (by assumption) | exact hback _ (by assumption) | exact hflag _ _ (by assumption))
        | exact ih8 _ (by first | assumption | exact hadv _ (by assumption) | exact hback _ (by assumption) | exact hflag _ _ (by assumption))
        | exact ih9 _ (by first | assumption | exact hadv _ (by assumption) | exact hback _ (by assumption) | exact hflag _ _ (by assumption))
        | exact ih10 _ (by first | assumption | exact hadv _ (by assumption) | exact hback _ (by assumption) | exact hflag _ _ (by assumption))
        | exact ih11 _ (by first | assumption | exact hadv _ (by assumption) | exact hback _ (by assumption) | exact hflag _ _ (by assumption))
        | exact ih12 _ (by first | assumption | exact hadv _ (by assumption) | exact hback _ (by assumption) | exact hflag _ _ (by assumption))
        | exact ih13 _ (by first | assumption | exact hadv _ (by assumption) | exact hback _ (by assumption) | exact hflag _ _ (by assumption))
        | exact ih14 _ (by first | assumption | exact hadv _ (by assumption) | exact hback _ (by assumption) | exact hflag _ _ (by assumption))
        | exact ih15 _ (by first | assumption | exact hadv _ (by assumption) | exact hback _ (by assumption) | exact hflag _ _ (by assumption))
        | exact keeps_matchTok hadv _ _ (by first | assumption | exact hadv _ (by assumption) | exact hback _ (by assumption) | exact hflag _ _ (by assumption))
        | exact keeps_expect hadv hflag _ _ _ (by first | assumption | exact hadv _ (by assumption) | exact hback _ (by assumption) | exact hflag _ _ (by assumption))
        | exact parse_params_keeps hadv hflag _ _ (by first | assumption | exact hadv _ (by assumption) | exact hback _ (by assumption) | exact hflag _ _ (by assumption))
        | apply keeps_ite
        | (apply keeps_bind; rotate_left; rintro ⟨_, _⟩ _; try dsimp only)
        | (apply keeps_bind_plain; intro _)
        | split
    · rw [parse_for]
      repeat' first
        | exact keeps_pure _ _ (by first | assumption | exact hadv _ (by assumption) | exact hback _ (by assumption) | exact hflag _ _ (by assumption))
        | exact keeps_error _
        | exact ih1 _ (by first | assumption | exact hadv _ (by assumption) | exact hback _ (by assumption) | exact hflag _ _ (by assumption))
        | exact ih2 _ _ (by first | assumption | exact hadv _ (by assumption) | exact hback _ (by assumption) | exact hflag _ _ (by assumption))
        | exact ih3 _ _ (by first | assumption | exact hadv _ (by assumption) | exact hback _ (by assumption) | exact hflag _ _ (by assumption))
        | exact ih4 _ _ _ (by first | assumption | exact hadv _ (by assumption) | exact hback _ (by assumption) | exact hflag _ _ (by assumption))
        | exact ih5 _ (by first | assumption | exact hadv _ (by assumption) | exact hback _ (by assumption) | exact hflag _ _ (by assumption))
        | exact ih6 _ _ (by first | assumption | exact hadv _ (by assumption) | exact hback _ (by assumption) | exact hflag _ _ (by assumption))
        | exact ih7 _ (by first | assumption | exact hadv _ (by assumption) | exact hback _ (by assumption) | exact hflag _ _ (by assumption))
        | exact ih8 _ (by first | assumption | exact hadv _ (by assumption) | exact hback _ (by assumption) | exact hflag _ _ (by assumption))
        | exact ih9 _ (by first | assumption | exact hadv _ (by assumption) | exact hback _ (by assumption) | exact hflag _ _ (by assumption))
        | exact ih10 _ (by first | assumption | exact hadv _ (by assumption) | exact hback _ (by assumption) | exact hflag _ _ (by assumption))
        | exact ih11 _ (by first | assumption | exact hadv _ (by assumption) | exact hback _ (by assumption) | exact hflag _ _ (by assumption))
        | exact ih12 _ (by first | assumption | exact hadv _ (by assumption) | exact hback _ (by assumption) | exact hflag _ _ (by assumption))
        | exact ih13 _ (by first | assumption | exact hadv _ (by assumption) | exact hback _ (by assumption) | exact hflag _ _ (by assumption))
        | exact ih14 _ (by first | assumption | exact hadv _ (by assumption) | exact hback _ (by assumption) | exact hflag _ _ (by assumption))
        | exact ih15 _ (by first | assumption | exact hadv _ (by assumption) | exact hback _ (by assumption) | exact hflag _ _ (by assumption))
        | exact keeps_matchTok hadv _ _ (by first | assumption | exact hadv _ (by assumption) | exact hback _ (by assumption) | exact hflag _ _ (by assumption))
        | exact keeps_expect hadv hflag _ _ _ (by first | assumption | exact hadv _ (by assumption) | exact hback _ (by assumption) | exact hflag _ _ (by assumption))
        | exact parse_params_keeps hadv hflag _ _ (by first | assumption | exact hadv _ (by assumption) | exact hback _ (by assumption) | exact hflag _ _ (by assumption))
        | apply keeps_ite
        | (apply keeps_bind; rotate_left; rintro ⟨_, _⟩ _; try dsimp only)
        | (apply keeps_bind_plain; intro _)
        | split
    · rw [parse_return]
      repeat' first
        | exact keeps_pure _ _ (by first | assumption | exact hadv _ (by assumption) | exact hback _ (by assumption) | exact hflag _ _ (by assumption))
        | exact keeps_error _
        | exact ih1 _ (by first | assumption | exact hadv _ (by assumption) | exact hback _ (by assumption) | exact hflag _ _ (by assumption))
        | exact ih2 _ _ (by first | assumption | exact hadv _ (by assumption) | exact hback _ (by assumption) | exact hflag _ _ (by assumption))
        | exact ih3 _ _ (by first | assumption | exact hadv _ (by assumption) | exact hback _ (by assumption) | exact hflag _ _ (by assumption))
        | exact ih4 _ _ _ (by first | assumption | exact hadv _ (by assumption) | exact hback _ (by assumption) | exact hflag _ _ (by assumption))
        | exact ih5 _ (by first | assumption | exact hadv _ (by assumption) | exact hback _ (by assumption) | exact hflag _ _ (by assumption))
        | exact ih6 _ _ (by first | assumption | exact hadv _ (by assumption) | exact hback _ (by assumption) | exact hflag _ _ (by assumption))
        | exact ih7 _ (by first | assumption | exact hadv _ (by assumption) | exact hback _ (by assumption) | exact hflag _ _ (by assumption))
        | exact ih8 _ (by first | assumption | exact hadv _ (by assumption) | exact hback _ (by assumption) | exact hflag _ _ (by assumption))
        | exact ih9 _ (by first | assumption | exact hadv _ (by assumption) | exact hback _ (by assumption) | exact hflag _ _ (by assumption))
        | exact ih10 _ (by first | assumption | exact hadv _ (by assumption) | exact hback _ (by assumption) | exact hflag _ _ (by assumption))
        | exact ih11 _ (by first | assumption | exact hadv _ (by assumption) | exact hback _ (by assumption) | exact hflag _ _ (by assumption))
        | exact ih12 _ (by first | assumption | exact hadv _ (by assumption) | exact hback _ (by assumption) | exact hflag _ _ (by assumption))
        | exact ih13 _ (by first | assumption | exact hadv _ (by assumption) | exact hback _ (by assumption) | exact hflag _ _ (by assumption))
        | exact ih14 _ (by first | assumption | exact hadv _ (by assumption) | exact hback _ (by assumption) | exact hflag _ _ (by assumption))
        | exact ih15 _ (by first | assumption | exact hadv _ (by assumption) | exact hback _ (by assumption) | exact hflag _ _ (by assumption))
        | exact keeps_matchTok hadv _ _ (by first | assumption | exact hadv _ (by assumption) | exact hback _ (by assumption) | exact hflag _ _ (by assumption))
        | exact keeps_expect hadv hflag _ _ _ (by first | assumption | exact hadv _ (by assumption) | exact hback _ (by assumption) | exact hflag _ _ (by assumption))
        | exact parse_params_keeps hadv hflag _ _ (by first | assumption | exact hadv _ (by assumption) | exact hback _ (by assumption) | exact hflag _ _ (by assumption))
        | apply keeps_ite
        | (apply keeps_bind; rotate_left; rintro ⟨_, _⟩ _; try dsimp only)
        | (apply keeps_bind_plain; intro _)
        | split
    · rw [parse_assignment_or_expr]
      repeat' first
        | exact keeps_pure _ _ (by first | assumption | exact hadv _ (by assumption) | exact hback _ (by assumption) | exact hflag _ _ (by assumption))
        | exact keeps_error _
        | exact ih1 _ (by first | assumption | exact hadv _ (by assumption) | exact hback _ (by assumption) | exact hflag _ _ (by assumption))
        | exact ih2 _ _ (by first | assumption | exact hadv _ (by assumption) | exact hback _ (by assumption) | exact hflag _ _ (by assumption))
        | exact ih3 _ _ (by first | assumption | exact hadv _ (by assumption) | exact hback _ (by assumption) | exact hflag _ _ (by assumption))
        | exact ih4 _ _ _ (by first | assumption | exact hadv _ (by assumption) | exact hback _ (by assumption) | exact hflag _ _ (by assumption))
        | exact ih5 _ (by first | assumption | exact hadv _ (by assumption) | exact hback _ (by assumption) | exact hflag _ _ (by assumption))
        | exact ih6 _ _ (by first | assumption | exact hadv _ (by assumption) | exact hback _ (by assumption) | exact hflag _ _ (by assumption))
        | exact ih7 _ (by first | assumption | exact hadv _ (by assumption) | exact hback _ (by assumption) | exact hflag _ _ (by assumption))
        | exact ih8 _ (by first | assumption | exact hadv _ (by assumption) | exact hback _ (by assumption) | exact hflag _ _ (by assumption))
        | exact ih9 _ (by first | assumption | exact hadv _ (by assumption) | exact hback _ (by assumption) | exact hflag _ _ (by assumption))
        | exact ih10 _ (by first | assumption | exact hadv _ (by assumption) | exact hback _ (by assumption) | exact hflag _ _ (by assumption))
        | exact ih11 _ (by first | assumption | exact hadv _ (by assumption) | exact hback _ (by assumption) | exact hflag _ _ (by assumption))
        | exact ih12 _ (by first | assumption | exact hadv _ (by assumption) | exact hback _ (by assumption) | exact hflag _ _ (by assumption))
        | exact ih13 _ (by first | assumption | exact hadv _ (by assumption) | exact hback _ (by assumption) | exact hflag _ _ (by assumption))
        | exact ih14 _ (by first | assumption | exact hadv _ (by assumption) | exact hback _ (by assumption) | exact hflag _ _ (by assumption))
        | exact ih15 _ (by first | assumption | exact hadv _ (by assumption) | exact hback _ (by assumption) | exact hflag _ _ (by assumption))
        | exact keeps_matchTok hadv _ _ (by first | assumption | exact hadv _ (by assumption) | exact hback _ (by assumption) | exact hflag _ _ (by assumption))
        | exact keeps_expect hadv hflag _ _ _ (by first | assumption | exact hadv _ (by assumption) | exact hback _ (by assumption) | exact hflag _ _ (by assumption))
        | exact parse_params_keeps hadv hflag _ _ (by first | assumption | exact hadv _ (by assumption) | exact hback _ (by assumption) | exact hflag _ _ (by assumption))
        | apply keeps_ite
        | (apply keeps_bind; rotate_left; rintro ⟨_, _⟩ _; try dsimp only)
        | (apply keeps_bind_plain; intro _)
        | split
    · rw [parse_statement]
      repeat' first
        | exact keeps_pure _ _ (by first | assumption | exact hadv _ (by assumption) | exact hback _ (by assumption) | exact hflag _ _ (by assumption))
        | exact keeps_error _
        | exact ih1 _ (by first | assumption | exact hadv _ (by assumption) | exact hback _ (by assumption) | exact hflag _ _ (by assumption))
        | exact ih2 _ _ (by first | assumption | exact hadv _ (by assumption) | exact hback _ (by assumption) | exact hflag _ _ (by assumption))
        | exact ih3 _ _ (by first | assumption | exact hadv _ (by assumption) | exact hback _ (by assumption) | exact hflag _ _ (by assumption))
        | exact ih4 _ _ _ (by first | assumption | exact hadv _ (by assumption) | exact hback _ (by assumption) | exact hflag _ _ (by assumption))
        | exact ih5 _ (by first | assumption | exact hadv _ (by assumption) | exact hback _ (by assumption) | exact hflag _ _ (by assumption))
        | exact ih6 _ _ (by first | assumption | exact hadv _ (by assumption) | exact hback _ (by assumption) | exact hflag _ _ (by assumption))
        | exact ih7 _ (by first | assumption | exact hadv _ (by assumption) | exact hback _ (by assumption) | exact hflag _ _ (by assumption))
        | exact ih8 _ (by first | assumption | exact hadv _ (by assumption) | exact hback _ (by assumption) | exact hflag _ _ (by assumption))
        | exact ih9 _ (by first | assumption | exact hadv _ (by assumption) | exact hback _ (by assumption) | exact hflag _ _ (by assumption))
        | exact ih10 _ (by first | assumption | exact hadv _ (by assumption) | exact hback _ (by assumption) | exact hflag _ _ (by assumption))
        | exact ih11 _ (by first | assumption | exact hadv _ (by assumption) | exact hback _ (by assumption) | exact hflag _ _ (by assumption))
        | exact ih12 _ (by first | assumption | exact hadv _ (by assumption) | exact hback _ (by assumption) | exact hflag _ _ (by assumption))
        | exact ih13 _ (by first | assumption | exact hadv _ (by assumption) | exact hback _ (by assumption) | exact hflag _ _ (by assumption))
        | exact ih14 _ (by first | assumption | exact hadv _ (by assumption) | exact hback _ (by assumption) | exact hflag _ _ (by assumption))
        | exact ih15 _ (by first | assumption | exact hadv _ (by assumption) | exact hback _ (by assumption) | exact hflag _ _ (by assumption))
        | exact keeps_matchTok hadv _ _ (by first | assumption | exact hadv _ (by assumption) | exact hback _ (by assumption) | exact hflag _ _ (by assumption))
        | exact keeps_expect hadv hflag _ _ _ (by first | assumption | exact hadv _ (by assumption) | exact hback _ (by assumption) | exact hflag _ _ (by assumption))
        | exact parse_params_keeps hadv hflag _ _ (by first | assumption | exact hadv _ (by assumption) | exact hback _ (by assumption) | exact hflag _ _ (by assumption))
        | apply keeps_ite
        | (apply keeps_bind; rotate_left; rintro ⟨_, _⟩ _; try dsimp only)
        | (apply keeps_bind_plain; intro _)
        | split

/-! ## Statement loops that do not advance -/

/-- On a token that starts nothing, `parse_statement` reports an error and returns no node,
with the cursor where it was. -/
theorem parse_statement_stuck (k : Nat) (p : Parser) (t : Token)
    (hlt : p.current < p.token_count) (hg : p.tokens.get? p.current = some t)
    (hs : consumes_nothing t.type = true) :
    parse_statement (k + 5) p = .ok (none, { p with
      had_error := true
      stderr := p.stderr ++ "Unexpected token at line ".toList ++ Nat.toDigits 10 t.line ++
        ": ".toList ++ t.lexeme ++ ['\n'] }) := by
  have ne : ∀ type : TokenType, consumes_nothing type = false →
      Parser.matchTok p type = .ok (false, p) := by
    intro type h
    refine matchTok_at_ne hlt hg ?_
    intro e
    rw [e, h] at hs
    cases hs
  have hprec : precedence t.type = 0 := by
    simp only [consumes_nothing, Bool.and_eq_true, beq_iff_eq] at hs
    exact hs.2
  have hpk : Parser.peek p = .ok t := by
    unfold Parser.peek
    rw [hg]
  rw [parse_statement, ne .NEWVAR (by decide)]
  dsimp only [Except.ok_bind]
  rw [if_neg (by decide), ne .NEWFUNC (by decide)]
  dsimp only [Except.ok_bind]
  rw [if_neg (by decide), ne .NEWASYNC (by decide)]
  dsimp only [Except.ok_bind]
  rw [if_neg (by decide), ne .IF (by decide)]
  dsimp only [Except.ok_bind]
  rw [if_neg (by decide), ne .WHILE (by decide)]
  dsimp only [Except.ok_bind]
  rw [if_neg (by decide), ne .FOR (by decide)]
  dsimp only [Except.ok_bind]
  rw [if_neg (by decide), ne .FOREACH (by decide)]
  dsimp only [Except.ok_bind]
  rw [if_neg (by decide), ne .RETURN (by decide)]
  dsimp only [Except.ok_bind]
  rw [if_neg (by decide), ne .BREAK (by decide)]
  dsimp only [Except.ok_bind]
  rw [if_neg (by decide), parse_assignment_or_expr, parse_expression, parse_binary,
    parse_primary, ne .NUMBER (by decide)]
  dsimp only [Except.ok_bind]
  rw [if_neg (by decide), ne .STRING (by decide)]
  dsimp only [Except.ok_bind]
  rw [if_neg (by decide), ne .TRUE (by decide)]
  dsimp only [Except.ok_bind]
  rw [if_neg (by decide), ne .FALSE (by decide)]
  dsimp only [Except.ok_bind]
  rw [if_neg (by decide), ne .IDENTIFIER (by decide)]
  dsimp only [Except.ok_bind]
  rw [if_neg (by decide), ne .LPAREN (by decide)]
  dsimp only [Except.ok_bind]
  rw [if_neg (by decide), hpk]
  dsimp only [Except.ok_bind]
  generalize hq : ({ p with
      had_error := true
      stderr := p.stderr ++ "Unexpected token at line ".toList ++ Nat.toDigits 10 t.line ++
        ": ".toList ++ t.lexeme ++ ['\n'] } : Parser) = q
  have hlt1 : q.current < q.token_count := by rw [← hq]; exact hlt
  have hg1 : q.tokens.get? q.current = some t := by rw [← hq]; exact hg
  have hpk1 : Parser.peek q = .ok t := by
    unfold Parser.peek
    rw [hg1]
  have hloop : parse_binary_loop (k + 1) q none 0 = .ok (none, q) := by
    rw [parse_binary_loop, hpk1]
    dsimp only [Except.ok_bind]
    rw [if_pos hprec]
    rfl
  have hassign : Parser.matchTok q .ASSIGN = .ok (false, q) :=
    matchTok_at_ne hlt1 hg1 (fun e => by rw [e] at hs; cases hs)
  rw [pure_bind]
  dsimp only
  rw [hloop]
  dsimp only [Except.ok_bind]
  rw [hassign]
  dsimp only [Except.ok_bind]
  rfl

theorem parse_block_loop_stuck (n : Nat) (p : Parser) (acc : List ASTNode) (t : Token)
    (hlt : p.current < p.token_count) (hg : p.tokens.get? p.current = some t)
    (hs : consumes_nothing t.type = true) (he : t.type ≠ .END) (hf : t.type ≠ .EOF) :
    parse_block_loop n p acc = .error .out_of_fuel := by
  induction n generalizing p acc with
  | zero => rfl
  | succ n ih =>
    rw [parse_block_loop, check_at .END hlt hg, decide_eq_false he]
    dsimp only [Except.ok_bind]
    rw [if_neg (by decide), check_at .EOF hlt hg, decide_eq_false hf]
    dsimp only [Except.ok_bind]
    rw [if_neg (by decide)]
    rcases parse_statement_mono_all p 5 _ (parse_statement_stuck 0 p t hlt hg hs) n with h | h
    · rw [h]; rfl
    · rw [h]
      dsimp only [Except.ok_bind]
      exact ih _ _ hlt hg

theorem parse_block_loop_after (p p1 : Parser) (stmt : Option ASTNode) (m : Nat)
    (hEnd : Parser.check p .END = .ok false) (hEof : Parser.check p .EOF = .ok false)
    (hst : parse_statement m p = .ok (stmt, p1))
    (hrest : ∀ n acc, parse_block_loop n p1 acc = .error .out_of_fuel) :
    ∀ n acc, parse_block_loop n p acc = .error .out_of_fuel := by
  intro n acc
  cases n with
  | zero => rfl
  | succ n =>
    rw [parse_block_loop, hEnd]
    dsimp only [Except.ok_bind]
    rw [if_neg (by decide), hEof]
    dsimp only [Except.ok_bind]
    rw [if_neg (by decide)]
    rcases parse_statement_mono_all p m _ hst n with h | h
    · rw [h]; rfl
    · rw [h]
      dsimp only [Except.ok_bind]
      cases stmt with
      | none => exact hrest _ _
      | some s => exact hrest _ _

theorem parse_block_never (p : Parser) (first : Token) (hpeek : Parser.peek p = .ok first)
    (hloop : ∀ n acc, parse_block_loop n p acc = .error .out_of_fuel) :
    ∀ n, parse_block n p = .error .out_of_fuel := by
  intro n
  cases n with
  | zero => rfl
  | succ n =>
    rw [parse_block, hpeek]
    dsimp only [Except.ok_bind]
    rw [hloop]
    rfl

theorem parse_if_never (p p2 : Parser) (cond : Option ASTNode) (m : Nat) (tok : Token)
    (hprev : Parser.previous (Parser.advance p) = .ok tok)
    (hc : parse_expression m (Parser.advance p) = .ok (cond, p2))
    (hrc : at_run_colon p2 = true)
    (hblock : ∀ n, parse_block n { p2 with current := p2.current + 2 } = .error .out_of_fuel) :
    ∀ n, parse_if n p = .error .out_of_fuel := by
  intro n
  cases n with
  | zero => rfl
  | succ n =>
    obtain ⟨t1, t2, e1, e2⟩ := run_colon_found "Expected 'run:' after if condition"
      "Expected ':' after 'run'" hrc
    rw [parse_if, hprev]
    dsimp only [Except.ok_bind]
    rcases FuelLe.of_ok (fun k => parse_expression k (Parser.advance p))
      (fun k => (parser_mono k).2.2.2.2.1 _) m _ hc n with h | h
    · rw [h]; rfl
    · rw [h]
      dsimp only [Except.ok_bind]
      rw [e1]
      dsimp only [Except.ok_bind]
      rw [e2]
      dsimp only [Except.ok_bind]
      rw [hblock]
      rfl

theorem back_after_match (p : Parser) : Parser.back { p with current := p.current + 1 } = p := by
  cases p
  rfl

theorem parse_statement_if (n : Nat) (p : Parser) (t : Token) (hlt : p.current < p.token_count)
    (hg : p.tokens.get? p.current = some t) (ht : t.type = .IF) :
    parse_statement (n + 1) p = parse_if n p := by
  have ne : ∀ type : TokenType, type ≠ .IF → Parser.matchTok p type = .ok (false, p) :=
    fun type h => matchTok_at_ne hlt hg (by rw [ht]; exact fun e => h e.symm)
  rw [parse_statement, ne .NEWVAR (by decide)]
  dsimp only [Except.ok_bind]
  rw [if_neg (by decide), ne .NEWFUNC (by decide)]
  dsimp only [Except.ok_bind]
  rw [if_neg (by decide), ne .NEWASYNC (by decide)]
  dsimp only [Except.ok_bind]
  rw [if_neg (by decide), matchTok_at_eq hlt hg ht]
  dsimp only [Except.ok_bind]
  rw [if_pos rfl, back_after_match]

theorem parser_parse_never (p : Parser) (hEof : Parser.check p .EOF = .ok false)
    (hst : ∀ n, parse_statement n p = .error .out_of_fuel) :
    ∀ n, parser_parse n p = .error .out_of_fuel := by
  intro n
  unfold parser_parse
  cases n with
  | zero => rfl
  | succ n =>
    rw [parser_parse_loop, hEof]
    dsimp only [Except.ok_bind]
    rw [if_neg (by decide), hst]
    rfl


/-- C33 (evaluation at the failing input). The tokens of `if 1 run: ) end` are IF, NUMBER,
RUN, COLON, RPAREN, END, EOF. `parse_if` reaches `parse_block` with the cursor on the `)`.
There `parse_statement` reports `Unexpected token`, returns no node and consumes nothing,
and the loop of `parse_block`, which ends at END or EOF only, calls it again on the same
token: `parser_parse` does not return, whatever the fuel. -/
theorem parse_block_loops_on_unexpected_token :
    (cursor_on "if 1 run: ) end").tokens.map Token.type =
      [.IF, .NUMBER, .RUN, .COLON, .RPAREN, .END, .EOF] ∧
    (∃ e, parse_statement 5 (cursor_at "if 1 run: ) end" 4) =
      .ok (none, { cursor_at "if 1 run: ) end" 4 with had_error := true, stderr := e })) ∧
    (∀ fuel, parser_parse fuel (cursor_on "if 1 run: ) end") = .error .out_of_fuel) ∧
    ∀ fuel r, parser_parse fuel (cursor_on "if 1 run: ) end") ≠ .ok r := by
  have hloop : ∀ n acc, parse_block_loop n (cursor_at "if 1 run: ) end" 4) acc =
      .error .out_of_fuel := fun n acc =>
    parse_block_loop_stuck n _ acc (create_token .RPAREN [')'] 1 11) (by decide!) (by decide!)
      (by decide) (by decide) (by decide)
  have hblock := parse_block_never (cursor_at "if 1 run: ) end" 4) _ rfl hloop
  have hif := parse_if_never (cursor_on "if 1 run: ) end") (cursor_at "if 1 run: ) end" 2)
    _ 4 _ rfl rfl (by decide!) hblock
  have hst : ∀ n, parse_statement n (cursor_on "if 1 run: ) end") = .error .out_of_fuel := by
    intro n
    cases n with
    | zero => rfl
    | succ n =>
      rw [parse_statement_if n _ (create_token .IF "if".toList 1 1) (by decide!) (by decide!) rfl]
      exact hif n
  have hnever := parser_parse_never (cursor_on "if 1 run: ) end") (by decide!) hst
  refine ⟨by decide!, ⟨_, parse_statement_stuck 0 _ (create_token .RPAREN [')'] 1 11)
    (by decide!) (by decide!) (by decide)⟩, hnever, ?_⟩
  intro fuel r h
  rw [hnever] at h
  cases h

/-! ## Function declarations -/

/-- When the loop of `parse_block` returns, the cursor is on an END or an EOF token. -/
theorem parse_block_loop_exit (n : Nat) :
    ∀ (p : Parser) (acc : List ASTNode) (r : List ASTNode × Parser),
      parse_block_loop n p acc = .ok r →
      Parser.check r.2 .END = .ok true ∨ Parser.check r.2 .EOF = .ok true := by
  induction n with
  | zero => intro p acc r h; cases h
  | succ n ih =>
    intro p acc r h
    rw [parse_block_loop] at h
    cases hE : Parser.check p .END with
    | error e => rw [hE] at h; cases h
    | ok b =>
      rw [hE] at h
      dsimp only [Except.ok_bind] at h
      cases b with
      | true =>
        rw [if_pos rfl] at h
        cases h
        exact Or.inl hE
      | false =>
        rw [if_neg (by decide)] at h
        cases hF : Parser.check p .EOF with
        | error e => rw [hF] at h; cases h
        | ok b =>
          rw [hF] at h
          dsimp only [Except.ok_bind] at h
          cases b with
          | true =>
            rw [if_pos rfl] at h
            cases h
            exact Or.inr hF
          | false =>
            rw [if_neg (by decide)] at h
            cases hs : parse_statement n p with
            | error e => rw [hs] at h; cases h
            | ok r1 =>
              obtain ⟨stmt, p1⟩ := r1
              rw [hs] at h
              dsimp only [Except.ok_bind] at h
              cases stmt with
              | none => exact ih _ _ _ h
              | some s => exact ih _ _ _ h

theorem parse_block_exit (n : Nat) (p : Parser) (r : Option ASTNode × Parser)
    (h : parse_block n p = .ok r) :
    Parser.check r.2 .END = .ok true ∨ Parser.check r.2 .EOF = .ok true := by
  cases n with
  | zero => cases h
  | succ n =>
    rw [parse_block] at h
    cases hp : Parser.peek p with
    | error e => rw [hp] at h; cases h
    | ok first =>
      rw [hp] at h
      dsimp only [Except.ok_bind] at h
      cases hl : parse_block_loop n p [] with
      | error e => rw [hl] at h; cases h
      | ok r1 =>
        rw [hl] at h
        cases h
        exact parse_block_loop_exit n p [] r1 hl

/-- An `expect` that returns without a token has set the error flag. -/
theorem expect_none_flag {p q : Parser} {type : TokenType} {message : String}
    (h : Parser.expect p type message = .ok (none, q)) : q.had_error = true := by
  unfold Parser.expect at h
  cases hc : Parser.check p type with
  | error e => rw [hc] at h; cases h
  | ok b =>
    rw [hc] at h
    dsimp only [Except.ok_bind] at h
    cases b with
    | true =>
      rw [if_pos rfl] at h
      cases hp : Parser.previous (Parser.advance p) with
      | error e => rw [hp] at h; cases h
      | ok t => rw [hp] at h; cases h
    | false =>
      rw [if_neg (by decide)] at h
      cases hp : Parser.peek p with
      | error e => rw [hp] at h; cases h
      | ok t =>
        rw [hp] at h
        cases h
        rfl

/-- With the cursor on a token of another type, `expect` sets the error flag. -/
theorem expect_flags_at_other {q : Parser} {found wanted : TokenType} (message : String)
    (h : Parser.check q found = .ok true) (hne : found ≠ wanted) :
    Flagged (Parser.expect q wanted message) := by
  obtain ⟨hlt, hg⟩ := Parser.check_true h
  obtain ⟨t, hg1, ht⟩ := Option.map_eq_some'.mp hg
  have hc : Parser.check q wanted = .ok false := by
    rw [check_at wanted hlt hg1, decide_eq_false (by rw [ht]; exact hne)]
  intro r hr
  unfold Parser.expect at hr
  rw [hc] at hr
  dsimp only [Except.ok_bind] at hr
  rw [if_neg (by decide)] at hr
  cases hp : Parser.peek q with
  | error e => rw [hp] at hr; cases hr
  | ok t1 =>
    rw [hp] at hr
    cases hr
    rfl

theorem parse_func_decl_flagged (fuel : Nat) (p : Parser) : Flagged (parse_func_decl fuel p) := by
  cases fuel with
  | zero => exact flagged_error _
  | succ n =>
    rw [parse_func_decl]
    dsimp only
    refine flagged_bind_plain fun func_token => ?_
    refine flagged_bind_ok fun r1 e1 => ?_
    obtain ⟨name, p2⟩ := r1
    cases name with
    | none => exact flagged_pure _ _ (expect_none_flag e1)
    | some name =>
      dsimp only
      refine flagged_bind_ok fun r3 e3 => ?_
      refine flagged_bind_ok fun r4 e4 => ?_
      refine flagged_bind_ok fun r5 e5 => ?_
      refine flagged_bind ?_ (fun r6 h6 => flagged_pure _ _ h6)
      rcases parse_block_exit n _ r5 e5 with h | h
      · exact expect_flags_at_other _ h (by decide)
      · exact expect_flags_at_other _ h (by decide)

theorem parse_statement_func (n : Nat) (p : Parser) (t : Token)
    (hlt : p.current < p.token_count) (hg : p.tokens.get? p.current = some t)
    (ht : t.type = .NEWFUNC ∨ t.type = .NEWASYNC) :
    parse_statement (n + 1) p = parse_func_decl n p := by
  have hv : Parser.matchTok p .NEWVAR = .ok (false, p) :=
    matchTok_at_ne hlt hg (by rcases ht with h | h <;> rw [h] <;> decide)
  rw [parse_statement, hv]
  dsimp only [Except.ok_bind]
  rw [if_neg (by decide)]
  rcases ht with h | h
  · rw [matchTok_at_eq hlt hg h]
    dsimp only [Except.ok_bind]
    rw [if_pos rfl]
    rw [pure_bind]
    dsimp only
    rw [if_pos rfl, back_after_match]
  · rw [matchTok_at_ne hlt hg (by rw [h]; decide)]
    dsimp only [Except.ok_bind]
    rw [if_neg (by decide), matchTok_at_eq hlt hg h]
    dsimp only [Except.ok_bind]
    rw [if_pos rfl, back_after_match]

/-- C34. Whenever `parse_func_decl` returns, the error flag is set, for every parser state
and every fuel. When its `parse_block` returns, the cursor is on an END or an EOF token, so
the `expect` of `)` behind the body fails. The same holds for `parse_statement` at a NEWFUNC
or NEWASYNC token, which is the call of `parse_func_decl`. -/
theorem parse_func_decl_always_flags (fuel : Nat) (p : Parser) (t : Token)
    (hlt : p.current < p.token_count) (hg : p.tokens.get? p.current = some t)
    (ht : t.type = .NEWFUNC ∨ t.type = .NEWASYNC) :
    (∀ q r, parse_func_decl fuel q = .ok r → r.2.had_error = true) ∧
    (∀ q r, parse_block fuel q = .ok r →
      Parser.check r.2 .END = .ok true ∨ Parser.check r.2 .EOF = .ok true) ∧
    ∀ r, parse_statement fuel p = .ok r → r.2.had_error = true := by
  refine ⟨fun q => parse_func_decl_flagged fuel q, fun q r h => parse_block_exit fuel q r h, ?_⟩
  intro r h
  cases fuel with
  | zero => cases h
  | succ n =>
    rw [parse_statement_func n p t hlt hg ht] at h
    exact parse_func_decl_flagged n p r h

/-- C34 on the tokens of `NewFunc f() ( end )`: the body block ends at `end`, the `)` is
missed there, and the declaration returns with the flag set and the message
`Expected ')' after function body`. -/
theorem parse_func_decl_always_flags_witness :
    (Except.result (parse_func_decl 8 (cursor_on "NewFunc f() ( end )"))
      (none, parser_on [])).2.had_error = true ∧
    (Except.result (parse_statement 8 (cursor_on "NewFunc f() ( end )"))
      (none, parser_on [])).2.had_error = true ∧
    (parse_statement 8 (cursor_on "NewFunc f() ( end )")).map
        (fun r => (r.1.isSome, r.2.current, r.2.had_error, r.2.stderr)) =
      .ok (true, 5, true,
        "Parse error at line 1, column 15: Expected ')' after function body\n".toList) :=
  ⟨(parse_func_decl_always_flags 8 (cursor_on "NewFunc f() ( end )")
      (create_token .NEWFUNC "NewFunc".toList 1 1) (by decide!) (by decide!) (Or.inl rfl)).1
      _ _ (Except.result_ok (none, parser_on []) (by decide!)),
   (parse_func_decl_always_flags 8 (cursor_on "NewFunc f() ( end )")
      (create_token .NEWFUNC "NewFunc".toList 1 1) (by decide!) (by decide!) (Or.inl rfl)).2.2
      _ (Except.result_ok (none, parser_on []) (by decide!)),
   by decide!⟩

/-! ## The else-branch -/

/-- Whenever `parse_if` returns, the node has no else-branch: `parse_block` leaves the
cursor on END, which the test for END consumes, or on EOF, where the test for ELSE fails. -/
theorem parse_if_else_none (fuel : Nat) (p : Parser) :
    (∃ e, parse_if fuel p = .error e) ∨
      ∃ l c cond then_branch q,
        parse_if fuel p = .ok (some (.if_stmt l c cond then_branch none), q) := by
  cases fuel with
  | zero => exact Or.inl ⟨_, rfl⟩
  | succ n =>
    rw [parse_if]
    cases h1 : Parser.previous (Parser.advance p) with
    | error e => exact Or.inl ⟨_, rfl⟩
    | ok if_token =>
      dsimp only [Except.ok_bind]
      cases h2 : parse_expression n (Parser.advance p) with
      | error e => exact Or.inl ⟨_, rfl⟩
      | ok r2 =>
        obtain ⟨condition, p2⟩ := r2
        dsimp only [Except.ok_bind]
        cases h3 : Parser.expect p2 .RUN "Expected 'run:' after if condition" with
        | error e => exact Or.inl ⟨_, rfl⟩
        | ok r3 =>
          obtain ⟨_, p3⟩ := r3
          dsimp only [Except.ok_bind]
          cases h4 : Parser.expect p3 .COLON "Expected ':' after 'run'" with
          | error e => exact Or.inl ⟨_, rfl⟩
          | ok r4 =>
            obtain ⟨_, p4⟩ := r4
            dsimp only [Except.ok_bind]
            cases h5 : parse_block n p4 with
            | error e => exact Or.inl ⟨_, rfl⟩
            | ok r5 =>
              have hx := parse_block_exit n p4 r5 h5
              obtain ⟨then_branch, p5⟩ := r5
              dsimp only [Except.ok_bind]
              dsimp only at hx
              rcases hx with hx | hx
              · obtain ⟨hlt, hg⟩ := Parser.check_true hx
                obtain ⟨t, hg1, ht⟩ := Option.map_eq_some'.mp hg
                rw [matchTok_at_eq hlt hg1 ht]
                dsimp only [Except.ok_bind]
                rw [if_pos rfl]
                exact Or.inr ⟨_, _, _, _, _, rfl⟩
              · obtain ⟨hlt, hg⟩ := Parser.check_true hx
                obtain ⟨t, hg1, ht⟩ := Option.map_eq_some'.mp hg
                rw [matchTok_at_ne hlt hg1 (by rw [ht]; decide)]
                dsimp only [Except.ok_bind]
                rw [if_neg (by decide), matchTok_at_ne hlt hg1 (by rw [ht]; decide)]
                dsimp only [Except.ok_bind]
                rw [if_neg (by decide)]
                exact Or.inr ⟨_, _, _, _, _, rfl⟩

/-- C35 (evaluation at the failing input). The tokens of `if true run: x else: y end` are
IF, TRUE, RUN, COLON, IDENTIFIER, ELSE, COLON, IDENTIFIER, END, EOF. The block of the
then-branch is parsed by `parse_block`, whose loop ends at END or EOF only: after the
statement `x` the cursor is on `else`, on which `parse_statement` consumes nothing, and the
loop calls it again on the same token. `parse_if` never gets to its test for ELSE, and
`parser_parse` does not return, whatever the fuel. On every parser, whenever `parse_if`
returns, the node it returns has no else-branch. -/
theorem parse_if_never_reaches_else :
    (cursor_on "if true run: x else: y end").tokens.map Token.type =
      [.IF, .TRUE, .RUN, .COLON, .IDENTIFIER, .ELSE, .COLON, .IDENTIFIER, .END, .EOF] ∧
    (∃ e, parse_statement 5 (cursor_at "if true run: x else: y end" 5) =
      .ok (none, { cursor_at "if true run: x else: y end" 5 with
        had_error := true, stderr := e })) ∧
    (∀ fuel, parser_parse fuel (cursor_on "if true run: x else: y end") =
      .error .out_of_fuel) ∧
    (∀ fuel r, parser_parse fuel (cursor_on "if true run: x else: y end") ≠ .ok r) ∧
    ∀ fuel p, (∃ e, parse_if fuel p = .error e) ∨
      ∃ l c cond then_branch q,
        parse_if fuel p = .ok (some (.if_stmt l c cond then_branch none), q) := by
  have hstuck : ∀ n acc, parse_block_loop n (cursor_at "if true run: x else: y end" 5) acc =
      .error .out_of_fuel := fun n acc =>
    parse_block_loop_stuck n _ acc (create_token .ELSE "else".toList 1 16) (by decide!)
      (by decide!) (by decide) (by decide) (by decide)
  have hx : parse_statement 6 (cursor_at "if true run: x else: y end" 4) =
      .ok (some (.identifier 1 14 ['x']), cursor_at "if true run: x else: y end" 5) := rfl
  have hloop := parse_block_loop_after (cursor_at "if true run: x else: y end" 4) _ _ 6
    (by decide!) (by decide!) hx hstuck
  have hblock := parse_block_never (cursor_at "if true run: x else: y end" 4) _ rfl hloop
  have hif := parse_if_never (cursor_on "if true run: x else: y end")
    (cursor_at "if true run: x else: y end" 2) _ 4 _ rfl rfl (by decide!) hblock
  have hst : ∀ n, parse_statement n (cursor_on "if true run: x else: y end") =
      .error .out_of_fuel := by
    intro n
    cases n with
    | zero => rfl
    | succ n =>
      rw [parse_statement_if n _ (create_token .IF "if".toList 1 1) (by decide!) (by decide!) rfl]
      exact hif n
  have hnever := parser_parse_never (cursor_on "if true run: x else: y end") (by decide!) hst
  refine ⟨by decide!, ⟨_, parse_statement_stuck 0 _ (create_token .ELSE "else".toList 1 16)
    (by decide!) (by decide!) (by decide)⟩, hnever, ?_, parse_if_else_none⟩
  intro fuel r h
  rw [hnever] at h
  cases h

/-! ## The token array of the parser -/

/-- C32 (evaluation at the failing input). `parser_init` stores `*tokens`, the pointer to
the first token, as the token array of the parser, with the count of the whole sequence.
At cursor 0 the parser reads the first token; at every cursor `i + 1` its read is outside
that one object, whatever the sequence holds there. For the tokens of `x = 1` the count is
4, token 1 of the sequence is `=`, and the read at cursor 1 is out of bounds. -/
theorem parser_init_keeps_first_token_only (first : Token) (rest : List Token) (n i : Nat) :
    parser_init (first :: rest) n = .ok (Parser.mk [first] n 0 false false []) ∧
    Parser.peek (Parser.mk [first] n 0 false false []) = .ok first ∧
    Parser.peek (Parser.mk [first] n (i + 1) false false []) = .error .token_bounds ∧
    (lexer_tokenize 7 "x = 1".toList).map (fun ts => (ts.length, ts.get? 1)) =
      some (4, some (create_token .ASSIGN "=".toList 1 3)) ∧
    (lexer_tokenize 7 "x = 1".toList).map
        (fun ts => (parser_init ts ts.length).map
          (fun p => (p.token_count, Parser.peek { p with current := 1 }))) =
      some (.ok (4, .error .token_bounds)) :=
  ⟨rfl, rfl, rfl, by decide!, by decide!⟩

/-! ## Token sequences that end with an ERROR token -/

theorem parse_statement_no_eof (n : Nat) (p : Parser) (h : no_eof p) :
    Keeps no_eof (parse_statement n p) :=
  (parser_keeps (P := no_eof) (fun p hp => by unfold Parser.advance; split <;> exact hp)
    (fun _ hp => hp) (fun _ _ hp => hp) n).2.2.2.2.2.2.2.2.2.2.2.2.2.2 p h

/-- Over tokens without an EOF token the loop of `parser_parse` ends by the error flag. -/
theorem parser_parse_loop_flag (n : Nat) :
    ∀ (p : Parser) (acc : List ASTNode) (r : List ASTNode × Parser), no_eof p →
      parser_parse_loop n p acc = .ok r → r.2.had_error = true := by
  induction n with
  | zero => intro p acc r _ h; cases h
  | succ n ih =>
    intro p acc r hp h
    rw [parser_parse_loop] at h
    cases hE : Parser.check p .EOF with
    | error e => rw [hE] at h; cases h
    | ok b =>
      rw [hE] at h
      dsimp only [Except.ok_bind] at h
      cases b with
      | true =>
        exfalso
        obtain ⟨_, hg⟩ := Parser.check_true hE
        obtain ⟨t, hg1, ht⟩ := Option.map_eq_some'.mp hg
        exact hp t (List.get?_mem hg1) ht
      | false =>
        rw [if_neg (by decide)] at h
        cases hs : parse_statement n p with
        | error e => rw [hs] at h; cases h
        | ok r1 =>
          have hk := parse_statement_no_eof n p hp r1 hs
          obtain ⟨stmt, p1⟩ := r1
          rw [hs] at h
          dsimp only [Except.ok_bind] at h
          by_cases hf : p1.had_error = true
          · rw [if_pos hf] at h
            cases h
            exact hf
          · rw [if_neg hf] at h
            exact ih _ _ _ hk h

theorem parser_parse_flag (n : Nat) (p : Parser) (r : ASTNode × Parser) (hp : no_eof p)
    (h : parser_parse n p = .ok r) : r.2.had_error = true := by
  unfold parser_parse at h
  cases hl : parser_parse_loop n p [] with
  | error e => rw [hl] at h; cases h
  | ok r1 =>
    rw [hl] at h
    cases h
    exact parser_parse_loop_flag n p [] r1 hp hl

/-- A tokenization that ends with an ERROR token holds no EOF token. -/
theorem tokens_without_eof (fuel : Nat) (source : List Char) (ts : List Token) (last : Token)
    (ht : lexer_tokenize fuel source = some ts) (hl : ts.getLast? = some last)
    (he : last.type = .ERROR) : ∀ t ∈ ts, t.type ≠ .EOF := by
  rcases lexer_tokenize_loop_shape fuel (lexer_init source) with h | ⟨ts1, h1, _, init, l1, e, hl1, hi⟩
  · rw [show lexer_tokenize fuel source = lexer_tokenize_loop fuel (lexer_init source) from rfl,
      h] at ht
    cases ht
  · rw [show lexer_tokenize fuel source = lexer_tokenize_loop fuel (lexer_init source) from rfl,
      h1] at ht
    cases ht
    rw [e] at hl
    have hl2 : (init ++ [l1]).getLast? = some l1 := by simp
    rw [hl2] at hl
    cases hl
    intro t hm
    rw [e] at hm
    rcases List.mem_append.mp hm with h | h
    · exact (hi t h).1
    · rw [List.mem_singleton.mp h, he]
      decide

theorem run_source_flagged (n : Nat) (source : List Char) (ts : List Token) (r : Run)
    (ht : lexer_tokenize n source = some ts) (hne : ∀ t ∈ ts, t.type ≠ .EOF)
    (h : run_source n source = .ok r) : r = { had_error := true, stdout := [] } := by
  cases hi : parser_init ts ts.length with
  | error e =>
    simp only [run_source, ht, hi, bind, Except.bind] at h
    cases h
  | ok p0 =>
    have hp0 : no_eof p0 := by
      cases ts with
      | nil => cases hi
      | cons first rest =>
        cases hi
        intro t hm
        exact hne t (by rw [List.mem_singleton.mp hm]; exact List.mem_cons_self _ _)
    cases hp : parser_parse n p0 with
    | error e =>
      simp only [run_source, ht, hi, hp, bind, Except.bind] at h
      cases h
    | ok r1 =>
      obtain ⟨ast, parser⟩ := r1
      have hf : parser.had_error = true := parser_parse_flag n p0 _ hp0 hp
      simp only [run_source, ht, hi, hp, bind, Except.bind, hf, if_true] at h
      cases h
      rfl

theorem pipeline_flagged (n : Nat) (source : List Char) (ts : List Token) (r : Run)
    (ht : lexer_tokenize n source = some ts) (hne : ∀ t ∈ ts, t.type ≠ .EOF)
    (h : pipeline n source = .ok r) : r = { had_error := true, stdout := [] } := by
  cases hp : parser_parse n (parser_on ts) with
  | error e =>
    simp only [pipeline, ht, hp, bind, Except.bind] at h
    cases h
  | ok r1 =>
    obtain ⟨ast, parser⟩ := r1
    have hf : parser.had_error = true := parser_parse_flag n (parser_on ts) _ hne hp
    simp only [pipeline, ht, hp, bind, Except.bind, hf, if_true] at h
    cases h
    rfl

/-! ## ERROR tokens are not consumed -/

theorem neb_advance (p : Parser) (h : no_error_behind p) (g : not_at_error p) :
    no_error_behind (Parser.advance p) := by
  unfold Parser.advance
  split
  · intro i t hi ht
    rcases Nat.lt_succ_iff_lt_or_eq.mp hi with h1 | h1
    · exact h i t h1 ht
    · subst h1
      exact g t ht
  · exact h

theorem neb_flag (p : Parser) (e : List Char) (h : no_error_behind p) :
    no_error_behind { p with had_error := true, stderr := e } := h

theorem neb_back (p : Parser) (h : no_error_behind p) : no_error_behind (Parser.back p) :=
  fun i t hi ht => h i t (Nat.lt_of_lt_of_le hi (Nat.sub_le _ _)) ht

theorem not_at_error_of_check {p : Parser} {type : TokenType} (ht : type ≠ .ERROR)
    (h : Parser.check p type = .ok true) : not_at_error p := by
  intro t hg
  have h2 := (Parser.check_true h).2
  rw [hg] at h2
  have h3 : t.type = type := by simpa using h2
  rw [h3]
  exact ht

theorem neb_matchTok (p : Parser) (type : TokenType) (ht : type ≠ .ERROR)
    (h : no_error_behind p) : Keeps no_error_behind (Parser.matchTok p type) := by
  unfold Parser.matchTok
  cases hc : Parser.check p type with
  | error e => exact keeps_error _
  | ok found =>
    dsimp only [Except.ok_bind]
    cases found with
    | true => exact keeps_pure _ _ (neb_advance _ h (not_at_error_of_check ht hc))
    | false => exact keeps_pure _ _ h

theorem neb_expect (p : Parser) (type : TokenType) (message : String) (ht : type ≠ .ERROR)
    (h : no_error_behind p) : Keeps no_error_behind (Parser.expect p type message) := by
  unfold Parser.expect
  cases hc : Parser.check p type with
  | error e => exact keeps_error _
  | ok found =>
    dsimp only [Except.ok_bind]
    cases found with
    | true =>
      refine keeps_bind_plain fun token => ?_
      exact keeps_pure _ _ (neb_advance _ h (not_at_error_of_check ht hc))
    | false =>
      refine keeps_bind_plain fun token => ?_
      exact keeps_pure _ _ (neb_flag _ _ h)

theorem parse_params_loop_neb (n : Nat) (p : Parser) (params : List (List Char))
    (h : no_error_behind p) : Keeps no_error_behind (parse_params_loop n p params) := by
  induction n generalizing p params with
  | zero => intro r e; cases e
  | succ n ih =>
    rw [parse_params_loop]
    refine keeps_bind (neb_expect _ _ _ (by decide) h) ?_
    rintro ⟨param, p1⟩ h1
    refine keeps_bind (neb_matchTok _ _ (by decide) h1) ?_
    rintro ⟨more, p2⟩ h2
    exact keeps_ite (ih _ _ h2) (keeps_pure _ _ h2)

theorem parse_params_neb (n : Nat) (p : Parser) (h : no_error_behind p) :
    Keeps no_error_behind (parse_params n p) := by
  unfold parse_params
  refine keeps_bind (neb_expect _ _ _ (by decide) h) ?_
  rintro ⟨_, p1⟩ h1
  refine keeps_bind_plain fun atEnd => ?_
  have tail : ∀ r : List (List Char) × Parser, no_error_behind r.2 →
      Keeps no_error_behind (do
        let (_, p3) ← Parser.expect r.2 .RPAREN "Expected ')' after parameters"
        Pure.pure (r.1, p3)) := by
    rintro ⟨params, p2⟩ h2
    refine keeps_bind (neb_expect _ _ _ (by decide) h2) ?_
    rintro ⟨_, p3⟩ h3
    exact keeps_pure _ _ h3
  dsimp only
  apply keeps_ite
  · exact keeps_bind (keeps_pure _ _ h1) tail
  · exact keeps_bind (parse_params_loop_neb _ _ _ h1) tail

/-- The result of `match`: the parser as it was, or one token on when the token at the
cursor has the type asked for. -/
theorem matchTok_result (p : Parser) (type : TokenType) (r : Bool × Parser)
    (h : Parser.matchTok p type = .ok r) :
    r = (false, p) ∨
      (r = (true, { p with current := p.current + 1 }) ∧ Parser.check p type = .ok true) := by
  unfold Parser.matchTok at h
  cases hc : Parser.check p type with
  | error e => rw [hc] at h; cases h
  | ok found =>
    rw [hc] at h
    cases found with
    | false => left; cases h; rfl
    | true =>
      right
      have ha : Parser.advance p = { p with current := p.current + 1 } := by
        unfold Parser.advance
        rw [if_pos (Parser.check_true hc).1]
      cases h
      exact ⟨by rw [ha], rfl⟩

theorem keeps_bind_eq {α β : Type} {P : Parser → Prop} {x : Except Fault β}
    {f : β → Except Fault (α × Parser)} (hf : ∀ b, x = .ok b → Keeps P (f b)) :
    Keeps P (x >>= f) := by
  intro r e
  cases x with
  | error _ => cases e
  | ok a => exact hf a rfl r e

theorem neb_step {p : Parser} {type : TokenType} (h : no_error_behind p) (ht : type ≠ .ERROR)
    (hc : Parser.check p type = .ok true) :
    no_error_behind { p with current := p.current + 1 } := by
  have ha : Parser.advance p = { p with current := p.current + 1 } := by
    unfold Parser.advance
    rw [if_pos (Parser.check_true hc).1]
  rw [← ha]
  exact neb_advance _ h (not_at_error_of_check ht hc)

set_option maxHeartbeats 4000000 in
/-- No parsing function moves the cursor over an ERROR token: when no ERROR token is behind
the cursor before, none is behind it after. The functions that start by consuming their
keyword are entered at a token that is no ERROR token. -/
theorem parser_passes_no_error (n : Nat) :
    (∀ p, no_error_behind p → Keeps no_error_behind (parse_primary n p)) ∧
    (∀ p a, no_error_behind p → Keeps no_error_behind (parse_args_loop n p a)) ∧
    (∀ p m, no_error_behind p → Keeps no_error_behind (parse_binary n p m)) ∧
    (∀ p l m, no_error_behind p → Keeps no_error_behind (parse_binary_loop n p l m)) ∧
    (∀ p, no_error_behind p → Keeps no_error_behind (parse_expression n p)) ∧
    (∀ p a, no_error_behind p → Keeps no_error_behind (parse_block_loop n p a)) ∧
    (∀ p, no_error_behind p → Keeps no_error_behind (parse_block n p)) ∧
    (∀ p, no_error_behind p → not_at_error p → Keeps no_error_behind (parse_var_decl n p)) ∧
    (∀ p, no_error_behind p → not_at_error p → Keeps no_error_behind (parse_func_decl n p)) ∧
    (∀ p, no_error_behind p → not_at_error p → Keeps no_error_behind (parse_if n p)) ∧
    (∀ p, no_error_behind p → not_at_error p → Keeps no_error_behind (parse_while n p)) ∧
    (∀ p, no_error_behind p → not_at_error p → Keeps no_error_behind (parse_for n p)) ∧
    (∀ p, no_error_behind p → not_at_error p → Keeps no_error_behind (parse_return n p)) ∧
    (∀ p, no_error_behind p → Keeps no_error_behind (parse_assignment_or_expr n p)) ∧
    (∀ p, no_error_behind p → Keeps no_error_behind (parse_statement n p)) := by
  induction n with
  | zero =>
    refine ⟨fun _ _ => ?_, fun _ _ _ => ?_, fun _ _ _ => ?_, fun _ _ _ _ => ?_, fun _ _ => ?_, fun _ _ _ => ?_, fun _ _ => ?_, fun _ _ _ => ?_, fun _ _ _ => ?_, fun _ _ _ => ?_, fun _ _ _ => ?_, fun _ _ _ => ?_, fun _ _ _ => ?_, fun _ _ => ?_, fun _ _ => ?_⟩ <;>
      exact keeps_error _
  | succ n ih =>
    obtain ⟨ih1, ih2, ih3, ih4, ih5, ih6, ih7, ih8, ih9, ih10, ih11, ih12, ih13, ih14, ih15⟩ := ih
    refine ⟨fun p h => ?_, fun p a h => ?_, fun p m h => ?_, fun p l m h => ?_, fun p h => ?_, fun p a h => ?_, fun p h => ?_, fun p h g => ?_, fun p h g => ?_, fun p h g => ?_, fun p h g => ?_, fun p h g => ?_, fun p h g => ?_, fun p h => ?_, fun p h => ?_⟩
    · rw [parse_primary]
      repeat' first
        | exact keeps_pure _ _ (by first | assumption | exact neb_advance _ (by assumption) (by assumption) | exact neb_flag _ _ (by assumption))
        | exact keeps_error _
        | exact ih1 _ (by first | assumption | exact neb_advance _ (by assumption) (by assumption) | exact neb_flag _ _ (by assumption))
        | exact ih2 _ _ (by first | assumption | exact neb_advance _ (by assumption) (by assumption) | exact neb_flag _ _ (by assumption))
        | exact ih3 _ _ (by first | assumption | exact neb_advance _ (by assumption) (by assumption) | exact neb_flag _ _ (by assumption))
        | exact ih4 _ _ _ (by first | assumption | exact neb_advance _ (by assumption) (by assumption) | exact neb_flag _ _ (by assumption))
        | exact ih5 _ (by first | assumption | exact neb_advance _ (by assumption) (by assumption) | exact neb_flag _ _ (by assumption))
        | exact ih6 _ _ (by first | assumption | exact neb_advance _ (by assumption) (by assumption) | exact neb_flag _ _ (by assumption))
        | exact ih7 _ (by first | assumption | exact neb_advance _ (by assumption) (by assumption) | exact neb_flag _ _ (by assumption))
        | exact ih14 _ (by first | assumption | exact neb_advance _ (by assumption) (by assumption) | exact neb_flag _ _ (by assumption))
        | exact ih15 _ (by first | assumption | exact neb_advance _ (by assumption) (by assumption) | exact neb_flag _ _ (by assumption))
        | exact neb_matchTok _ _ (by decide) (by first | assumption | exact neb_advance _ (by assumption) (by assumption) | exact neb_flag _ _ (by assumption))
        | exact neb_expect _ _ _ (by decide) (by first | assumption | exact neb_advance _ (by assumption) (by assumption) | exact neb_flag _ _ (by assumption))
        | exact parse_params_neb _ _ (by first | assumption | exact neb_advance _ (by assumption) (by assumption) | exact neb_flag _ _ (by assumption))
        | apply keeps_ite
        | (apply keeps_bind; rotate_left; rintro ⟨_, _⟩ _; try dsimp only)
        | (apply keeps_bind_plain; intro _)
        | split
    · rw [parse_args_loop]
      repeat' first
        | exact keeps_pure _ _ (by first | assumption | exact neb_advance _ (by assumption) (by assumption) | exact neb_flag _ _ (by assumption))
        | exact keeps_error _
        | exact ih1 _ (by first | assumption | exact neb_advance _ (by assumption) (by assumption) | exact neb_flag _ _ (by assumption))
        | exact ih2 _ _ (by first | assumption | exact neb_advance _ (by assumption) (by assumption) | exact neb_flag _ _ (by assumption))
        | exact ih3 _ _ (by first | assumption | exact neb_advance _ (by assumption) (by assumption) | exact neb_flag _ _ (by assumption))
        | exact ih4 _ _ _ (by first | assumption | exact neb_advance _ (by assumption) (by assumption) | exact neb_flag _ _ (by assumption))
        | exact ih5 _ (by first | assumption | exact neb_advance _ (by assumption) (by assumption) | exact neb_flag _ _ (by assumption))
        | exact ih6 _ _ (by first | assumption | exact neb_advance _ (by assumption) (by assumption) | exact neb_flag _ _ (by assumption))
        | exact ih7 _ (by first | assumption | exact neb_advance _ (by assumption) (by assumption) | exact neb_flag _ _ (by assumption))
        | exact ih14 _ (by first | assumption | exact neb_advance _ (by assumption) (by assumption) | exact neb_flag _ _ (by assumption))
        | exact ih15 _ (by first | assumption | exact neb_advance _ (by assumption) (by assumption) | exact neb_flag _ _ (by assumption))
        | exact neb_matchTok _ _ (by decide) (by first | assumption | exact neb_advance _ (by assumption) (by assumption) | exact neb_flag _ _ (by assumption))
        | exact neb_expect _ _ _ (by decide) (by first | assumption | exact neb_advance _ (by assumption) (by assumption) | exact neb_flag _ _ (by assumption))
        | exact parse_params_neb _ _ (by first | assumption | exact neb_advance _ (by assumption) (by assumption) | exact neb_flag _ _ (by assumption))
        | apply keeps_ite
        | (apply keeps_bind; rotate_left; rintro ⟨_, _⟩ _; try dsimp only)
        | (apply keeps_bind_plain; intro _)
        | split
    · rw [parse_binary]
      repeat' first
        | exact keeps_pure _ _ (by first | assumption | exact neb_advance _ (by assumption) (by assumption) | exact neb_flag _ _ (by assumption))
        | exact keeps_error _
        | exact ih1 _ (by first | assumption | exact neb_advance _ (by assumption) (by assumption) | exact neb_flag _ _ (by assumption))
        | exact ih2 _ _ (by first | assumption | exact neb_advance _ (by assumption) (by assumption) | exact neb_flag _ _ (by assumption))
        | exact ih3 _ _ (by first | assumption | exact neb_advance _ (by assumption) (by assumption) | exact neb_flag _ _ (by assumption))
        | exact ih4 _ _ _ (by first | assumption | exact neb_advance _ (by assumption) (by assumption) | exact neb_flag _ _ (by assumption))
        | exact ih5 _ (by first | assumption | exact neb_advance _ (by assumption) (by assumption) | exact neb_flag _ _ (by assumption))
        | exact ih6 _ _ (by first | assumption | exact neb_advance _ (by assumption) (by assumption) | exact neb_flag _ _ (by assumption))
        | exact ih7 _ (by first | assumption | exact neb_advance _ (by assumption) (by assumption) | exact neb_flag _ _ (by assumption))
        | exact ih14 _ (by first | assumption | exact neb_advance _ (by assumption) (by assumption) | exact neb_flag _ _ (by assumption))
        | exact ih15 _ (by first | assumption | exact neb_advance _ (by assumption) (by assumption) | exact neb_flag _ _ (by assumption))
        | exact neb_matchTok _ _ (by decide) (by first | assumption | exact neb_advance _ (by assumption) (by assumption) | exact neb_flag _ _ (by assumption))
        | exact neb_expect _ _ _ (by decide) (by first | assumption | exact neb_advance _ (by assumption) (by assumption) | exact neb_flag _ _ (by assumption))
        | exact parse_params_neb _ _ (by first | assumption | exact neb_advance _ (by assumption) (by assumption) | exact neb_flag _ _ (by assumption))
        | apply keeps_ite
        | (apply keeps_bind; rotate_left; rintro ⟨_, _⟩ _; try dsimp only)
        | (apply keeps_bind_plain; intro _)
        | split
    · rw [parse_binary_loop]
      cases hp : Parser.peek p with
      | error e => exact keeps_error _
      | ok op_token =>
        dsimp only [Except.ok_bind]
        split
        · exact keeps_pure _ _ h
        · rename_i hprec
          split
          · exact keeps_pure _ _ h
          · have g : not_at_error p := by
              intro t ht
              unfold Parser.peek at hp
              rw [ht] at hp
              cases hp
              intro he
              rw [he] at hprec
              exact hprec rfl
            refine keeps_bind (ih3 _ _ (neb_advance _ h g)) ?_
            rintro ⟨right, p2⟩ h2
            exact ih4 _ _ _ h2
    · rw [parse_expression]
      repeat' first
        | exact keeps_pure _ _ (by first | assumption | exact neb_advance _ (by assumption) (by assumption) | exact neb_flag _ _ (by assumption))
        | exact keeps_error _
        | exact ih1 _ (by first | assumption | exact neb_advance _ (by assumption) (by assumption) | exact neb_flag _ _ (by assumption))
        | exact ih2 _ _ (by first | assumption | exact neb_advance _ (by assumption) (by assumption) | exact neb_flag _ _ (by assumption))
        | exact ih3 _ _ (by first | assumption | exact neb_advance _ (by assumption) (by assumption) | exact neb_flag _ _ (by assumption))
        | exact ih4 _ _ _ (by first | assumption | exact neb_advance _ (by assumption) (by assumption) | exact neb_flag _ _ (by assumption))
        | exact ih5 _ (by first | assumption | exact neb_advance _ (by assumption) (by assumption) | exact neb_flag _ _ (by assumption))
        | exact ih6 _ _ (by first | assumption | exact neb_advance _ (by assumption) (by assumption) | exact neb_flag _ _ (by assumption))
        | exact ih7 _ (by first | assumption | exact neb_advance _ (by assumption) (by assumption) | exact neb_flag _ _ (by assumption))
        | exact ih14 _ (by first | assumption | exact neb_advance _ (by assumption) (by assumption) | exact neb_flag _ _ (by assumption))
        | exact ih15 _ (by first | assumption | exact neb_advance _ (by assumption) (by assumption) | exact neb_flag _ _ (by assumption))
        | exact neb_matchTok _ _ (by decide) (by first | assumption | exact neb_advance _ (by assumption) (by assumption) | exact neb_flag _ _ (by assumption))
        | exact neb_expect _ _ _ (by decide) (by first | assumption | exact neb_advance _ (by assumption) (by assumption) | exact neb_flag _ _ (by assumption))
        | exact parse_params_neb _ _ (by first | assumption | exact neb_advance _ (by assumption) (by assumption) | exact neb_flag _ _ (by assumption))
        | apply keeps_ite
        | (apply keeps_bind; rotate_left; rintro ⟨_, _⟩ _; try dsimp only)
        | (apply keeps_bind_plain; intro _)
        | split
    · rw [parse_block_loop]
      repeat' first
        | exact keeps_pure _ _ (by first | assumption | exact neb_advance _ (by assumption) (by assumption) | exact neb_flag _ _ (by assumption))
        | exact keeps_error _
        | exact ih1 _ (by first | assumption | exact neb_advance _ (by assumption) (by assumption) | exact neb_flag _ _ (by assumption))
        | exact ih2 _ _ (by first | assumption | exact neb_advance _ (by assumption) (by assumption) | exact neb_flag _ _ (by assumption))
        | exact ih3 _ _ (by first | assumption | exact neb_advance _ (by assumption) (by assumption) | exact neb_flag _ _ (by assumption))
        | exact ih4 _ _ _ (by first | assumption | exact neb_advance _ (by assumption) (by assumption) | exact neb_flag _ _ (by assumption))
        | exact ih5 _ (by first | assumption | exact neb_advance _ (by assumption) (by assumption) | exact neb_flag _ _ (by assumption))
        | exact ih6 _ _ (by first | assumption | exact neb_advance _ (by assumption) (by assumption) | exact neb_flag _ _ (by assumption))
        | exact ih7 _ (by first | assumption | exact neb_advance _ (by assumption) (by assumption) | exact neb_flag _ _ (by assumption))
        | exact ih14 _ (by first | assumption | exact neb_advance _ (by assumption) (by assumption) | exact neb_flag _ _ (by assumption))
        | exact ih15 _ (by first | assumption | exact neb_advance _ (by assumption) (by assumption) | exact neb_flag _ _ (by assumption))
        | exact neb_matchTok _ _ (by decide) (by first | assumption | exact neb_advance _ (by assumption) (by assumption) | exact neb_flag _ _ (by assumption))
        | exact neb_expect _ _ _ (by decide) (by first | assumption | exact neb_advance _ (by assumption) (by assumption) | exact neb_flag _ _ (by assumption))
        | exact parse_params_neb _ _ (by first | assumption | exact neb_advance _ (by assumption) (by assumption) | exact neb_flag _ _ (by assumption))
        | apply keeps_ite
        | (apply keeps_bind; rotate_left; rintro ⟨_, _⟩ _; try dsimp only)
        | (apply keeps_bind_plain; intro _)
        | split
    · rw [parse_block]
      repeat' first
        | exact keeps_pure _ _ (by first | assumption | exact neb_advance _ (by assumption) (by assumption) | exact neb_flag _ _ (by assumption))
        | exact keeps_error _
        | exact ih1 _ (by first | assumption | exact neb_advance _ (by assumption) (by assumption) | exact neb_flag _ _ (by assumption))
        | exact ih2 _ _ (by first | assumption | exact neb_advance _ (by assumption) (by assumption) | exact neb_flag _ _ (by assumption))
        | exact ih3 _ _ (by first | assumption | exact neb_advance _ (by assumption) (by assumption) | exact neb_flag _ _ (by assumption))
        | exact ih4 _ _ _ (by first | assumption | exact neb_advance _ (by assumption) (by assumption) | exact neb_flag _ _ (by assumption))
        | exact ih5 _ (by first | assumption | exact neb_advance _ (by assumption) (by assumption) | exact neb_flag _ _ (by assumption))
        | exact ih6 _ _ (by first | assumption | exact neb_advance _ (by assumption) (by assumption) | exact neb_flag _ _ (by assumption))
        | exact ih7 _ (by first | assumption | exact neb_advance _ (by assumption) (by assumption) | exact neb_flag _ _ (by assumption))
        | exact ih14 _ (by first | assumption | exact neb_advance _ (by assumption) (by assumption) | exact neb_flag _ _ (by assumption))
        | exact ih15 _ (by first | assumption | exact neb_advance _ (by assumption) (by assumption) | exact neb_flag _ _ (by assumption))
        | exact neb_matchTok _ _ (by decide) (by first | assumption | exact neb_advance _ (by assumption) (by assumption) | exact neb_flag _ _ (by assumption))
        | exact neb_expect _ _ _ (by decide) (by first | assumption | exact neb_advance _ (by assumption) (by assumption) | exact neb_flag _ _ (by assumption))
        | exact parse_params_neb _ _ (by first | assumption | exact neb_advance _ (by assumption) (by assumption) | exact neb_flag _ _ (by assumption))
        | apply keeps_ite
        | (apply keeps_bind; rotate_left; rintro ⟨_, _⟩ _; try dsimp only)
        | (apply keeps_bind_plain; intro _)
        | split
    · rw [parse_var_decl]
      repeat' first
        | exact keeps_pure _ _ (by first | assumption | exact neb_advance _ (by assumption) (by assumption) | exact neb_flag _ _ (by assumption))
        | exact keeps_error _
        | exact ih1 _ (by first | assumption | exact neb_advance _ (by assumption) (by assumption) | exact neb_flag _ _ (by assumption))
        | exact ih2 _ _ (by first | assumption | exact neb_advance _ (by assumption) (by assumption) | exact neb_flag _ _ (by assumption))
        | exact ih3 _ _ (by first | assumption | exact neb_advance _ (by assumption) (by assumption) | exact neb_flag _ _ (by assumption))
        | exact ih4 _ _ _ (by first | assumption | exact neb_advance _ (by assumption) (by assumption) | exact neb_flag _ _ (by assumption))
        | exact ih5 _ (by first | assumption | exact neb_advance _ (by assumption) (by assumption) | exact neb_flag _ _ (by assumption))
        | exact ih6 _ _ (by first | assumption | exact neb_advance _ (by assumption) (by assumption) | exact neb_flag _ _ (by assumption))
        | exact ih7 _ (by first | assumption | exact neb_advance _ (by assumption) (by assumption) | exact neb_flag _ _ (by assumption))
        | exact ih14 _ (by first | assumption | exact neb_advance _ (by assumption) (by assumption) | exact neb_flag _ _ (by assumption))
        | exact ih15 _ (by first | assumption | exact neb_advance _ (by assumption) (by assumption) | exact neb_flag _ _ (by assumption))
        | exact neb_matchTok _ _ (by decide) (by first | assumption | exact neb_advance _ (by assumption) (by assumption) | exact neb_flag _ _ (by assumption))
        | exact neb_expect _ _ _ (by decide) (by first | assumption | exact neb_advance _ (by assumption) (by assumption) | exact neb_flag _ _ (by assumption))
        | exact parse_params_neb _ _ (by first | assumption | exact neb_advance _ (by assumption) (by assumption) | exact neb_flag _ _ (by assumption))
        | apply keeps_ite
        | (apply keeps_bind; rotate_left; rintro ⟨_, _⟩ _; try dsimp only)
        | (apply keeps_bind_plain; intro _)
        | split
    · rw [parse_func_decl]
      repeat' first
        | exact keeps_pure _ _ (by first | assumption | exact neb_advance _ (by assumption) (by assumption) | exact neb_flag _ _ (by assumption))
        | exact keeps_error _
        | exact ih1 _ (by first | assumption | exact neb_advance _ (by assumption) (by assumption) | exact neb_flag _ _ (by assumption))
        | exact ih2 _ _ (by first | assumption | exact neb_advance _ (by assumption) (by assumption) | exact neb_flag _ _ (by assumption))
        | exact ih3 _ _ (by first | assumption | exact neb_advance _ (by assumption) (by assumption) | exact neb_flag _ _ (by assumption))
        | exact ih4 _ _ _ (by first | assumption | exact neb_advance _ (by assumption) (by assumption) | exact neb_flag _ _ (by assumption))
        | exact ih5 _ (by first | assumption | exact neb_advance _ (by assumption) (by assumption) | exact neb_flag _ _ (by assumption))
        | exact ih6 _ _ (by first | assumption | exact neb_advance _ (by assumption) (by assumption) | exact neb_flag _ _ (by assumption))
        | exact ih7 _ (by first | assumption | exact neb_advance _ (by assumption) (by assumption) | exact neb_flag _ _ (by assumption))
        | exact ih14 _ (by first | assumption | exact neb_advance _ (by assumption) (by assumption) | exact neb_flag _ _ (by assumption))
        | exact ih15 _ (by first | assumption | exact neb_advance _ (by assumption) (by assumption) | exact neb_flag _ _ (by assumption))
        | exact neb_matchTok _ _ (by decide) (by first | assumption | exact neb_advance _ (by assumption) (by assumption) | exact neb_flag _ _ (by assumption))
        | exact neb_expect _ _ _ (by decide) (by first | assumption | exact neb_advance _ (by assumption) (by assumption) | exact neb_flag _ _ (by assumption))
        | exact parse_params_neb _ _ (by first | assumption | exact neb_advance _ (by assumption) (by assumption) | exact neb_flag _ _ (by assumption))
        | apply keeps_ite
        | (apply keeps_bind; rotate_left; rintro ⟨_, _⟩ _; try dsimp only)
        | (apply keeps_bind_plain; intro _)
        | split
    · rw [parse_if]
      repeat' first
        | exact keeps_pure _ _ (by first | assumption | exact neb_advance _ (by assumption) (by assumption) | exact neb_flag _ _ (by assumption))
        | exact keeps_error _
        | exact ih1 _ (by first | assumption | exact neb_advance _ (by assumption) (by assumption) | exact neb_flag _ _ (by assumption))
        | exact ih2 _ _ (by first | assumption | exact neb_advance _ (by assumption) (by assumption) | exact neb_flag _ _ (by assumption))
        | exact ih3 _ _ (by first | assumption | exact neb_advance _ (by assumption) (by assumption) | exact neb_flag _ _ (by assumption))
        | exact ih4 _ _ _ (by first | assumption | exact neb_advance _ (by assumption) (by assumption) | exact neb_flag _ _ (by assumption))
        | exact ih5 _ (by first | assumption | exact neb_advance _ (by assumption) (by assumption) | exact neb_flag _ _ (by assumption))
        | exact ih6 _ _ (by first | assumption | exact neb_advance _ (by assumption) (by assumption) | exact neb_flag _ _ (by assumption))
        | exact ih7 _ (by first | assumption | exact neb_advance _ (by assumption) (by assumption) | exact neb_flag _ _ (by assumption))
        | exact ih14 _ (by first | assumption | exact neb_advance _ (by assumption) (by assumption) | exact neb_flag _ _ (by assumption))
        | exact ih15 _ (by first | assumption | exact neb_advance _ (by assumption) (by assumption) | exact neb_flag _ _ (by assumption))
        | exact neb_matchTok _ _ (by decide) (by first | assumption | exact neb_advance _ (by assumption) (by assumption) | exact neb_flag _ _ (by assumption))
        | exact neb_expect _ _ _ (by decide) (by first | assumption | exact neb_advance _ (by assumption) (by assumption) | exact neb_flag _ _ (by assumption))
        | exact parse_params_neb _ _ (by first | assumption | exact neb_advance _ (by assumption) (by assumption) | exact neb_flag _ _ (by assumption))
        | apply keeps_ite
        | (apply keeps_bind; rotate_left; rintro ⟨_, _⟩ _; try dsimp only)
        | (apply keeps_bind_plain; intro _)
        | split
    · rw [parse_while]
      repeat' first
        | exact keeps_pure _ _ (by first | assumption | exact neb_advance _ (by assumption) (by assumption) | exact neb_flag _ _ (by assumption))
        | exact keeps_error _
        | exact ih1 _ (by first | assumption | exact neb_advance _ (by assumption) (by assumption) | exact neb_flag _ _ (by assumption))
        | exact ih2 _ _ (by first | assumption | exact neb_advance _ (by assumption) (by assumption) | exact neb_flag _ _ (by assumption))
        | exact ih3 _ _ (by first | assumption | exact neb_advance _ (by assumption) (by assumption) | exact neb_flag _ _ (by assumption))
        | exact ih4 _ _ _ (by first | assumption | exact neb_advance _ (by assumption) (by assumption) | exact neb_flag _ _ (by assumption))
        | exact ih5 _ (by first | assumption | exact neb_advance _ (by assumption) (by assumption) | exact neb_flag _ _ (by assumption))
        | exact ih6 _ _ (by first | assumption | exact neb_advance _ (by assumption) (by assumption) | exact neb_flag _ _ (by assumption))
        | exact ih7 _ (by first | assumption | exact neb_advance _ (by assumption) (by assumption) | exact neb_flag _ _ (by assumption))
        | exact ih14 _ (by first | assumption | exact neb_advance _ (by assumption) (by assumption) | exact neb_flag _ _ (by assumption))
        | exact ih15 _ (by first | assumption | exact neb_advance _ (by assumption) (by assumption) | exact neb_flag _ _ (by assumption))
        | exact neb_matchTok _ _ (by decide) (by first | assumption | exact neb_advance _ (by assumption) (by assumption) | exact neb_flag _ _ (by assumption))
        | exact neb_expect _ _ _ (by decide) (by first | assumption | exact neb_advance _ (by assumption) (by assumption) | exact neb_flag _ _ (by assumption))
        | exact parse_params_neb _ _ (by first | assumption | exact neb_advance _ (by assumption) (by assumption) | exact neb_flag _ _ (by assumption))
        | apply keeps_ite
        | (apply keeps_bind; rotate_left; rintro ⟨_, _⟩ _; try dsimp only)
        | (apply keeps_bind_plain; intro _)
        | split
    · rw [parse_for]
      repeat' first
        | exact keeps_pure _ _ (by first | assumption | exact neb_advance _ (by assumption) (by assumption) | exact neb_flag _ _ (by assumption))
        | exact keeps_error _
        | exact ih1 _ (by first | assumption | exact neb_advance _ (by assumption) (by assumption) | exact neb_flag _ _ (by assumption))
        | exact ih2 _ _ (by first | assumption | exact neb_advance _ (by assumption) (by assumption) | exact neb_flag _ _ (by assumption))
        | exact ih3 _ _ (by first | assumption | exact neb_advance _ (by assumption) (by assumption) | exact neb_flag _ _ (by assumption))
        | exact ih4 _ _ _ (by first | assumption | exact neb_advance _ (by assumption) (by assumption) | exact neb_flag _ _ (by assumption))
        | exact ih5 _ (by first | assumption | exact neb_advance _ (by assumption) (by assumption) | exact neb_flag _ _ (by assumption))
        | exact ih6 _ _ (by first | assumption | exact neb_advance _ (by assumption) (by assumption) | exact neb_flag _ _ (by assumption))
        | exact ih7 _ (by first | assumption | exact neb_advance _ (by assumption) (by assumption) | exact neb_flag _ _ (by assumption))
        | exact ih14 _ (by first | assumption | exact neb_advance _ (by assumption) (by assumption) | exact neb_flag _ _ (by assumption))
        | exact ih15 _ (by first | assumption | exact neb_advance _ (by assumption) (by assumption) | exact neb_flag _ _ (by assumption))
        | exact neb_matchTok _ _ (by decide) (by first | assumption | exact neb_advance _ (by assumption) (by assumption) | exact neb_flag _ _ (by assumption))
        | exact neb_expect _ _ _ (by decide) (by first | assumption | exact neb_advance _ (by assumption) (by assumption) | exact neb_flag _ _ (by assumption))
        | exact parse_params_neb _ _ (by first | assumption | exact neb_advance _ (by assumption) (by assumption) | exact neb_flag _ _ (by assumption))
        | apply keeps_ite
        | (apply keeps_bind; rotate_left; rintro ⟨_, _⟩ _; try dsimp only)
        | (apply keeps_bind_plain; intro _)
        | split
    · rw [parse_return]
      repeat' first
        | exact keeps_pure _ _ (by first | assumption | exact neb_advance _ (by assumption) (by assumption) | exact neb_flag _ _ (by assumption))
        | exact keeps_error _
        | exact ih1 _ (by first | assumption | exact neb_advance _ (by assumption) (by assumption) | exact neb_flag _ _ (by assumption))
        | exact ih2 _ _ (by first | assumption | exact neb_advance _ (by assumption) (by assumption) | exact neb_flag _ _ (by assumption))
        | exact ih3 _ _ (by first | assumption | exact neb_advance _ (by assumption) (by assumption) | exact neb_flag _ _ (by assumption))
        | exact ih4 _ _ _ (by first | assumption | exact neb_advance _ (by assumption) (by assumption) | exact neb_flag _ _ (by assumption))
        | exact ih5 _ (by first | assumption | exact neb_advance _ (by assumption) (by assumption) | exact neb_flag _ _ (by assumption))
        | exact ih6 _ _ (by first | assumption | exact neb_advance _ (by assumption) (by assumption) | exact neb_flag _ _ (by assumption))
        | exact ih7 _ (by first | assumption | exact neb_advance _ (by assumption) (by assumption) | exact neb_flag _ _ (by assumption))
        | exact ih14 _ (by first | assumption | exact neb_advance _ (by assumption) (by assumption) | exact neb_flag _ _ (by assumption))
        | exact ih15 _ (by first | assumption | exact neb_advance _ (by assumption) (by assumption) | exact neb_flag _ _ (by assumption))
        | exact neb_matchTok _ _ (by decide) (by first | assumption | exact neb_advance _ (by assumption) (by assumption) | exact neb_flag _ _ (by assumption))
        | exact neb_expect _ _ _ (by decide) (by first | assumption | exact neb_advance _ (by assumption) (by assumption) | exact neb_flag _ _ (by assumption))
        | exact parse_params_neb _ _ (by first | assumption | exact neb_advance _ (by assumption) (by assumption) | exact neb_flag _ _ (by assumption))
        | apply keeps_ite
        | (apply keeps_bind; rotate_left; rintro ⟨_, _⟩ _; try dsimp only)
        | (apply keeps_bind_plain; intro _)
        | split
    · rw [parse_assignment_or_expr]
      repeat' first
        | exact keeps_pure _ _ (by first | assumption | exact neb_advance _ (by assumption) (by assumption) | exact neb_flag _ _ (by assumption))
        | exact keeps_error _
        | exact ih1 _ (by first | assumption | exact neb_advance _ (by assumption) (by assumption) | exact neb_flag _ _ (by assumption))
        | exact ih2 _ _ (by first | assumption | exact neb_advance _ (by assumption) (by assumption) | exact neb_flag _ _ (by assumption))
        | exact ih3 _ _ (by first | assumption | exact neb_advance _ (by assumption) (by assumption) | exact neb_flag _ _ (by assumption))
        | exact ih4 _ _ _ (by first | assumption | exact neb_advance _ (by assumption) (by assumption) | exact neb_flag _ _ (by assumption))
        | exact ih5 _ (by first | assumption | exact neb_advance _ (by assumption) (by assumption) | exact neb_flag _ _ (by assumption))
        | exact ih6 _ _ (by first | assumption | exact neb_advance _ (by assumption) (by assumption) | exact neb_flag _ _ (by assumption))
        | exact ih7 _ (by first | assumption | exact neb_advance _ (by assumption) (by assumption) | exact neb_flag _ _ (by assumption))
        | exact ih14 _ (by first | assumption | exact neb_advance _ (by assumption) (by assumption) | exact neb_flag _ _ (by assumption))
        | exact ih15 _ (by first | assumption | exact neb_advance _ (by assumption) (by assumption) | exact neb_flag _ _ (by assumption))
        | exact neb_matchTok _ _ (by decide) (by first | assumption | exact neb_advance _ (by assumption) (by assumption) | exact neb_flag _ _ (by assumption))
        | exact neb_expect _ _ _ (by decide) (by first | assumption | exact neb_advance _ (by assumption) (by assumption) | exact neb_flag _ _ (by assumption))
        | exact parse_params_neb _ _ (by first | assumption | exact neb_advance _ (by assumption) (by assumption) | exact neb_flag _ _ (by assumption))
        | apply keeps_ite
        | (apply keeps_bind; rotate_left; rintro ⟨_, _⟩ _; try dsimp only)
        | (apply keeps_bind_plain; intro _)
        | split
    · rw [parse_statement]
      refine keeps_bind_eq fun r e => ?_
      rcases matchTok_result _ _ r e with rfl | ⟨rfl, hc⟩
      swap
      · dsimp only
        rw [if_pos rfl, back_after_match]
        exact ih8 _ h (not_at_error_of_check (by decide) hc)
      dsimp only
      rw [if_neg (by decide)]
      refine keeps_bind_eq fun r e => ?_
      rcases matchTok_result _ _ r e with rfl | ⟨rfl, hc⟩
      swap
      · dsimp only
        rw [if_pos rfl, pure_bind]
        dsimp only
        rw [if_pos rfl, back_after_match]
        exact ih9 _ h (not_at_error_of_check (by decide) hc)
      dsimp only
      rw [if_neg (by decide)]
      refine keeps_bind_eq fun r e => ?_
      rcases matchTok_result _ _ r e with rfl | ⟨rfl, hc⟩
      swap
      · dsimp only
        rw [if_pos rfl, back_after_match]
        exact ih9 _ h (not_at_error_of_check (by decide) hc)
      dsimp only
      rw [if_neg (by decide)]
      refine keeps_bind_eq fun r e => ?_
      rcases matchTok_result _ _ r e with rfl | ⟨rfl, hc⟩
      swap
      · dsimp only
        rw [if_pos rfl, back_after_match]
        exact ih10 _ h (not_at_error_of_check (by decide) hc)
      dsimp only
      rw [if_neg (by decide)]
      refine keeps_bind_eq fun r e => ?_
      rcases matchTok_result _ _ r e with rfl | ⟨rfl, hc⟩
      swap
      · dsimp only
        rw [if_pos rfl, back_after_match]
        exact ih11 _ h (not_at_error_of_check (by decide) hc)
      dsimp only
      rw [if_neg (by decide)]
      refine keeps_bind_eq fun r e => ?_
      rcases matchTok_result _ _ r e with rfl | ⟨rfl, hc⟩
      swap
      · dsimp only
        rw [if_pos rfl, pure_bind]
        dsimp only
        rw [if_pos rfl, back_after_match]
        exact ih12 _ h (not_at_error_of_check (by decide) hc)
      dsimp only
      rw [if_neg (by decide)]
      refine keeps_bind_eq fun r e => ?_
      rcases matchTok_result _ _ r e with rfl | ⟨rfl, hc⟩
      swap
      · dsimp only
        rw [if_pos rfl, back_after_match]
        exact ih12 _ h (not_at_error_of_check (by decide) hc)
      dsimp only
      rw [if_neg (by decide)]
      refine keeps_bind_eq fun r e => ?_
      rcases matchTok_result _ _ r e with rfl | ⟨rfl, hc⟩
      swap
      · dsimp only
        rw [if_pos rfl, back_after_match]
        exact ih13 _ h (not_at_error_of_check (by decide) hc)
      dsimp only
      rw [if_neg (by decide)]
      refine keeps_bind_eq fun r e => ?_
      rcases matchTok_result _ _ r e with rfl | ⟨rfl, hc⟩
      swap
      · dsimp only
        rw [if_pos rfl]
        refine keeps_bind_plain fun next => ?_
        exact keeps_pure _ _ (neb_step h (by decide) hc)
      dsimp only
      rw [if_neg (by decide)]
      exact ih14 _ h

/-- What `parse_statement` keeps, the loop of `parser_parse` keeps. -/
theorem parser_parse_loop_keeps {P : Parser → Prop}
    (hs : ∀ n p, P p → Keeps P (parse_statement n p)) (n : Nat) :
    ∀ (p : Parser) (acc : List ASTNode), P p → Keeps P (parser_parse_loop n p acc) := by
  induction n with
  | zero => intro p acc _ r h; cases h
  | succ n ih =>
    intro p acc hp
    rw [parser_parse_loop]
    refine keeps_bind_plain fun atEof => ?_
    apply keeps_ite
    · exact keeps_pure _ _ hp
    · refine keeps_bind (hs n p hp) ?_
      rintro ⟨stmt, p1⟩ h1
      dsimp only
      apply keeps_ite
      · exact keeps_pure _ _ h1
      · exact ih _ _ h1

theorem parser_parse_keeps {P : Parser → Prop}
    (hs : ∀ n p, P p → Keeps P (parse_statement n p)) (n : Nat) (p : Parser) (hp : P p)
    (r : ASTNode × Parser) (h : parser_parse n p = .ok r) : P r.2 := by
  unfold parser_parse at h
  cases hl : parser_parse_loop n p [] with
  | error e => rw [hl] at h; cases h
  | ok r1 =>
    rw [hl] at h
    cases h
    exact parser_parse_loop_keeps hs n p [] hp r1 hl

/-- When `parser_parse` returns, no ERROR token is behind the cursor if none was before. -/
theorem parser_parse_passes_no_error (n : Nat) (p : Parser) (hp : no_error_behind p)
    (r : ASTNode × Parser) (h : parser_parse n p = .ok r) : no_error_behind r.2 :=
  parser_parse_keeps (fun n => (parser_passes_no_error n).2.2.2.2.2.2.2.2.2.2.2.2.2.2) n p hp r h

/-- The token array and the token count are those the parser was started with. -/
theorem parser_parse_tokens (n : Nat) (p : Parser) (r : ASTNode × Parser)
    (h : parser_parse n p = .ok r) :
    r.2.tokens = p.tokens ∧ r.2.token_count = p.token_count :=
  parser_parse_keeps (P := fun q => q.tokens = p.tokens ∧ q.token_count = p.token_count)
    (fun n => (parser_keeps (P := fun q => q.tokens = p.tokens ∧ q.token_count = p.token_count)
      (fun q hq => by unfold Parser.advance; split <;> exact hq)
      (fun _ hq => hq) (fun _ _ hq => hq) n).2.2.2.2.2.2.2.2.2.2.2.2.2.2) n p ⟨rfl, rfl⟩ r h

/-- With no ERROR token behind the cursor, the cursor is not behind a last token ERROR. -/
theorem cursor_before_error (p : Parser) (ts : List Token) (last : Token)
    (ht : p.tokens = ts) (hl : ts.getLast? = some last) (he : last.type = .ERROR)
    (h : no_error_behind p) : p.current < ts.length := by
  by_contra hc
  have hne : ts ≠ [] := by
    intro e
    rw [e] at hl
    cases hl
  have hpos : 0 < ts.length := List.length_pos.mpr hne
  have hg : ts.get? (ts.length - 1) = some last := by
    rw [List.getLast?_eq_getElem?] at hl
    rw [List.get?_eq_getElem?]
    exact hl
  exact h (ts.length - 1) last (by omega) (by rw [ht]; exact hg) he
/-- C37. Let the tokenization of a source end with an ERROR token. Whenever `parser_parse`
returns on these tokens (on the parser that `parser_init` makes, and on a parser over the
whole sequence), the error flag is set: the sequence holds no EOF token, so the statement
loop can end by the flag only. No ERROR token is behind the cursor then, the cursor is on or
before the ERROR token that ends the sequence, and the same holds for every return of
`parse_statement` and `parse_expression` from a parser with no ERROR token behind its
cursor: none is consumed. Whenever `run_source` returns on that source, it returns 1 and
has evaluated nothing and written nothing. -/
theorem lexical_error_sets_flag (fuel : Nat) (source : List Char) (ts : List Token)
    (last : Token) (ht : lexer_tokenize fuel source = some ts)
    (hl : ts.getLast? = some last) (he : last.type = .ERROR) :
    (∀ n r, parser_parse n (parser_on ts) = .ok r →
      r.2.had_error = true ∧ no_error_behind r.2 ∧ r.2.current < ts.length) ∧
    (∀ n p0 r, parser_init ts ts.length = .ok p0 → parser_parse n p0 = .ok r →
      r.2.had_error = true ∧ no_error_behind r.2) ∧
    (∀ n p r, no_error_behind p → parse_statement n p = .ok r → no_error_behind r.2) ∧
    (∀ n p r, no_error_behind p → parse_expression n p = .ok r → no_error_behind r.2) ∧
    (∀ n r, run_source n source = .ok r →
      r = { had_error := true, stdout := [] } ∧ r.status = 1) ∧
    ∀ n r, pipeline n source = .ok r → r = { had_error := true, stdout := [] } := by
  have hne := tokens_without_eof fuel source ts last ht hl he
  have h0 : no_error_behind (parser_on ts) := fun i t hi _ => absurd hi (Nat.not_lt_zero i)
  refine ⟨fun n r h => ?_, ?_,
    fun n p r hp h => (parser_passes_no_error n).2.2.2.2.2.2.2.2.2.2.2.2.2.2 p hp r h,
    fun n p r hp h => (parser_passes_no_error n).2.2.2.2.1 p hp r h, ?_, ?_⟩
  · have hb := parser_parse_passes_no_error n (parser_on ts) h0 r h
    exact ⟨parser_parse_flag n (parser_on ts) r hne h, hb,
      cursor_before_error r.2 ts last (parser_parse_tokens n (parser_on ts) r h).1 hl he hb⟩
  · intro n p0 r hi h
    cases ts with
    | nil => cases hi
    | cons first rest =>
      cases hi
      refine ⟨parser_parse_flag n _ r ?_ h, parser_parse_passes_no_error n _ ?_ r h⟩
      · intro t hm
        exact hne t (by rw [List.mem_singleton.mp hm]; exact List.mem_cons_self _ _)
      · exact fun i t hi _ => absurd hi (Nat.not_lt_zero i)
  · intro n r h
    rcases lexer_tokenize_decided source fuel ts ht n with e | e
    · simp only [run_source, e] at h
      cases h
    · have := run_source_flagged n source ts r e hne h
      exact ⟨this, by rw [this]; rfl⟩
  · intro n r h
    rcases lexer_tokenize_decided source fuel ts ht n with e | e
    · simp only [pipeline, e] at h
      cases h
    · exact pipeline_flagged n source ts r e hne h

/-- C37 on the source `x = "abc`, whose tokens are IDENTIFIER, ASSIGN and the ERROR token of
the unterminated string: `parser_parse` over the three tokens returns with the flag set and
the cursor at 2, on the ERROR token. On the source `"abc`, whose one token is the ERROR
token, `run_source` returns 1. -/
theorem lexical_error_sets_flag_witness :
    ((Except.result (parser_parse 6 (cursor_on "x = \"abc")) (.program 1 1 [], parser_on [])).2.had_error
        = true ∧
      no_error_behind
        (Except.result (parser_parse 6 (cursor_on "x = \"abc")) (.program 1 1 [], parser_on [])).2 ∧
      (Except.result (parser_parse 6 (cursor_on "x = \"abc"))
        (.program 1 1 [], parser_on [])).2.current < 3) ∧
    (parser_parse 6 (cursor_on "x = \"abc")).map (fun r => (r.2.current, r.2.had_error)) =
      .ok (2, true) ∧
    run_source 6 "\"abc".toList = .ok { had_error := true, stdout := [] } ∧
    (run_source 6 "\"abc".toList).map Run.status = .ok 1 ∧
    pipeline 12 "x = \"abc".toList = .ok { had_error := true, stdout := [] } :=
  ⟨(lexical_error_sets_flag 12 "x = \"abc".toList
      [create_token .IDENTIFIER ['x'] 1 1, create_token .ASSIGN ['='] 1 3,
        create_token .ERROR "Unterminated string".toList 1 5]
      (create_token .ERROR "Unterminated string".toList 1 5) (by decide!) rfl rfl).1 6 _
      (Except.result_ok (.program 1 1 [], parser_on []) (by decide!)),
   by decide!, by decide!, by decide!, by decide!⟩

/-! ## `return` inside a loop -/

theorem return_body_returns (l c l1 c1 l2 c2 : Nat) (lit : Literal) (n : Nat)
    (st : Interpreter) :
    eval_node n st (some (.block l c [.return_stmt l1 c1 (some (.literal l2 c2 lit))])) =
        .error .out_of_fuel ∨
      ∃ r, eval_node n st (some (.block l c [.return_stmt l1 c1 (some (.literal l2 c2 lit))])) =
        .ok r := by
  have h : ∃ r, eval_node 5 st
      (some (.block l c [.return_stmt l1 c1 (some (.literal l2 c2 lit))])) = .ok r := by
    rw [eval_node_block 3, eval_block_loop]
    simp only [eval_node, eval_expression]
    exact ⟨_, rfl⟩
  obtain ⟨r, hr⟩ := h
  rcases eval_node_decided st _ 5 r hr n with e | e
  · exact Or.inl e
  · exact Or.inr ⟨r, e⟩

/-- A block whose one statement does not finish does not finish. -/
theorem eval_block_never (l c : Nat) (stmt : ASTNode)
    (h : ∀ n st, eval_node n st (some stmt) = .error .out_of_fuel) (n : Nat) (st : Interpreter) :
    eval_node n st (some (.block l c [stmt])) = .error .out_of_fuel := by
  match n with
  | 0 => rw [eval_node]
  | 1 => simp only [eval_node, eval_block]
  | 2 => simp only [eval_node, eval_block, eval_block_loop]
  | n + 3 =>
    rw [eval_node_block (n + 1), eval_block_loop, h]
    rfl

/-- The loop `while true run: return 1 end` does not finish, whatever the state and the
fuel. -/
theorem return_while_never (n : Nat) (st : Interpreter) :
    eval_while n st always
      (some (.block 1 31 [.return_stmt 1 31 (number_literal 1 38 "1")])) = .error .out_of_fuel :=
  eval_while_forever _ _ always_true (return_body_returns 1 31 1 31 1 38 _) n st

/-- The body `( while true run: return 1 end )` does not finish, whatever the state and the
fuel. -/
theorem return_loop_never (n : Nat) (st : Interpreter) :
    eval_node n st (some return_loop) = .error .out_of_fuel :=
  eval_block_never 1 13 _ (fun n st => by
    cases n with
    | zero => rw [eval_node]
    | succ n => simp only [eval_node]; exact return_while_never n st) n st

/-- A call without arguments of a function whose body does not finish does not return. -/
theorem eval_call_never (st st1 : Interpreter) (calleeNode body : Option ASTNode) (m c : Nat)
    (v : Value) (name : List Char) (params : List (List Char)) (closure : Option Nat)
    (hc : eval_expression m st calleeNode = .ok (c, st1)) (hl : st1.load c = .ok v)
    (ht : v.type = .FUNCTION) (hd : v.data = .function name params body closure)
    (hb : ∀ n s, eval_node n s body = .error .out_of_fuel) (n : Nat) :
    eval_call n st calleeNode [] = .error .out_of_fuel := by
  match n with
  | 0 => rw [eval_call]
  | 1 => rw [eval_call, eval_expression]; rfl
  | n + 2 =>
    rw [eval_call]
    rcases eval_expression_decided st _ m _ hc (n + 1) with e | e
    · rw [e]; rfl
    · rw [e]
      dsimp only [Except.ok_bind]
      rw [eval_args]
      dsimp only [Except.ok_bind]
      rw [hl]
      dsimp only [Except.ok_bind]
      rw [if_neg (by rw [ht]; decide), if_pos ht]
      obtain ⟨ty, mk, dat⟩ := v
      dsimp only at hd
      subst hd
      dsimp only
      have hp : bind_params (st1.create_scope closure).2 st1.scopes.length params [] =
          .ok (st1.create_scope closure).2 := by
        cases params <;> rfl
      rw [hp]
      dsimp only [Except.ok_bind]
      rw [hb]
      rfl

/-- A program that declares a function whose body does not finish and then calls it does
not finish. -/
theorem declare_and_call_never (st : Interpreter) (name : List Char) (body : Option ASTNode)
    (l c l1 c1 l2 c2 l3 c3 : Nat) (is_async : Bool) (r : Nat × Interpreter)
    (hd : eval_func_decl (st.create_value .NULL).2 name [] body = .ok r)
    (hr : r.2.return_value = none)
    (hcall : ∀ n, eval_call n r.2 (some (.identifier l3 c3 name)) [] = .error .out_of_fuel)
    (n : Nat) :
    eval_node n st (some (.program l c
      [.func_decl l1 c1 name [] body is_async,
       .call l2 c2 (some (.identifier l3 c3 name)) []])) = .error .out_of_fuel := by
  match n with
  | 0 => rw [eval_node]
  | 1 => simp only [eval_node, eval_block]
  | 2 => simp only [eval_node, eval_block, eval_block_loop]
  | 3 => simp only [eval_node, eval_block, eval_block_loop]; rfl
  | n + 4 =>
    have h1 : eval_node (n + 1) (st.create_value .NULL).2
        (some (.func_decl l1 c1 name [] body is_async)) = .ok r := by
      rw [eval_node]; exact hd
    have h2 : eval_node n r.2 (some (.call l2 c2 (some (.identifier l3 c3 name)) [])) =
        .error .out_of_fuel := by
      match n with
      | 0 => rw [eval_node]
      | 1 => simp only [eval_node, eval_expression]
      | n + 2 => simp only [eval_node, eval_expression]; exact hcall n
    simp only [eval_node, eval_block]
    rw [eval_block_loop_cons _ _ h1 hr, eval_block_loop, h2]
    rfl

theorem return_loop_program_never (fuel : Nat) :
    interpreter_run fuel interpreter_init return_loop_program = .error .out_of_fuel := by
  have h0 : register_builtins { interpreter_init with ast := some return_loop_program } =
      .ok { with_builtins with ast := some return_loop_program } := rfl
  unfold interpreter_run
  rw [h0]
  dsimp only [Except.ok_bind]
  have hd : ∃ r, eval_func_decl
        (Interpreter.create_value { with_builtins with ast := some return_loop_program } .NULL).2
        "f".toList [] (some return_loop) = .ok r ∧ r.2.return_value = none ∧
      ∃ c st1 v name params closure,
        eval_expression 1 r.2 (some (.identifier 2 1 "f".toList)) = .ok (c, st1) ∧
        st1.load c = .ok v ∧ v.type = .FUNCTION ∧
        v.data = .function name params (some return_loop) closure :=
    ⟨_, rfl, rfl, _, _, _, _, _, _, rfl, rfl, rfl, rfl⟩
  obtain ⟨r, h1, h2, c, st1, v, name, params, closure, h3, h4, h5, h6⟩ := hd
  have hn : eval_node fuel { with_builtins with ast := some return_loop_program }
      (some return_loop_program) = .error .out_of_fuel :=
    declare_and_call_never _ "f".toList (some return_loop) 1 1 1 1 2 1 2 1 false r h1 h2
      (eval_call_never _ _ _ _ 1 _ _ _ _ _ h3 h4 h5 h6 return_loop_never) fuel
  rw [hn]
  rfl

theorem streams_stable (ast : ASTNode) (n k : Nat) (out : List Char × List Char)
    (h : streams (interpreter_run n interpreter_init ast) = .ok out) :
    streams (interpreter_run (n + k) interpreter_init ast) = .ok out :=
  (FuelLe.map (fun st : Interpreter => (st.stdout, st.stderr))
    (interpreter_run_mono n k interpreter_init ast)).ok_of h

/-- C36. A `return` in the body of a loop does not stop the loop: `eval_while` goes on to
the condition. The loop `while true run: return 1 end` does not finish in any state, whatever
the fuel, and the run of `return_loop_program`, which calls a function with that body, does
not return. In `return_in_loop_program` the condition `go` is still true after the `return`,
so the first statement of the body is evaluated once more (`go = again`, after `again` was
made false): the program prints `false` for `go`, where a loop that stops at the `return`
leaves `go` true. -/
theorem eval_while_goes_on_after_return :
    (∀ fuel st, eval_while fuel st always
      (some (.block 1 31 [.return_stmt 1 31 (number_literal 1 38 "1")])) =
        .error .out_of_fuel) ∧
    (∀ fuel, interpreter_run fuel interpreter_init return_loop_program =
      .error .out_of_fuel) ∧
    ∀ k, streams (interpreter_run (24 + k) interpreter_init return_in_loop_program) =
      .ok ("7\nfalse\n".toList, []) :=
  ⟨return_while_never, return_loop_program_never,
   fun k => streams_stable _ 24 k _ (by decide!)⟩

/-- C38. A call made while a return signal is pending takes that signal for its result. In
`stale_return_program` the body of `g` is empty, and the call `g()` in the second round of
the loop, entered with the signal of `return 7` still set, gives 7 and clears the signal:
the program prints `7` for `r`, where a null value prints `null`. -/
theorem eval_call_takes_pending_return :
    (∀ k, streams (interpreter_run (27 + k) interpreter_init stale_return_program) =
      .ok ("7\n".toList, [])) ∧
    (∀ (st : Interpreter) (v prev_scope func_scope : Nat),
      (finish_call { st with return_value := some v } prev_scope func_scope).1 = v) ∧
    (∀ (st : Interpreter) (prev_scope func_scope : Nat),
      (finish_call { st with return_value := none } prev_scope func_scope).1 =
        st.values.length) ∧
    ∀ (st : Interpreter) (prev_scope func_scope : Nat),
      (finish_call st prev_scope func_scope).2.return_value = none ∧
      (finish_call st prev_scope func_scope).2.current_scope = prev_scope := by
  refine ⟨fun k => streams_stable _ 27 k _ (by decide!), fun st v p f => rfl,
    fun st p f => rfl, fun st p f => ?_⟩
  unfold finish_call Interpreter.free_scope
  constructor <;> rfl

/-! ## The end of input in `skip_comment` -/

/-- C39. On the unclosed comment `<-- a --` the loop of `skip_comment` consumes the two
dashes, finds the end of input where it looks for `>`, and the `advance` at the end of the
round moves the cursor beyond the end of input: nine characters are consumed (column 10) of
a source of eight. Without the second dash (`<-- a -`) the cursor stops at the end of input
(column 8). -/
theorem skip_comment_overruns_after_dashes :
    (skip_comment (lexer_init "<-- a --".toList)).2.overrun = true ∧
    (skip_comment (lexer_init "<-- a --".toList)).2.column = 10 ∧
    (skip_comment (lexer_init "<-- a --".toList)).1 = false ∧
    (skip_comment (lexer_init "<-- a -".toList)).2.overrun = false ∧
    (skip_comment (lexer_init "<-- a -".toList)).2.column = 8 ∧
    ((lexer_next_token 2 (lexer_init "<-- a --".toList)).map (fun r => r.2.overrun)) =
      some true := by
  decide!

theorem keywords_own_types : ∀ k ∈ keyword_names,
    (keywords.lookup k.toList).map (fun t => t.enumerator.toList) =
      some ("TOKEN_".toList ++ k.toList.map Char.toUpper) := by
  decide!

/-- C27. At a letter or `_`, `lexer_next_token` returns a token whose lexeme is the maximal
run of identifier characters at the cursor, and the cursor rests behind that run. The type
of the token is not IDENTIFIER exactly when the run is one of the 28 keywords the
specification lists (compared character by character, so case-sensitively), and then it is
the keyword's own type: the token type named after that keyword. In the keyword chain of the
source these are the 28 names, in that order, with 28 different types, none of them
IDENTIFIER. -/
theorem lexer_next_token_identifier (fuel : Nat) (lx : Lexer) (c : Char) (rest : List Char)
    (hcur : lx.current = c :: rest) (hc : (c.isAlpha || c == '_') = true) :
    (∃ tok lx1, lexer_next_token (fuel + 1) lx = some (tok, lx1) ∧
      tok.lexeme = lx.current.takeWhile identifier_char ∧
      lx1.current = lx.current.dropWhile identifier_char ∧
      (tok.type ≠ .IDENTIFIER ↔ tok.lexeme ∈ keyword_names.map String.toList) ∧
      (∀ k ∈ keyword_names, tok.lexeme = k.toList → own_token_type k tok.type) ∧
      (∀ type, (tok.lexeme, type) ∈ keywords → tok.type = type)) ∧
    keywords.map Prod.fst = keyword_names.map String.toList ∧ keyword_names.length = 28 ∧
    keyword_names.Nodup ∧
    (keywords.map Prod.snd).Nodup ∧ TokenType.IDENTIFIER ∉ keywords.map Prod.snd := by
  have hnames : keywords.map Prod.fst = keyword_names.map String.toList := by decide
  have hnd : (keywords.map Prod.fst).Nodup := by decide
  have hid : TokenType.IDENTIFIER ∉ keywords.map Prod.snd := by decide
  refine ⟨?_, hnames, by decide, by decide, by decide, hid⟩
  have hdig : c.isDigit = false := by
    rcases Bool.or_eq_true _ _ ▸ hc with h | h
    · exact isAlpha_not_isDigit c h
    · have : c = '_' := by simpa using h
      rw [this]
      decide
  have hne : ∀ d : Char, (d.isAlpha || d == '_') = false → c ≠ d := by
    rintro d hd rfl
    rw [hc] at hd
    cases hd
  have hnext := lexer_next_token_at fuel lx c rest hcur
    (by simp [hne ' ' (by decide), hne '\t' (by decide), hne '\r' (by decide)])
    (hne '<' (by decide)) (hne '\n' (by decide))
  rw [if_neg (by simpa using hne '"' (by decide)), if_neg (by simp [hdig]), if_pos hc] at hnext
  refine ⟨_, _, hnext, ?_, ?_, ?_, ?_, ?_⟩
  · simp [parse_identifier, identifier_loop_eq, create_token]
  · simp [parse_identifier, identifier_loop_eq]
  · simp only [parse_identifier, identifier_loop_eq, create_token, ← hnames]
    cases hl : keywords.lookup (lx.current.takeWhile identifier_char) with
    | none =>
      have := (lookup_none _ _).mp hl
      simp [this]
    | some t =>
      have hm := lookup_mem _ _ _ hl
      have h1 : t ≠ .IDENTIFIER := by
        rintro rfl
        exact hid (List.mem_map.mpr ⟨_, hm, rfl⟩)
      have h2 : lx.current.takeWhile identifier_char ∈ keywords.map Prod.fst :=
        List.mem_map.mpr ⟨_, hm, rfl⟩
      simp only [Option.getD_some, ne_eq, h1, not_false_eq_true, h2]
  · intro k hk hlex
    simp only [parse_identifier, identifier_loop_eq, create_token] at hlex ⊢
    have hown := keywords_own_types k hk
    rw [hlex]
    cases hl : keywords.lookup k.toList with
    | none => rw [hl] at hown; cases hown
    | some t =>
      rw [hl] at hown
      exact Option.some.inj hown
  · intro type hm
    simp only [parse_identifier, identifier_loop_eq, create_token] at hm ⊢
    rw [lookup_of_mem _ _ _ hnd hm]
    rfl

/-- C27 at the cursor on `end.x` and on `foreach`, with the tokens of `end ending End end.x`
(END, and three times IDENTIFIER) and the types of the tokens of the 28 keywords written in
a row. -/
theorem lexer_next_token_identifier_witness :
    ((∃ tok lx1, lexer_next_token 1 (lexer_init "end.x".toList) = some (tok, lx1) ∧
      tok.lexeme = "end.x".toList.takeWhile identifier_char ∧
      lx1.current = "end.x".toList.dropWhile identifier_char ∧
      (tok.type ≠ .IDENTIFIER ↔ tok.lexeme ∈ keyword_names.map String.toList) ∧
      (∀ k ∈ keyword_names, tok.lexeme = k.toList → own_token_type k tok.type) ∧
      (∀ type, (tok.lexeme, type) ∈ keywords → tok.type = type)) ∧
    keywords.map Prod.fst = keyword_names.map String.toList ∧ keyword_names.length = 28 ∧
    keyword_names.Nodup ∧
    (keywords.map Prod.snd).Nodup ∧ TokenType.IDENTIFIER ∉ keywords.map Prod.snd) ∧
    lexer_tokenize 22 "end ending End end.x".toList =
      some [create_token .END "end".toList 1 1, create_token .IDENTIFIER "ending".toList 1 5,
        create_token .IDENTIFIER "End".toList 1 12,
        create_token .IDENTIFIER "end.x".toList 1 16, create_token .EOF [] 1 21] ∧
    (lexer_tokenize 200 (" ".intercalate keyword_names).toList).map
        (fun ts => ts.map Token.type) =
      some [.INCLUDING, .PROJECTSPACE, .NEWVAR, .NEWFUNC, .NEWCLASS, .NEWEVENT, .NEWASYNC,
        .IF, .ELSE, .WHILE, .FOR, .FOREACH, .IN, .SWITCH, .CASE, .DEFAULT, .BREAK, .RETURN,
        .RUN, .END, .WHEN, .THIS, .NEW, .AWAIT, .TRUE, .FALSE, .AND, .OR, .EOF] ∧
    (lexer_tokenize 200 "And OR If NEWVAR newvar true_ Return".toList).map
        (fun ts => ts.map Token.type) =
      some [.IDENTIFIER, .IDENTIFIER, .IDENTIFIER, .IDENTIFIER, .IDENTIFIER, .IDENTIFIER,
        .IDENTIFIER, .EOF] :=
  ⟨lexer_next_token_identifier 0 (lexer_init "end.x".toList) 'e' "nd.x".toList rfl (by decide),
   by decide!, by decide!, by decide!⟩

/-! ## Binary64 arithmetic against the real numbers -/

theorem Double.roundHalfEven_near (a c : Nat) (hc : 0 < c) :
    2 * |((roundHalfEven a c : Nat) : ℤ) * c - a| ≤ c ∧
    ∀ k : Nat, |((roundHalfEven a c : Nat) : ℤ) * c - a| ≤ |(k : ℤ) * c - a| := by
  have hdiv : c * (a / c) + a % c = a := Nat.div_add_mod a c
  have hr : a % c < c := Nat.mod_lt a hc
  set q := a / c with hq
  set r := a % c with hrr
  have key : ∀ k : Nat, (r : ℤ) ≤ |(k : ℤ) * c - a| ∨ ((c : ℤ) - r) ≤ |(k : ℤ) * c - a| := by
    intro k
    have ha : (a : ℤ) = c * q + r := by exact_mod_cast hdiv.symm
    rcases Nat.lt_or_ge q k with h | h
    · right
      have h1 : ((q : ℤ) + 1) * c ≤ (k : ℤ) * c := by
        have : (q : ℤ) + 1 ≤ k := by exact_mod_cast h
        exact mul_le_mul_of_nonneg_right this (by positivity)
      have : (c : ℤ) - r ≤ (k : ℤ) * c - a := by rw [ha]; nlinarith
      exact le_trans this (le_abs_self _)
    · left
      have h1 : (k : ℤ) * c ≤ (q : ℤ) * c := by
        have : (k : ℤ) ≤ q := by exact_mod_cast h
        exact mul_le_mul_of_nonneg_right this (by positivity)
      have : (r : ℤ) ≤ -((k : ℤ) * c - a) := by rw [ha]; nlinarith
      exact le_trans this (neg_le_abs _)
  have ha : (a : ℤ) = c * q + r := by exact_mod_cast hdiv.symm
  unfold roundHalfEven
  simp only [← hq, ← hrr]
  split
  · rename_i hup
    have h2 : c ≤ 2 * r := by rcases hup with h | h <;> omega
    have e : (((q + 1 : Nat) : ℤ) * c - a) = c - r := by rw [ha]; push_cast; ring
    have hnn : (0 : ℤ) ≤ c - r := by omega
    rw [e, abs_of_nonneg hnn]
    refine ⟨by omega, fun k => ?_⟩
    rcases key k with h | h
    · exact le_trans (by omega) h
    · exact h
  · rename_i hup
    have h2 : 2 * r ≤ c := by
      by_contra hcon
      exact hup (Or.inl (by omega))
    have e : ((q : ℤ) * c - a) = -r := by rw [ha]; ring
    rw [e, abs_neg, abs_of_nonneg (by positivity)]
    refine ⟨by omega, fun k => ?_⟩
    rcases key k with h | h
    · exact h
    · exact le_trans (by omega) h

/-- A quotient that `roundHalfEven` leaves at half a unit from the result was rounded to an
even number. -/
theorem Double.roundHalfEven_half (a c : Nat) (hc : 0 < c)
    (h4 : 2 * |((roundHalfEven a c : Nat) : ℤ) * c - a| = c) : roundHalfEven a c % 2 = 0 := by
  have hdiv : c * (a / c) + a % c = a := Nat.div_add_mod a c
  have hr : a % c < c := Nat.mod_lt a hc
  revert h4
  set q := a / c with hq
  set r := a % c with hrr
  have ha : (a : ℤ) = c * q + r := by exact_mod_cast hdiv.symm
  unfold roundHalfEven
  simp only [← hq, ← hrr]
  split
  · rename_i hup
    intro h4
    have e : (((q + 1 : Nat) : ℤ) * c - a) = c - r := by rw [ha]; push_cast; ring
    have hnn : (0 : ℤ) ≤ c - r := by omega
    rw [e, abs_of_nonneg hnn] at h4
    have h5 : 2 * r = c := by omega
    rcases hup with h | h
    · omega
    · omega
  · rename_i hup
    intro h4
    have e : ((q : ℤ) * c - a) = -r := by rw [ha]; ring
    rw [e, abs_neg, abs_of_nonneg (by positivity)] at h4
    have h5 : 2 * r = c := by omega
    by_contra hodd
    exact hup (Or.inr ⟨h5, by omega⟩)

/-- At a tie `roundHalfEven` delivers the even neighbour: when another integer is as near to
the quotient as the result, the result is even. -/
theorem Double.roundHalfEven_tie (a c : Nat) (hc : 0 < c) (k : ℤ)
    (hk : k ≠ (roundHalfEven a c : Nat))
    (he : |k * c - a| = |((roundHalfEven a c : Nat) : ℤ) * c - a|) :
    roundHalfEven a c % 2 = 0 := by
  obtain ⟨hn2, _⟩ := Double.roundHalfEven_near a c hc
  have hcz : (0 : ℤ) < c := by exact_mod_cast hc
  have h3 : (1 : ℤ) ≤ |k - (roundHalfEven a c : Nat)| := by
    have : k - (roundHalfEven a c : Nat) ≠ 0 := sub_ne_zero.mpr hk
    exact Int.one_le_abs this
  apply Double.roundHalfEven_half a c hc
  have e : (k - (roundHalfEven a c : Nat)) * c =
      (k * c - a) - (((roundHalfEven a c : Nat) : ℤ) * c - a) := by ring
  have h2 := abs_sub (k * c - a) (((roundHalfEven a c : Nat) : ℤ) * c - a)
  rw [← e, abs_mul, abs_of_pos hcz, he] at h2
  have h5 : (c : ℤ) ≤ |k - (roundHalfEven a c : Nat)| * c := by nlinarith
  linarith

theorem Double.bitlen_spec (f n : Nat) (h : n < 2 ^ f) :
    (n = 0 → bitlen f n = 0) ∧ (0 < n → 2 ^ (bitlen f n - 1) ≤ n ∧ n < 2 ^ bitlen f n) := by
  induction f generalizing n with
  | zero =>
    have : n = 0 := by simpa using h
    subst this
    exact ⟨fun _ => rfl, fun h => absurd h (by decide)⟩
  | succ f ih =>
    rw [bitlen]
    by_cases h0 : n = 0
    · subst h0
      exact ⟨fun _ => by simp, fun h => absurd h (by decide)⟩
    · rw [if_neg h0]
      refine ⟨fun e => absurd e h0, fun _ => ?_⟩
      have h2 : n / 2 < 2 ^ f := by
        rw [Nat.div_lt_iff_lt_mul (by decide)]
        rw [pow_succ] at h
        exact h
      obtain ⟨i0, i1⟩ := ih (n / 2) h2
      by_cases hh : n / 2 = 0
      · rw [i0 hh]
        have : n = 1 := by omega
        subst this
        simp
      · obtain ⟨j1, j2⟩ := i1 (Nat.pos_of_ne_zero hh)
        have hb : 0 < bitlen f (n / 2) := by
          by_contra hcon
          have : bitlen f (n / 2) = 0 := by omega
          rw [this] at j2
          omega
        constructor
        · have : bitlen f (n / 2) + 1 - 1 = (bitlen f (n / 2) - 1) + 1 := by omega
          rw [this, pow_succ]
          omega
        · rw [pow_succ]
          omega

/-- The number of digits of `q` as `ofUnits` computes it. -/
theorem Double.bitlen_self (q : Nat) :
    (q = 0 → bitlen (q + 1) q = 0) ∧
    (0 < q → 2 ^ (bitlen (q + 1) q - 1) ≤ q ∧ q < 2 ^ bitlen (q + 1) q) :=
  Double.bitlen_spec (q + 1) q (Nat.lt_trans (Nat.lt_succ_self q) (Nat.lt_two_pow (q + 1)))

theorem Double.mag_lt (d : Double) (hv : d.valid) :
    d.mag < 2 ^ 53 * 2 ^ (d.expo - 1) := by
  unfold Double.mag
  obtain ⟨_, hf⟩ := hv
  split
  · have : 0 < 2 ^ (d.expo - 1) := Nat.pow_pos (by decide)
    calc d.frac < 2 ^ 52 := hf
      _ ≤ 2 ^ 53 * 1 := by norm_num
      _ ≤ 2 ^ 53 * 2 ^ (d.expo - 1) := Nat.mul_le_mul_left _ this
  · exact Nat.mul_lt_mul_of_pos_right (by omega) (Nat.pow_pos (by decide))

/-- A magnitude of at least `2^(52+j)` units is a multiple of `2^j`. -/
theorem Double.mag_grid (d : Double) (hv : d.valid) (j : Nat) (h : 2 ^ (52 + j) ≤ d.mag) :
    2 ^ j ∣ d.mag := by
  have hlt := Double.mag_lt d hv
  have h1 : 2 ^ (52 + j) < 2 ^ (53 + (d.expo - 1)) := by
    rw [pow_add 2 53]
    exact Nat.lt_of_le_of_lt h hlt
  have h2 : 52 + j < 53 + (d.expo - 1) := (Nat.pow_lt_pow_iff_right (by decide)).mp h1
  have h3 : d.expo ≠ 0 := by
    intro e
    have hm : d.mag = d.frac := by unfold Double.mag; rw [if_pos e]
    have h4 : 2 ^ 52 ≤ 2 ^ (52 + j) := Nat.pow_le_pow_right (by decide) (by omega)
    have := hv.2
    omega
  unfold Double.mag
  rw [if_neg h3]
  exact Dvd.dvd.mul_left (pow_dvd_pow 2 (by omega)) _
theorem Double.overflow_bound (b E : Nat) :
    (2 ^ (54 + E) - 2 ^ E) * b = (2 ^ 54 - 1) * (b * 2 ^ E) := by
  rw [pow_add]
  generalize (2 : Nat) ^ E = Y
  have : 2 ^ 54 * Y - Y = (2 ^ 54 - 1) * Y := by rw [Nat.sub_mul, one_mul]
  rw [this]
  ring

/-- A quotient that rounds to `2^53` on a grid of `2^shift` with `shift > E` is at least
`2^(54+E) - 2^E`. -/
theorem Double.overflow_of_carry (a b X E shift : Nat) (hX : X = 54 + E) (hE : E + 1 ≤ shift)
    (hn2 : 2 * |((2 ^ 53 : Nat) : ℤ) * ((b * 2 ^ shift : Nat) : ℤ) - a| ≤
      ((b * 2 ^ shift : Nat) : ℤ)) :
    (2 ^ X - 2 ^ E) * b ≤ a := by
  subst hX
  have ht := @Nat.pow_le_pow_right 2 Nat.zero_lt_two (E + 1) shift hE
  have hbt := Nat.mul_le_mul_left b ht
  rw [Double.overflow_bound]
  have hX : b * 2 ^ (E + 1) = 2 * (b * 2 ^ E) := by
    rw [pow_succ]
    ring
  rw [hX] at hbt
  generalize b * 2 ^ E = X at hbt ⊢
  generalize b * 2 ^ shift = B at hbt hn2
  have h1 := le_abs_self (((2 ^ 53 : Nat) : ℤ) * (B : ℤ) - a)
  have h2 : (2 * X : ℤ) ≤ (B : ℤ) := by exact_mod_cast hbt
  have h3 : (((2 ^ 54 - 1) * X : Nat) : ℤ) ≤ (a : ℤ) := by
    push_cast at h1 hn2 ⊢
    linarith
  exact_mod_cast h3

/-- A quotient of at least `2^52` on a grid of `2^shift` with `shift ≥ E + 2` is at least
`2^(54+E) - 2^E`. -/
theorem Double.overflow_of_grid (a b X E shift : Nat) (hX : X = 54 + E) (hE : E + 2 ≤ shift)
    (hlo : 2 ^ 52 * (b * 2 ^ shift) ≤ a) : (2 ^ X - 2 ^ E) * b ≤ a := by
  subst hX
  have ht := @Nat.pow_le_pow_right 2 Nat.zero_lt_two (E + 2) shift hE
  have hbt := Nat.mul_le_mul_left b ht
  have h2 : 2 ^ 52 * (b * 2 ^ (E + 2)) ≤ 2 ^ 52 * (b * 2 ^ shift) :=
    Nat.mul_le_mul_left _ hbt
  have h3 : (2 ^ (54 + E) - 2 ^ E) * b ≤ 2 ^ 52 * (b * 2 ^ (E + 2)) := by
    have : 2 ^ 52 * (b * 2 ^ (E + 2)) = 2 ^ (54 + E) * b := by
      rw [pow_add, pow_add]
      ring
    rw [this]
    exact Nat.mul_le_mul_right b (Nat.sub_le _ _)
  exact le_trans h3 (le_trans h2 hlo)

/-- A quotient below `2^53` on a grid of `2^shift` with `shift ≤ E`, or with `shift = E + 1`
when it is not rounded up to `2^53`, is below `2^(54+E) - 2^E`. -/
theorem Double.below_overflow (a b X E shift : Nat) (hb : 0 < b) (hX : X = 54 + E)
    (hup : a < 2 ^ 53 * (b * 2 ^ shift))
    (hs : shift ≤ E ∨ (shift = E + 1 ∧ roundHalfEven a (b * 2 ^ shift) < 2 ^ 53)) :
    a < (2 ^ X - 2 ^ E) * b := by
  subst hX
  rw [Double.overflow_bound]
  have hY : 0 < b * 2 ^ E := Nat.mul_pos hb (Nat.pow_pos (by decide))
  rcases hs with hs | ⟨hs, hm⟩
  · have ht := @Nat.pow_le_pow_right 2 Nat.zero_lt_two shift E hs
    have hbt := Nat.mul_le_mul_left b ht
    generalize b * 2 ^ E = Y at hbt hY ⊢
    generalize b * 2 ^ shift = B at hbt hup
    have : 2 ^ 53 * B ≤ 2 ^ 53 * Y := Nat.mul_le_mul_left _ hbt
    omega
  · subst hs
    have hB : 0 < b * 2 ^ (E + 1) := Nat.mul_pos hb (Nat.pow_pos (by decide))
    obtain ⟨hn2, _⟩ := Double.roundHalfEven_near a (b * 2 ^ (E + 1)) hB
    have hhalf := Double.roundHalfEven_half a (b * 2 ^ (E + 1)) hB
    have hBY : b * 2 ^ (E + 1) = 2 * (b * 2 ^ E) := by
      rw [pow_succ]
      ring
    rw [hBY] at hn2 hhalf hm
    generalize b * 2 ^ E = Y at hn2 hhalf hm hY ⊢
    generalize roundHalfEven a (2 * Y) = m at hn2 hhalf hm
    by_contra hcon
    have hge : (2 ^ 54 - 1 : ℤ) * (Y : ℤ) ≤ (a : ℤ) := by
      have h0 : (2 ^ 54 - 1) * Y ≤ a := Nat.le_of_not_lt hcon
      have h1 : (((2 ^ 54 - 1) * Y : Nat) : ℤ) ≤ (a : ℤ) := by exact_mod_cast h0
      rw [Nat.cast_mul] at h1
      have h2 : ((2 ^ 54 - 1 : Nat) : ℤ) = 2 ^ 54 - 1 := by omega
      rw [h2] at h1
      exact h1
    have hYz : (0 : ℤ) < (Y : ℤ) := by exact_mod_cast hY
    have hmz : (m : ℤ) ≤ 2 ^ 53 - 1 := by omega
    have h1 := neg_le_abs ((m : ℤ) * ((2 * Y : Nat) : ℤ) - a)
    push_cast at h1 hn2 hge hhalf
    have h2 : (m : ℤ) * (Y : ℤ) ≤ (2 ^ 53 - 1) * (Y : ℤ) :=
      mul_le_mul_of_nonneg_right hmz (le_of_lt hYz)
    -- the quotient is `2^53 - 1/2`, a tie, and `m` is the odd neighbour
    have h3 : (a : ℤ) = (2 ^ 54 - 1) * (Y : ℤ) := by linarith
    have h4 : (m : ℤ) * (Y : ℤ) = (2 ^ 53 - 1) * (Y : ℤ) := by linarith
    have h5 : (m : ℤ) = 2 ^ 53 - 1 := by
      have := mul_right_cancel₀ (ne_of_gt hYz) h4
      exact this
    have h6 : m % 2 = 0 := by
      apply hhalf
      rw [h5, h3]
      have : ((2 : ℤ) ^ 53 - 1) * (2 * (Y : ℤ)) - (2 ^ 54 - 1) * (Y : ℤ) = -(Y : ℤ) := by ring
      rw [this, abs_neg, abs_of_pos hYz]
    omega

/-- The shape of `ofUnits s a b`: with `g` the spacing of the data around `a / b` and `m` the
quotient `a / (b * g)` rounded to an integer, it is the datum of magnitude `m * g`, or the
infinity when that magnitude is beyond the finite data. -/
theorem Double.ofUnits_shape (s : Bool) (a b : Nat) (hb : 0 < b) :
    ∃ shift m : Nat, m = roundHalfEven a (b * 2 ^ shift) ∧ m ≤ 2 ^ 53 ∧
      (0 < shift → 2 ^ 52 ≤ m ∧ 2 ^ (52 + shift) * b ≤ a) ∧
      ((ofUnits s a b).valid ∧ (ofUnits s a b).sign = s ∧ (ofUnits s a b).isNaN = false) ∧
      (((ofUnits s a b).finite ∧ (ofUnits s a b).mag = m * 2 ^ shift ∧
          (m % 2 = 0 → (ofUnits s a b).frac % 2 = 0) ∧ a < (2 ^ 2098 - 2 ^ 2044) * b) ∨
       (¬ (ofUnits s a b).finite ∧ (2 ^ 2098 - 2 ^ 2044) * b ≤ a)) := by
  obtain ⟨hq0, hq1⟩ := Double.bitlen_self (a / b)
  have hdm : b * (a / b) + a % b = a := Nat.div_add_mod a b
  have hmod : a % b < b := Nat.mod_lt a hb
  set q := a / b with hq
  set shift := bitlen (q + 1) q - 53 with hshift
  have hg : 0 < 2 ^ shift := Nat.pow_pos (by decide)
  have hB : 0 < b * 2 ^ shift := Nat.mul_pos hb hg
  obtain ⟨hn2, hnear⟩ := Double.roundHalfEven_near a (b * 2 ^ shift) hB
  set m := roundHalfEven a (b * 2 ^ shift) with hm
  -- the quotient has `shift + 53` digits, or at most 53 when `shift = 0`
  have hqlt : q < 2 ^ (53 + shift) := by
    rcases Nat.eq_zero_or_pos q with h | h
    · rw [h]; exact Nat.pow_pos (by decide)
    · obtain ⟨_, h2⟩ := hq1 h
      exact Nat.lt_of_lt_of_le h2 (Nat.pow_le_pow_right (by decide) (by omega))
  have hqge : 0 < shift → 2 ^ (52 + shift) ≤ q := by
    intro hs
    have hpos : 0 < q := by
      rcases Nat.eq_zero_or_pos q with h | h
      · rw [hq0 h] at hshift; omega
      · exact h
    obtain ⟨h1, _⟩ := hq1 hpos
    exact le_trans (Nat.pow_le_pow_right (by decide) (by omega)) h1
  have halt : a < (q + 1) * b := by
    have : (q + 1) * b = b * q + b := by ring
    omega
  have hage : q * b ≤ a := by
    rw [Nat.mul_comm]
    omega
  -- `a / (b * g)` lies below `2^53`, and from `2^52` on when `shift` is positive
  have hup : a < 2 ^ 53 * (b * 2 ^ shift) := by
    have h1 : (q + 1) * b ≤ 2 ^ (53 + shift) * b := Nat.mul_le_mul_right b hqlt
    rw [pow_add] at h1
    calc a < (q + 1) * b := halt
      _ ≤ 2 ^ 53 * 2 ^ shift * b := h1
      _ = 2 ^ 53 * (b * 2 ^ shift) := by ring
  have hlo : 0 < shift → 2 ^ 52 * (b * 2 ^ shift) ≤ a := by
    intro hs
    have h1 : 2 ^ (52 + shift) * b ≤ q * b := Nat.mul_le_mul_right b (hqge hs)
    rw [pow_add] at h1
    calc 2 ^ 52 * (b * 2 ^ shift) = 2 ^ 52 * 2 ^ shift * b := by ring
      _ ≤ q * b := h1
      _ ≤ a := hage
  have hm53 : m ≤ 2 ^ 53 := by
    by_contra hcon
    have h1 : (2 ^ 53 + 1) * (b * 2 ^ shift) ≤ m * (b * 2 ^ shift) :=
      Nat.mul_le_mul_right _ (by omega)
    have h2 : ((2 : ℤ) ^ 53 + 1) * ((b * 2 ^ shift : Nat) : ℤ) ≤
        (m : ℤ) * ((b * 2 ^ shift : Nat) : ℤ) := by exact_mod_cast h1
    have h3 : (a : ℤ) < (2 : ℤ) ^ 53 * ((b * 2 ^ shift : Nat) : ℤ) := by exact_mod_cast hup
    have h4 : ((b * 2 ^ shift : Nat) : ℤ) < (m : ℤ) * ((b * 2 ^ shift : Nat) : ℤ) - a := by
      linarith
    have h5 := le_abs_self ((m : ℤ) * ((b * 2 ^ shift : Nat) : ℤ) - a)
    have h6 : (0 : ℤ) < ((b * 2 ^ shift : Nat) : ℤ) := by exact_mod_cast hB
    linarith
  have hm52 : 0 < shift → 2 ^ 52 ≤ m := by
    intro hs
    by_contra hcon
    have h1 : (m + 1) * (b * 2 ^ shift) ≤ 2 ^ 52 * (b * 2 ^ shift) :=
      Nat.mul_le_mul_right _ (by omega)
    have h2 : ((m : ℤ) + 1) * ((b * 2 ^ shift : Nat) : ℤ) ≤
        (2 : ℤ) ^ 52 * ((b * 2 ^ shift : Nat) : ℤ) := by exact_mod_cast h1
    have h3 : (2 : ℤ) ^ 52 * ((b * 2 ^ shift : Nat) : ℤ) ≤ (a : ℤ) := by
      exact_mod_cast hlo hs
    have h4 : ((b * 2 ^ shift : Nat) : ℤ) ≤ -((m : ℤ) * ((b * 2 ^ shift : Nat) : ℤ) - a) := by
      linarith
    have h5 := neg_le_abs ((m : ℤ) * ((b * 2 ^ shift : Nat) : ℤ) - a)
    have h6 : (0 : ℤ) < ((b * 2 ^ shift : Nat) : ℤ) := by exact_mod_cast hB
    linarith
  have hdef : ofUnits s a b =
      if m < 2 ^ 52 then ⟨s, 0, m⟩
      else if (if m ≥ 2 ^ 53 then shift + 2 else shift + 1) ≥ 2047 then inf s
      else ⟨s, if m ≥ 2 ^ 53 then shift + 2 else shift + 1,
        (if m ≥ 2 ^ 53 then m / 2 else m) - 2 ^ 52⟩ := rfl
  refine ⟨shift, m, rfl, hm53, fun hs => ⟨hm52 hs, ?_⟩, ?_⟩
  · have := hlo hs
    rw [pow_add]
    calc 2 ^ 52 * 2 ^ shift * b = 2 ^ 52 * (b * 2 ^ shift) := by ring
      _ ≤ a := this
  rw [hdef]
  by_cases c1 : m < 2 ^ 52
  · rw [if_pos c1]
    have hs0 : shift = 0 := by
      by_contra hcon
      have := hm52 (Nat.pos_of_ne_zero hcon)
      omega
    refine ⟨⟨⟨by show 0 < 2048; decide, c1⟩, rfl, rfl⟩,
      Or.inl ⟨by show 0 < 2047; decide, ?_, fun h => h,
        Double.below_overflow a b 2098 2044 shift hb rfl hup (Or.inl (by omega))⟩⟩
    rw [hs0]
    simp [Double.mag]
  · rw [if_neg c1]
    by_cases c2 : m ≥ 2 ^ 53
    · have hmeq : m = 2 ^ 53 := by omega
      rw [if_pos c2, if_pos c2]
      by_cases c3 : shift + 2 ≥ 2047
      · rw [if_pos c3]
        refine ⟨⟨⟨by show 2047 < 2048; decide, by show 0 < 2 ^ 52; decide⟩, rfl, rfl⟩,
          Or.inr ⟨by show ¬ (2047 < 2047); decide, ?_⟩⟩
        rw [hmeq] at hn2
        exact Double.overflow_of_carry a b 2098 2044 shift rfl
          (Nat.le_of_add_le_add_right (show 2044 + 1 + 2 ≤ shift + 2 from c3)) hn2
      · rw [if_neg c3]
        refine ⟨⟨⟨by show shift + 2 < 2048; omega, by show m / 2 - 2 ^ 52 < 2 ^ 52; omega⟩, rfl, ?_⟩,
          Or.inl ⟨by show shift + 2 < 2047; omega, ?_,
            fun _ => by show (m / 2 - 2 ^ 52) % 2 = 0; omega,
            Double.below_overflow a b 2098 2044 shift hb rfl hup (Or.inl (by omega))⟩⟩
        · have : (shift + 2 == 2047) = false := beq_false_of_ne (by omega)
          show (shift + 2 == 2047 && m / 2 - 2 ^ 52 != 0) = false
          rw [this, Bool.false_and]
        · have h0 : shift + 2 ≠ 0 := by omega
          have h1 : m / 2 - 2 ^ 52 = 0 := by omega
          unfold Double.mag
          simp only [h0, if_false, h1, hmeq]
          rw [show shift + 2 - 1 = shift + 1 from rfl, pow_succ]
          ring
    · rw [if_neg c2, if_neg c2]
      by_cases c3 : shift + 1 ≥ 2047
      · rw [if_pos c3]
        have c3' : 2046 ≤ shift := Nat.le_of_add_le_add_right (show 2046 + 1 ≤ shift + 1 from c3)
        refine ⟨⟨⟨by show 2047 < 2048; decide, by show 0 < 2 ^ 52; decide⟩, rfl, rfl⟩,
          Or.inr ⟨by show ¬ (2047 < 2047); decide, ?_⟩⟩
        exact Double.overflow_of_grid a b 2098 2044 shift rfl
          (Nat.le_of_add_le_add_right (show 2044 + 2 + 1 ≤ shift + 1 from c3))
          (hlo (Nat.lt_of_lt_of_le (by decide) c3'))
      · rw [if_neg c3]
        refine ⟨⟨⟨by show shift + 1 < 2048; omega, by show m - 2 ^ 52 < 2 ^ 52; omega⟩, rfl, ?_⟩,
          Or.inl ⟨by show shift + 1 < 2047; omega, ?_,
            fun h => by show (m - 2 ^ 52) % 2 = 0; omega,
            Double.below_overflow a b 2098 2044 shift hb rfl hup
              (by
                rcases Nat.lt_or_ge shift 2045 with h | h
                · exact Or.inl (by omega)
                · exact Or.inr ⟨by omega, by rw [← hm]; omega⟩)⟩⟩
        · have : (shift + 1 == 2047) = false := beq_false_of_ne (by omega)
          show (shift + 1 == 2047 && m - 2 ^ 52 != 0) = false
          rw [this, Bool.false_and]
        · have h0 : shift + 1 ≠ 0 := by omega
          have h1 : 2 ^ 52 + (m - 2 ^ 52) = m := by omega
          unfold Double.mag
          simp only [h0, if_false, h1]
          rfl

/-- Among the finite data none is nearer to `a / b` units than `ofUnits s a b`, when that
is finite. -/
theorem Double.ofUnits_nearest (s : Bool) (a b : Nat) (hb : 0 < b)
    (hf : (ofUnits s a b).finite) (d : Double) (hd : d.valid) :
    |((ofUnits s a b).mag : ℤ) * b - a| ≤ |(d.mag : ℤ) * b - a| := by
  obtain ⟨shift, m, hm, hm53, hpos, _, hshape⟩ := Double.ofUnits_shape s a b hb
  rcases hshape with ⟨_, hmag, _⟩ | ⟨hnf, _⟩
  swap
  · exact absurd hf hnf
  have hB : 0 < b * 2 ^ shift := Nat.mul_pos hb (Nat.pow_pos (by decide))
  obtain ⟨_, hnear⟩ := Double.roundHalfEven_near a (b * 2 ^ shift) hB
  rw [← hm] at hnear
  have e1 : ((ofUnits s a b).mag : ℤ) * b - a = (m : ℤ) * ((b * 2 ^ shift : Nat) : ℤ) - a := by
    rw [hmag]
    push_cast
    ring
  rw [e1]
  by_cases hdvd : 2 ^ shift ∣ d.mag
  · obtain ⟨k, hk⟩ := hdvd
    have e2 : (d.mag : ℤ) * b - a = (k : ℤ) * ((b * 2 ^ shift : Nat) : ℤ) - a := by
      rw [hk]
      push_cast
      ring
    rw [e2]
    exact hnear k
  · have hs : 0 < shift := by
      rcases Nat.eq_zero_or_pos shift with h | h
      · rw [h, pow_zero] at hdvd
        exact absurd (one_dvd d.mag) hdvd
      · exact h
    have hlt : d.mag < 2 ^ (52 + shift) := by
      by_contra hcon
      exact hdvd (Double.mag_grid d hd shift (Nat.le_of_not_lt hcon))
    obtain ⟨_, hlo⟩ := hpos hs
    have h1 := hnear (2 ^ 52)
    have e3 : (((2 ^ 52 : Nat) : ℤ) * ((b * 2 ^ shift : Nat) : ℤ) - a) =
        -(((a - 2 ^ (52 + shift) * b : Nat) : ℤ)) := by
      rw [Nat.cast_sub hlo, pow_add]
      push_cast
      ring
    rw [e3, abs_neg, abs_of_nonneg (Int.natCast_nonneg _)] at h1
    have h2 : d.mag * b ≤ 2 ^ (52 + shift) * b := Nat.mul_le_mul_right b (Nat.le_of_lt hlt)
    have e4 : (d.mag : ℤ) * b - a = -(((a - d.mag * b : Nat) : ℤ)) := by
      rw [Nat.cast_sub (le_trans h2 hlo)]
      push_cast
      ring
    rw [e4, abs_neg, abs_of_nonneg (Int.natCast_nonneg _)]
    refine le_trans h1 ?_
    exact_mod_cast Nat.sub_le_sub_left h2 a
/-- When another datum, of either sign, is as near to `a / b` units as `ofUnits s a b`, the
fraction field of `ofUnits s a b` is even. -/
theorem Double.ofUnits_tie (s : Bool) (a b : Nat) (hb : 0 < b)
    (hf : (ofUnits s a b).finite) (d : Double) (hd : d.valid) (σ : ℤ) (hσ : σ = 1 ∨ σ = -1)
    (he : |σ * d.mag * b - a| = |((ofUnits s a b).mag : ℤ) * b - a|)
    (hne : σ * d.mag ≠ ((ofUnits s a b).mag : ℤ)) :
    (ofUnits s a b).frac % 2 = 0 := by
  obtain ⟨shift, m, hm, hm53, hpos, _, hshape⟩ := Double.ofUnits_shape s a b hb
  rcases hshape with ⟨_, hmag, hpar, _⟩ | ⟨hnf, _⟩
  swap
  · exact absurd hf hnf
  apply hpar
  have hB : 0 < b * 2 ^ shift := Nat.mul_pos hb (Nat.pow_pos (by decide))
  obtain ⟨_, hnear⟩ := Double.roundHalfEven_near a (b * 2 ^ shift) hB
  rw [← hm] at hnear
  have e1 : ((ofUnits s a b).mag : ℤ) * b - a = (m : ℤ) * ((b * 2 ^ shift : Nat) : ℤ) - a := by
    rw [hmag]
    push_cast
    ring
  rw [e1] at he
  by_cases hdvd : 2 ^ shift ∣ d.mag
  · obtain ⟨k, hk⟩ := hdvd
    have e2 : σ * (d.mag : ℤ) * b - a = (σ * k) * ((b * 2 ^ shift : Nat) : ℤ) - a := by
      rw [hk]
      push_cast
      ring
    rw [e2] at he
    rw [hm]
    refine Double.roundHalfEven_tie a (b * 2 ^ shift) hB (σ * k) ?_ (by rw [← hm]; exact he)
    rw [← hm]
    intro hcon
    apply hne
    rw [hmag, hk]
    push_cast
    rw [← hcon]
    ring
  · exfalso
    have hs : 0 < shift := by
      rcases Nat.eq_zero_or_pos shift with h | h
      · rw [h, pow_zero] at hdvd
        exact absurd (one_dvd d.mag) hdvd
      · exact h
    have hlt : d.mag < 2 ^ (52 + shift) := by
      by_contra hcon
      exact hdvd (Double.mag_grid d hd shift (Nat.le_of_not_lt hcon))
    obtain ⟨_, hlo⟩ := hpos hs
    have h1 := hnear (2 ^ 52)
    have e3 : (((2 ^ 52 : Nat) : ℤ) * ((b * 2 ^ shift : Nat) : ℤ) - a) =
        -(((a - 2 ^ (52 + shift) * b : Nat) : ℤ)) := by
      rw [Nat.cast_sub hlo, pow_add]
      push_cast
      ring
    rw [e3, abs_neg, abs_of_nonneg (Int.natCast_nonneg _), ← he, Nat.cast_sub hlo] at h1
    have h2 : d.mag * b < 2 ^ (52 + shift) * b := Nat.mul_lt_mul_of_pos_right hlt hb
    have h2z : ((d.mag : ℤ)) * b < ((2 ^ (52 + shift) * b : Nat) : ℤ) := by exact_mod_cast h2
    have h3 : (a : ℤ) - (d.mag : ℤ) * b ≤ |σ * d.mag * b - a| := by
      have hnn : (0 : ℤ) ≤ (d.mag : ℤ) * b := by positivity
      rcases hσ with h | h
      · rw [h, one_mul]
        have := neg_le_abs ((d.mag : ℤ) * b - a)
        linarith
      · rw [h]
        have := neg_le_abs (-1 * (d.mag : ℤ) * b - a)
        linarith
    linarith

/-- The number a datum stands for, from its magnitude in units of `2^-1074`. -/
theorem Double.real_eq (d : Double) :
    d.real = (if d.sign then -1 else 1) * ((d.mag : ℚ) / 2 ^ 1074) := by
  unfold Double.real Double.mag
  congr 1
  by_cases h : d.expo = 0
  · rw [if_pos h, if_pos h, zpow_neg, zpow_ofNat, div_eq_mul_inv]
  · rw [if_neg h, if_neg h]
    have e : (d.expo : ℤ) - 1075 = ((d.expo - 1 : Nat) : ℤ) - 1074 := by omega
    rw [e, zpow_sub₀ (by norm_num : (2 : ℚ) ≠ 0), zpow_natCast, zpow_ofNat]
    push_cast
    ring
theorem Double.sign_factor_abs (s : Bool) : |(if s = true then (-1 : ℚ) else 1)| = 1 := by
  cases s <;> simp

theorem Double.sign_factor_flip (s t : Bool) (h : t ≠ s) :
    (if t = true then (-1 : ℚ) else 1) = -(if s = true then -1 else 1) := by
  cases s <;> cases t <;> simp_all

/-- The overflow bound, from units of `2^-W` to numbers. -/
theorem Double.threshold_units (a b P E X T W : Nat) (hb : 0 < b) (hP : P = X + W)
    (hE : E = T + W) (hTX : T ≤ X) (h : (2 ^ P - 2 ^ E) * b ≤ a) :
    (2 : ℚ) ^ X - 2 ^ T ≤ ((a : ℚ) / b) / 2 ^ W := by
  subst hP hE
  have hbq : (0 : ℚ) < b := by exact_mod_cast hb
  have hW : (0 : ℚ) < 2 ^ W := pow_pos (by norm_num) _
  have hle : 2 ^ (T + W) ≤ 2 ^ (X + W) := Nat.pow_le_pow_right (by decide) (by omega)
  have hq : (((2 ^ (X + W) - 2 ^ (T + W)) * b : Nat) : ℚ) ≤ (a : ℚ) := by exact_mod_cast h
  rw [Nat.cast_mul, Nat.cast_sub hle] at hq
  push_cast at hq
  rw [le_div_iff₀ hW, le_div_iff₀ hbq]
  calc ((2 : ℚ) ^ X - 2 ^ T) * 2 ^ W * b = (2 ^ (X + W) - 2 ^ (T + W)) * b := by
        rw [pow_add, pow_add]; ring
    _ ≤ a := hq

/-- The overflow bound from the other side. -/
theorem Double.below_threshold_units (a b P E X T W : Nat) (hb : 0 < b) (hP : P = X + W)
    (hE : E = T + W) (hTX : T ≤ X) (h : a < (2 ^ P - 2 ^ E) * b) :
    ((a : ℚ) / b) / 2 ^ W < (2 : ℚ) ^ X - 2 ^ T := by
  subst hP hE
  have hbq : (0 : ℚ) < b := by exact_mod_cast hb
  have hW : (0 : ℚ) < 2 ^ W := pow_pos (by norm_num) _
  have hle : 2 ^ (T + W) ≤ 2 ^ (X + W) := Nat.pow_le_pow_right (by decide) (by omega)
  have hq : (a : ℚ) < (((2 ^ (X + W) - 2 ^ (T + W)) * b : Nat) : ℚ) := by exact_mod_cast h
  rw [Nat.cast_mul, Nat.cast_sub hle] at hq
  push_cast at hq
  rw [div_lt_iff₀ hW, div_lt_iff₀ hbq]
  calc (a : ℚ) < (2 ^ (X + W) - 2 ^ (T + W)) * b := hq
    _ = ((2 : ℚ) ^ X - 2 ^ T) * 2 ^ W * b := by
        rw [pow_add, pow_add]; ring

theorem Double.ofUnits_nearest_rat (s : Bool) (a b : Nat) (hb : 0 < b)
    (hf : (ofUnits s a b).finite) (d : Double) (hd : d.valid) :
    |((ofUnits s a b).mag : ℚ) - (a : ℚ) / b| ≤ |(d.mag : ℚ) - (a : ℚ) / b| := by
  have h := Double.ofUnits_nearest s a b hb hf d hd
  have hbq : (0 : ℚ) < b := by exact_mod_cast hb
  have key : ∀ n : Nat, |(n : ℚ) - (a : ℚ) / b| = ((|(n : ℤ) * b - a| : ℤ) : ℚ) / b := by
    intro n
    rw [Int.cast_abs]
    push_cast
    rw [eq_div_iff (ne_of_gt hbq), ← abs_of_pos hbq, ← abs_mul, abs_of_pos hbq]
    congr 1
    field_simp
  rw [key, key]
  exact div_le_div_of_nonneg_right (by exact_mod_cast h) (le_of_lt hbq)

/-- `ofUnits s a b` is the exact quotient `a / b`, taken in units of `2^-1074` and with the
sign `s`, rounded to a datum. -/
theorem Double.ofUnits_rounds (s : Bool) (a b : Nat) (hb : 0 < b) :
    Double.rounds ((if s then -1 else 1) * (((a : ℚ) / b) / 2 ^ 1074)) (ofUnits s a b) := by
  obtain ⟨shift, m, hm, hm53, hpos, ⟨hval, hsign, hnan⟩, hshape⟩ := Double.ofUnits_shape s a b hb
  have hbq : (0 : ℚ) < b := by exact_mod_cast hb
  have hU : (0 : ℚ) < 2 ^ 1074 := pow_pos (by norm_num) _
  have hx : (0 : ℚ) ≤ (a : ℚ) / b := div_nonneg (Nat.cast_nonneg _) (le_of_lt hbq)
  generalize hxe : (a : ℚ) / b = x at hx
  generalize hUe : (2 : ℚ) ^ 1074 = U at hU
  refine ⟨hval, fun hf => ⟨?_, fun d hd _ => ?_, fun d hd _ he hne => ?_, ?_, ?_⟩,
    fun hnf => ?_⟩
  · rcases hshape with ⟨_, _, _, hlt⟩ | ⟨hnf, _⟩
    swap
    · exact absurd hf hnf
    have hthr := Double.below_threshold_units a b 2098 2044 1024 970 1074 hb rfl rfl
      (by decide) hlt
    rw [hxe, hUe] at hthr
    have hxu : (0 : ℚ) ≤ x / U := div_nonneg hx (le_of_lt hU)
    rw [abs_mul, Double.sign_factor_abs, one_mul, abs_of_nonneg hxu]
    exact hthr
  · have hc := Double.ofUnits_nearest_rat s a b hb hf
    rw [hxe] at hc
    rw [Double.real_eq, Double.real_eq, hsign, hUe]
    have h0 := hc ⟨false, 0, 0⟩ ⟨by decide, by decide⟩
    have hz : ((⟨false, 0, 0⟩ : Double).mag : ℚ) = 0 := by
      simp [Double.mag]
    rw [hz, zero_sub, abs_neg, abs_of_nonneg hx] at h0
    have hd1 := hc d hd
    have lhs : |(if s = true then (-1 : ℚ) else 1) * (((ofUnits s a b).mag : ℚ) / U) -
        (if s = true then -1 else 1) * (x / U)| = |((ofUnits s a b).mag : ℚ) - x| / U := by
      rw [← mul_sub, abs_mul, ← sub_div, abs_div, abs_of_pos hU]
      rw [Double.sign_factor_abs, one_mul]
    rw [lhs]
    by_cases hs : d.sign = s
    · rw [hs, ← mul_sub, abs_mul, ← sub_div, abs_div, abs_of_pos hU]
      rw [Double.sign_factor_abs, one_mul]
      exact div_le_div_of_nonneg_right hd1 (le_of_lt hU)
    · rw [Double.sign_factor_flip s d.sign hs, neg_mul, ← neg_add', abs_neg, ← mul_add,
        abs_mul, ← add_div, abs_div, abs_of_pos hU, Double.sign_factor_abs, one_mul]
      have hmd : (0 : ℚ) ≤ (d.mag : ℚ) := Nat.cast_nonneg _
      rw [abs_of_nonneg (add_nonneg hmd hx)]
      exact div_le_div_of_nonneg_right (by linarith) (le_of_lt hU)
  · have hxb : x * (b : ℚ) = a := by
      rw [← hxe]
      field_simp
    rw [Double.real_eq, Double.real_eq (ofUnits s a b), hsign, hUe] at he hne
    obtain ⟨σ, hσ, hσd⟩ : ∃ σ : ℤ, (σ = 1 ∨ σ = -1) ∧
        (if d.sign = true then (-1 : ℚ) else 1) =
          (if s = true then (-1 : ℚ) else 1) * (σ : ℚ) := by
      by_cases hs : d.sign = s
      · exact ⟨1, Or.inl rfl, by rw [hs]; simp⟩
      · exact ⟨-1, Or.inr rfl, by rw [Double.sign_factor_flip s d.sign hs]; simp⟩
    rw [hσd] at he hne
    have hss : |(if s = true then (-1 : ℚ) else 1)| = 1 := Double.sign_factor_abs s
    have e1 : (if s = true then (-1 : ℚ) else 1) * (σ : ℚ) * ((d.mag : ℚ) / U) -
        (if s = true then (-1 : ℚ) else 1) * (x / U) =
        (if s = true then (-1 : ℚ) else 1) * (((σ : ℚ) * d.mag - x) / U) := by ring
    have e2 : (if s = true then (-1 : ℚ) else 1) * (((ofUnits s a b).mag : ℚ) / U) -
        (if s = true then (-1 : ℚ) else 1) * (x / U) =
        (if s = true then (-1 : ℚ) else 1) * ((((ofUnits s a b).mag : ℚ) - x) / U) := by ring
    rw [e1, e2, abs_mul, abs_mul, hss, one_mul, one_mul, abs_div, abs_div, abs_of_pos hU] at he
    have he2 : |(σ : ℚ) * d.mag - x| = |((ofUnits s a b).mag : ℚ) - x| :=
      (div_left_inj' (ne_of_gt hU)).mp he
    have hmul : ∀ y : ℚ, |y * b - x * b| = |y - x| * b := by
      intro y
      rw [← sub_mul, abs_mul, abs_of_pos hbq]
    have he3 : |(σ : ℚ) * d.mag * b - a| = |((ofUnits s a b).mag : ℚ) * b - a| := by
      rw [← hxb, hmul, hmul, he2]
    refine Double.ofUnits_tie s a b hb hf d hd σ hσ (by exact_mod_cast he3) ?_
    intro hcon
    apply hne
    have : (σ : ℚ) * d.mag = ((ofUnits s a b).mag : ℚ) := by exact_mod_cast hcon
    rw [← this]
    ring
  · intro hq
    rw [hsign]
    cases s with
    | true => rfl
    | false =>
      exfalso
      have : (0 : ℚ) ≤ x / U := div_nonneg hx (le_of_lt hU)
      simp at hq
      linarith
  · intro hq
    rw [hsign]
    cases s with
    | false => rfl
    | true =>
      exfalso
      have : (0 : ℚ) ≤ x / U := div_nonneg hx (le_of_lt hU)
      simp at hq
      linarith
  · rcases hshape with ⟨hf, _⟩ | ⟨_, hov⟩
    · exact absurd hf hnf
    have hthr := Double.threshold_units a b 2098 2044 1024 970 1074 hb rfl rfl (by decide) hov
    rw [hxe, hUe] at hthr
    have hpos : (0 : ℚ) < 2 ^ 1024 - 2 ^ 970 := by
      have : (2 : ℚ) ^ 970 < 2 ^ 1024 := pow_lt_pow_right₀ (by norm_num) (by decide)
      linarith
    have hxu : (0 : ℚ) < x / U := lt_of_lt_of_le hpos hthr
    rw [abs_mul, Double.sign_factor_abs, one_mul, abs_of_pos hxu, hsign]
    have hinf : (ofUnits s a b).is_inf := by
      have he : (ofUnits s a b).expo = 2047 := by
        have h1 := hval.1
        have h2 : ¬ (ofUnits s a b).expo < 2047 := hnf
        omega
      refine ⟨he, ?_⟩
      by_contra hfr
      have : (ofUnits s a b).isNaN = true := by
        simp [Double.isNaN, he, hfr]
      rw [hnan] at this
      cases this
    refine ⟨hinf, hthr, ?_⟩
    cases s with
    | true => simp [hxu]
    | false =>
      simp only [Bool.false_eq_true, if_false, one_mul, false_iff, not_lt]
      exact le_of_lt hxu

theorem Double.isNaN_iff (d : Double) : d.isNaN = true ↔ d.is_nan := by
  simp [Double.isNaN, Double.is_nan]

theorem Double.isInf_iff (d : Double) : d.isInf = true ↔ d.is_inf := by
  simp [Double.isInf, Double.is_inf]

theorem Double.isNaN_of_finite {d : Double} (h : d.finite) : d.isNaN = false := by
  have : d.expo ≠ 2047 := Nat.ne_of_lt h
  simp [Double.isNaN, this]

theorem Double.isInf_of_finite {d : Double} (h : d.finite) : d.isInf = false := by
  have : d.expo ≠ 2047 := Nat.ne_of_lt h
  simp [Double.isInf, this]

theorem Double.isNaN_of_is_inf {d : Double} (h : d.is_inf) : d.isNaN = false := by
  simp [Double.isNaN, h.1, h.2]

theorem Double.not_finite_of_is_inf {d : Double} (h : d.is_inf) : ¬ d.finite := by
  unfold Double.finite
  rw [h.1]
  decide

theorem Double.not_finite_of_is_nan {d : Double} (h : d.is_nan) : ¬ d.finite := by
  unfold Double.finite
  rw [h.1]
  decide

theorem Double.sign_factor_ne_zero (s : Bool) : (if s = true then (-1 : ℚ) else 1) ≠ 0 := by
  cases s <;> simp

theorem Double.and_of_ne {s t : Bool} (h : ¬ s = t) : (s && t) = false := by
  cases s <;> cases t <;> first | rfl | exact absurd rfl h

theorem Double.mag_eq_zero_iff (d : Double) : d.mag = 0 ↔ d.is_zero := by
  unfold Double.mag Double.is_zero
  by_cases h : d.expo = 0
  · simp [h]
  · have : 0 < (2 ^ 52 + d.frac) * 2 ^ (d.expo - 1) :=
      Nat.mul_pos (by positivity) (Nat.pow_pos (by decide))
    simp only [h, if_false, false_and, iff_false]
    omega

/-- The rounding of `ofUnits`, for an exact result given as a number. -/
theorem Double.ofUnits_rounds_of (s : Bool) (a b : Nat) (hb : 0 < b) (q : ℚ)
    (hq : q = (if s then -1 else 1) * (((a : ℚ) / b) / 2 ^ 1074)) :
    Double.rounds q (ofUnits s a b) := by
  rw [hq]
  exact Double.ofUnits_rounds s a b hb

theorem Double.ofUnits_sign (s : Bool) (a b : Nat) (hb : 0 < b) : (ofUnits s a b).sign = s := by
  obtain ⟨_, _, _, _, _, ⟨_, h, _⟩, _⟩ := Double.ofUnits_shape s a b hb
  exact h

theorem Double.add_is_sum (a b : Double) (_ha : a.valid) (_hb : b.valid) :
    Double.is_sum a b (add a b) := by
  refine ⟨?_, ?_, ?_, ?_, ?_⟩
  · rintro (h | h)
    · have := (Double.isNaN_iff a).mpr h
      simp only [Double.add, this, if_true]
      exact h
    · have hb1 := (Double.isNaN_iff b).mpr h
      by_cases h1 : a.isNaN = true
      · simp only [Double.add, h1, if_true]
        exact (Double.isNaN_iff a).mp h1
      · simp only [Double.add, h1, hb1, if_true, if_false, Bool.false_eq_true]
        exact h
  · intro h1 h2
    have n1 := Double.isNaN_of_is_inf h1
    have n2 := Double.isNaN_of_is_inf h2
    have i1 := (Double.isInf_iff a).mpr h1
    have i2 := (Double.isInf_iff b).mpr h2
    constructor
    · intro hs
      simp [Double.add, n1, n2, i1, i2, hs]
    · intro hs
      simp only [Double.add, n1, n2, i1, i2, if_true, if_false, Bool.false_eq_true,
        Bool.true_and]
      have : (a.sign != b.sign) = true := by simpa using hs
      rw [this, if_pos rfl]
      exact ⟨rfl, by decide⟩
  · intro h1 h2
    have n1 := Double.isNaN_of_is_inf h1
    have n2 := Double.isNaN_of_finite h2
    have i1 := (Double.isInf_iff a).mpr h1
    have i2 := Double.isInf_of_finite h2
    simp [Double.add, n1, n2, i1, i2]
  · intro h1 h2
    have n1 := Double.isNaN_of_finite h1
    have n2 := Double.isNaN_of_is_inf h2
    have i1 := Double.isInf_of_finite h1
    have i2 := (Double.isInf_iff b).mpr h2
    simp [Double.add, n1, n2, i1, i2]
  · intro h1 h2
    have n1 := Double.isNaN_of_finite h1
    have n2 := Double.isNaN_of_finite h2
    have i1 := Double.isInf_of_finite h1
    have i2 := Double.isInf_of_finite h2
    have hdef : add a b =
        if a.sign = b.sign then ofUnits a.sign (a.mag + b.mag) 1
        else if a.mag > b.mag then ofUnits a.sign (a.mag - b.mag) 1
        else if a.mag < b.mag then ofUnits b.sign (b.mag - a.mag) 1
        else zero := by
      simp only [Double.add, n1, n2, i1, i2, if_false, Bool.false_eq_true]
    have key : ∀ (s : Bool) (n : Nat) (q : ℚ),
        q = (if s then -1 else 1) * ((n : ℚ) / 2 ^ 1074) → Double.rounds q (ofUnits s n 1) :=
      fun s n q hq => Double.ofUnits_rounds_of s n 1 Nat.one_pos q
        (by rw [hq, Nat.cast_one, div_one])
    have hUpos : (0 : ℚ) < 2 ^ 1074 := pow_pos (by norm_num) _
    rw [hdef, Double.real_eq a, Double.real_eq b]
    generalize (2 : ℚ) ^ 1074 = U at key hUpos ⊢
    have hne : ∀ x y : ℚ, (if a.sign = true then (-1 : ℚ) else 1) * (x / U) +
        -(if a.sign = true then (-1 : ℚ) else 1) * (y / U) = 0 → x = y := by
      intro x y h0
      have h3 : (if a.sign = true then (-1 : ℚ) else 1) * ((x - y) / U) = 0 := by
        rw [← h0]; ring
      rcases mul_eq_zero.mp h3 with h4 | h4
      · exact absurd h4 (Double.sign_factor_ne_zero _)
      · rcases div_eq_zero_iff.mp h4 with h5 | h5
        · linarith
        · exact absurd h5 (ne_of_gt hUpos)
    by_cases hs : a.sign = b.sign
    · rw [if_pos hs]
      refine ⟨key _ _ _ ?_, fun _ => ?_⟩
      · rw [hs]
        push_cast
        ring
      · rw [Double.ofUnits_sign _ _ _ Nat.one_pos, hs, Bool.and_self]
    · rw [if_neg hs]
      have hflip := Double.sign_factor_flip a.sign b.sign (fun h => hs h.symm)
      by_cases h1 : a.mag > b.mag
      · rw [if_pos h1]
        refine ⟨key _ _ _ ?_, fun h0 => ?_⟩
        · rw [hflip, Nat.cast_sub (le_of_lt h1)]
          ring
        · exfalso
          rw [hflip] at h0
          have := hne _ _ h0
          have h2 : a.mag = b.mag := by exact_mod_cast this
          omega
      · rw [if_neg h1]
        by_cases h2 : a.mag < b.mag
        · rw [if_pos h2]
          refine ⟨key _ _ _ ?_, fun h0 => ?_⟩
          · rw [hflip, Nat.cast_sub (le_of_lt h2)]
            ring
          · exfalso
            rw [hflip] at h0
            have := hne _ _ h0
            have h2 : a.mag = b.mag := by exact_mod_cast this
            omega
        · rw [if_neg h2]
          have he : a.mag = b.mag := by omega
          have hz : zero = ofUnits false 0 1 := by decide
          refine ⟨?_, fun _ => ?_⟩
          · rw [hz]
            refine key _ _ _ ?_
            rw [hflip, he]
            simp
          · show false = (a.sign && b.sign)
            exact (Double.and_of_ne hs).symm
theorem Double.real_neg (b : Double) : (neg b).real = -b.real := by
  rw [Double.real_eq, Double.real_eq]
  have hm : (neg b).mag = b.mag := rfl
  have hs : (neg b).sign = !b.sign := rfl
  rw [hm, hs]
  cases b.sign <;> simp

theorem Double.sub_is_difference (a b : Double) (ha : a.valid) (hb : b.valid) :
    Double.is_difference a b (sub a b) := by
  have hnb : (neg b).valid := hb
  obtain ⟨s1, s2, s3, s4, s5⟩ := Double.add_is_sum a (neg b) ha hnb
  have hnan : (neg b).is_nan ↔ b.is_nan := Iff.rfl
  have hinf : (neg b).is_inf ↔ b.is_inf := Iff.rfl
  have hfin : (neg b).finite ↔ b.finite := Iff.rfl
  by_cases hbn : b.isNaN = true
  · have hbn2 := (Double.isNaN_iff b).mp hbn
    have hc : (sub a b).is_nan := by
      unfold Double.sub
      rw [if_pos hbn]
      by_cases han : a.isNaN = true
      · rw [if_pos han]; exact (Double.isNaN_iff a).mp han
      · rw [if_neg han]; exact hbn2
    refine ⟨fun _ => hc, fun _ h => ?_, fun _ h => ?_, fun _ h => ?_, fun _ h => ?_⟩
    · exact absurd hbn2.2 (by rw [h.2]; exact fun h => h rfl)
    · exact absurd h (Double.not_finite_of_is_nan hbn2)
    · exact absurd hbn2.2 (by rw [h.2]; exact fun h => h rfl)
    · exact absurd h (Double.not_finite_of_is_nan hbn2)
  · have hdef : sub a b = add a (neg b) := by
      unfold Double.sub
      rw [if_neg hbn]
    rw [hdef]
    refine ⟨fun h => s1 h, fun h1 h2 => ?_, fun h1 h2 => s3 h1 h2, fun h1 h2 => ?_,
      fun h1 h2 => ?_⟩
    · obtain ⟨t1, t2⟩ := s2 h1 h2
      constructor
      · intro hs
        apply t1
        show a.sign = !b.sign
        cases hsa : a.sign <;> cases hsb : b.sign <;> first | rfl | exact absurd (hsa.trans hsb.symm) hs
      · intro hs
        apply t2
        show a.sign ≠ !b.sign
        rw [hs]
        cases b.sign <;> decide
    · rw [s4 h1 h2]
      exact ⟨h2, rfl⟩
    · obtain ⟨t1, t2⟩ := s5 h1 h2
      rw [Double.real_neg, ← sub_eq_add_neg] at t1 t2
      exact ⟨t1, t2⟩
theorem Double.sign_factor_mul (s t : Bool) :
    (if s = true then (-1 : ℚ) else 1) * (if t = true then (-1 : ℚ) else 1) =
      if (s != t) = true then -1 else 1 := by
  cases s <;> cases t <;> simp

theorem Double.is_nan_nan : nan.is_nan := ⟨rfl, by decide⟩

theorem Double.is_inf_inf (s : Bool) : (inf s).is_inf := ⟨rfl, rfl⟩

theorem Double.not_zero_of_is_inf {d : Double} (h : d.is_inf) : ¬ d.is_zero := by
  intro hz
  have := h.1
  rw [hz.1] at this
  cases this

theorem Double.finite_of_is_zero {d : Double} (h : d.is_zero) : d.finite := by
  unfold Double.finite
  rw [h.1]
  decide

theorem Double.cast_unit : (((2 : Nat) ^ 1074 : Nat) : ℚ) = (2 : ℚ) ^ 1074 := by
  rw [Nat.cast_pow]
  rfl

theorem Double.mul_is_product (a b : Double) (_ha : a.valid) (_hb : b.valid) :
    Double.is_product a b (mul a b) := by
  have nan_case : a.is_nan ∨ b.is_nan → (mul a b).is_nan := by
    rintro (h | h)
    · have := (Double.isNaN_iff a).mpr h
      simp only [Double.mul, this, if_true]
      exact h
    · have hb1 := (Double.isNaN_iff b).mpr h
      by_cases h1 : a.isNaN = true
      · simp only [Double.mul, h1, if_true]
        exact (Double.isNaN_iff a).mp h1
      · simp only [Double.mul, h1, hb1, if_true, if_false, Bool.false_eq_true]
        exact h
  have inf_case : ∀ (hna : ¬ a.is_nan) (hnb : ¬ b.is_nan), a.is_inf ∨ b.is_inf →
      mul a b = if a.mag = 0 || b.mag = 0 then nan else inf (a.sign != b.sign) := by
    intro hna hnb h
    have n1 : a.isNaN = false := by
      rw [← Bool.not_eq_true]; exact fun h => hna ((Double.isNaN_iff a).mp h)
    have n2 : b.isNaN = false := by
      rw [← Bool.not_eq_true]; exact fun h => hnb ((Double.isNaN_iff b).mp h)
    have i : (a.isInf || b.isInf) = true := by
      rcases h with h | h
      · rw [(Double.isInf_iff a).mpr h]; rfl
      · rw [(Double.isInf_iff b).mpr h, Bool.or_true]
    simp only [Double.mul, n1, n2, i, if_true, if_false, Bool.false_eq_true]
  have nn : ∀ {d : Double}, d.is_inf → ¬ d.is_nan := fun h hn => hn.2 h.2
  have nz : ∀ {d : Double}, d.is_zero → ¬ d.is_nan := fun h hn => by
    have := hn.1; rw [h.1] at this; cases this
  refine ⟨nan_case, fun h1 h2 => ?_, fun h1 h2 => ?_, fun h1 h2 h3 => ?_, fun h1 h2 h3 => ?_,
    fun h1 h2 => ?_⟩
  · rw [inf_case (nn h1) (nz h2) (Or.inl h1)]
    have : b.mag = 0 := (Double.mag_eq_zero_iff b).mpr h2
    simp only [this, decide_True, Bool.or_true, if_true]
    exact Double.is_nan_nan
  · rw [inf_case (nz h1) (nn h2) (Or.inr h2)]
    have : a.mag = 0 := (Double.mag_eq_zero_iff a).mpr h1
    simp only [this, decide_True, Bool.true_or, if_true]
    exact Double.is_nan_nan
  · rw [inf_case (nn h1) h2 (Or.inl h1)]
    have z1 : a.mag ≠ 0 := fun h => Double.not_zero_of_is_inf h1 ((Double.mag_eq_zero_iff a).mp h)
    have z2 : b.mag ≠ 0 := fun h => h3 ((Double.mag_eq_zero_iff b).mp h)
    simp only [z1, z2, decide_False, Bool.or_self, Bool.false_eq_true, if_false]
    exact ⟨Double.is_inf_inf _, rfl⟩
  · rw [inf_case h1 (nn h3) (Or.inr h3)]
    have z1 : a.mag ≠ 0 := fun h => h2 ((Double.mag_eq_zero_iff a).mp h)
    have z2 : b.mag ≠ 0 := fun h => Double.not_zero_of_is_inf h3 ((Double.mag_eq_zero_iff b).mp h)
    simp only [z1, z2, decide_False, Bool.or_self, Bool.false_eq_true, if_false]
    exact ⟨Double.is_inf_inf _, rfl⟩
  · have n1 := Double.isNaN_of_finite h1
    have n2 := Double.isNaN_of_finite h2
    have i1 := Double.isInf_of_finite h1
    have i2 := Double.isInf_of_finite h2
    have hdef : mul a b = ofUnits (a.sign != b.sign) (a.mag * b.mag) (2 ^ 1074) := by
      simp only [Double.mul, n1, n2, i1, i2, if_false, Bool.false_eq_true, Bool.or_self]
    have hpos := @Nat.pow_pos 2 1074 Nat.zero_lt_two
    have hWq := Double.cast_unit
    rw [hdef]
    generalize (2 : Nat) ^ 1074 = W at hpos hWq ⊢
    refine ⟨Double.ofUnits_rounds_of _ _ _ hpos _ ?_, Double.ofUnits_sign _ _ _ hpos⟩
    rw [Double.real_eq a, Double.real_eq b, ← Double.sign_factor_mul, hWq]
    push_cast
    generalize (2 : ℚ) ^ 1074 = U
    ring
theorem Double.sign_factor_div (s t : Bool) :
    (if s = true then (-1 : ℚ) else 1) / (if t = true then (-1 : ℚ) else 1) =
      if (s != t) = true then -1 else 1 := by
  cases s <;> cases t <;> simp

theorem Double.div_is_quotient (a b : Double) (_ha : a.valid) (_hb : b.valid) :
    Double.is_quotient a b (div a b) := by
  have nan_case : a.is_nan ∨ b.is_nan → (div a b).is_nan := by
    rintro (h | h)
    · have := (Double.isNaN_iff a).mpr h
      simp only [Double.div, this, if_true]
      exact h
    · have hb1 := (Double.isNaN_iff b).mpr h
      by_cases h1 : a.isNaN = true
      · simp only [Double.div, h1, if_true]
        exact (Double.isNaN_iff a).mp h1
      · simp only [Double.div, h1, hb1, if_true, if_false, Bool.false_eq_true]
        exact h
  have fin_case : a.finite → b.finite → div a b =
      if b.mag = 0 then (if a.mag = 0 then nan else inf (a.sign != b.sign))
      else ofUnits (a.sign != b.sign) (a.mag * 2 ^ 1074) b.mag := by
    intro h1 h2
    simp only [Double.div, Double.isNaN_of_finite h1, Double.isNaN_of_finite h2,
      Double.isInf_of_finite h1, Double.isInf_of_finite h2, if_false, Bool.false_eq_true]
  refine ⟨nan_case, fun h1 h2 => ?_, fun h1 h2 => ?_, fun h1 h2 => ?_, fun h1 h2 => ?_,
    fun h1 h2 h3 => ?_, fun h1 h2 h3 => ?_⟩
  · simp only [Double.div, Double.isNaN_of_is_inf h1, Double.isNaN_of_is_inf h2,
      (Double.isInf_iff a).mpr h1, (Double.isInf_iff b).mpr h2, if_true, if_false,
      Bool.false_eq_true]
    exact Double.is_nan_nan
  · simp only [Double.div, Double.isNaN_of_is_inf h1, Double.isNaN_of_finite h2,
      (Double.isInf_iff a).mpr h1, Double.isInf_of_finite h2, if_true, if_false,
      Bool.false_eq_true]
    exact ⟨Double.is_inf_inf _, rfl⟩
  · simp only [Double.div, Double.isNaN_of_finite h1, Double.isNaN_of_is_inf h2,
      Double.isInf_of_finite h1, (Double.isInf_iff b).mpr h2, if_true, if_false,
      Bool.false_eq_true]
    exact ⟨⟨rfl, rfl⟩, trivial⟩
  · rw [fin_case (Double.finite_of_is_zero h1) (Double.finite_of_is_zero h2),
      if_pos ((Double.mag_eq_zero_iff b).mpr h2), if_pos ((Double.mag_eq_zero_iff a).mpr h1)]
    exact Double.is_nan_nan
  · rw [fin_case h1 (Double.finite_of_is_zero h3),
      if_pos ((Double.mag_eq_zero_iff b).mpr h3),
      if_neg (fun h => h2 ((Double.mag_eq_zero_iff a).mp h))]
    exact ⟨Double.is_inf_inf _, rfl⟩
  · have hbm : b.mag ≠ 0 := fun h => h3 ((Double.mag_eq_zero_iff b).mp h)
    have hpos : 0 < b.mag := Nat.pos_of_ne_zero hbm
    rw [fin_case h1 h2, if_neg hbm]
    have hWq := Double.cast_unit
    generalize (2 : Nat) ^ 1074 = W at hWq ⊢
    refine ⟨Double.ofUnits_rounds_of _ _ _ hpos _ ?_, Double.ofUnits_sign _ _ _ hpos⟩
    rw [Double.real_eq a, Double.real_eq b, ← Double.sign_factor_div]
    push_cast
    rw [hWq]
    have hU : (0 : ℚ) < 2 ^ 1074 := pow_pos (by norm_num) _
    generalize (2 : ℚ) ^ 1074 = U at hU ⊢
    have hbq : (b.mag : ℚ) ≠ 0 := by exact_mod_cast hbm
    have hs : (if b.sign = true then (-1 : ℚ) else 1) ≠ 0 := Double.sign_factor_ne_zero _
    field_simp
    split_ifs <;> ring

theorem Double.roundHalfEven_exact (k g : Nat) (hg : 0 < g) (h : g ∣ k) :
    roundHalfEven k g * g = k := by
  obtain ⟨t, rfl⟩ := h
  unfold roundHalfEven
  have h1 : g * t % g = 0 := Nat.mul_mod_right g t
  have h2 : g * t / g = t := Nat.mul_div_cancel_left t hg
  simp only [h1, h2]
  rw [if_neg (by omega)]
  exact Nat.mul_comm t g

/-- A magnitude with at most 53 digits up from a place `j` of at most 2045 is the magnitude
of a finite datum, and `ofUnits` delivers that datum. -/
theorem Double.ofUnits_exact (s : Bool) (k j : Nat) (hdvd : 2 ^ j ∣ k) (hlt : k < 2 ^ (53 + j))
    (hj : j ≤ 2045) : (ofUnits s k 1).finite ∧ (ofUnits s k 1).mag = k := by
  obtain ⟨shift, m, hm, hm53, hpos, _, hshape⟩ := Double.ofUnits_shape s k 1 Nat.one_pos
  have hsj : shift ≤ j := by
    rcases Nat.eq_zero_or_pos shift with h | h
    · omega
    · obtain ⟨_, h2⟩ := hpos h
      rw [Nat.mul_one] at h2
      have h3 : 2 ^ (52 + shift) < 2 ^ (53 + j) := Nat.lt_of_le_of_lt h2 hlt
      have := (Nat.pow_lt_pow_iff_right (by decide)).mp h3
      omega
  have hd : 2 ^ shift ∣ k := Dvd.dvd.trans (pow_dvd_pow 2 hsj) hdvd
  rcases hshape with ⟨hf, hmag, _⟩ | ⟨_, hov⟩
  · refine ⟨hf, ?_⟩
    rw [hmag, hm, Nat.one_mul]
    exact Double.roundHalfEven_exact k _ (Nat.pow_pos (by decide)) hd
  · exfalso
    obtain ⟨t, ht⟩ := hdvd
    have ht53 : t < 2 ^ 53 := by
      rw [ht, pow_add, Nat.mul_comm (2 ^ 53)] at hlt
      exact Nat.lt_of_mul_lt_mul_left hlt
    have hov2 := Double.overflow_bound 1 2044
    rw [show (54 : Nat) + 2044 = 2098 from rfl] at hov2
    rw [hov2, Nat.one_mul, ht] at hov
    have hjle := @Nat.pow_le_pow_right 2 Nat.zero_lt_two j 2045 hj
    have e : (2 : Nat) ^ 2045 = 2 * 2 ^ 2044 := by
      rw [show 2045 = 2044 + 1 from rfl, pow_succ]
      ring
    rw [e] at hjle
    have hY := @Nat.pow_pos 2 2044 Nat.zero_lt_two
    generalize (2 : Nat) ^ 2044 = Y at hov hjle hY
    generalize (2 : Nat) ^ j = Z at hov hjle
    have h1 : Z * t ≤ Z * (2 ^ 53 - 1) := Nat.mul_le_mul_left Z (by omega)
    have h2 : Z * (2 ^ 53 - 1) ≤ (2 * Y) * (2 ^ 53 - 1) := Nat.mul_le_mul_right _ hjle
    have h3 : (2 * Y) * (2 ^ 53 - 1) < (2 ^ 54 - 1) * Y := by
      have : (2 * Y) * (2 ^ 53 - 1) = (2 ^ 54 - 2) * Y := by ring
      rw [this]
      exact Nat.mul_lt_mul_of_pos_right (by norm_num) hY
    omega
/-- The magnitude of a finite datum: at most 53 digits up from the place `expo - 1`. -/
theorem Double.mag_form (d : Double) (hv : d.valid) (hf : d.finite) :
    2 ^ (d.expo - 1) ∣ d.mag ∧ d.mag < 2 ^ (53 + (d.expo - 1)) ∧ d.expo - 1 ≤ 2045 ∧
      (0 < d.expo - 1 → 2 ^ (52 + (d.expo - 1)) ≤ d.mag) := by
  have hlt := Double.mag_lt d hv
  rw [← pow_add] at hlt
  refine ⟨?_, hlt, ?_, ?_⟩
  · unfold Double.mag
    by_cases h : d.expo = 0
    · rw [if_pos h, h]
      exact one_dvd _
    · rw [if_neg h]
      exact Dvd.intro_left _ rfl
  · have : d.expo < 2047 := hf
    omega
  · intro h
    have h0 : d.expo ≠ 0 := by omega
    unfold Double.mag
    rw [if_neg h0, pow_add]
    exact Nat.mul_le_mul_right _ (Nat.le_add_right _ _)

/-- The remainder of the magnitudes of two finite data is the magnitude of a finite datum,
which `ofUnits` delivers. -/
theorem Double.ofUnits_mod (s : Bool) (a b : Double) (ha : a.valid) (hb : b.valid)
    (haf : a.finite) (hbf : b.finite) (hbm : 0 < b.mag) :
    (ofUnits s (a.mag % b.mag) 1).finite ∧ (ofUnits s (a.mag % b.mag) 1).mag = a.mag % b.mag := by
  obtain ⟨a1, a2, a3, _⟩ := Double.mag_form a ha haf
  obtain ⟨b1, b2, b3, b4⟩ := Double.mag_form b hb hbf
  have hk : a.mag % b.mag < b.mag := Nat.mod_lt _ hbm
  rcases le_or_lt (b.expo - 1) (a.expo - 1) with h | h
  · refine Double.ofUnits_exact s _ (b.expo - 1) ?_ (Nat.lt_trans hk b2) b3
    exact (Nat.dvd_mod_iff b1).mpr (Dvd.dvd.trans (pow_dvd_pow 2 h) a1)
  · have hlt : a.mag < b.mag := by
      have h1 : 2 ^ (53 + (a.expo - 1)) ≤ 2 ^ (52 + (b.expo - 1)) :=
        Nat.pow_le_pow_right (by decide) (by omega)
      exact Nat.lt_of_lt_of_le a2 (le_trans h1 (b4 (by omega)))
    rw [Nat.mod_eq_of_lt hlt]
    exact Double.ofUnits_exact s _ (a.expo - 1) a1 a2 a3
theorem Double.fmod_is_remainder (a b : Double) (ha : a.valid) (hb : b.valid) :
    Double.is_remainder a b (fmod a b) := by
  have nan_case : a.is_nan ∨ b.is_nan → (fmod a b).is_nan := by
    rintro (h | h)
    · have := (Double.isNaN_iff a).mpr h
      simp only [Double.fmod, this, if_true]
      exact h
    · have hb1 := (Double.isNaN_iff b).mpr h
      by_cases h1 : a.isNaN = true
      · simp only [Double.fmod, h1, if_true]
        exact (Double.isNaN_iff a).mp h1
      · simp only [Double.fmod, h1, hb1, if_true, if_false, Bool.false_eq_true]
        exact h
  have not_nan : ∀ {d : Double}, ¬ d.is_nan → d.isNaN = false := fun h => by
    rw [← Bool.not_eq_true]; exact fun h1 => h ((Double.isNaN_iff _).mp h1)
  have nz : ∀ {d : Double}, d.is_zero → ¬ d.is_nan := fun h hn => by
    have := hn.1; rw [h.1] at this; cases this
  refine ⟨nan_case, fun h1 h2 => ?_, fun h1 h2 => ?_, fun h1 h2 => ?_, fun h1 h2 h3 => ?_⟩
  · simp only [Double.fmod, Double.isNaN_of_is_inf h1, not_nan h2,
      (Double.isInf_iff a).mpr h1, Bool.true_or, if_true, if_false, Bool.false_eq_true]
    exact Double.is_nan_nan
  · simp only [Double.fmod, not_nan h1, not_nan (nz h2), (Double.mag_eq_zero_iff b).mpr h2,
      decide_True, Bool.or_true, if_true, if_false, Bool.false_eq_true]
    exact Double.is_nan_nan
  · have hbm : b.mag ≠ 0 := fun h =>
      Double.not_zero_of_is_inf h2 ((Double.mag_eq_zero_iff b).mp h)
    simp only [Double.fmod, Double.isNaN_of_finite h1, Double.isNaN_of_is_inf h2,
      Double.isInf_of_finite h1, (Double.isInf_iff b).mpr h2, hbm, decide_False, Bool.or_self,
      if_true, if_false, Bool.false_eq_true]
  · have hbm : b.mag ≠ 0 := fun h => h3 ((Double.mag_eq_zero_iff b).mp h)
    have hpos : 0 < b.mag := Nat.pos_of_ne_zero hbm
    have hdef : fmod a b = ofUnits a.sign (a.mag % b.mag) 1 := by
      simp only [Double.fmod, Double.isNaN_of_finite h1, Double.isNaN_of_finite h2,
        Double.isInf_of_finite h1, Double.isInf_of_finite h2, hbm, decide_False, Bool.or_self,
        if_false, Bool.false_eq_true]
    obtain ⟨hfin, hmag⟩ := Double.ofUnits_mod a.sign a b ha hb h1 h2 hpos
    obtain ⟨_, _, _, _, _, ⟨hval, hsign, _⟩, _⟩ :=
      Double.ofUnits_shape a.sign (a.mag % b.mag) 1 Nat.one_pos
    rw [hdef]
    refine ⟨hval, hfin, hsign, ?_, ?_⟩
    · rw [Double.real_eq, Double.real_eq b, hmag, abs_mul, abs_mul, Double.sign_factor_abs,
        Double.sign_factor_abs, one_mul, one_mul]
      have hU : (0 : ℚ) < 2 ^ 1074 := pow_pos (by norm_num) _
      rw [abs_of_nonneg (div_nonneg (Nat.cast_nonneg _) (le_of_lt hU)),
        abs_of_nonneg (div_nonneg (Nat.cast_nonneg _) (le_of_lt hU))]
      exact div_lt_div_of_pos_right (by exact_mod_cast Nat.mod_lt _ hpos) hU
    · refine ⟨(if (a.sign != b.sign) = true then -1 else 1) * ((a.mag / b.mag : Nat) : ℤ), ?_⟩
      rw [Double.real_eq, Double.real_eq a, Double.real_eq b, hmag, hsign]
      have hdm : ((a.mag : ℚ)) = (b.mag : ℚ) * ((a.mag / b.mag : Nat) : ℚ) +
          ((a.mag % b.mag : Nat) : ℚ) := by
        exact_mod_cast (Nat.div_add_mod a.mag b.mag).symm
      have hn : (((if (a.sign != b.sign) = true then (-1 : ℤ) else 1) *
          ((a.mag / b.mag : Nat) : ℤ) : ℤ) : ℚ) =
          (if (a.sign != b.sign) = true then (-1 : ℚ) else 1) * ((a.mag / b.mag : Nat) : ℚ) := by
        rw [Int.cast_mul, Int.cast_natCast]
        congr 1
        split <;> simp
      rw [hn, ← Double.sign_factor_mul, hdm]
      generalize (2 : ℚ) ^ 1074 = U
      generalize ((a.mag % b.mag : Nat) : ℚ) = r
      generalize ((a.mag / b.mag : Nat) : ℚ) = q
      have hbb : (if b.sign = true then (-1 : ℚ) else 1) * (if b.sign = true then (-1 : ℚ) else 1)
          = 1 := by cases b.sign <;> simp
      generalize (if b.sign = true then (-1 : ℚ) else 1) = sb at hbb ⊢
      generalize (if a.sign = true then (-1 : ℚ) else 1) = sa
      have : sa * sb * q * (sb * ((b.mag : ℚ) / U)) = sa * (sb * sb) * q * ((b.mag : ℚ) / U) := by
        ring
      rw [this, hbb]
      ring

theorem Double.ofUnits_valid (s : Bool) (a b : Nat) (hb : 0 < b) : (ofUnits s a b).valid := by
  obtain ⟨_, _, _, _, _, ⟨h, _, _⟩, _⟩ := Double.ofUnits_shape s a b hb
  exact h

theorem Double.nan_valid : Double.nan.valid := ⟨by decide, by decide⟩

theorem Double.inf_valid (s : Bool) : (Double.inf s).valid :=
  ⟨by show 2047 < 2048; decide, by show 0 < 2 ^ 52; decide⟩

theorem Double.neg_valid (d : Double) (h : d.valid) : (Double.neg d).valid := h

/-- The sum of two binary64 data is a binary64 datum. -/
theorem Double.add_valid (a b : Double) (ha : a.valid) (hb : b.valid) : (add a b).valid := by
  unfold Double.add
  split_ifs
  all_goals first
    | exact ha
    | exact hb
    | exact Double.nan_valid
    | exact Double.ofUnits_valid _ _ _ Nat.one_pos
    | exact ⟨by decide, by decide⟩

theorem Double.sub_valid (a b : Double) (ha : a.valid) (hb : b.valid) : (sub a b).valid := by
  unfold Double.sub
  split_ifs
  all_goals first
    | exact ha
    | exact hb
    | exact Double.add_valid a (neg b) ha (Double.neg_valid b hb)

theorem Double.mul_valid (a b : Double) (ha : a.valid) (hb : b.valid) : (mul a b).valid := by
  unfold Double.mul
  have hpos := @Nat.pow_pos 2 1074 Nat.zero_lt_two
  generalize (2 : Nat) ^ 1074 = W at hpos ⊢
  split_ifs
  all_goals first
    | exact ha
    | exact hb
    | exact Double.nan_valid
    | exact Double.inf_valid _
    | exact Double.ofUnits_valid _ _ _ hpos

theorem Double.div_valid (a b : Double) (ha : a.valid) (hb : b.valid) : (div a b).valid := by
  unfold Double.div
  generalize (2 : Nat) ^ 1074 = W
  split_ifs with h1 h2 h3 h4 h5 h6 h7
  all_goals first
    | exact ha
    | exact hb
    | exact Double.nan_valid
    | exact Double.inf_valid _
    | exact Double.ofUnits_valid _ _ _ (Nat.pos_of_ne_zero (by assumption))
    | exact ⟨by show 0 < 2048; decide, by show 0 < 2 ^ 52; decide⟩

theorem Double.fmod_valid (a b : Double) (ha : a.valid) (hb : b.valid) : (fmod a b).valid := by
  unfold Double.fmod
  split_ifs
  all_goals first
    | exact ha
    | exact hb
    | exact Double.nan_valid
    | exact Double.ofUnits_valid _ _ _ Nat.one_pos

/-- On two numbers each arithmetic operator gives a number that is, of the two operands, what
the specification says: the IEEE 754 sum, difference, product, quotient, and the `fmod`
remainder. -/
theorem binary_result_754 (a b : Double) (ma mb : Bool) (operator : TokenType)
    (spec : Double → Double → Double → Prop) (ha : a.valid) (hb : b.valid)
    (h : (operator, spec) ∈ arithmetic_754) :
    ∃ c, binary_result operator ⟨.NUMBER, ma, .number a⟩ ⟨.NUMBER, mb, .number b⟩ =
        .ok ⟨.NUMBER, false, .number c⟩ ∧ spec a b c ∧ c.valid := by
  simp only [arithmetic_754, List.mem_cons, Prod.mk.injEq, List.mem_singleton,
    List.not_mem_nil, or_false] at h
  rcases h with ⟨rfl, rfl⟩ | ⟨rfl, rfl⟩ | ⟨rfl, rfl⟩ | ⟨rfl, rfl⟩ | ⟨rfl, rfl⟩
  · exact ⟨Double.add a b,
      by simp [binary_result, Value.number, bind, Except.bind, pure, Except.pure],
      Double.add_is_sum a b ha hb, Double.add_valid a b ha hb⟩
  · exact ⟨Double.sub a b,
      by simp [binary_result, Value.number, bind, Except.bind, pure, Except.pure],
      Double.sub_is_difference a b ha hb, Double.sub_valid a b ha hb⟩
  · exact ⟨Double.mul a b,
      by simp [binary_result, Value.number, bind, Except.bind, pure, Except.pure],
      Double.mul_is_product a b ha hb, Double.mul_valid a b ha hb⟩
  · exact ⟨Double.div a b,
      by simp [binary_result, Value.number, bind, Except.bind, pure, Except.pure],
      Double.div_is_quotient a b ha hb, Double.div_valid a b ha hb⟩
  · exact ⟨Double.fmod a b,
      by simp [binary_result, Value.number, bind, Except.bind, pure, Except.pure],
      Double.fmod_is_remainder a b ha hb, Double.fmod_valid a b ha hb⟩

/-- The number a datum of the normal range stands for. -/
theorem Double.real_normal (s : Bool) (e f : Nat) (he : e ≠ 0) :
    (⟨s, e, f⟩ : Double).real =
      (if s then -1 else 1) * ((2 ^ 52 + (f : ℚ)) * 2 ^ ((e : ℤ) - 1075)) := by
  unfold Double.real
  simp [he]

/-- C14. Let the two operands evaluate, left then right, to number values that hold the
binary64 data `a` and `b`. For each of `+`, `-`, `*`, `/`, `%` `eval_binary_op` returns a
fresh number value that holds a binary64 datum `c`, and `c` is what IEEE 754 arithmetic
gives for `a` and `b`: the sum, the difference, the product, the quotient (the exact result
on the real numbers rounded to nearest, ties to even, with the rules for NaN, infinities and
signed zeros), and for `%` the `fmod` remainder. -/
theorem eval_binary_op_arithmetic (st st1 st2 : Interpreter) (l r : Option ASTNode)
    (fuel lp rp : Nat) (a b : Double) (ma mb : Bool) (operator : TokenType)
    (spec : Double → Double → Double → Prop)
    (hl : eval_expression fuel st l = .ok (lp, st1))
    (hr : eval_expression fuel st1 r = .ok (rp, st2))
    (hlv : st2.load lp = .ok ⟨.NUMBER, ma, .number a⟩)
    (hrv : st2.load rp = .ok ⟨.NUMBER, mb, .number b⟩)
    (ha : a.valid) (hb : b.valid)
    (hop : (operator, spec) ∈ arithmetic_754) :
    ∃ st3 c, eval_binary_op (fuel + 1) st operator l r = .ok (st2.values.length, st3) ∧
      st3.load st2.values.length = .ok ⟨.NUMBER, false, .number c⟩ ∧
      spec a b c ∧ c.valid := by
  obtain ⟨c, hc, hspec, hval⟩ := binary_result_754 a b ma mb operator spec ha hb hop
  obtain ⟨st3, h1, h2, _⟩ := eval_binary_op_result operator hl hr hlv hrv hc
  exact ⟨st3, c, h1, h2, hspec, hval⟩

/-- C14, at `7 % 3`, which is the number 1: the literals `7`, `3` and `1` are the binary64
data of the numbers 7, 3 and 1. With them `7 + 3`, `7 - 3`, `7 * 3`, `7 / 2` evaluate to the
data of `10`, `4`, `21`, `3.5`; `1 / 3` and `0.1 + 0.2` evaluate to the rounded data
`0x3FD5555555555555` and `0x3FD3333333333334`. -/
theorem eval_binary_op_arithmetic_witness :
    (∃ st3 c, eval_binary_op 2 interpreter_init .PERCENT
        (some (.literal 1 1 (.number (Double.atof "7".toList))))
        (some (.literal 1 5 (.number (Double.atof "3".toList)))) = .ok (2, st3) ∧
      st3.load 2 = .ok ⟨.NUMBER, false, .number c⟩ ∧
      Double.is_remainder (Double.atof "7".toList) (Double.atof "3".toList) c ∧ c.valid) ∧
    number_of 3 (literal_op .PERCENT (.number (Double.atof "7".toList))
      (.number (Double.atof "3".toList))) = .ok (Double.atof "1".toList) ∧
    ((Double.atof "7".toList).real = 7 ∧ (Double.atof "3".toList).real = 3 ∧
      (Double.atof "1".toList).real = 1) ∧
    number_of 3 (literal_op .PLUS (.number (Double.atof "7".toList))
      (.number (Double.atof "3".toList))) = .ok (Double.atof "10".toList) ∧
    number_of 3 (literal_op .MINUS (.number (Double.atof "7".toList))
      (.number (Double.atof "3".toList))) = .ok (Double.atof "4".toList) ∧
    number_of 3 (literal_op .STAR (.number (Double.atof "7".toList))
      (.number (Double.atof "3".toList))) = .ok (Double.atof "21".toList) ∧
    number_of 3 (literal_op .SLASH (.number (Double.atof "7".toList))
      (.number (Double.atof "2".toList))) = .ok (Double.atof "3.5".toList) ∧
    number_of 3 (literal_op .SLASH (.number (Double.atof "1".toList))
      (.number (Double.atof "3".toList))) = .ok ⟨false, 1021, 0x5555555555555⟩ ∧
    number_of 3 (literal_op .PLUS (.number (Double.atof "0.1".toList))
      (.number (Double.atof "0.2".toList))) = .ok ⟨false, 1021, 0x3333333333334⟩ :=
  ⟨eval_binary_op_arithmetic interpreter_init
      (eval_literal interpreter_init (.number (Double.atof "7".toList))).2
      (eval_literal (eval_literal interpreter_init (.number (Double.atof "7".toList))).2
        (.number (Double.atof "3".toList))).2
      (some (.literal 1 1 (.number (Double.atof "7".toList))))
      (some (.literal 1 5 (.number (Double.atof "3".toList)))) 1 0 1
      (Double.atof "7".toList) (Double.atof "3".toList) false false .PERCENT
      Double.is_remainder rfl rfl rfl rfl
      (by decide! : (Double.atof "7".toList).expo < 2048 ∧ (Double.atof "7".toList).frac < 2 ^ 52)
      (by decide! : (Double.atof "3".toList).expo < 2048 ∧ (Double.atof "3".toList).frac < 2 ^ 52)
      (by simp [arithmetic_754]),
   by decide!,
   ⟨by
      rw [show Double.atof "7".toList = ⟨false, 1025, 3 * 2 ^ 50⟩ by decide!,
        Double.real_normal _ _ _ (by decide)]
      norm_num,
    by
      rw [show Double.atof "3".toList = ⟨false, 1024, 2 ^ 51⟩ by decide!,
        Double.real_normal _ _ _ (by decide)]
      norm_num,
    by
      rw [show Double.atof "1".toList = ⟨false, 1023, 0⟩ by decide!,
        Double.real_normal _ _ _ (by decide)]
      norm_num⟩,
   by decide!, by decide!, by decide!, by decide!, by decide!, by decide!⟩

/-! ### What every evaluation keeps of the scopes -/

end Kitler
